import Mathlib

/-! GW-BASIC C port: tokenizer, program line store and execution engine

A shallow embedding of the interpreter's C sources
(`tokenize.c`, `parse.c`, `variables.c`, `arrays.c`, `eval.c`, `statements.c`,
`execute.c`, `error.c`) for the build with `IS_16BIT = 0`
(32-bit little-endian `int`, `NAMLEN = 40`, `STACK_SIZE = 50`, `MAXLIN = 65529`).

Conventions of the embedding:

* a byte is a `Nat` below 256; a C string is the list of its bytes without the
  terminating NUL, and every loop that runs "until NUL" also stops at the end
  of the list;
* `malloc`/`realloc` always succeed and buffers are large enough;
* the global `g_state` is passed explicitly as a `state_t`;
* `error(n)` (a `longjmp` to `errtrap`) is the result `Res.error n s`;
* loops whose termination is not structural take a fuel argument and return
  `Res.fuel` (or the value accumulated so far, for the tokenizer, whose fuel is
  always sufficient) when it runs out.
-/

namespace GWBasic

/-! ## Constants of `gwbasic.h` -/

abbrev BUFLEN : Nat := 255
abbrev NAMLEN : Nat := 40
abbrev MAXLIN : Int := 65529
abbrev STACK_SIZE : Nat := 50
abbrev PROGRAM_SIZE : Nat := 65536

abbrev TYPE_INT : Nat := 2
abbrev TYPE_SNG : Nat := 4
abbrev TYPE_DBL : Nat := 8
abbrev TYPE_STR : Nat := 3

abbrev TOK_END : Nat := 0x81
abbrev TOK_FOR : Nat := 0x82
abbrev TOK_NEXT : Nat := 0x83
abbrev TOK_DATA : Nat := 0x84
abbrev TOK_INPUT : Nat := 0x85
abbrev TOK_DIM : Nat := 0x86
abbrev TOK_READ : Nat := 0x87
abbrev TOK_LET : Nat := 0x88
abbrev TOK_GOTO : Nat := 0x89
abbrev TOK_RUN : Nat := 0x8A
abbrev TOK_IF : Nat := 0x8B
abbrev TOK_RESTORE : Nat := 0x8C
abbrev TOK_GOSUB : Nat := 0x8D
abbrev TOK_RETURN : Nat := 0x8E
abbrev TOK_REM : Nat := 0x8F
abbrev TOK_STOP : Nat := 0x90
abbrev TOK_PRINT : Nat := 0x91
abbrev TOK_CLEAR : Nat := 0x92
abbrev TOK_LIST : Nat := 0x93
abbrev TOK_NEW : Nat := 0x94
abbrev TOK_ON : Nat := 0x95
abbrev TOK_WAIT : Nat := 0x96
abbrev TOK_DEF : Nat := 0x97
abbrev TOK_POKE : Nat := 0x98
abbrev TOK_CONT : Nat := 0x99
abbrev TOK_SLEEP : Nat := 0x9A
abbrev TOK_CSAVE : Nat := 0x9C
abbrev TOK_CLOAD : Nat := 0x9D
abbrev TOK_OUT : Nat := 0x9E
abbrev TOK_LPRINT : Nat := 0x9F
abbrev TOK_LLIST : Nat := 0xA0
abbrev TOK_WIDTH : Nat := 0xA1
abbrev TOK_ELSE : Nat := 0xA2
abbrev TOK_TRON : Nat := 0xA3
abbrev TOK_TROFF : Nat := 0xA4
abbrev TOK_SWAP : Nat := 0xA5
abbrev TOK_ERASE : Nat := 0xA6
abbrev TOK_EDIT : Nat := 0xA7
abbrev TOK_ERROR : Nat := 0xA8
abbrev TOK_RESUME : Nat := 0xA9
abbrev TOK_DELETE : Nat := 0xAA
abbrev TOK_AUTO : Nat := 0xAB
abbrev TOK_RENUM : Nat := 0xAC
abbrev TOK_DEFSTR : Nat := 0xAD
abbrev TOK_DEFINT : Nat := 0xAE
abbrev TOK_DEFSNG : Nat := 0xAF
abbrev TOK_DEFDBL : Nat := 0xB0
abbrev TOK_LINE : Nat := 0xB1
abbrev TOK_WHILE : Nat := 0xB2
abbrev TOK_WEND : Nat := 0xB3
abbrev TOK_WRITE : Nat := 0xB5
abbrev TOK_OPEN : Nat := 0xB7
abbrev TOK_CLOSE : Nat := 0xB8
abbrev TOK_LOAD : Nat := 0xB9
abbrev TOK_MERGE : Nat := 0xBA
abbrev TOK_SAVE : Nat := 0xBB
abbrev TOK_SYSTEM : Nat := 0xBD
abbrev TOK_CHAIN : Nat := 0xBE
abbrev TOK_COMMON : Nat := 0xBF

abbrev TOK_TAB : Nat := 0xFF84
abbrev TOK_TO : Nat := 0xFF85
abbrev TOK_THEN : Nat := 0xFF86
abbrev TOK_NOT : Nat := 0xFF87
abbrev TOK_STEP : Nat := 0xFF88
abbrev TOK_PLUS : Nat := 0xFF89
abbrev TOK_MINUS : Nat := 0xFF8A
abbrev TOK_MULT : Nat := 0xFF8B
abbrev TOK_DIV : Nat := 0xFF8C
abbrev TOK_POWER : Nat := 0xFF8D
abbrev TOK_AND : Nat := 0xFF8E
abbrev TOK_OR : Nat := 0xFF8F
abbrev TOK_XOR : Nat := 0xFF90
abbrev TOK_EQV : Nat := 0xFF91
abbrev TOK_IMP : Nat := 0xFF92
abbrev TOK_MOD : Nat := 0xFF93
abbrev TOK_IDIV : Nat := 0xFF94
abbrev TOK_GT : Nat := 0xFF95
abbrev TOK_EQ : Nat := 0xFF96
abbrev TOK_LT : Nat := 0xFF97
abbrev TOK_GE : Nat := 0xFF98
abbrev TOK_LE : Nat := 0xFF99
abbrev TOK_NE : Nat := 0xFF9A
abbrev TOK_SGN : Nat := 0xFF9D
abbrev TOK_INT : Nat := 0xFF9E
abbrev TOK_ABS : Nat := 0xFF9F
abbrev TOK_FRE : Nat := 0xFFA1
abbrev TOK_SQR : Nat := 0xFFA3
abbrev TOK_RND : Nat := 0xFFA4
abbrev TOK_SIN : Nat := 0xFFA5
abbrev TOK_LOG : Nat := 0xFFA6
abbrev TOK_EXP : Nat := 0xFFA7
abbrev TOK_COS : Nat := 0xFFA8
abbrev TOK_TAN : Nat := 0xFFA9
abbrev TOK_ATN : Nat := 0xFFAA
abbrev TOK_PEEK : Nat := 0xFFAC
abbrev TOK_LEN : Nat := 0xFFAD
abbrev TOK_STR : Nat := 0xFFAE
abbrev TOK_VAL : Nat := 0xFFAF
abbrev TOK_ASC : Nat := 0xFFB0
abbrev TOK_CHR : Nat := 0xFFB1
abbrev TOK_LEFT : Nat := 0xFFB2
abbrev TOK_RIGHT : Nat := 0xFFB3
abbrev TOK_MID : Nat := 0xFFB4
abbrev TOK_INSTR : Nat := 0xFFB5

abbrev ERR_NONE : Nat := 0
abbrev ERR_NEXT_NO_FOR : Nat := 1
abbrev ERR_SYNTAX : Nat := 2
abbrev ERR_RETURN : Nat := 3
abbrev ERR_OUT_OF_DATA : Nat := 4
abbrev ERR_ILLEGAL_FUNC : Nat := 5
abbrev ERR_OVERFLOW : Nat := 6
abbrev ERR_OUT_OF_MEM : Nat := 7
abbrev ERR_UNDEF_LINE : Nat := 8
abbrev ERR_SUBSCRIPT : Nat := 9
abbrev ERR_REDIM : Nat := 10
abbrev ERR_DIV_ZERO : Nat := 11
abbrev ERR_TYPE_MISM : Nat := 13
abbrev ERR_OUT_OF_STR : Nat := 14
abbrev ERR_STRING_LONG : Nat := 15
abbrev ERR_CANT_CONT : Nat := 17
abbrev ERR_FILE_NOTFND : Nat := 53
abbrev ERR_BAD_FILE : Nat := 52

/-- The bytes of a C string literal. -/
def cstr (s : String) : List Nat := s.toList.map Char.toNat

/-! ## `tokenize.c` -/

/-- The table `keywords[]`, in source order. -/
def keywords : List (List Nat × Nat) :=
  [ (cstr "END", TOK_END), (cstr "FOR", TOK_FOR), (cstr "NEXT", TOK_NEXT),
    (cstr "DATA", TOK_DATA), (cstr "INPUT", TOK_INPUT), (cstr "DIM", TOK_DIM),
    (cstr "READ", TOK_READ), (cstr "LET", TOK_LET), (cstr "GOTO", TOK_GOTO),
    (cstr "RUN", TOK_RUN), (cstr "IF", TOK_IF), (cstr "RESTORE", TOK_RESTORE),
    (cstr "GOSUB", TOK_GOSUB), (cstr "RETURN", TOK_RETURN), (cstr "REM", TOK_REM),
    (cstr "STOP", TOK_STOP), (cstr "PRINT", TOK_PRINT), (cstr "CLEAR", TOK_CLEAR),
    (cstr "LIST", TOK_LIST), (cstr "NEW", TOK_NEW), (cstr "ON", TOK_ON),
    (cstr "WAIT", TOK_WAIT), (cstr "DEF", TOK_DEF), (cstr "POKE", TOK_POKE),
    (cstr "CONT", TOK_CONT), (cstr "SLEEP", TOK_SLEEP), (cstr "CSAVE", TOK_CSAVE),
    (cstr "CLOAD", TOK_CLOAD), (cstr "OUT", TOK_OUT), (cstr "LPRINT", TOK_LPRINT),
    (cstr "LLIST", TOK_LLIST), (cstr "WIDTH", TOK_WIDTH), (cstr "ELSE", TOK_ELSE),
    (cstr "TRON", TOK_TRON), (cstr "TROFF", TOK_TROFF), (cstr "SWAP", TOK_SWAP),
    (cstr "ERASE", TOK_ERASE), (cstr "EDIT", TOK_EDIT), (cstr "ERROR", TOK_ERROR),
    (cstr "RESUME", TOK_RESUME), (cstr "DELETE", TOK_DELETE), (cstr "AUTO", TOK_AUTO),
    (cstr "RENUM", TOK_RENUM), (cstr "DEFSTR", TOK_DEFSTR), (cstr "DEFINT", TOK_DEFINT),
    (cstr "DEFSNG", TOK_DEFSNG), (cstr "DEFDBL", TOK_DEFDBL), (cstr "LINE", TOK_LINE),
    (cstr "WHILE", TOK_WHILE), (cstr "WEND", TOK_WEND), (cstr "WRITE", TOK_WRITE),
    (cstr "OPEN", TOK_OPEN), (cstr "CLOSE", TOK_CLOSE), (cstr "LOAD", TOK_LOAD),
    (cstr "MERGE", TOK_MERGE), (cstr "SAVE", TOK_SAVE), (cstr "SYSTEM", TOK_SYSTEM),
    (cstr "CHAIN", TOK_CHAIN), (cstr "COMMON", TOK_COMMON), (cstr "TAB", TOK_TAB),
    (cstr "TO", TOK_TO), (cstr "THEN", TOK_THEN), (cstr "NOT", TOK_NOT),
    (cstr "STEP", TOK_STEP), (cstr "AND", TOK_AND), (cstr "OR", TOK_OR),
    (cstr "XOR", TOK_XOR), (cstr "EQV", TOK_EQV), (cstr "IMP", TOK_IMP),
    (cstr "MOD", TOK_MOD), (cstr "SGN", TOK_SGN), (cstr "INT", TOK_INT),
    (cstr "ABS", TOK_ABS), (cstr "FRE", TOK_FRE), (cstr "SQR", TOK_SQR),
    (cstr "RND", TOK_RND), (cstr "SIN", TOK_SIN), (cstr "LOG", TOK_LOG),
    (cstr "EXP", TOK_EXP), (cstr "COS", TOK_COS), (cstr "TAN", TOK_TAN),
    (cstr "ATN", TOK_ATN), (cstr "PEEK", TOK_PEEK), (cstr "LEN", TOK_LEN),
    (cstr "STR$", TOK_STR), (cstr "VAL", TOK_VAL), (cstr "ASC", TOK_ASC),
    (cstr "CHR$", TOK_CHR), (cstr "LEFT$", TOK_LEFT), (cstr "RIGHT$", TOK_RIGHT),
    (cstr "MID$", TOK_MID), (cstr "INSTR", TOK_INSTR),
    (cstr "=", TOK_EQ), (cstr "+", TOK_PLUS), (cstr "-", TOK_MINUS),
    (cstr "*", TOK_MULT), (cstr "/", TOK_DIV), (cstr "^", TOK_POWER),
    (cstr "\\", TOK_IDIV), (cstr "<>", TOK_NE), (cstr "<=", TOK_LE),
    (cstr ">=", TOK_GE), (cstr "<", TOK_LT), (cstr ">", TOK_GT) ]

/-- The upper-casing used throughout the sources: `c - 'a' + 'A'` for `'a'..'z'`. -/
def upcase (c : Nat) : Nat := if 97 ≤ c ∧ c ≤ 122 then c - 97 + 65 else c

/-- `IS_ALPHA(c)`. -/
def IS_ALPHA (c : Nat) : Bool := (65 ≤ c && c ≤ 90) || (97 ≤ c && c ≤ 122)

/-- `IS_DIGIT(c)`. -/
def IS_DIGIT (c : Nat) : Bool := 48 ≤ c && c ≤ 57

/-- `IS_ALNUM(c)`. -/
def IS_ALNUM (c : Nat) : Bool := IS_ALPHA c || IS_DIGIT c

/-- `is_keyword(word)`: the token of `word` (compared in upper case, at most
`NAMLEN` characters of it), or `0`. -/
def is_keyword (word : List Nat) : Nat :=
  let upword := ((word.takeWhile (· ≠ 0)).take NAMLEN).map upcase
  match keywords.find? (fun k => k.1 == upword) with
  | some k => k.2
  | none => 0

/-- `is_ident_char(c)`. -/
def is_ident_char (c : Nat) : Bool :=
  (65 ≤ c && c ≤ 90) || (97 ≤ c && c ≤ 122) || (48 ≤ c && c ≤ 57) || c == 46 || c == 95

/-- The bytes a token contributes to the token buffer: the high byte first
when `token & 0xFF00` is set, then the low byte. -/
def emit_token (token : Nat) : List Nat :=
  if token &&& 0xFF00 ≠ 0 then [(token >>> 8) &&& 0xFF, token &&& 0xFF] else [token &&& 0xFF]

/-- The characters of a numeric literal body in `tokenize_line`. -/
def is_number_char (c : Nat) : Bool :=
  (48 ≤ c && c ≤ 57) || c == 46 || c == 69 || c == 101 || c == 43 || c == 45 ||
    c == 68 || c == 100

/-- The main loop of `tokenize_line`. `s` is the unread input, `out` the token
buffer written so far. Every iteration consumes at least one input byte, so
`s.length + 1` units of fuel always suffice. -/
def tokenize_loop : Nat → List Nat → Bool → Bool → Bool → List Nat → List Nat
  | 0, _, _, _, _, out => out
  | fuel + 1, s, in_string, in_data, in_rem, out =>
    match s with
    | [] => out
    | c :: rest =>
      let c1 := rest.headD 0
      if c = 0 then out
      else if !in_string && !in_data && !in_rem && (c == 32 || c == 9) then
        tokenize_loop fuel rest in_string in_data in_rem out
      else if c = 34 then
        tokenize_loop fuel rest (!in_string) in_data in_rem (out ++ [c])
      else if in_string || in_data || in_rem then
        tokenize_loop fuel rest in_string in_data in_rem (out ++ [c])
      else if c = 39 then
        tokenize_loop fuel rest in_string in_data true (out ++ [TOK_REM])
      else if (65 ≤ c && c ≤ 90) || (97 ≤ c && c ≤ 122) then
        let word := (s.takeWhile is_ident_char).take NAMLEN
        let s' := s.drop word.length
        let token := is_keyword word
        if token ≠ 0 then
          tokenize_loop fuel s' in_string (in_data || token == TOK_DATA)
            (in_rem || token == TOK_REM) (out ++ emit_token token)
        else
          tokenize_loop fuel s' in_string in_data in_rem (out ++ word)
      else if (48 ≤ c && c ≤ 57) || (c == 46 && 48 ≤ c1 && c1 ≤ 57) then
        let num := s.takeWhile is_number_char
        let s1 := s.drop num.length
        match s1 with
        | d :: s2 =>
          if d == 37 || d == 33 || d == 35 || d == 36 then
            tokenize_loop fuel s2 in_string in_data in_rem (out ++ num ++ [d])
          else tokenize_loop fuel s1 in_string in_data in_rem (out ++ num)
        | [] => tokenize_loop fuel s1 in_string in_data in_rem (out ++ num)
      else if c = 62 ∧ c1 = 61 then
        tokenize_loop fuel (rest.drop 1) in_string in_data in_rem (out ++ emit_token TOK_GE)
      else if c = 60 ∧ c1 = 61 then
        tokenize_loop fuel (rest.drop 1) in_string in_data in_rem (out ++ emit_token TOK_LE)
      else if c = 60 ∧ c1 = 62 then
        tokenize_loop fuel (rest.drop 1) in_string in_data in_rem (out ++ emit_token TOK_NE)
      else if c = 62 then
        tokenize_loop fuel rest in_string in_data in_rem (out ++ emit_token TOK_GT)
      else if c = 61 then
        tokenize_loop fuel rest in_string in_data in_rem (out ++ emit_token TOK_EQ)
      else if c = 60 then
        tokenize_loop fuel rest in_string in_data in_rem (out ++ emit_token TOK_LT)
      else if c = 43 then
        tokenize_loop fuel rest in_string in_data in_rem (out ++ emit_token TOK_PLUS)
      else if c = 45 then
        tokenize_loop fuel rest in_string in_data in_rem (out ++ emit_token TOK_MINUS)
      else if c = 42 then
        tokenize_loop fuel rest in_string in_data in_rem (out ++ emit_token TOK_MULT)
      else if c = 47 then
        tokenize_loop fuel rest in_string in_data in_rem (out ++ emit_token TOK_DIV)
      else if c = 94 then
        tokenize_loop fuel rest in_string in_data in_rem (out ++ emit_token TOK_POWER)
      else if c = 92 then
        tokenize_loop fuel rest in_string in_data in_rem (out ++ emit_token TOK_IDIV)
      else
        tokenize_loop fuel rest in_string in_data in_rem (out ++ [c])

/-- `tokenize_line(line, &len)`: the token buffer, terminating NUL included
(its length is the `len` the C function stores). -/
def tokenize_line (line : List Nat) : List Nat :=
  tokenize_loop (line.length + 1) line false false false [] ++ [0]

/-- The spelling of the first `keywords[]` entry whose token is `token`. -/
def keyword_of (token : Nat) : Option (List Nat) :=
  (keywords.find? (fun k => k.2 == token)).map (·.1)

/-- The loop of `detokenize_line`: `t` is the unread token buffer, `out` the text
written so far. A two-byte token whose second byte is missing reads it as `0`. -/
def detokenize_loop : List Nat → List Nat → List Nat
  | [], out => out
  | c :: rest, out =>
    if c = 0 then out
    else if c &&& 0xFF = 0xFF then
      match rest with
      | d :: rest' =>
        detokenize_loop rest'
          (match keyword_of (((c &&& 0xFF) <<< 8) ||| (d &&& 0xFF)) with
           | some kw => out ++ kw ++ [32]
           | none => out)
      | [] =>
        (match keyword_of ((c &&& 0xFF) <<< 8) with
         | some kw => out ++ kw ++ [32]
         | none => out)
    else if c &&& 0x80 ≠ 0 then
      detokenize_loop rest
        (match keyword_of (c &&& 0xFF) with
         | some kw => out ++ kw ++ [32]
         | none => out)
    else detokenize_loop rest (out ++ [c])

/-- `detokenize_line(tokens)`: the text, without its terminating NUL. -/
def detokenize_line (tokens : List Nat) : List Nat := detokenize_loop tokens []

/-! ## Numbers

C's `double` and `float` are modelled by their finite values: a value is the
dyadic rational `num / 2 ^ exp`, kept normalised (`exp = 0` or `num` odd).
Arithmetic is exact followed by rounding to nearest, ties to even, at 53
(`double`) or 24 (`float`) significant bits. The exponent range (overflow to
infinity, subnormal numbers), infinities, NaN and the sign of zero are not
modelled. -/

/-- A finite floating-point value `num / 2 ^ exp`. -/
structure dyadic where
  /-- Numerator. -/
  num : Int
  /-- Binary exponent of the denominator. -/
  exp : Nat
deriving DecidableEq, Repr, Inhabited

namespace dyadic

/-- Normal form of `n / 2 ^ e`: common factors of two are cancelled. -/
def norm (n : Int) : Nat → dyadic
  | 0 => ⟨n, 0⟩
  | e + 1 => if n % 2 = 0 then norm (n / 2) e else ⟨n, e + 1⟩

/-- The value of an `int`. -/
def ofInt (n : Int) : dyadic := ⟨n, 0⟩

/-- Number of binary digits of `n`, computed with `fuel` halvings. -/
def bit_length_aux : Nat → Nat → Nat
  | 0, _ => 0
  | fuel + 1, n => if n = 0 then 0 else bit_length_aux fuel (n / 2) + 1

/-- Number of binary digits of `n` (`0` for `0`). -/
def bit_length (n : Nat) : Nat := bit_length_aux n n

/-- The rational `p / q` (`q > 0`) rounded to `prec` significant bits, to
nearest with ties to even. -/
def round_rat (prec : Nat) (p : Int) (q : Nat) : dyadic :=
  if p = 0 ∨ q = 0 then ⟨0, 0⟩
  else
    let a := p.natAbs
    let sgn : Int := if p < 0 then -1 else 1
    let sh0 : Int := (prec : Int) - ((bit_length a : Int) - (bit_length q : Int))
    let scaled (sh : Int) : Nat × Nat :=
      if 0 ≤ sh then (a * 2 ^ sh.toNat, q) else (a, q * 2 ^ (-sh).toNat)
    let sh : Int := if (scaled sh0).1 / (scaled sh0).2 ≥ 2 ^ prec then sh0 - 1 else sh0
    let n := (scaled sh).1
    let d := (scaled sh).2
    let quo := n / d
    let r := n % d
    let quo' : Nat := if 2 * r > d ∨ (2 * r = d ∧ quo % 2 = 1) then quo + 1 else quo
    if 0 ≤ sh then norm (sgn * quo') sh.toNat else ⟨sgn * quo' * 2 ^ (-sh).toNat, 0⟩

/-- The value `n / 2 ^ e` rounded to `prec` significant bits; a value that
already fits is unchanged. -/
def round_to (prec : Nat) (n : Int) (e : Nat) : dyadic :=
  if n.natAbs < 2 ^ prec then norm n e else round_rat prec n (2 ^ e)

/-- The conversion `(float)x` of a double. -/
def to_single (x : dyadic) : dyadic := round_to 24 x.num x.exp

/-- Double-precision `x + y`. -/
def add (x y : dyadic) : dyadic :=
  round_to 53 (x.num * 2 ^ (max x.exp y.exp - x.exp) + y.num * 2 ^ (max x.exp y.exp - y.exp))
    (max x.exp y.exp)

/-- Negation `-x`. -/
def neg (x : dyadic) : dyadic := ⟨-x.num, x.exp⟩

/-- Double-precision `x - y`. -/
def sub (x y : dyadic) : dyadic := add x (neg y)

/-- Double-precision `x * y`. -/
def mul (x y : dyadic) : dyadic := round_to 53 (x.num * y.num) (x.exp + y.exp)

/-- Double-precision `x / y` for `y` non-zero. -/
def div (x y : dyadic) : dyadic :=
  round_rat 53 ((if y.num < 0 then -1 else 1) * x.num * 2 ^ y.exp) (y.num.natAbs * 2 ^ x.exp)

/-- The comparison `x < y`. -/
def lt (x y : dyadic) : Bool := decide (x.num * 2 ^ y.exp < y.num * 2 ^ x.exp)

/-- The comparison `x == y`. -/
def eq (x y : dyadic) : Bool := decide (x.num * 2 ^ y.exp = y.num * 2 ^ x.exp)

/-- The comparison `x <= y`. -/
def le (x y : dyadic) : Bool := decide (x.num * 2 ^ y.exp ≤ y.num * 2 ^ x.exp)

/-- The conversion `(int)x`: truncation toward zero; `none` when the result
does not fit a 32-bit `int` (undefined in C). -/
def to_int (x : dyadic) : Option Int :=
  let t := Int.tdiv x.num (2 ^ x.exp)
  if -2147483648 ≤ t ∧ t ≤ 2147483647 then some t else none

end dyadic

/-- Two's-complement wrap of an integer to 32 bits, the result of `int`
arithmetic on the supported platforms. -/
def wrap32 (i : Int) : Int := (i + 2147483648) % 4294967296 - 2147483648

/-! ## Data model (`gwbasic.h`) -/

/-- The string pointed to by a `string_t *` (`none` is the `NULL` pointer). -/
abbrev string_p := Option (List Nat)

/-- `union value_u`, tagged with the member that was last written; `zero` is a
value all of whose bytes are zero (as `calloc` leaves it), which reads as zero
through every member. Reading any other value through a member that was not
the one written is outside the model. -/
inductive value_t where
  | intval (i : Int)
  | sngval (x : dyadic)
  | dblval (x : dyadic)
  | strval (s : string_p)
  | zero
deriving DecidableEq, Repr, Inhabited

/-- Reading the member `intval`. -/
def value_t.as_int : value_t → Option Int
  | .intval i => some i
  | .zero => some 0
  | _ => none

/-- Reading the member `sngval`. -/
def value_t.as_single : value_t → Option dyadic
  | .sngval x => some x
  | .zero => some ⟨0, 0⟩
  | _ => none

/-- Reading the member `dblval`. -/
def value_t.as_double : value_t → Option dyadic
  | .dblval x => some x
  | .zero => some ⟨0, 0⟩
  | _ => none

/-- Reading the member `strval`. -/
def value_t.as_string : value_t → Option string_p
  | .strval p => some p
  | .zero => some none
  | _ => none

/-- `struct var_s` (the `next` link is the list order of `varlist`). -/
structure var_t where
  /-- Normalised name. -/
  name : List Nat
  /-- Type tag. -/
  type : Nat
  /-- Current value. -/
  value : value_t
deriving DecidableEq, Repr, Inhabited

/-- `struct array_s` (the `next` link is the list order of `arrlist`). -/
structure array_t where
  /-- Normalised name. -/
  name : List Nat
  /-- Element type. -/
  type : Nat
  /-- Number of dimensions, `0` while undimensioned. -/
  ndims : Nat
  /-- Dimension sizes. -/
  dims : List Int
  /-- Total number of elements. -/
  size : Int
  /-- Element storage, `none` for `NULL`. -/
  data : Option (List value_t)
deriving DecidableEq, Repr, Inhabited

/-- `struct line_s`: one record of the program area. -/
structure line_t where
  /-- Line number. -/
  linenum : Int
  /-- Record length in bytes, header included. -/
  len : Nat
  /-- Tokenized text. -/
  text : List Nat
deriving DecidableEq, Repr, Inhabited

/-- `forstack_t`. -/
structure forstack_t where
  /-- Line number of the FOR. -/
  linenum : Int
  /-- Position after the FOR statement. -/
  text : Option (List Nat)
  /-- Loop variable. -/
  varname : List Nat
  /-- TO value. -/
  limit : dyadic
  /-- STEP value. -/
  step : dyadic
deriving DecidableEq, Repr, Inhabited

/-- `gosubstack_t`. -/
structure gosubstack_t where
  /-- Return line. -/
  linenum : Int
  /-- Return position. -/
  text : Option (List Nat)
deriving DecidableEq, Repr, Inhabited

/-- `whilestack_t`. -/
structure whilestack_t where
  /-- WHILE line number. -/
  linenum : Int
  /-- WHILE position. -/
  text : Option (List Nat)
deriving DecidableEq, Repr, Inhabited

/-- The interpreter state `state_t`.

* `lines` is the program area from `txttab` up to the two zero bytes that end
  it: the sequence of `line_t` records stored there, in memory order.
* `overrun` records that `insert_line`, which never tests the size of the
  area, has written past the end of the block of `PROGRAM_SIZE` bytes that
  `main` allocates for it (the size of its first request to `malloc`). From
  then on the C program has no defined state: `lines` is only what the writes
  were meant to produce.
* A text pointer (`txtptr`, the `text` of a stack entry) is the list of bytes
  from the pointer to the end of its buffer; `none` is `NULL`.
* `curline_ptr` and `lastvar` are indices into `lines` and `varlist`.
* The three stacks are their arrays, indexed from `0`.
* `output` is what has been written to `stdout`. -/
structure state_t where
  /-- Records of the program area. -/
  lines : List line_t
  /-- Whether a write went past the end of the program area. -/
  overrun : Bool
  /-- Current line number. -/
  curlin : Int
  /-- Current text pointer. -/
  txtptr : Option (List Nat)
  /-- Index of the current line record. -/
  curline_ptr : Option Nat
  /-- Variable list. -/
  varlist : List var_t
  /-- Index of the last accessed variable. -/
  lastvar : Option Nat
  /-- Array list. -/
  arrlist : List array_t
  /-- FOR stack. -/
  forstack : Nat → forstack_t
  /-- FOR stack pointer. -/
  forsp : Nat
  /-- GOSUB stack. -/
  gosubstack : Nat → gosubstack_t
  /-- GOSUB stack pointer. -/
  gosubsp : Nat
  /-- WHILE stack. -/
  whilestack : Nat → whilestack_t
  /-- WHILE stack pointer. -/
  whilesp : Nat
  /-- Current DATA line. -/
  datlin : Int
  /-- Current DATA pointer. -/
  datptr : Option (List Nat)
  /-- Error number. -/
  errnum : Nat
  /-- Error line. -/
  errlin : Int
  /-- Whether a program is running (`1`/`0` in C). -/
  running : Bool
  /-- Whether TRON is active. -/
  tracing : Bool
  /-- Random number state. -/
  rndseed : Nat
  /-- Bytes written to standard output. -/
  output : List Nat

/-- The assignment `a[i] = v` to an array. -/
def array_set {α : Type} (a : Nat → α) (i : Nat) (v : α) : Nat → α :=
  fun j => if j = i then v else a j

/-- The state set up by `init_state()`; the stack arrays, which C leaves
uninitialised, hold default entries. -/
def init_state : state_t :=
  { lines := [], overrun := false, curlin := 0, txtptr := none, curline_ptr := none,
    varlist := [], lastvar := none, arrlist := [],
    forstack := fun _ => default, forsp := 0,
    gosubstack := fun _ => default, gosubsp := 0,
    whilestack := fun _ => default, whilesp := 0,
    datlin := 0, datptr := none, errnum := 0, errlin := 0,
    running := false, tracing := false, rndseed := 1, output := [] }

/-- `clear_variables()`. -/
def clear_variables (s : state_t) : state_t := { s with varlist := [], lastvar := none }

/-- `clear_arrays()`. -/
def clear_arrays (s : state_t) : state_t := { s with arrlist := [] }

/-! ## `parse.c`: the program line store -/

/-- The test `p[0] == 0 && p[1] == 0` at a record header: the two low-order
bytes of its `linenum` are zero. -/
def is_end_marker (l : line_t) : Bool := l.linenum % 65536 == 0

/-- The walk of `find_line` over the records from some position on; the result
is the index of the line found, relative to that position. -/
def find_line_in : List line_t → Int → Option Nat
  | [], _ => none
  | l :: rest, linenum =>
    if is_end_marker l then none
    else if l.linenum = linenum then some 0
    else if l.linenum > linenum then none
    else (find_line_in rest linenum).map (· + 1)

/-- `find_line(linenum)`: the index of the record, `none` for `NULL`. -/
def find_line (s : state_t) (linenum : Int) : Option Nat := find_line_in s.lines linenum

/-- `sizeof(line_t)`. -/
abbrev sizeof_line_t : Nat := 12

/-- The record length computed by `insert_line`:
`(sizeof(line_t) + toklen - 1 + 1) & ~1`. -/
def record_len (toklen : Nat) : Nat := (sizeof_line_t + toklen - 1 + 1) / 2 * 2

/-- The walk of `insert_line`: the new program area, and whether a new record
was created (`false` when an existing line was replaced in place). -/
def insert_line_in : List line_t → Int → List Nat → List line_t × Bool
  | [], linenum, tokens => ([⟨linenum, record_len tokens.length, tokens⟩], true)
  | l :: rest, linenum, tokens =>
    if is_end_marker l then (⟨linenum, record_len tokens.length, tokens⟩ :: l :: rest, true)
    else if l.linenum = linenum then
      ({ l with len := record_len tokens.length, text := tokens } :: rest, false)
    else if l.linenum > linenum then
      (⟨linenum, record_len tokens.length, tokens⟩ :: l :: rest, true)
    else ((l :: (insert_line_in rest linenum tokens).1), (insert_line_in rest linenum tokens).2)

/-- The bytes of the program area in use, `vartab - txttab`: the records and
the two zero bytes that end the program. -/
def area_bytes (ls : List line_t) : Nat := (ls.map (fun l => l.len)).sum + 2

/-- `insert_line(linenum, tokens, toklen)` with `toklen` the length of `tokens`.
Variables and arrays are cleared on the path that creates a record; the path
that replaces a line returns before the clearing code. The `memmove` that
makes room writes up to the new `vartab` with no test against `memsiz`: when
the program no longer fits in the `PROGRAM_SIZE` bytes of the area, the write
goes past the end of the block and `overrun` is set. -/
def insert_line (s : state_t) (linenum : Int) (tokens : List Nat) : state_t :=
  let over : Bool :=
    s.overrun || decide (PROGRAM_SIZE < area_bytes (insert_line_in s.lines linenum tokens).1)
  if (insert_line_in s.lines linenum tokens).2 then
    clear_arrays (clear_variables
      { s with lines := (insert_line_in s.lines linenum tokens).1, overrun := over })
  else { s with lines := (insert_line_in s.lines linenum tokens).1, overrun := over }

/-- The walk of `delete_line`: the new program area, and whether a record was
removed. -/
def delete_line_in : List line_t → Int → List line_t × Bool
  | [], _ => ([], false)
  | l :: rest, linenum =>
    if is_end_marker l then (l :: rest, false)
    else if l.linenum = linenum then (rest, true)
    else ((l :: (delete_line_in rest linenum).1), (delete_line_in rest linenum).2)

/-- `delete_line(linenum)`. -/
def delete_line (s : state_t) (linenum : Int) : state_t :=
  if (delete_line_in s.lines linenum).2 then
    clear_arrays (clear_variables { s with lines := (delete_line_in s.lines linenum).1 })
  else s

/-- `new_program()`. -/
def new_program (s : state_t) : state_t :=
  { clear_arrays (clear_variables { s with lines := [] }) with
    curlin := 0, txtptr := none, running := false, forsp := 0, gosubsp := 0,
    whilesp := 0, datlin := 0, datptr := none }

/-- The line numbers visited by the store walk
`p = txttab; while (p[0] != 0 || p[1] != 0) { ...; p += line->len; }`
used by `save_file` and `list_program`. -/
def walk_linenums : List line_t → List Int
  | [] => []
  | l :: rest => if is_end_marker l then [] else l.linenum :: walk_linenums rest

/-- An edit of the program submitted by the REPL. -/
inductive edit where
  | insert (linenum : Int) (tokens : List Nat)
  | delete (linenum : Int)
deriving DecidableEq, Repr

/-- The line number an edit is about. -/
def edit.linenum : edit → Int
  | .insert n _ => n
  | .delete n => n

/-- The store operation an edit stands for. -/
def apply_edit (s : state_t) : edit → state_t
  | .insert n t => insert_line s n t
  | .delete n => delete_line s n

/-- A sequence of edits, applied from left to right. -/
def apply_edits (s : state_t) (es : List edit) : state_t := es.foldl apply_edit s

/-- Number and text of the record the walk of `find_line` returns from some
position on, `none` for `NULL`. -/
def found_line_in (ls : List line_t) (linenum : Int) : Option (Int × List Nat) :=
  match find_line_in ls linenum with
  | none => none
  | some i => (ls.get? i).map (fun l => (l.linenum, l.text))

/-- Number and text of the line `find_line` returns, `none` for `NULL`. -/
def found_line (s : state_t) (linenum : Int) : Option (Int × List Nat) :=
  found_line_in s.lines linenum

/-- Specification side of the store: a finite map from line number to token
bytes, where `insert_or_replace` and `delete` update the map at one key. -/
def spec_edit (m : Int → Option (List Nat)) : edit → Int → Option (List Nat)
  | .insert n t => fun k => if k = n then some t else m k
  | .delete n => fun k => if k = n then none else m k

/-- The finite map a sequence of edits builds from the empty map. -/
def spec_store (es : List edit) : Int → Option (List Nat) :=
  es.foldl spec_edit (fun _ => none)

/-! ## Results and errors (`error.c`) -/

/-- The outcome of running a piece of the interpreter. -/
inductive Res (α : Type) where
  /-- Normal return. -/
  | ok (a : α)
  /-- `error(errnum)` was called; `s` is the state at the `longjmp`. -/
  | error (errnum : Nat) (s : state_t)
  /-- The code left the part of C this embedding models (transcendental
  functions, reading a union member that was not written, undefined
  behaviour, file and terminal input). -/
  | unmodelled
  /-- The fuel of the embedding ran out. -/
  | fuel

/-- Sequencing of outcomes. -/
def Res.bind {α β : Type} (r : Res α) (f : α → Res β) : Res β :=
  match r with
  | .ok a => f a
  | .error n s => .error n s
  | .unmodelled => .unmodelled
  | .fuel => .fuel

instance : Monad Res where
  pure := Res.ok
  bind := Res.bind

/-- An optional value of the model, `unmodelled` when absent. -/
def Res.of_option {α : Type} : Option α → Res α
  | some a => .ok a
  | none => .unmodelled

/-- The table `error_messages[]`. -/
def error_messages : List (Option (List Nat)) :=
  [ some (cstr "No error"), some (cstr "NEXT without FOR"), some (cstr "Syntax error"),
    some (cstr "RETURN without GOSUB"), some (cstr "Out of DATA"),
    some (cstr "Illegal function call"), some (cstr "Overflow"), some (cstr "Out of memory"),
    some (cstr "Undefined line number"), some (cstr "Subscript out of range"),
    some (cstr "Duplicate definition"), some (cstr "Division by zero"), none,
    some (cstr "Type mismatch"), some (cstr "Out of string space"),
    some (cstr "String too long"), some (cstr "String formula too complex"),
    some (cstr "Can't continue"), some (cstr "Undefined user function"),
    some (cstr "No RESUME"), some (cstr "RESUME without error") ]
  ++ List.replicate 30 none ++
  [ some (cstr "Bad file number"), some (cstr "File not found"), some (cstr "Bad file mode") ]

/-- `error_message(errnum)`. -/
def error_message (errnum : Int) : List Nat :=
  if 0 ≤ errnum ∧ errnum < error_messages.length then
    match error_messages.get? errnum.toNat with
    | some (some m) => m
    | _ => cstr "Unknown error"
  else cstr "Unknown error"

/-- Writing bytes to standard output. -/
def put (s : state_t) (bytes : List Nat) : state_t := { s with output := s.output ++ bytes }

/-- The state in which `error(errnum)` jumps to the error handler. -/
def error_state (errnum : Nat) (s : state_t) : state_t :=
  if s.curlin = -1 then
    { put { s with errnum := errnum, errlin := s.curlin } (error_message errnum ++ [10]) with
      errnum := ERR_NONE }
  else { s with errnum := errnum, errlin := s.curlin }

/-- `error(errnum)`. -/
def error {α : Type} (errnum : Nat) (s : state_t) : Res α := .error errnum (error_state errnum s)

/-- `syntax_error()`. -/
def syntax_error {α : Type} (s : state_t) : Res α := error ERR_SYNTAX s

/-! ## Number formatting and parsing (`printf`, `atoi`, `atof`) -/

/-- Decimal digits of `n`, most significant first, prepended to `acc`. -/
def dec_digits_aux : Nat → Nat → List Nat → List Nat
  | 0, _, acc => acc
  | fuel + 1, n, acc =>
    if n < 10 then (48 + n) :: acc else dec_digits_aux fuel (n / 10) ((48 + n % 10) :: acc)

/-- The decimal numeral of `n`. -/
def dec_digits (n : Nat) : List Nat := dec_digits_aux (n + 1) n []

/-- `printf("%d", i)`. -/
def fmt_d (i : Int) : List Nat := if i < 0 then 45 :: dec_digits i.natAbs else dec_digits i.natAbs

/-- `printf("%g", x)` for an integer `x` of magnitude below `10 ^ 6` (six
significant digits); other values are outside the model. -/
def fmt_g (x : dyadic) : Option (List Nat) :=
  if x.exp = 0 ∧ x.num.natAbs < 1000000 then some (fmt_d x.num) else none

/-- Upper-case hexadecimal digits of `n`, prepended to `acc`. -/
def hex_digits_aux : Nat → Nat → List Nat → List Nat
  | 0, _, acc => acc
  | fuel + 1, n, acc =>
    let d := n % 16
    let c := if d < 10 then 48 + d else 55 + d
    if n < 16 then c :: acc else hex_digits_aux fuel (n / 16) (c :: acc)

/-- `printf("%02X", n)`. -/
def fmt_02X (n : Nat) : List Nat :=
  if n < 16 then 48 :: hex_digits_aux 1 n [] else hex_digits_aux (n + 1) n []

/-- The value of a run of decimal digits. -/
def digits_value (ds : List Nat) : Nat := ds.foldl (fun acc c => acc * 10 + (c - 48)) 0

/-- `atoi(numbuf)` for a buffer written by `parse_number` (it starts with a
digit or a point): the value of the leading digits; `none` when it does not
fit an `int` (undefined in C). -/
def atoi (numbuf : List Nat) : Option Int :=
  let v := digits_value (numbuf.takeWhile IS_DIGIT)
  if v ≤ 2147483647 then some (v : Int) else none

/-- `atof(numbuf)` for a buffer written by `parse_number`: digits, an optional
point and fraction digits, an optional `E` with optional sign and digits. The
decimal value is rounded once, to double precision. -/
def atof (numbuf : List Nat) : dyadic :=
  let ip := numbuf.takeWhile IS_DIGIT
  let r1 := numbuf.drop ip.length
  let fp := if r1.headD 0 = 46 then (r1.drop 1).takeWhile IS_DIGIT else []
  let r2 := if r1.headD 0 = 46 then r1.drop (1 + fp.length) else r1
  let r3 := r2.drop 1
  let neg := r3.headD 0 = 45
  let r4 := if r3.headD 0 = 45 ∨ r3.headD 0 = 43 then r3.drop 1 else r3
  let ep := if r2.headD 0 = 69 then r4.takeWhile IS_DIGIT else []
  let m := digits_value (ip ++ fp)
  let e : Int := (if neg then -(digits_value ep : Int) else (digits_value ep : Int)) - fp.length
  if 0 ≤ e then dyadic.round_rat 53 ((m : Int) * 10 ^ e.toNat) 1
  else dyadic.round_rat 53 (m : Int) (10 ^ (-e).toNat)

/-! ## `strings.c` -/

/-- `alloc_string(0)`: the empty string. -/
def empty_string : string_p := some []

/-- `copy_string(src)`. -/
def copy_string (src : string_p) : string_p :=
  match src with
  | none => empty_string
  | some bytes => some bytes

/-- `concat_strings(s1, s2)`. The result comes from `alloc_string(newlen)`,
whose `ptr` is `NULL` when `newlen` is `0`; the terminator is then stored
through that null pointer (`result->ptr[newlen] = 0`), which is undefined
behaviour and `unmodelled` here. -/
def concat_strings (st : state_t) (s1 s2 : string_p) : Res string_p :=
  match s1, s2 with
  | some a, some b =>
    if a.length + b.length > 255 then error ERR_STRING_LONG st
    else if a.length + b.length = 0 then .unmodelled
    else .ok (some (a ++ b))
  | _, _ => .ok empty_string

/-- The result of `memcmp` on two byte sequences of equal length: the
difference at the first position where they differ, `0` if there is none. -/
def memcmp : List Nat → List Nat → Int
  | a :: as, b :: bs => if a = b then memcmp as bs else (a : Int) - (b : Int)
  | _, _ => 0

/-- `compare_strings(s1, s2)`. -/
def compare_strings (s1 s2 : string_p) : Int :=
  match s1, s2 with
  | none, none => 0
  | none, some _ => -1
  | some _, none => 1
  | some a, some b =>
    let minlen := min a.length b.length
    if memcmp (a.take minlen) (b.take minlen) ≠ 0 then memcmp (a.take minlen) (b.take minlen)
    else (a.length : Int) - (b.length : Int)

/-- `string_from_cstr(cstr)` for a non-null C string. -/
def string_from_cstr (bytes : List Nat) : string_p := some ((bytes.takeWhile (· ≠ 0)).take 255)

/-! ## `variables.c` -/

/-- The copying loop of `normalize_name` with room for `room` more characters:
the normalised name and the type set by a suffix (`0` if none was seen). -/
def normalize_name_loop : Nat → List Nat → List Nat × Nat
  | 0, _ => ([], 0)
  | _ + 1, [] => ([], 0)
  | room + 1, c :: rest =>
    if IS_ALNUM c || c == 46 then
      (upcase c :: (normalize_name_loop room rest).1, (normalize_name_loop room rest).2)
    else if c = 36 then ([], TYPE_STR)
    else if c = 37 then ([], TYPE_INT)
    else if c = 33 then ([], TYPE_SNG)
    else if c = 35 then ([], TYPE_DBL)
    else ([], 0)

/-- `normalize_name(dest, src, &type)` called with `type = 0`: the normalised
name and the type. -/
def normalize_name (src : List Nat) : List Nat × Nat :=
  ((normalize_name_loop NAMLEN src).1,
    if (normalize_name_loop NAMLEN src).2 = 0 then TYPE_SNG else (normalize_name_loop NAMLEN src).2)

/-- The initial value `find_variable` gives a new variable of type `type`. -/
def initial_value (type : Nat) : value_t :=
  if type = TYPE_INT then .intval 0
  else if type = TYPE_SNG then .sngval ⟨0, 0⟩
  else if type = TYPE_DBL then .dblval ⟨0, 0⟩
  else .strval empty_string

/-- Whether the cache `lastvar` holds the variable `(normname, type)`. -/
def cache_hit (s : state_t) (normname : List Nat) (type : Nat) : Option Nat :=
  match s.lastvar with
  | none => none
  | some i =>
    match s.varlist.get? i with
    | some v => if v.name = normname ∧ v.type = type then some i else none
    | none => none

/-- `find_variable(name, create)`: the index of the variable in `varlist`
(`none` for `NULL`) and the new state. -/
def find_variable (s : state_t) (name : List Nat) (create : Bool) : Option Nat × state_t :=
  let normname := (normalize_name name).1
  let type := (normalize_name name).2
  match cache_hit s normname type with
  | some i => (some i, s)
  | none =>
    match s.varlist.findIdx? (fun v => v.name == normname && v.type == type) with
    | some i => (some i, { s with lastvar := some i })
    | none =>
      if create then
        (some s.varlist.length,
          { s with varlist := s.varlist ++ [⟨normname, type, initial_value type⟩],
                   lastvar := some s.varlist.length })
      else (none, s)

/-- The `double` the first `switch` of `set_variable` (and the like in
`do_next`, `eval_numeric`) reads from a value of expression type `type`. -/
def switch_double (val : value_t) (type : Nat) : Option dyadic :=
  if type = TYPE_INT then val.as_int.map dyadic.ofInt
  else if type = TYPE_SNG then val.as_single
  else if type = TYPE_DBL then val.as_double
  else some ⟨0, 0⟩

/-- `set_variable(name, val, type)`. -/
def set_variable (s : state_t) (name : List Nat) (val : value_t) (type : Nat) : Res state_t :=
  match find_variable s name true with
  | (none, s1) => .ok s1
  | (some i, s1) =>
    match s1.varlist.get? i with
    | none => .unmodelled
    | some var =>
      match switch_double val type with
      | none => .unmodelled
      | some dval =>
        let store (v : value_t) : Res state_t :=
          .ok { s1 with varlist := s1.varlist.set i { var with value := v } }
        if var.type = TYPE_INT then
          match dval.to_int with
          | some n => store (.intval n)
          | none => .unmodelled
        else if var.type = TYPE_SNG then store (.sngval dval.to_single)
        else if var.type = TYPE_DBL then store (.dblval dval)
        else if var.type = TYPE_STR then
          if type = TYPE_STR then
            match val.as_string with
            | some (some bytes) => store (.strval (copy_string (some bytes)))
            | some none => store (.strval empty_string)
            | none => .unmodelled
          else store (.strval empty_string)
        else .ok s1

/-- `get_variable(name, &type)`: the value, its type and the new state. -/
def get_variable (s : state_t) (name : List Nat) : value_t × Nat × state_t :=
  match find_variable s name true with
  | (none, s1) => (.sngval ⟨0, 0⟩, TYPE_SNG, s1)
  | (some i, s1) =>
    match s1.varlist.get? i with
    | some var => (var.value, var.type, s1)
    | none => (.sngval ⟨0, 0⟩, TYPE_SNG, s1)

/-! ## `arrays.c` -/

/-- `find_array(name, create)`: the index of the array in `arrlist` (`none` for
`NULL`) and the new state. Arrays are looked up by normalised name alone. -/
def find_array (s : state_t) (name : List Nat) (create : Bool) : Option Nat × state_t :=
  match s.arrlist.findIdx? (fun a => a.name == (normalize_name name).1) with
  | some i => (some i, s)
  | none =>
    if create then
      (some s.arrlist.length,
        { s with arrlist := s.arrlist ++
            [⟨(normalize_name name).1, (normalize_name name).2, 0, List.replicate 8 0, 0, none⟩] })
    else (none, s)

/-- The size loop of `dimension_array` from dimension `i` on: the `dims` of the
array after it, and the total size, `none` in its place if the loop stopped
because the size exceeded 16384. The product `size *= (long)dims[i]` is
computed in `long`, taken to be 64 bits wide; when it leaves the range of
`long` C gives it no value and the result of the loop is `none`. -/
def dimension_sizes : List Int → Nat → Int → List Int → Option (List Int × Option Int)
  | [], _, size, adims => some (adims, some size)
  | d :: ds, i, size, adims =>
    if size * d < -9223372036854775808 ∨ 9223372036854775807 < size * d then none
    else if size * d > 16384 then some (adims.set i d, none)
    else dimension_sizes ds (i + 1) (size * d) (adims.set i d)

/-- `dimension_array(name, dims, ndims, type)` with `ndims` the length of
`dims`. A request for zero elements is taken to succeed, one for a negative
number of elements to fail in `calloc`; `arr->size = (int)size` keeps the low
32 bits of the size. -/
def dimension_array (s : state_t) (name : List Nat) (dims : List Int) (type : Nat) :
    Res state_t :=
  let redim : Bool :=
    match (find_array s name false).1 with
    | some i => (match s.arrlist.get? i with | some a => decide (a.ndims > 0) | none => false)
    | none => false
  if redim then error ERR_REDIM s
  else
    match find_array s name true with
    | (none, s1) => .ok s1
    | (some i, s1) =>
      match s1.arrlist.get? i with
      | none => .unmodelled
      | some arr =>
        match dimension_sizes dims 0 1 arr.dims with
        | none => .unmodelled
        | some (adims, none) =>
          let arr1 : array_t := { arr with dims := adims }
          error ERR_OUT_OF_MEM { s1 with arrlist := s1.arrlist.set i arr1 }
        | some (adims, some size) =>
          let arr1 : array_t :=
            { arr with dims := adims, ndims := dims.length, size := wrap32 size, type := type }
          if size < 0 then error ERR_OUT_OF_MEM { s1 with arrlist := s1.arrlist.set i arr1 }
          else
            let elem : value_t := if type = TYPE_STR then .strval empty_string else .zero
            let arr2 : array_t := { arr1 with data := some (List.replicate size.toNat elem) }
            .ok { s1 with arrlist := s1.arrlist.set i arr2 }

/-- The offset loop of `array_element`, over the dimensions from the last to
the first (both lists reversed): `none` when an index is out of bounds. -/
def element_offset : List Int → List Int → Int → Int → Option Int
  | i :: is, d :: ds, offset, multiplier =>
    if i < 0 ∨ i ≥ d then none else element_offset is ds (offset + i * multiplier) (multiplier * d)
  | _, _, offset, _ => some offset

/-- `array_element(name, indices, nindices)`: the element pointed to, as the
index of the array in `arrlist` and the offset into its `data`. -/
def array_element (s : state_t) (name : List Nat) (indices : List Int) :
    Res (Nat × Nat × state_t) :=
  match (find_array s name false).1 with
  | none => error ERR_SUBSCRIPT s
  | some i =>
    match s.arrlist.get? i with
    | none => .unmodelled
    | some arr0 => do
      let s1 ← if arr0.ndims = 0 then
                  dimension_array s name (List.replicate indices.length 11) arr0.type
                else pure s
      match s1.arrlist.get? i with
      | none => .unmodelled
      | some arr =>
        if indices.length ≠ arr.ndims then error ERR_SUBSCRIPT s1
        else
          match element_offset indices.reverse (arr.dims.take arr.ndims).reverse 0 1 with
          | none => error ERR_SUBSCRIPT s1
          | some offset => pure (i, offset.toNat, s1)

/-- Reading the array element `arrlist[i].data[offset]`. -/
def read_element (s : state_t) (i offset : Nat) : Option value_t :=
  match s.arrlist.get? i with
  | some arr => (match arr.data with | some d => d.get? offset | none => none)
  | none => none

/-- Writing the array element `arrlist[i].data[offset]`. -/
def write_element (s : state_t) (i offset : Nat) (v : value_t) : state_t :=
  match s.arrlist.get? i with
  | some arr =>
    let arr1 : array_t := { arr with data := arr.data.map (fun d => d.set offset v) }
    { s with arrlist := s.arrlist.set i arr1 }
  | none => s

/-! ## `functions.c` -/

/-- `fn_sgn(x)`. -/
def fn_sgn (x : dyadic) : dyadic := if 0 < x.num then ⟨1, 0⟩ else if x.num < 0 then ⟨-1, 0⟩ else ⟨0, 0⟩

/-- `fn_int(x)`: `floor(x)`. -/
def fn_int (x : dyadic) : dyadic := ⟨x.num / 2 ^ x.exp, 0⟩

/-- `fn_abs(x)`. -/
def fn_abs (x : dyadic) : dyadic := ⟨|x.num|, x.exp⟩

/-- `fn_sqr(x)`: the domain check; the square root itself is not modelled. -/
def fn_sqr (s : state_t) (x : dyadic) : Res dyadic :=
  if x.num < 0 then error ERR_ILLEGAL_FUNC s else .unmodelled

/-- `fn_log(x)`: the domain check; the logarithm itself is not modelled. -/
def fn_log (s : state_t) (x : dyadic) : Res dyadic :=
  if x.num ≤ 0 then error ERR_ILLEGAL_FUNC s else .unmodelled

/-- `fn_rnd(x)`: the new seed and the result; reseeding (`x < 0`) is not
modelled. -/
def fn_rnd (s : state_t) (x : dyadic) : Res (dyadic × state_t) :=
  if x.num < 0 then .unmodelled
  else if x.num = 0 then .ok (dyadic.norm s.rndseed 31, s)
  else
    let seed := ((s.rndseed * 1103515245 + 12345) % 18446744073709551616) &&& 0x7fffffff
    .ok (dyadic.norm seed 31, { s with rndseed := seed })

/-- `fn_len(s)`. -/
def fn_len (str : string_p) : Int :=
  match str with
  | none => 0
  | some b => b.length

/-- `fn_asc(s)`. -/
def fn_asc (s : state_t) (str : string_p) : Res Int :=
  match str with
  | some (c :: _) => .ok c
  | _ => error ERR_ILLEGAL_FUNC s

/-- `fn_chr(n)`. -/
def fn_chr (s : state_t) (n : Int) : Res string_p :=
  if n < 0 ∨ n > 255 then error ERR_ILLEGAL_FUNC s else .ok (some [n.toNat])

/-- `fn_str(x)`, for the values `printf` is modelled for. -/
def fn_str (x : dyadic) : Option string_p :=
  match x.to_int with
  | none => none
  | some i =>
    if dyadic.eq x (dyadic.ofInt i) then
      some (string_from_cstr (if i < 0 then fmt_d i else 32 :: fmt_d i))
    else none

/-- `fn_val(s)`: zero for the null or empty string; `atof` of other strings is
not modelled. -/
def fn_val (str : string_p) : Option dyadic :=
  match str with
  | none => some ⟨0, 0⟩
  | some [] => some ⟨0, 0⟩
  | some _ => none

/-- `fn_left(s, n)`. -/
def fn_left (str : string_p) (n : Int) : string_p :=
  match str with
  | none => empty_string
  | some b => if n ≤ 0 then empty_string else some (b.take n.toNat)

/-- `fn_right(s, n)`. -/
def fn_right (str : string_p) (n : Int) : string_p :=
  match str with
  | none => empty_string
  | some b => if n ≤ 0 then empty_string else some (b.drop (b.length - min n.toNat b.length))

/-- `fn_mid(s, start, len)`. -/
def fn_mid (str : string_p) (start len : Int) : string_p :=
  match str with
  | none => empty_string
  | some b =>
    if start < 1 then empty_string
    else if start - 1 ≥ b.length then empty_string
    else
      let actual_len : Int := if start - 1 + len > b.length then b.length - (start - 1) else len
      if actual_len ≤ 0 then empty_string
      else some ((b.drop (start - 1).toNat).take actual_len.toNat)

/-! ## `eval.c`: reading the token stream -/

/-- `peek_char()`. -/
def peek_char (s : state_t) : Nat :=
  match s.txtptr with
  | some (c :: _) => c
  | _ => 0

/-- `get_next_char()`: the character and the new state. -/
def get_next_char (s : state_t) : Nat × state_t :=
  match s.txtptr with
  | some (c :: rest) => if c = 0 then (0, s) else (c, { s with txtptr := some rest })
  | _ => (0, s)

/-- The state after a `get_next_char()` whose result is dropped. -/
def advance (s : state_t) : state_t := (get_next_char s).2

/-- `skip_spaces()`. -/
def skip_spaces (s : state_t) : state_t :=
  match s.txtptr with
  | some t => { s with txtptr := some (t.dropWhile (fun c => c == 32 || c == 9)) }
  | none => s

/-- `match_token(token)`: whether the token was there, and the new state. -/
def match_token (token : Nat) (s : state_t) : Bool × state_t :=
  if token &&& 0xFF00 ≠ 0 then
    if peek_char (skip_spaces s) = (token >>> 8) &&& 0xFF then
      if peek_char (advance (skip_spaces s)) = token &&& 0xFF then
        (true, advance (advance (skip_spaces s)))
      else (false, skip_spaces s)
    else (false, skip_spaces s)
  else if peek_char (skip_spaces s) = token then (true, advance (skip_spaces s))
  else (false, skip_spaces s)

/-- `skip_to_eol()`. -/
def skip_to_eol (s : state_t) : state_t :=
  match s.txtptr with
  | some t => { s with txtptr := some (t.dropWhile (fun c => c != 0)) }
  | none => s

/-- A loop `while (accept(peek_char())) { if (p - name < NAMLEN) *p++ =
get_next_char(); else get_next_char(); }` reading a name: the name and the
unread text. -/
def read_name (accept : Nat → Bool) : List Nat → List Nat → List Nat × List Nat
  | [], name => (name, [])
  | c :: rest, name =>
    if accept c then read_name accept rest (if name.length < NAMLEN then name ++ [c] else name)
    else (name, c :: rest)

/-- The name loop of `do_let` and `do_input`. -/
def is_name_char (c : Nat) : Bool :=
  IS_ALNUM c || c == 46 || c == 36 || c == 37 || c == 33 || c == 35

/-- The name loop of `do_for`, `do_next` and `do_dim`. -/
def is_plain_name_char (c : Nat) : Bool := IS_ALNUM c || c == 46

/-- Reading a name from the current position with `read_name`. -/
def parse_name (accept : Nat → Bool) (s : state_t) : List Nat × state_t :=
  match s.txtptr with
  | some t => ((read_name accept t []).1, { s with txtptr := some (read_name accept t []).2 })
  | none => ([], s)

/-- The name loop of `parse_variable`: letters, digits and points are stored in
upper case, one type suffix ends the name. -/
def read_variable_name : List Nat → List Nat → List Nat × List Nat
  | [], name => (name, [])
  | c :: rest, name =>
    if IS_ALNUM c || c == 46 then
      read_variable_name rest (if name.length < NAMLEN then name ++ [upcase c] else name)
    else if c == 36 || c == 37 || c == 33 || c == 35 then
      ((if name.length < NAMLEN then name ++ [c] else name), rest)
    else (name, c :: rest)

/-- The scanning loop of `parse_number`: the buffer `numbuf`, the type and the
unread text. -/
def parse_number_loop : List Nat → List Nat → Bool → Bool → Nat → List Nat × Nat × List Nat
  | [], numbuf, _, _, type => (numbuf, type, [])
  | c :: rest, numbuf, has_dot, has_exp, type =>
    if 48 ≤ c ∧ c ≤ 57 then
      if numbuf.length + 1 ≥ 79 then (numbuf ++ [c], type, rest)
      else parse_number_loop rest (numbuf ++ [c]) has_dot has_exp type
    else if c = 46 ∧ has_dot = false ∧ has_exp = false then
      if numbuf.length + 1 ≥ 79 then (numbuf ++ [c], TYPE_SNG, rest)
      else parse_number_loop rest (numbuf ++ [c]) true has_exp TYPE_SNG
    else if (c = 69 ∨ c = 101 ∨ c = 68 ∨ c = 100) ∧ has_exp = false then
      match rest with
      | d :: rest' =>
        if d = 43 ∨ d = 45 then
          if numbuf.length + 2 ≥ 79 then
            (numbuf ++ [69, d], (if c = 68 ∨ c = 100 then TYPE_DBL else TYPE_SNG), rest')
          else parse_number_loop rest' (numbuf ++ [69, d]) has_dot true
            (if c = 68 ∨ c = 100 then TYPE_DBL else TYPE_SNG)
        else if numbuf.length + 1 ≥ 79 then
          (numbuf ++ [69], (if c = 68 ∨ c = 100 then TYPE_DBL else TYPE_SNG), d :: rest')
        else parse_number_loop (d :: rest') (numbuf ++ [69]) has_dot true
          (if c = 68 ∨ c = 100 then TYPE_DBL else TYPE_SNG)
      | [] => (numbuf ++ [69], (if c = 68 ∨ c = 100 then TYPE_DBL else TYPE_SNG), [])
    else (numbuf, type, c :: rest)

/-! ## `eval.c`: the expression evaluator

The functions of the precedence chain call each other in a cycle that closes
in `expr_primary` (parentheses, function arguments, subscripts). Each level
is written here over the level below it, passed as an argument; `eval_expr`
ties the knot by recursion on the fuel. -/

/-- Value, type and new state returned by an evaluator function. -/
abbrev eval_result := Res (value_t × Nat × state_t)

/-- An evaluator function (`value_t f(int *type)`). -/
abbrev evaluator := state_t → eval_result

/-- `parse_number(type)`. -/
def parse_number (s : state_t) : eval_result :=
  let r := parse_number_loop (s.txtptr.getD []) [] false false TYPE_INT
  let numbuf := r.1
  let c := r.2.2.headD 0
  let type := if c = 37 then TYPE_INT else if c = 33 then TYPE_SNG else if c = 35 then TYPE_DBL
              else r.2.1
  let rest := if c = 37 ∨ c = 33 ∨ c = 35 then r.2.2.drop 1 else r.2.2
  let s1 : state_t := match s.txtptr with
    | some _ => { s with txtptr := some rest }
    | none => s
  if type = TYPE_INT then
    match atoi numbuf with
    | some i => .ok (.intval i, type, s1)
    | none => .unmodelled
  else if type = TYPE_SNG then .ok (.sngval (atof numbuf).to_single, type, s1)
  else .ok (.dblval (atof numbuf), type, s1)

/-- The reading loop of `parse_string_literal`: the buffer `strbuf` and the
unread text. -/
def string_literal_loop : List Nat → List Nat → List Nat × List Nat
  | [], strbuf => (strbuf, [])
  | c :: rest, strbuf =>
    if c = 34 ∨ c = 0 ∨ c = 10 then (strbuf, c :: rest)
    else if strbuf.length + 1 ≥ 255 then (strbuf ++ [c], rest)
    else string_literal_loop rest (strbuf ++ [c])

/-- `parse_string_literal()`. -/
def parse_string_literal (s : state_t) : string_p × state_t :=
  match (advance s).txtptr with
  | none => (string_from_cstr [], advance s)
  | some t =>
    let r := string_literal_loop t []
    (string_from_cstr r.1,
      { s with txtptr := some (if r.2.headD 0 = 34 then r.2.drop 1 else r.2) })

/-- `eval_numeric()` over the expression evaluator `ev`. -/
def eval_numeric (ev : evaluator) (s : state_t) : Res (dyadic × state_t) := do
  let r ← ev s
  match switch_double r.1 r.2.1 with
  | some d => pure (d, r.2.2)
  | none => .unmodelled

/-- `eval_string()` over the expression evaluator `ev`. -/
def eval_string (ev : evaluator) (s : state_t) : Res (string_p × state_t) := do
  let r ← ev s
  if r.2.1 ≠ TYPE_STR then syntax_error r.2.2
  else
    match r.1.as_string with
    | some p => pure (p, r.2.2)
    | none => .unmodelled

/-- `eval_integer()` over the expression evaluator `ev`. -/
def eval_integer (ev : evaluator) (s : state_t) : Res (Int × state_t) := do
  let r ← ev s
  if r.2.1 = TYPE_INT then
    match r.1.as_int with
    | some i => pure (i, r.2.2)
    | none => .unmodelled
  else if r.2.1 = TYPE_SNG then
    match r.1.as_single.bind dyadic.to_int with
    | some i => pure (i, r.2.2)
    | none => .unmodelled
  else if r.2.1 = TYPE_DBL then
    match r.1.as_double.bind dyadic.to_int with
    | some i => pure (i, r.2.2)
    | none => .unmodelled
  else pure (0, r.2.2)

/-- The loop that reads up to `room` subscripts separated by commas
(`parse_variable`, `do_let`). -/
def parse_subscripts (ev : evaluator) : Nat → state_t → Res (List Int × state_t)
  | 0, s => .ok ([], s)
  | room + 1, s => do
    let r ← eval_integer ev s
    if peek_char (skip_spaces r.2) = 44 then do
      let r' ← parse_subscripts ev room (advance (skip_spaces r.2))
      pure (r.1 :: r'.1, r'.2)
    else pure ([r.1], skip_spaces r.2)

/-- The statement `if (peek_char() == c) get_next_char();` after `skip_spaces()`. -/
def skip_optional (c : Nat) (s : state_t) : state_t :=
  if peek_char (skip_spaces s) = c then advance (skip_spaces s) else skip_spaces s

/-- `is_numeric_function(name)`. -/
def is_numeric_function (name : List Nat) : Bool :=
  [cstr "SQR", cstr "SIN", cstr "COS", cstr "TAN", cstr "ATN", cstr "LOG", cstr "EXP",
   cstr "ABS", cstr "SGN", cstr "INT", cstr "RND", cstr "LEN", cstr "ASC", cstr "VAL"].contains name

/-- `is_string_function(name)`. -/
def is_string_function (name : List Nat) : Bool :=
  [cstr "CHR$", cstr "STR$", cstr "LEFT$", cstr "RIGHT$", cstr "MID$"].contains name

/-- The token of a built-in function name. -/
def function_token (name : List Nat) : Nat :=
  if name = cstr "SQR" then TOK_SQR else if name = cstr "SIN" then TOK_SIN
  else if name = cstr "COS" then TOK_COS else if name = cstr "TAN" then TOK_TAN
  else if name = cstr "ATN" then TOK_ATN else if name = cstr "LOG" then TOK_LOG
  else if name = cstr "EXP" then TOK_EXP else if name = cstr "ABS" then TOK_ABS
  else if name = cstr "SGN" then TOK_SGN else if name = cstr "INT" then TOK_INT
  else if name = cstr "RND" then TOK_RND else if name = cstr "LEN" then TOK_LEN
  else if name = cstr "ASC" then TOK_ASC else if name = cstr "VAL" then TOK_VAL
  else if name = cstr "CHR$" then TOK_CHR else if name = cstr "STR$" then TOK_STR
  else if name = cstr "LEFT$" then TOK_LEFT else if name = cstr "RIGHT$" then TOK_RIGHT
  else if name = cstr "MID$" then TOK_MID else 0

/-- The dispatch of a numeric function on its argument, common to
`call_numeric_function` (by name) and `call_tokenized_function` (by token);
`FRE`, which only the tokenized form reaches, reads the memory layout and is
not modelled. -/
def apply_numeric_function (token : Nat) (arg : dyadic) (s : state_t) : eval_result :=
  if token = TOK_SQR then do let x ← fn_sqr s arg; pure (.dblval x, TYPE_DBL, s)
  else if token = TOK_LOG then do let x ← fn_log s arg; pure (.dblval x, TYPE_DBL, s)
  else if token = TOK_ABS then .ok (.dblval (fn_abs arg), TYPE_DBL, s)
  else if token = TOK_SGN then .ok (.dblval (fn_sgn arg), TYPE_DBL, s)
  else if token = TOK_INT then .ok (.dblval (fn_int arg), TYPE_DBL, s)
  else if token = TOK_RND then do let r ← fn_rnd s arg; pure (.dblval r.1, TYPE_DBL, r.2)
  else .unmodelled

/-- `call_tokenized_function(token, type)`; `call_numeric_function(name, type)`
is the same code with the function given by name. -/
def call_tokenized_function (ev : evaluator) (token : Nat) (s : state_t) : eval_result :=
  if peek_char (skip_spaces s) ≠ 40 then syntax_error (skip_spaces s)
  else if token = TOK_LEN ∨ token = TOK_ASC ∨ token = TOK_VAL then do
    let r ← eval_string ev (advance (skip_spaces s))
    let s1 := skip_optional 41 r.2
    if token = TOK_LEN then pure (.dblval (dyadic.ofInt (fn_len r.1)), TYPE_DBL, s1)
    else if token = TOK_ASC then do
      let c ← fn_asc s1 r.1
      pure (.dblval (dyadic.ofInt c), TYPE_DBL, s1)
    else
      match fn_val r.1 with
      | some x => pure (.dblval x, TYPE_DBL, s1)
      | none => .unmodelled
  else do
    let r ← eval_numeric ev (advance (skip_spaces s))
    apply_numeric_function token r.1 (skip_optional 41 r.2)

/-- `call_tokenized_str_function(token, type)`; `call_string_function(name,
type)` is the same code with the function given by name. -/
def call_tokenized_str_function (ev : evaluator) (token : Nat) (s : state_t) : eval_result :=
  if peek_char (skip_spaces s) ≠ 40 then syntax_error (skip_spaces s)
  else if token = TOK_CHR then do
    let r ← eval_numeric ev (advance (skip_spaces s))
    match r.1.to_int with
    | none => .unmodelled
    | some n => do
      let str ← fn_chr (skip_optional 41 r.2) n
      pure (.strval str, TYPE_STR, skip_optional 41 r.2)
  else if token = TOK_STR then do
    let r ← eval_numeric ev (advance (skip_spaces s))
    match fn_str r.1 with
    | some str => pure (.strval str, TYPE_STR, skip_optional 41 r.2)
    | none => .unmodelled
  else if token = TOK_LEFT ∨ token = TOK_RIGHT then do
    let r ← eval_string ev (advance (skip_spaces s))
    let n ← eval_integer ev (skip_optional 44 r.2)
    pure (.strval (if token = TOK_LEFT then fn_left r.1 n.1 else fn_right r.1 n.1), TYPE_STR,
      skip_optional 41 n.2)
  else if token = TOK_MID then do
    let r ← eval_string ev (advance (skip_spaces s))
    let st ← eval_integer ev (skip_optional 44 r.2)
    if peek_char (skip_spaces st.2) = 44 then do
      let ln ← eval_integer ev (advance (skip_spaces st.2))
      pure (.strval (fn_mid r.1 st.1 ln.1), TYPE_STR, skip_optional 41 ln.2)
    else pure (.strval (fn_mid r.1 st.1 255), TYPE_STR, skip_optional 41 st.2)
  else .ok (.strval none, TYPE_STR, advance (skip_spaces s))

/-- `parse_variable(type)`. -/
def parse_variable (ev : evaluator) (s : state_t) : eval_result :=
  let varname := (read_variable_name (s.txtptr.getD []) []).1
  let s0 : state_t := match s.txtptr with
    | some t => { s with txtptr := some (read_variable_name t []).2 }
    | none => s
  if is_numeric_function varname then call_tokenized_function ev (function_token varname) s0
  else if is_string_function varname then
    call_tokenized_str_function ev (function_token varname) s0
  else if peek_char (skip_spaces s0) = 40 then do
    let r ← parse_subscripts ev 8 (advance (skip_spaces s0))
    let s2 ← if peek_char (skip_spaces r.2) = 41 then pure (advance (skip_spaces r.2))
             else syntax_error (skip_spaces r.2)
    let e ← array_element s2 varname r.1
    match read_element e.2.2 e.1 e.2.1 with
    | none => .unmodelled
    | some elem =>
      if varname.contains 36 then
        match elem.as_string with
        | some (some b) => pure (.strval (copy_string (some b)), TYPE_STR, e.2.2)
        | some none => pure (.strval none, TYPE_STR, e.2.2)
        | none => .unmodelled
      else pure (elem, TYPE_SNG, e.2.2)
  else
    let g := get_variable (skip_spaces s0) varname
    if g.2.1 = TYPE_STR then
      match g.1.as_string with
      | some (some b) => .ok (.strval (copy_string (some b)), TYPE_STR, g.2.2)
      | some none => .ok (.strval none, TYPE_STR, g.2.2)
      | none => .unmodelled
    else .ok g

/-- `expr_primary(type)`. -/
def expr_primary (ev : evaluator) (s : state_t) : eval_result :=
  let s0 := skip_spaces s
  let c := peek_char s0
  let c1 := ((s0.txtptr.getD []).drop 1).headD 0
  if (48 ≤ c ∧ c ≤ 57) ∨ (c = 46 ∧ 48 ≤ c1 ∧ c1 ≤ 57) then parse_number s0
  else if c = 34 then
    .ok (.strval (parse_string_literal s0).1, TYPE_STR, (parse_string_literal s0).2)
  else if c = 40 then do
    let r ← ev (advance s0)
    if peek_char (skip_spaces r.2.2) = 41 then pure (r.1, r.2.1, advance (skip_spaces r.2.2))
    else syntax_error (skip_spaces r.2.2)
  else if IS_ALPHA c then parse_variable ev s0
  else if c = 0xFF then
    let token := (0xFF <<< 8) ||| (get_next_char (advance s0)).1
    let s1 := advance (advance s0)
    if token = TOK_SQR ∨ token = TOK_SIN ∨ token = TOK_COS ∨ token = TOK_TAN ∨
        token = TOK_ATN ∨ token = TOK_LOG ∨ token = TOK_EXP ∨ token = TOK_ABS ∨
        token = TOK_SGN ∨ token = TOK_INT ∨ token = TOK_RND ∨ token = TOK_LEN ∨
        token = TOK_ASC ∨ token = TOK_VAL ∨ token = TOK_FRE then
      call_tokenized_function ev token s1
    else if token = TOK_CHR ∨ token = TOK_STR ∨ token = TOK_LEFT ∨ token = TOK_RIGHT ∨
        token = TOK_MID then
      call_tokenized_str_function ev token s1
    else .ok (.sngval ⟨0, 0⟩, TYPE_SNG, s1)
  else .ok (.sngval ⟨0, 0⟩, TYPE_SNG, s0)

/-- The state after `if (peek_char() == c) get_next_char();`. -/
def skip_raw (c : Nat) (s : state_t) : state_t := if peek_char s = c then advance s else s

/-- `expr_unary(type)`. -/
def expr_unary (ev : evaluator) : Nat → state_t → eval_result
  | 0, _ => .fuel
  | fuel + 1, s =>
    let s0 := skip_spaces s
    let p := match_token TOK_PLUS s0
    if p.1 || peek_char p.2 == 43 then expr_unary ev fuel (skip_raw 43 p.2)
    else
      let m := match_token TOK_MINUS p.2
      if m.1 || peek_char m.2 == 45 then do
        let r ← expr_unary ev fuel (skip_raw 45 m.2)
        if r.2.1 = TYPE_INT then
          match r.1.as_int with
          | some i => pure (.intval (wrap32 (-i)), r.2.1, r.2.2)
          | none => .unmodelled
        else if r.2.1 = TYPE_SNG then
          match r.1.as_single with
          | some x => pure (.sngval x.neg, r.2.1, r.2.2)
          | none => .unmodelled
        else if r.2.1 = TYPE_DBL then
          match r.1.as_double with
          | some x => pure (.dblval x.neg, r.2.1, r.2.2)
          | none => .unmodelled
        else syntax_error r.2.2
      else
        let n := match_token TOK_NOT m.2
        if n.1 then do
          let r ← expr_unary ev fuel n.2
          if r.2.1 = TYPE_INT then
            match r.1.as_int with
            | some i => pure (.intval (-i - 1), TYPE_INT, r.2.2)
            | none => .unmodelled
          else
            match r.1.as_single.bind dyadic.to_int with
            | some i => pure (.intval (-i - 1), TYPE_INT, r.2.2)
            | none => .unmodelled
        else expr_primary ev n.2

/-- The loop of `expr_power(type)`. The power itself (`pow`) is not modelled. -/
def expr_power_loop (unary : evaluator) (left : value_t) (type : Nat) (s : state_t) :
    eval_result :=
  let m := match_token TOK_POWER s
  if m.1 || peek_char m.2 == 94 then do
    let _ ← unary (skip_raw 94 m.2)
    .unmodelled
  else .ok (left, type, m.2)

/-- `expr_power(type)`. -/
def expr_power (unary : evaluator) (s : state_t) : eval_result := do
  let l ← unary s
  expr_power_loop unary l.1 l.2.1 l.2.2

/-- The operand conversion
`(type == TYPE_INT) ? (double)v.intval : (type == TYPE_SNG) ? (double)v.sngval : v.dblval`. -/
def to_double (v : value_t) (type : Nat) : Option dyadic :=
  if type = TYPE_INT then v.as_int.map dyadic.ofInt
  else if type = TYPE_SNG then v.as_single
  else v.as_double

/-- The operand conversion `(type == TYPE_INT) ? v.intval : (int)v.sngval`. -/
def to_int_operand (v : value_t) (type : Nat) : Option Int :=
  if type = TYPE_INT then v.as_int else v.as_single.bind dyadic.to_int

/-- The operation step of `expr_mult` for operator `op`
(`'*'`, `'/'`, `'\\'`, or `'%'` for MOD). -/
def mult_step (op : Nat) (left : value_t) (type : Nat) (right : value_t) (rtype : Nat)
    (s : state_t) : eval_result :=
  if op = 42 then
    if type = TYPE_INT ∧ rtype = TYPE_INT then
      match left.as_int, right.as_int with
      | some a, some b => .ok (.intval (wrap32 (a * b)), type, s)
      | _, _ => .unmodelled
    else
      match to_double left type, to_double right rtype with
      | some a, some b => .ok (.dblval (a.mul b), TYPE_DBL, s)
      | _, _ => .unmodelled
  else if op = 47 then
    match to_double left type, to_double right rtype with
    | some a, some b =>
      if b.num = 0 then error ERR_DIV_ZERO s else .ok (.dblval (a.div b), TYPE_DBL, s)
    | _, _ => .unmodelled
  else
    match to_int_operand left type, to_int_operand right rtype with
    | some a, some b =>
      if b = 0 then error ERR_DIV_ZERO s
      else if a = -2147483648 ∧ b = -1 then .unmodelled
      else if op = 92 then .ok (.intval (Int.tdiv a b), TYPE_INT, s)
      else .ok (.intval (Int.tmod a b), TYPE_INT, s)
    | _, _ => .unmodelled

/-- The loop of `expr_mult(type)`. -/
def expr_mult_loop (power : evaluator) : Nat → value_t → Nat → state_t → eval_result
  | 0, _, _, _ => .fuel
  | fuel + 1, left, type, s =>
    let s0 := skip_spaces s
    let m1 := match_token TOK_MULT s0
    if m1.1 || peek_char m1.2 == 42 then do
      let r ← power (skip_raw 42 m1.2)
      let v ← mult_step 42 left type r.1 r.2.1 r.2.2
      expr_mult_loop power fuel v.1 v.2.1 v.2.2
    else
      let m2 := match_token TOK_DIV m1.2
      if m2.1 || peek_char m2.2 == 47 then do
        let r ← power (skip_raw 47 m2.2)
        let v ← mult_step 47 left type r.1 r.2.1 r.2.2
        expr_mult_loop power fuel v.1 v.2.1 v.2.2
      else
        let m3 := match_token TOK_IDIV m2.2
        if m3.1 || peek_char m3.2 == 92 then do
          let r ← power (skip_raw 92 m3.2)
          let v ← mult_step 92 left type r.1 r.2.1 r.2.2
          expr_mult_loop power fuel v.1 v.2.1 v.2.2
        else
          let m4 := match_token TOK_MOD m3.2
          if m4.1 then do
            let r ← power m4.2
            let v ← mult_step 37 left type r.1 r.2.1 r.2.2
            expr_mult_loop power fuel v.1 v.2.1 v.2.2
          else .ok (left, type, m4.2)

/-- `expr_mult(type)`. -/
def expr_mult (power : evaluator) (fuel : Nat) (s : state_t) : eval_result := do
  let l ← power s
  expr_mult_loop power fuel l.1 l.2.1 l.2.2

/-- The operation step of `expr_add` for operator `op` (`'+'` or `'-'`). -/
def add_step (op : Nat) (left : value_t) (type : Nat) (right : value_t) (rtype : Nat)
    (s : state_t) : eval_result :=
  if type = TYPE_STR ∧ rtype = TYPE_STR ∧ op = 43 then
    match left.as_string, right.as_string with
    | some a, some b => do
      let str ← concat_strings s a b
      pure (.strval str, type, s)
    | _, _ => .unmodelled
  else if type = TYPE_INT ∧ rtype = TYPE_INT then
    match left.as_int, right.as_int with
    | some a, some b => .ok (.intval (wrap32 (if op = 43 then a + b else a - b)), type, s)
    | _, _ => .unmodelled
  else
    match to_double left type, to_double right rtype with
    | some a, some b => .ok (.dblval (if op = 43 then a.add b else a.sub b), TYPE_DBL, s)
    | _, _ => .unmodelled

/-- The loop of `expr_add(type)`. -/
def expr_add_loop (mult : evaluator) : Nat → value_t → Nat → state_t → eval_result
  | 0, _, _, _ => .fuel
  | fuel + 1, left, type, s =>
    let s0 := skip_spaces s
    let m1 := match_token TOK_PLUS s0
    if m1.1 || peek_char m1.2 == 43 then do
      let r ← mult (skip_raw 43 m1.2)
      let v ← add_step 43 left type r.1 r.2.1 r.2.2
      expr_add_loop mult fuel v.1 v.2.1 v.2.2
    else
      let m2 := match_token TOK_MINUS m1.2
      if m2.1 || peek_char m2.2 == 45 then do
        let r ← mult (skip_raw 45 m2.2)
        let v ← add_step 45 left type r.1 r.2.1 r.2.2
        expr_add_loop mult fuel v.1 v.2.1 v.2.2
      else .ok (left, type, m2.2)

/-- `expr_add(type)`. -/
def expr_add (mult : evaluator) (fuel : Nat) (s : state_t) : eval_result := do
  let l ← mult s
  expr_add_loop mult fuel l.1 l.2.1 l.2.2

/-- The comparison step of `expr_compare`; `op` is the token of the operator.
The result is Integer `-1` or `0`. -/
def compare_step (op : Nat) (left : value_t) (type : Nat) (right : value_t) (rtype : Nat)
    (s : state_t) : eval_result :=
  let result (b : Bool) : eval_result := .ok (.intval (if b then -1 else 0), TYPE_INT, s)
  if type = TYPE_STR ∧ rtype = TYPE_STR then
    match left.as_string, right.as_string with
    | some a, some b =>
      let cmp := compare_strings a b
      if op = TOK_EQ then result (decide (cmp = 0))
      else if op = TOK_NE then result (decide (cmp ≠ 0))
      else if op = TOK_LT then result (decide (cmp < 0))
      else if op = TOK_GT then result (decide (cmp > 0))
      else if op = TOK_LE then result (decide (cmp ≤ 0))
      else result (decide (cmp ≥ 0))
    | _, _ => .unmodelled
  else
    match to_double left type, to_double right rtype with
    | some a, some b =>
      if op = TOK_EQ then result (a.eq b)
      else if op = TOK_NE then result (!a.eq b)
      else if op = TOK_LT then result (a.lt b)
      else if op = TOK_GT then result (b.lt a)
      else if op = TOK_LE then result (a.le b)
      else result (b.le a)
    | _, _ => .unmodelled

/-- `expr_compare(type)`. -/
def expr_compare (add : evaluator) (s : state_t) : eval_result := do
  let l ← add s
  let s0 := skip_spaces l.2.2
  let m1 := match_token TOK_EQ s0
  if m1.1 || peek_char m1.2 == 61 then do
    let r ← add (skip_raw 61 m1.2)
    compare_step TOK_EQ l.1 l.2.1 r.1 r.2.1 r.2.2
  else
    let m2 := match_token TOK_NE m1.2
    if m2.1 then do
      let r ← add m2.2
      compare_step TOK_NE l.1 l.2.1 r.1 r.2.1 r.2.2
    else
      let m3 := match_token TOK_LT m2.2
      if m3.1 || peek_char m3.2 == 60 then do
        let r ← add (skip_raw 60 m3.2)
        compare_step TOK_LT l.1 l.2.1 r.1 r.2.1 r.2.2
      else
        let m4 := match_token TOK_GT m3.2
        if m4.1 || peek_char m4.2 == 62 then do
          let r ← add (skip_raw 62 m4.2)
          compare_step TOK_GT l.1 l.2.1 r.1 r.2.1 r.2.2
        else
          let m5 := match_token TOK_LE m4.2
          if m5.1 then do
            let r ← add m5.2
            compare_step TOK_LE l.1 l.2.1 r.1 r.2.1 r.2.2
          else
            let m6 := match_token TOK_GE m5.2
            if m6.1 then do
              let r ← add m6.2
              compare_step TOK_GE l.1 l.2.1 r.1 r.2.1 r.2.2
            else pure (l.1, l.2.1, m6.2)

/-- `expr_not(type)`. -/
def expr_not (compare : evaluator) (s : state_t) : eval_result := compare s

/-- The bitwise step of `expr_and` and `expr_or`; `op` is `'&'`, `'|'` or `'^'`. -/
def bitwise_step (op : Nat) (left : value_t) (type : Nat) (right : value_t) (rtype : Nat)
    (s : state_t) : eval_result :=
  match to_int_operand left type, to_int_operand right rtype with
  | some a, some b =>
    .ok (.intval (if op = 38 then Int.land a b else if op = 124 then Int.lor a b else Int.xor a b),
      TYPE_INT, s)
  | _, _ => .unmodelled

/-- The loop of `expr_and(type)`. -/
def expr_and_loop (not : evaluator) : Nat → value_t → Nat → state_t → eval_result
  | 0, _, _, _ => .fuel
  | fuel + 1, left, type, s =>
    let m := match_token TOK_AND s
    if m.1 then do
      let r ← not m.2
      let v ← bitwise_step 38 left type r.1 r.2.1 r.2.2
      expr_and_loop not fuel v.1 v.2.1 v.2.2
    else .ok (left, type, m.2)

/-- `expr_and(type)`. -/
def expr_and (not : evaluator) (fuel : Nat) (s : state_t) : eval_result := do
  let l ← not s
  expr_and_loop not fuel l.1 l.2.1 l.2.2

/-- The loop of `expr_or(type)`. -/
def expr_or_loop (and : evaluator) : Nat → value_t → Nat → state_t → eval_result
  | 0, _, _, _ => .fuel
  | fuel + 1, left, type, s =>
    let m1 := match_token TOK_OR s
    if m1.1 then do
      let r ← and m1.2
      let v ← bitwise_step 124 left type r.1 r.2.1 r.2.2
      expr_or_loop and fuel v.1 v.2.1 v.2.2
    else
      let m2 := match_token TOK_XOR m1.2
      if m2.1 then do
        let r ← and m2.2
        let v ← bitwise_step 94 left type r.1 r.2.1 r.2.2
        expr_or_loop and fuel v.1 v.2.1 v.2.2
      else .ok (left, type, m2.2)

/-- `expr_or(type)`. -/
def expr_or (and : evaluator) (fuel : Nat) (s : state_t) : eval_result := do
  let l ← and s
  expr_or_loop and fuel l.1 l.2.1 l.2.2

/-- `eval_expr(type)`: the precedence chain, with `fuel` bounding both the
nesting depth of the expression and the iterations of each operator loop. -/
def eval_expr : Nat → evaluator
  | 0 => fun _ => .fuel
  | fuel + 1 =>
    expr_or (expr_and (expr_not (expr_compare (expr_add (expr_mult (expr_power
      (expr_unary (eval_expr fuel) fuel)) fuel) fuel))) fuel) fuel

/-! ## `statements.c` -/

/-- The text of the line record with index `i`. -/
def line_text (s : state_t) (i : Nat) : List Nat :=
  match s.lines.get? i with
  | some l => l.text
  | none => []

/-- The jump common to `do_goto`, `do_gosub` and the line-number forms of
`do_if`: `line = find_line(target)`, `ERR_UNDEF_LINE` if there is none, else
`curlin`, `txtptr` and `curline_ptr` are set to the line. -/
def jump_to (target : Int) (s : state_t) : Res state_t :=
  match find_line s target with
  | none => error ERR_UNDEF_LINE s
  | some i => .ok { s with curlin := target, txtptr := some (line_text s i), curline_ptr := some i }

/-- The update `line = find_line(g_state->curlin); if (line) g_state->curline_ptr = line;`. -/
def update_curline_ptr (s : state_t) : state_t :=
  match find_line s s.curlin with
  | some i => { s with curline_ptr := some i }
  | none => s

/-- The code that skips `=` in `do_let` and `do_for`:
`if (peek_char() == '=' || match_token(TOK_EQ)) { if (peek_char() == '=')
get_next_char(); } else syntax_error();`, after `skip_spaces()`. -/
def expect_equals (s : state_t) : Res state_t :=
  if peek_char (skip_spaces s) = 61 then .ok (advance (skip_spaces s))
  else if (match_token TOK_EQ (skip_spaces s)).1 then
    .ok (skip_raw 61 (match_token TOK_EQ (skip_spaces s)).2)
  else syntax_error (match_token TOK_EQ (skip_spaces s)).2

/-- What `do_print` writes for a value of type `type`, and the column advance. -/
def print_value (val : value_t) (type : Nat) : Option (List Nat × Int) :=
  if type = TYPE_INT then val.as_int.map (fun i => (fmt_d i, 6))
  else if type = TYPE_SNG then (val.as_single.bind fmt_g).map (fun b => (b, 10))
  else if type = TYPE_DBL then (val.as_double.bind fmt_g).map (fun b => (b, 16))
  else if type = TYPE_STR then
    match val.as_string with
    | some (some b) => some (b.takeWhile (· ≠ 0), b.length)
    | some none => some ([], 0)
    | none => none
  else some ([], 0)

/-- The item loop of `do_print` with the locals `col` and `newline`. -/
def do_print_loop (ev : evaluator) : Nat → Int → Bool → state_t → Res state_t
  | 0, _, _, _ => .fuel
  | fuel + 1, col, newline, s =>
    let s0 := skip_spaces s
    if peek_char s0 = 0 ∨ peek_char s0 = 58 ∨ peek_char s0 = TOK_ELSE then
      .ok (if newline then put s0 [10] else s0)
    else if peek_char s0 = 59 then do_print_loop ev fuel col false (advance s0)
    else if peek_char s0 = 44 then do_print_loop ev fuel ((col / 14 + 1) * 14) false (advance s0)
    else if (match_token TOK_TAB s0).1 then do
      let t ← if peek_char (match_token TOK_TAB s0).2 = 40 then do
                let r ← eval_integer ev (advance (match_token TOK_TAB s0).2)
                pure (r.1, skip_raw 41 r.2)
              else eval_integer ev (match_token TOK_TAB s0).2
      do_print_loop ev fuel (max col t.1) false (put t.2 (List.replicate (t.1 - col).toNat 32))
    else do
      let r ← ev (match_token TOK_TAB s0).2
      match print_value r.1 r.2.1 with
      | some (bytes, width) => do_print_loop ev fuel (col + width) true (put r.2.2 bytes)
      | none => .unmodelled

/-- `do_print()`. -/
def do_print (ev : evaluator) (fuel : Nat) (s : state_t) : Res state_t :=
  do_print_loop ev fuel 0 true s

/-- `do_let()`. -/
def do_let (ev : evaluator) (s : state_t) : Res state_t :=
  let n := parse_name is_name_char (skip_spaces s)
  if peek_char (skip_spaces n.2) = 40 then do
    let r ← parse_subscripts ev 8 (advance (skip_spaces n.2))
    let s2 ← if peek_char (skip_spaces r.2) = 41 then pure (advance (skip_spaces r.2))
             else syntax_error (skip_spaces r.2)
    let s3 ← expect_equals s2
    let v ← ev s3
    let e ← array_element v.2.2 n.1 r.1
    pure (write_element e.2.2 e.1 e.2.1 v.1)
  else do
    let s3 ← expect_equals (skip_spaces n.2)
    let v ← ev s3
    set_variable v.2.2 n.1 v.1 v.2.1

/-- `skip_one_token()`. -/
def skip_one_token (s : state_t) : state_t :=
  if peek_char s = 0 then s
  else if peek_char s = 34 then
    match (advance s).txtptr with
    | some t =>
      skip_raw 34 { s with txtptr := some (t.dropWhile (fun c => c != 0 && c != 34)) }
    | none => advance s
  else if peek_char s = 0xFF then advance (advance s)
  else advance s

/-- The loop `while (peek_char() != '\0' && g_state->running) { ... }` of the
THEN branch of `do_if`, over the statement executor `exec`. -/
def then_loop (exec : state_t → Res state_t) : Nat → state_t → Res state_t
  | 0, _ => .fuel
  | fuel + 1, s =>
    if peek_char s ≠ 0 ∧ s.running = true then
      if peek_char s = TOK_ELSE then .ok (skip_to_eol s)
      else do
        let s1 ← exec s
        if peek_char (skip_spaces s1) = TOK_ELSE then pure (skip_to_eol (skip_spaces s1))
        else if peek_char (skip_spaces s1) = 58 then then_loop exec fuel (advance (skip_spaces s1))
        else pure (skip_spaces s1)
    else .ok s

/-- The loop that executes the ELSE part in `do_if`. -/
def else_loop (exec : state_t → Res state_t) : Nat → state_t → Res state_t
  | 0, _ => .fuel
  | fuel + 1, s =>
    if peek_char s ≠ 0 ∧ s.running = true then do
      let s1 ← exec s
      if peek_char (skip_spaces s1) = 58 then else_loop exec fuel (advance (skip_spaces s1))
      else pure (skip_spaces s1)
    else .ok s

/-- The scan for ELSE of the false branch of `do_if`. -/
def else_scan (exec : state_t → Res state_t) (ev : evaluator) (loop_fuel : Nat) :
    Nat → state_t → Res state_t
  | 0, _ => .fuel
  | fuel + 1, s =>
    if peek_char s = 0 then .ok s
    else if peek_char s = TOK_ELSE then
      if 48 ≤ peek_char (skip_spaces (advance s)) ∧ peek_char (skip_spaces (advance s)) ≤ 57 then do
        let t ← eval_integer ev (skip_spaces (advance s))
        jump_to t.1 t.2
      else else_loop exec loop_fuel (skip_spaces (advance s))
    else else_scan exec ev loop_fuel fuel (skip_one_token s)

/-- `do_if()`, over the statement executor `exec`. -/
def do_if (exec : state_t → Res state_t) (ev : evaluator) (fuel : Nat) (s : state_t) :
    Res state_t := do
  let c ← eval_numeric ev s
  let s1 := skip_spaces (match_token TOK_THEN (skip_spaces c.2)).2
  if c.1.num ≠ 0 then
    if 48 ≤ peek_char s1 ∧ peek_char s1 ≤ 57 then do
      let t ← eval_integer ev s1
      jump_to t.1 t.2
    else then_loop exec fuel s1
  else else_scan exec ev fuel ((s1.txtptr.getD []).length + 1) s1

/-- `do_goto()`. -/
def do_goto (ev : evaluator) (s : state_t) : Res state_t := do
  let t ← eval_integer ev s
  jump_to t.1 t.2

/-- `do_gosub()`. -/
def do_gosub (ev : evaluator) (s : state_t) : Res state_t :=
  if s.gosubsp ≥ STACK_SIZE then error ERR_OUT_OF_MEM s
  else do
    let t ← eval_integer ev s
    match find_line t.2 t.1 with
    | none => error ERR_UNDEF_LINE t.2
    | some i =>
      pure { t.2 with
        gosubstack := array_set t.2.gosubstack t.2.gosubsp ⟨t.2.curlin, t.2.txtptr⟩,
        gosubsp := t.2.gosubsp + 1,
        curlin := t.1, txtptr := some (line_text t.2 i), curline_ptr := some i }

/-- `do_return()`. -/
def do_return (s : state_t) : Res state_t :=
  if s.gosubsp = 0 then error ERR_RETURN s
  else
    .ok (update_curline_ptr { s with
      gosubsp := s.gosubsp - 1,
      curlin := (s.gosubstack (s.gosubsp - 1)).linenum,
      txtptr := (s.gosubstack (s.gosubsp - 1)).text })

/-- `do_for()`. -/
def do_for (ev : evaluator) (s : state_t) : Res state_t := do
  let n := parse_name is_plain_name_char (skip_spaces s)
  let s1 ← expect_equals n.2
  let start ← eval_numeric ev s1
  let s2 ← set_variable start.2 n.1 (.dblval start.1) TYPE_DBL
  let m := match_token TOK_TO (skip_spaces s2)
  if m.1 = false then syntax_error m.2
  else do
    let limit ← eval_numeric ev m.2
    let st := match_token TOK_STEP (skip_spaces limit.2)
    let step ← if st.1 then eval_numeric ev st.2 else pure (⟨1, 0⟩, st.2)
    if step.2.forsp ≥ STACK_SIZE then error ERR_OUT_OF_MEM step.2
    else
      pure { step.2 with
        forstack := array_set step.2.forstack step.2.forsp
          ⟨step.2.curlin, step.2.txtptr, n.1, limit.1, step.1⟩,
        forsp := step.2.forsp + 1 }

/-- `do_next()`. -/
def do_next (s : state_t) : Res state_t :=
  let s0 := skip_spaces s
  let named := IS_ALPHA (peek_char s0)
  let n := parse_name is_plain_name_char s0
  if s0.forsp = 0 then error ERR_NEXT_NO_FOR (if named then n.2 else s0)
  else
    let s1 := if named then n.2 else s0
    let varname := if named then n.1 else (s1.forstack (s1.forsp - 1)).varname
    let limit := (s1.forstack (s1.forsp - 1)).limit
    let step := (s1.forstack (s1.forsp - 1)).step
    let g := get_variable s1 varname
    match switch_double g.1 g.2.1 with
    | none => .unmodelled
    | some cur =>
      let current := cur.add step
      let done : Bool := if 0 ≤ step.num then limit.lt current else current.lt limit
      if done then .ok { g.2.2 with forsp := g.2.2.forsp - 1 }
      else do
        let s2 ← set_variable g.2.2 varname (.dblval current) TYPE_DBL
        pure (update_curline_ptr { s2 with
          curlin := (s2.forstack (s2.forsp - 1)).linenum,
          txtptr := (s2.forstack (s2.forsp - 1)).text })

/-- `do_while()`. When the condition is zero the code skips to the end of the
line and drops the entry it has just pushed. -/
def do_while (ev : evaluator) (s : state_t) : Res state_t :=
  if s.whilesp ≥ STACK_SIZE then error ERR_OUT_OF_MEM s
  else do
    let c ← eval_numeric ev s
    let s1 : state_t := { c.2 with
      whilestack := array_set c.2.whilestack c.2.whilesp ⟨c.2.curlin, c.2.txtptr⟩,
      whilesp := c.2.whilesp + 1 }
    if c.1.num = 0 then pure { skip_to_eol s1 with whilesp := s1.whilesp - 1 }
    else pure s1

/-- `do_wend()`. -/
def do_wend (s : state_t) : Res state_t :=
  if s.whilesp = 0 then syntax_error s
  else
    .ok (update_curline_ptr { s with
      whilesp := s.whilesp - 1,
      curlin := (s.whilestack (s.whilesp - 1)).linenum,
      txtptr := (s.whilestack (s.whilesp - 1)).text })

/-- The type suffix step of `do_dim`: name, type and state after an optional
suffix character. -/
def dim_suffix (name : List Nat) (s : state_t) : List Nat × Nat × state_t :=
  let c := peek_char s
  if c = 36 ∨ c = 37 ∨ c = 33 ∨ c = 35 then
    ((if name.length < NAMLEN then name ++ [c] else name),
      (if c = 36 then TYPE_STR else if c = 37 then TYPE_INT else if c = 35 then TYPE_DBL
       else TYPE_SNG),
      advance s)
  else (name, TYPE_SNG, s)

/-- `do_dim()`. -/
def do_dim (ev : evaluator) : Nat → state_t → Res state_t
  | 0, _ => .fuel
  | fuel + 1, s =>
    let n := parse_name is_plain_name_char (skip_spaces s)
    let sf := dim_suffix n.1 n.2
    if peek_char (skip_spaces sf.2.2) ≠ 40 then syntax_error (skip_spaces sf.2.2)
    else do
      let r ← parse_subscripts ev 8 (advance (skip_spaces sf.2.2))
      if peek_char (skip_spaces r.2) ≠ 41 then syntax_error (skip_spaces r.2)
      else do
        let s1 ← dimension_array (advance (skip_spaces r.2)) sf.1
          (r.1.map (fun d => wrap32 (d + 1))) sf.2.1
        if peek_char (skip_spaces s1) = 44 then do_dim ev fuel (advance (skip_spaces s1))
        else pure (skip_spaces s1)

/-- `list_program(start, end)`. -/
def list_program (start end_ : Int) : List line_t → List Nat
  | [] => []
  | l :: rest =>
    if is_end_marker l then []
    else
      (if start ≤ l.linenum ∧ l.linenum ≤ end_ then
        fmt_d l.linenum ++ [32] ++ detokenize_line l.text ++ [10] else []) ++
      (if l.linenum > end_ then [] else list_program start end_ rest)

/-- `do_list()`. -/
def do_list (ev : evaluator) (s : state_t) : Res state_t :=
  let s0 := skip_spaces s
  if 48 ≤ peek_char s0 ∧ peek_char s0 ≤ 57 then do
    let a ← eval_integer ev s0
    if peek_char (skip_spaces a.2) = 45 then
      let s1 := skip_spaces (advance (skip_spaces a.2))
      if 48 ≤ peek_char s1 ∧ peek_char s1 ≤ 57 then do
        let b ← eval_integer ev s1
        pure (put b.2 (list_program a.1 b.1 b.2.lines))
      else pure (put s1 (list_program a.1 MAXLIN s1.lines))
    else pure (put (skip_spaces a.2) (list_program a.1 a.1 a.2.lines))
  else .ok (put s0 (list_program 0 MAXLIN s0.lines))

/-- `do_end()`. -/
def do_end (s : state_t) : state_t := put { s with running := false, curlin := 0 } [10]

/-- `do_stop()`. -/
def do_stop (s : state_t) : state_t :=
  put { s with running := false } (cstr "Break in " ++ fmt_d s.curlin ++ [10])

/-- `do_cont()`. -/
def do_cont (s : state_t) : Res state_t :=
  if s.curlin = 0 then error ERR_CANT_CONT s else .ok { s with running := true }

/-- `do_sleep()`; the delay has no effect on the state. -/
def do_sleep (ev : evaluator) (s : state_t) : Res state_t :=
  let s0 := skip_spaces s
  if peek_char s0 ≠ 0 ∧ peek_char s0 ≠ 58 ∧ peek_char s0 ≠ TOK_ELSE then do
    let t ← eval_integer ev s0
    pure t.2
  else .ok s0

/-! ## `execute.c` -/

/-- `execute_statement()`. `fuel` bounds the nesting of statements (IF inside
IF), the depth of expressions and the iterations of every loop. The statements
`INPUT`, `RUN`, `LOAD`, `SAVE` and `SYSTEM` are not modelled. -/
def execute_statement : Nat → state_t → Res state_t
  | 0, _ => .fuel
  | fuel + 1, s =>
    let s0 := skip_spaces s
    if peek_char s0 = 0 then .ok s0
    else
      let s1 := if peek_char s0 = 58 then skip_spaces (advance s0) else s0
      let c := peek_char s1
      let ev := eval_expr (fuel + 1)
      if c = 0 then .ok s1
      else if c &&& 0x80 ≠ 0 then
        let token := if c = 0xFF then (c <<< 8) ||| (get_next_char (advance s1)).1 else c
        let s2 := if c = 0xFF then advance (advance s1) else advance s1
        if token = TOK_PRINT then do_print ev (fuel + 1) s2
        else if token = TOK_INPUT then .unmodelled
        else if token = TOK_LET then do_let ev s2
        else if token = TOK_IF then do_if (execute_statement fuel) ev (fuel + 1) s2
        else if token = TOK_GOTO then do_goto ev s2
        else if token = TOK_GOSUB then do_gosub ev s2
        else if token = TOK_RETURN then do_return s2
        else if token = TOK_FOR then do_for ev s2
        else if token = TOK_NEXT then do_next s2
        else if token = TOK_WHILE then do_while ev s2
        else if token = TOK_WEND then do_wend s2
        else if token = TOK_DIM then do_dim ev (fuel + 1) s2
        else if token = TOK_DATA then .ok (skip_to_eol s2)
        else if token = TOK_READ then error ERR_OUT_OF_DATA s2
        else if token = TOK_RESTORE then .ok { s2 with datlin := 0, datptr := none }
        else if token = TOK_END then .ok (do_end s2)
        else if token = TOK_STOP then .ok (do_stop s2)
        else if token = TOK_CONT then do_cont s2
        else if token = TOK_NEW then .ok (new_program s2)
        else if token = TOK_LIST then do_list ev s2
        else if token = TOK_RUN then .unmodelled
        else if token = TOK_LOAD then .unmodelled
        else if token = TOK_SAVE then .unmodelled
        else if token = TOK_SYSTEM then .unmodelled
        else if token = TOK_REM then .ok (skip_to_eol s2)
        else if token = TOK_TRON then .ok { s2 with tracing := true }
        else if token = TOK_TROFF then .ok { s2 with tracing := false }
        else if token = TOK_SLEEP then do_sleep ev s2
        else
          syntax_error (put s2 (cstr "Unknown statement token: " ++ fmt_02X token ++ [10]))
      else if IS_ALPHA c then do_let ev s1
      else syntax_error s1

/-- The loop `while (peek_char() != '\0' && g_state->running) { ... }` of
`run_program` that executes the statements of the current line, with the local
`prev_line`: the new state and the final `prev_line`. -/
def run_statements (fuel : Nat) : Nat → Int → state_t → Res (state_t × Int)
  | 0, _, _ => .fuel
  | n + 1, prev_line, s =>
    if peek_char s ≠ 0 ∧ s.running = true then do
      let s1 ← execute_statement fuel s
      if s1.curlin ≠ s.curlin then pure (s1, s.curlin)
      else if peek_char (skip_spaces s1) = 58 then
        run_statements fuel n s.curlin (advance (skip_spaces s1))
      else pure (skip_spaces s1, s.curlin)
    else .ok (s, prev_line)

/-- Whether the record after the one with index `i` is the end of the program:
the test `p[0] == 0 && p[1] == 0` at `p = line + line->len`. -/
def at_program_end (s : state_t) (i : Nat) : Bool :=
  match s.lines.get? (i + 1) with
  | some l => is_end_marker l
  | none => true

/-- The step "move to next line only if no jump occurred" of `run_program`. -/
def next_line (prev_line : Int) (s : state_t) : Res state_t :=
  if s.running = true ∧ s.curlin = prev_line then
    match s.curline_ptr with
    | none => .unmodelled
    | some i =>
      if at_program_end s i then .ok { s with running := false }
      else
        match s.lines.get? (i + 1) with
        | some l =>
          .ok { s with curlin := l.linenum, txtptr := some l.text, curline_ptr := some (i + 1) }
        | none => .unmodelled
  else .ok s

/-- The trace output `if (g_state->tracing && g_state->curlin >= 0)
printf("[%d]\n", g_state->curlin);` at the head of an iteration of the main
loop. -/
def trace_line (s : state_t) : state_t :=
  if s.tracing = true ∧ s.curlin ≥ 0 then put s ([91] ++ fmt_d s.curlin ++ [93, 10]) else s

/-- One iteration of the main loop `while (g_state->running) { ... }` of
`run_program`. -/
def run_line (fuel : Nat) (s : state_t) : Res state_t := do
  let r ← run_statements fuel fuel (trace_line s).curlin (trace_line s)
  next_line r.2 r.1

/-- The main loop of `run_program`, for at most `n` iterations. -/
def run_loop (fuel : Nat) : Nat → state_t → Res state_t
  | 0, s => if s.running = true then .fuel else .ok s
  | n + 1, s =>
    if s.running = true then do
      let s1 ← run_line fuel s
      run_loop fuel n s1
    else .ok s

/-- The error handler of `run_program` (the branch `setjmp(...) != 0`). -/
def run_error_handler (s : state_t) : state_t :=
  if s.errnum ≠ ERR_NONE then
    { put s (if s.curlin ≥ 0 then error_message s.errnum ++ cstr " in " ++ fmt_d s.errlin ++ [10]
             else error_message s.errnum ++ [10]) with errnum := ERR_NONE, running := false }
  else { s with running := false }

/-- `run_program(startline)`: `fuel` is the fuel of each statement, `n` the
number of iterations allowed to the main loop. An undefined start line raises
its error before the handler of this call is installed. -/
def run_program (fuel n : Nat) (startline : Int) (s : state_t) : Res state_t :=
  let s0 : state_t := { s with running := true }
  let start : Option Nat :=
    if startline = 0 then
      (match s0.lines with
       | [] => none
       | l :: _ => if is_end_marker l then none else some 0)
    else find_line s0 startline
  match start with
  | none =>
    if startline = 0 then .ok { s0 with running := false } else error ERR_UNDEF_LINE s0
  | some i =>
    match s0.lines.get? i with
    | none => .unmodelled
    | some l =>
      match run_loop fuel n { s0 with curlin := l.linenum, txtptr := some l.text,
                                       curline_ptr := some i } with
      | .error _ s1 => .ok (run_error_handler s1)
      | r => r

/-- The state after the REPL has read the program `prog` (line number and
source text of each line, in the order typed) into the store: every line is
tokenized and inserted. -/
def load_program (s : state_t) (prog : List (Int × String)) : state_t :=
  prog.foldl (fun st l => insert_line st l.1 (tokenize_line (cstr l.2))) s

/-- How often, during the first `n` iterations of the main loop started in
`s`, an iteration begins at the first statement of the line record with index
`i` (the line is entered from its start). -/
def line_entries (fuel : Nat) (i : Nat) : Nat → state_t → Nat
  | 0, _ => 0
  | n + 1, s =>
    (if s.running = true ∧ s.curline_ptr = some i ∧ s.txtptr = some (line_text s i) then 1 else 0) +
      (if s.running = true then
        match run_line fuel s with
        | .ok s1 => line_entries fuel i n s1
        | _ => 0
       else 0)

/-- What the outcome of a run has written to standard output. -/
def Res.output : Res state_t → Option (List Nat)
  | .ok s => some s.output
  | .error _ s => some s.output
  | _ => none

/-- The error an outcome raised, if it raised one. -/
def Res.raised {α : Type} : Res α → Option Nat
  | .error n _ => some n
  | _ => none

/-! ## Program texts -/

/-- The state `s` with the text pointer at the text `t`. -/
def set_txt (s : state_t) (t : List Nat) : state_t := { s with txtptr := some t }

/-- Whether an expression ends before the text `rest`: at the end of the line,
at `:`, `,`, `;`, `)`, or at one of the keywords `ELSE`, `TO`, `THEN`, `STEP`. -/
def ends_expression (rest : List Nat) : Bool :=
  rest.headD 0 == 0 || rest.headD 0 == 58 || rest.headD 0 == 44 || rest.headD 0 == 59 ||
  rest.headD 0 == 41 || rest.headD 0 == 0xA2 ||
  (rest.headD 0 == 0xFF &&
    ((rest.drop 1).headD 0 == 0x85 || (rest.drop 1).headD 0 == 0x86 ||
     (rest.drop 1).headD 0 == 0x88))

/-- The token bytes of the integer literal `n`, as `tokenize_line` writes them:
the decimal digits, after the token of `-` for a negative number. -/
def int_tokens (n : Int) : List Nat :=
  if n < 0 then [0xFF, 0x8A] ++ dec_digits n.natAbs else dec_digits n.natAbs

/-! ## Runs of the main loop -/

/-- The state after at most `n` iterations of the main loop
`while (g_state->running) { ... }` of `run_program` started in `s`; the loop
ends when `running` is cleared. -/
def run_lines (fuel : Nat) : Nat → state_t → Res state_t
  | 0, s => .ok s
  | n + 1, s =>
    if s.running = true then do
      let s1 ← run_line fuel s
      run_lines fuel n s1
    else .ok s

/-- The running interpreter is about to execute the line record with index `j`
from its first statement. -/
def at_line_start (j : Nat) (s : state_t) : Prop :=
  s.running = true ∧ s.curline_ptr = some j ∧
  ∃ l, s.lines[j]? = some l ∧ s.curlin = l.linenum ∧ s.txtptr = some l.text

/-- A program area as `insert_line` builds it for line numbers `1..65529`: the
line numbers ascend strictly and no record looks like the end marker. -/
def store_ok (L : List line_t) : Prop :=
  (L.map (fun l => l.linenum)).Pairwise (· < ·) ∧ ∀ l ∈ L, is_end_marker l = false

/-! ## FOR loops -/

/-- The tokens of the line `FOR I = a TO b`, or of `FOR I = a TO b STEP -1`
when `down` is set. -/
def for_tokens (a b : Int) (down : Bool) : List Nat :=
  [0x82, 73, 0xFF, 0x96] ++ int_tokens a ++ [0xFF, 0x85] ++ int_tokens b ++
    (if down then [0xFF, 0x88, 0xFF, 0x8A, 49] else []) ++ [0]

/-- The state of a program inside the loop `FOR I = ... TO limit` (with
`STEP step`) that was opened at FOR stack depth `sp` on the line numbered `lf`:
the program is `L`, the entry of the loop is on top of the FOR stack, and `I`
is a single-precision variable of value `x`. -/
def loop_context (L : List line_t) (lf : Int) (sp : Nat) (limit step x : Int)
    (s : state_t) : Prop :=
  s.lines = L ∧ s.forsp = sp + 1 ∧
  s.forstack sp = ⟨lf, some [0], [73], dyadic.ofInt limit, dyadic.ofInt step⟩ ∧
  (get_variable s [73]).1 = .sngval (dyadic.ofInt x) ∧ (get_variable s [73]).2.1 = TYPE_SNG

/-- The body of the loop, the lines from index `i + 1` up to the line of
`NEXT` at index `j`, neither assigns `I` nor jumps out: entered at its first
line inside the loop, it reaches the line of `NEXT` with the loop entry and
the value of `I` as they were, and does not enter its first line again on the
way. -/
def runs_body (fuel : Nat) (L : List line_t) (lf : Int) (sp : Nat) (limit step : Int)
    (i j : Nat) : Prop :=
  ∀ x s, at_line_start (i + 1) s → loop_context L lf sp limit step x s →
    ∃ m s', run_lines fuel m s = .ok s' ∧ line_entries fuel (i + 1) m s = 1 ∧
      at_line_start j s' ∧ loop_context L lf sp limit step x s'

/-! ## Simple statements -/

/-- A statement of a program text with the effect its execution has on the
state (text pointer aside). -/
structure statement where
  /-- The token bytes of the statement. -/
  text : List Nat
  /-- The state after the statement, from the state before it. -/
  effect : state_t → state_t

/-- The text of a list of statements, separated by `:`. -/
def join_statements : List statement → List Nat
  | [] => []
  | c :: cs => if cs.isEmpty then c.text else c.text ++ [58] ++ join_statements cs

/-- The effects of a list of statements, one after the other. -/
def run_effects (cs : List statement) (s : state_t) : state_t :=
  cs.foldl (fun st c => c.effect st) s

/-- Whether a statement ends before the text `rest`: at the end of the line,
at `:` or at `ELSE`. -/
def ends_statement (rest : List Nat) : Bool :=
  rest.headD 0 == 0 || rest.headD 0 == 58 || rest.headD 0 == 0xA2

/-- The statement `c` is simple for the statement executor `exec` (no IF, no
jump, no END): its text has no NUL byte and starts with a byte that begins a
statement; executed in a running program before a text that ends a statement,
`exec` consumes exactly the text of `c` and has the effect of `c`, which leaves
the program, the current line and `running` as they are. -/
def statement.simple (exec : state_t → Res state_t) (c : statement) : Prop :=
  (∀ b ∈ c.text, b ≠ 0) ∧
  (∃ b r, c.text = b :: r ∧ b ≠ 0xA2 ∧ ¬ (48 ≤ b ∧ b ≤ 57) ∧ b ≠ 32 ∧ b ≠ 9) ∧
  (∀ s, (c.effect s).running = s.running ∧ (c.effect s).curlin = s.curlin ∧
    (c.effect s).curline_ptr = s.curline_ptr ∧ (c.effect s).lines = s.lines) ∧
  (∀ s rest, s.running = true → ends_statement rest = true →
    exec (set_txt s (c.text ++ rest)) = .ok (set_txt (c.effect s) rest))

/-- Texts made of lexical items none of which is `ELSE` or the end of the
line: plain bytes, two-byte tokens, and closed string literals. These are the
texts `skip_one_token` steps through item by item. -/
inductive scannable : List Nat → Prop
  | nil : scannable []
  | byte (c : Nat) (r : List Nat) :
      c ≠ 0 → c ≠ 34 → c ≠ 0xFF → c ≠ 0xA2 → scannable r → scannable (c :: r)
  | token (d : Nat) (r : List Nat) : d ≠ 0 → scannable r → scannable (0xFF :: d :: r)
  | string (str r : List Nat) :
      (∀ c ∈ str, c ≠ 0 ∧ c ≠ 34) → scannable r → scannable (34 :: (str ++ 34 :: r))

/-- The tokens of the line `IF c THEN S1 ELSE S2`, for the tokens `cond` of the
condition. -/
def if_tokens (cond : List Nat) (S1 S2 : List statement) : List Nat :=
  [0x8B] ++ cond ++ [0xFF, 0x86] ++ join_statements S1 ++ [0xA2] ++ join_statements S2 ++ [0]

/-- The statement `PRINT "c"` for a character `c`. -/
def print_char_statement (ch : Nat) : statement :=
  ⟨[0x91, 34, ch, 34], fun s => put s [ch, 10]⟩

/-! ## Nested subroutine calls -/

/-- A `GOSUB` statement of a program together with the code that runs before
it is reached. -/
structure call_site where
  /-- The code executed up to the operand of the `GOSUB`. -/
  before : state_t → state_t
  /-- The line number the `GOSUB` names. -/
  target : Int
  /-- The text that follows the line number. -/
  rest : List Nat

/-- The code before a `GOSUB` of the program `L`: it leaves the program and
the entries of the GOSUB stack in use as they are, and ends with the text
pointer at the operand of the `GOSUB`, the number of a line of `L`. -/
def call_site.valid (L : List line_t) (c : call_site) : Prop :=
  0 ≤ c.target ∧ c.target ≤ 65529 ∧ ends_expression c.rest = true ∧
  find_line_in L c.target ≠ none ∧
  ∀ s, s.lines = L →
    (c.before s).lines = L ∧ (c.before s).gosubsp = s.gosubsp ∧
    (∀ k, k < s.gosubsp → (c.before s).gosubstack k = s.gosubstack k) ∧
    (c.before s).txtptr = some (int_tokens c.target ++ c.rest)

/-- The code before a `RETURN`: it leaves the entries of the GOSUB stack in use
as they are. -/
def keeps_gosub_stack (g : state_t → state_t) : Prop :=
  ∀ s, (g s).gosubsp = s.gosubsp ∧ ∀ k, k < s.gosubsp → (g s).gosubstack k = s.gosubstack k

/-- Nested calls: for each call site in turn, the code before it and then
`do_gosub`. -/
def nested_gosubs (ev : evaluator) : List call_site → state_t → Res state_t
  | [], s => .ok s
  | c :: cs, s => do
    let s1 ← do_gosub ev (c.before s)
    nested_gosubs ev cs s1

/-- The returns of nested calls: for each in turn, the code before the
`RETURN` and then `do_return`. -/
def nested_returns : List (state_t → state_t) → state_t → Res state_t
  | [], s => .ok s
  | g :: gs, s => do
    let s1 ← do_return (g s)
    nested_returns gs s1

/-! ## Sample programs -/

/-- The text `IF A THEN 10`, an identifier followed by a keyword. -/
def if_then_text : List Nat := cstr "IF A THEN 10"

/-- A store holding line 10 and, after a direct-mode use of `A`, one variable. -/
def store_with_variable : state_t :=
  (get_variable (load_program init_state [(10, "PRINT A")]) (cstr "A")).2.2

/-- The program
`10 WHILE 0` / `20 PRINT "X"` / `30 WEND` / `40 PRINT "DONE"`. -/
def while_false_program : state_t :=
  load_program init_state
    [(10, "WHILE 0"), (20, "PRINT \"X\""), (30, "WEND"), (40, "PRINT \"DONE\"")]

/-- The program
`10 X = 0` / `20 WHILE X < 3` / `30 X = X + 1` / `40 PRINT X` / `50 WEND`. -/
def while_count_program : state_t :=
  load_program init_state
    [(10, "X = 0"), (20, "WHILE X < 3"), (30, "X = X + 1"), (40, "PRINT X"), (50, "WEND")]

/-- The program
`10 GOSUB 100` / `20 END` / `100 GOSUB 200` / `110 RETURN` / `200 RETURN`. -/
def gosub_program : state_t :=
  load_program init_state
    [(10, "GOSUB 100"), (20, "END"), (100, "GOSUB 200"), (110, "RETURN"), (200, "RETURN")]

/-- The `GOSUB 100` of line 10 of `gosub_program`. -/
def gosub_site_10 : call_site :=
  ⟨fun s => { s with curlin := 10, txtptr := some (int_tokens 100 ++ [0]) }, 100, [0]⟩

/-- The `GOSUB 200` of line 100 of `gosub_program`, reached from the start of
that line. -/
def gosub_site_100 : call_site :=
  ⟨fun s => { s with txtptr := some (int_tokens 200 ++ [0]) }, 200, [0]⟩

/-- The state in which `run_program(0)` enters its main loop: `running` is set
and the text pointer is at the first line of the program. -/
def program_start (s : state_t) : state_t :=
  { s with running := true, curlin := (s.lines.headD default).linenum,
           txtptr := some (line_text s 0), curline_ptr := some 0 }

/-- The program
`10 FOR I = 1 TO 5` / `20 PRINT "X"` / `30 NEXT` / `40 PRINT "DONE"`. -/
def for_up_program : state_t :=
  load_program init_state
    [(10, "FOR I = 1 TO 5"), (20, "PRINT \"X\""), (30, "NEXT"), (40, "PRINT \"DONE\"")]

/-- The program
`10 FOR I = 5 TO 1 STEP -1` / `20 PRINT "X"` / `30 NEXT` / `40 PRINT "DONE"`. -/
def for_down_program : state_t :=
  load_program init_state
    [(10, "FOR I = 5 TO 1 STEP -1"), (20, "PRINT \"X\""), (30, "NEXT"), (40, "PRINT \"DONE\"")]

/-- The program
`10 FOR I = 16777216 TO 16777218` / `20 PRINT "X"` / `30 NEXT` /
`40 PRINT "DONE"`. -/
def for_large_program : state_t :=
  load_program init_state
    [(10, "FOR I = 16777216 TO 16777218"), (20, "PRINT \"X\""), (30, "NEXT"),
     (40, "PRINT \"DONE\"")]

/-- The program
`10 FOR I = 1 TO 0` / `20 PRINT "X"` / `30 NEXT` / `40 PRINT "DONE"`. -/
def for_beyond_program : state_t :=
  load_program init_state
    [(10, "FOR I = 1 TO 0"), (20, "PRINT \"X\""), (30, "NEXT"), (40, "PRINT \"DONE\"")]

/-- The program `10 IF 1 THEN PRINT "A" ELSE PRINT "B"` / `20 END`. -/
def if_true_program : state_t :=
  load_program init_state [(10, "IF 1 THEN PRINT \"A\" ELSE PRINT \"B\""), (20, "END")]

/-- The program `10 IF 0 THEN PRINT "A" ELSE PRINT "B"` / `20 END`. -/
def if_false_program : state_t :=
  load_program init_state [(10, "IF 0 THEN PRINT \"A\" ELSE PRINT \"B\""), (20, "END")]

/-! ## Expressions in source form -/

/-- The value and the type an evaluator function returned, if it returned. -/
def Res.value (r : eval_result) : Option (value_t × Nat) :=
  match r with
  | .ok v => some (v.1, v.2.1)
  | _ => none

/-- The outcome of `eval_expr` on the tokenized form of the source text `text`,
from the initial state. -/
def eval_source (text : String) : eval_result :=
  eval_expr 10 (set_txt init_state (tokenize_line (cstr text)))

/-! ## Operands of the division operators -/

/-- Every entry of the array table has the eight `dims` slots of
`struct array_s`. -/
def arrays_ok (s : state_t) : Prop := ∀ a ∈ s.arrlist, a.dims.length = 8

/-- What an entry of the array table holds apart from its `dims`. -/
def array_t.header (a : array_t) : List Nat × Nat × Nat × Int × Option (List value_t) :=
  (a.name, a.type, a.ndims, a.size, a.data)

/-- The array table in the state an outcome ended in. -/
def Res.arrays : Res state_t → Option (List array_t)
  | .ok s => some s.arrlist
  | .error _ s => some s.arrlist
  | _ => none

/-- The program `10 A(3) = 1`. -/
def first_use_program : state_t := load_program init_state [(10, "A(3) = 1")]

/-- The state after `DIM A(4)` in the initial state. -/
def dim_a4_state : state_t :=
  { init_state with
    arrlist := [⟨cstr "A", TYPE_SNG, 1, [5, 0, 0, 0, 0, 0, 0, 0], 5,
      some (List.replicate 5 .zero)⟩] }

/-! ## The order of strings, as specified -/

/-- Lexicographic order of byte strings in the words of the specification:
the first position at which the strings differ decides, by the order of the
bytes as unsigned numbers, and a proper prefix is less. -/
def spec_lex_lt : List Nat → List Nat → Bool
  | [], [] => false
  | [], _ :: _ => true
  | _ :: _, [] => false
  | a :: as, b :: bs => decide (a < b) || (a == b && spec_lex_lt as bs)

/-! ## Variables and their names -/

/-- What identifies a variable: its normalised name and its type. -/
def var_t.key (v : var_t) : List Nat × Nat := (v.name, v.type)

/-- No two variables of the list have the same normalised name and type, as
`find_variable` leaves it. -/
def vars_ok (s : state_t) : Prop := (s.varlist.map var_t.key).Nodup

/-- Whether `c` is one of the type suffixes `$`, `%`, `!`, `#`. -/
def is_type_suffix (c : Nat) : Bool := c == 36 || c == 37 || c == 33 || c == 35

/-- The type a suffix stands for. -/
def suffix_type (c : Nat) : Nat :=
  if c = 36 then TYPE_STR else if c = 37 then TYPE_INT else if c = 33 then TYPE_SNG else TYPE_DBL

/-- A name of `NAMLEN` letters. -/
def long_name : List Nat := List.replicate NAMLEN 88

/-- The program `10 X...X% = 5` / `20 PRINT X...X$` with a name of 40 letters. -/
def long_name_program : state_t :=
  load_program init_state
    [(10, "XXXXXXXXXXXXXXXXXXXXXXXXXXXXXXXXXXXXXXXX% = 5"),
     (20, "PRINT XXXXXXXXXXXXXXXXXXXXXXXXXXXXXXXXXXXXXXXX$")]

/-- The state after `X% = 5` in the initial state. -/
def x_int_state : state_t :=
  { init_state with varlist := [⟨cstr "X", TYPE_INT, .intval 5⟩], lastvar := some 0 }

/-! ## Sums and differences of literals -/

/-- Whether a number ends before the text `rest`: its first character is not a
digit, a point, an exponent letter or a type suffix. -/
def ends_number (rest : List Nat) : Bool :=
  !(48 ≤ rest.headD 0 && rest.headD 0 ≤ 57) && rest.headD 0 != 46 && rest.headD 0 != 69 &&
  rest.headD 0 != 101 && rest.headD 0 != 68 && rest.headD 0 != 100 && rest.headD 0 != 37 &&
  rest.headD 0 != 33 && rest.headD 0 != 35

/-- The operator `+` (`-` when `minus`) as it stands in a token buffer: the
token of the operator when `token` is set, else the character itself. -/
def additive_tokens (minus token : Bool) : List Nat :=
  if token then (if minus then emit_token TOK_MINUS else emit_token TOK_PLUS)
  else (if minus then [45] else [43])

/-- The source text of `a + b` (`a - b` when `minus`) for the decimal numerals
of `a` and `b`, with a space before the operator when `before` and one after
it when `after`. -/
def add_source (a b : Nat) (minus before after : Bool) : List Nat :=
  dec_digits a ++ (if before then [32] else []) ++ [if minus then 45 else 43] ++
    (if after then [32] else []) ++ dec_digits b

/-! ## Function names -/

/-- The built-in function names of `keywords[]` that end in `$`, with their
tokens. -/
def dollar_functions : List (List Nat × Nat) :=
  [(cstr "STR$", TOK_STR), (cstr "CHR$", TOK_CHR), (cstr "LEFT$", TOK_LEFT),
   (cstr "RIGHT$", TOK_RIGHT), (cstr "MID$", TOK_MID)]

/-- The other built-in function names of `keywords[]`, with their tokens. -/
def plain_functions : List (List Nat × Nat) :=
  [(cstr "SGN", TOK_SGN), (cstr "INT", TOK_INT), (cstr "ABS", TOK_ABS), (cstr "FRE", TOK_FRE),
   (cstr "SQR", TOK_SQR), (cstr "RND", TOK_RND), (cstr "SIN", TOK_SIN), (cstr "LOG", TOK_LOG),
   (cstr "EXP", TOK_EXP), (cstr "COS", TOK_COS), (cstr "TAN", TOK_TAN), (cstr "ATN", TOK_ATN),
   (cstr "PEEK", TOK_PEEK), (cstr "LEN", TOK_LEN), (cstr "VAL", TOK_VAL), (cstr "ASC", TOK_ASC),
   (cstr "INSTR", TOK_INSTR)]

/-- The lower-case form of an upper-case letter. -/
def downcase (c : Nat) : Nat := if 65 ≤ c ∧ c ≤ 90 then c + 32 else c

/-! ## `repl.c` -/

/-- `execute_direct(line)`: the statement is run with `curlin = -1` and
`running = 0`, an error ends it in the handler of this call, and the text
pointer and the line number are restored afterwards. -/
def execute_direct (fuel : Nat) (s : state_t) (line : List Nat) : Res state_t :=
  let s0 : state_t :=
    { s with txtptr := some (tokenize_line line), curlin := -1, running := false }
  let restore (s1 : state_t) : state_t := { s1 with txtptr := s.txtptr, curlin := s.curlin }
  match execute_statement fuel s0 with
  | .ok s1 => .ok (restore s1)
  | .error _ s1 =>
    .ok (restore (if s1.errnum ≠ ERR_NONE then
        { put s1 (error_message s1.errnum ++ [10]) with errnum := ERR_NONE }
      else s1))
  | .unmodelled => .unmodelled
  | .fuel => .fuel

/-- The state an outcome ended in, the initial state if there is none. -/
def Res.state (r : Res state_t) : state_t :=
  match r with
  | .ok s => s
  | .error _ s => s
  | _ => init_state

/-- The state after the program `10 END` has run. -/
def after_end_state : state_t :=
  (run_program 10 10 0 (load_program init_state [(10, "END")])).state

/-- The state after the program `10 STOP` / `20 PRINT "B"` has run. -/
def after_stop_state : state_t :=
  (run_program 10 10 0 (load_program init_state [(10, "STOP"), (20, "PRINT \"B\"")])).state

/-- The program `10 GOTO 10` / `20 PRINT "B"`. -/
def goto_self_program : state_t :=
  load_program init_state [(10, "GOTO 10"), (20, "PRINT \"B\"")]

/-- The program `10 PRINT "A": IF 1 THEN 10` / `20 PRINT "B"`. -/
def if_self_program : state_t :=
  load_program init_state [(10, "PRINT \"A\": IF 1 THEN 10"), (20, "PRINT \"B\"")]

/-- The program `10 GOTO 30` / `20 PRINT "B"` / `30 PRINT "C"`. -/
def goto_forward_program : state_t :=
  load_program init_state [(10, "GOTO 30"), (20, "PRINT \"B\""), (30, "PRINT \"C\"")]

/-- The program `10 PRINT "A"` / `20 GOTO 10`. -/
def goto_back_program : state_t :=
  load_program init_state [(10, "PRINT \"A\""), (20, "GOTO 10")]

/-- The program
`10 IF 0 THEN IF 1 THEN PRINT "A" ELSE PRINT "B" ELSE PRINT "C"`. -/
def nested_if_program : state_t :=
  load_program init_state
    [(10, "IF 0 THEN IF 1 THEN PRINT \"A\" ELSE PRINT \"B\" ELSE PRINT \"C\"")]

/-- The program `10 PRINT "A"` / `20 PRINT "B"`. -/
def two_line_program : state_t :=
  load_program init_state [(10, "PRINT \"A\""), (20, "PRINT \"B\"")]

/-! ## NOT before a comparison -/

/-- The source text `NOT a = b` for the decimal numerals of `a` and `b`. -/
def not_eq_source (a b : Nat) : List Nat :=
  cstr "NOT " ++ dec_digits a ++ cstr " = " ++ dec_digits b

/-! ## Assignment -/

/-- The program
`10 A% = 7: B# = 7: C% = 2.9: D% = -2.9` / `20 PRINT A%; B#; C%; D%`. -/
def assign_program : state_t :=
  load_program init_state
    [(10, "A% = 7: B# = 7: C% = 2.9: D% = -2.9"), (20, "PRINT A%; B#; C%; D%")]

/-! ## Strings as heap objects (`strings.c`)

The evaluator above treats a string as its bytes. The definitions of this
section follow the same functions at the level of pointers: a `string_t` and
its character buffer are blocks of an explicit memory, `malloc` is a parameter
that chooses the address of a new block, and an operation on a pointer that
does not point to a live block of the right kind has no result (`none`).
`malloc` always returns an address: exhaustion of memory is not modelled. -/

namespace Mem

/-- `struct string_s`: the length and the pointer to the characters (`none` is
`NULL`). -/
structure string_t where
  /-- Length of the string. -/
  len : Int
  /-- Address of the character buffer. -/
  ptr : Option Nat
deriving DecidableEq, Repr, Inhabited

/-- A block returned by `malloc`: a `string_t` or a character buffer. A byte of
a buffer is `none` as long as nothing was stored in it. -/
inductive block where
  | string (s : string_t)
  | chars (bytes : List (Option Nat))
deriving DecidableEq, Repr

/-- The live blocks with their addresses. -/
structure memory where
  /-- Address and content of each live block. -/
  cells : List (Nat × block)
deriving DecidableEq, Repr

/-- The live block at address `p`. -/
def memory.read (m : memory) (p : Nat) : Option block :=
  (m.cells.find? (fun c => c.1 == p)).map (fun c => c.2)

/-- The memory with the block `b` at address `p`. -/
def memory.write (m : memory) (p : Nat) (b : block) : memory :=
  ⟨(p, b) :: m.cells.filter (fun c => c.1 != p)⟩

/-- The memory without a block at address `p`. -/
def memory.release (m : memory) (p : Nat) : memory :=
  ⟨m.cells.filter (fun c => c.1 != p)⟩

/-- `free(p)`: defined for the address of a live block. -/
def free (m : memory) (p : Nat) : Option memory :=
  if (m.read p).isSome then some (m.release p) else none

/-- `memcpy(dest, src, n)` between two character buffers. -/
def memcpy (m : memory) (dest src : Nat) (n : Nat) : Option memory :=
  match m.read dest, m.read src with
  | some (.chars d), some (.chars s) =>
    if n ≤ d.length ∧ n ≤ s.length then some (m.write dest (.chars (s.take n ++ d.drop n)))
    else none
  | _, _ => none

/-- The assignment `buf[i] = c` to a character buffer. -/
def store_char (m : memory) (buf : Nat) (i : Nat) (c : Nat) : Option memory :=
  match m.read buf with
  | some (.chars d) => if i < d.length then some (m.write buf (.chars (d.set i (some c)))) else none
  | _ => none

/-- `alloc_string(len)`: the address of the new `string_t` and the new memory.
The buffer of `len + 1` bytes has its last byte set to 0. -/
def alloc_string (malloc : memory → Nat) (m : memory) (len : Int) : Nat × memory :=
  let str := malloc m
  let m1 := m.write str (.string default)
  if len > 0 then
    let ptr := malloc m1
    let m2 := m1.write ptr (.chars (List.replicate len.toNat none ++ [some 0]))
    (str, m2.write str (.string ⟨len, some ptr⟩))
  else (str, m1.write str (.string ⟨len, none⟩))

/-- `free_string(str)`. -/
def free_string (m : memory) (str : Option Nat) : Option memory :=
  match str with
  | none => some m
  | some p =>
    match m.read p with
    | some (.string s) =>
      match s.ptr with
      | some q => (free m q).bind (fun m1 => free m1 p)
      | none => free m p
    | _ => none

/-- The statements `memcpy(dest->ptr, src, n); dest->ptr[n] = '\0';` for the
`string_t` at `dest`. -/
def fill_string (m : memory) (dest : Nat) (src : Nat) (n : Nat) : Option memory :=
  match m.read dest with
  | some (.string d) =>
    match d.ptr with
    | some dq => (memcpy m dq src n).bind (fun m1 => store_char m1 dq n 0)
    | none => none
  | _ => none

/-- `copy_string(src)`. -/
def copy_string (malloc : memory → Nat) (m : memory) (src : Option Nat) :
    Option (Nat × memory) :=
  match src with
  | none => some (alloc_string malloc m 0)
  | some p =>
    match m.read p with
    | some (.string s) =>
      let d := alloc_string malloc m s.len
      match s.ptr with
      | some q =>
        if s.len > 0 then (fill_string d.2 d.1 q s.len.toNat).map (fun m1 => (d.1, m1))
        else some d
      | none => some d
    | _ => none

/-- `fn_left(s, n)`. -/
def fn_left (malloc : memory → Nat) (m : memory) (s : Option Nat) (n : Int) :
    Option (Nat × memory) :=
  match s with
  | none => some (alloc_string malloc m 0)
  | some p =>
    if n ≤ 0 then some (alloc_string malloc m 0)
    else
      match m.read p with
      | some (.string st) =>
        let n1 := if n > st.len then st.len else n
        let r := alloc_string malloc m n1
        match st.ptr with
        | some q => (fill_string r.2 r.1 q n1.toNat).map (fun m1 => (r.1, m1))
        | none => some r
      | _ => none

/-- `string_from_cstr(cstr)` for a non-null C string `cstr` (given without its
terminating NUL, which `strlen` stops at). -/
def string_from_cstr (malloc : memory → Nat) (m : memory) (bytes : List Nat) : Nat × memory :=
  let text := (bytes.takeWhile (· ≠ 0)).take 255
  let str := alloc_string malloc m text.length
  match str.2.read str.1 with
  | some (.string s) =>
    match s.ptr with
    | some q =>
      if text.length > 0 then
        (str.1, str.2.write q (.chars (text.map some ++ [some 0])))
      else str
    | none => str
  | _ => str

/-- The value of a string variable or of an element of a string array as an
operand (`parse_variable`): `slot` is the pointer stored in the variable or
element, and the result is a copy of it unless it is `NULL`. -/
def string_operand (malloc : memory → Nat) (m : memory) (slot : Option Nat) :
    Option (Option Nat × memory) :=
  match slot with
  | none => some (none, m)
  | some p => (copy_string malloc m (some p)).map (fun r => (some r.1, r.2))

/-- The call `LEFT$(sarg, n)` after its arguments were evaluated
(`call_string_function`): `fn_left(sarg, n)`, then `free_string(sarg)` if
`sarg` is not `NULL`. -/
def left_call (malloc : memory → Nat) (m : memory) (sarg : Option Nat) (n : Int) :
    Option (Nat × memory) :=
  (fn_left malloc m sarg n).bind (fun r => (free_string r.2 sarg).map (fun m1 => (r.1, m1)))

/-- `set_variable(name, val, type)` for a variable of type String whose value
is the pointer `old`: the old string is freed and the variable gets a copy of
`val`, or an empty string if `val` is not a string or is `NULL`. The result is
the new pointer of the variable. -/
def set_string_variable (malloc : memory → Nat) (m : memory) (old : Option Nat)
    (val : Option Nat) (type : Nat) : Option (Nat × memory) :=
  (free_string m old).bind (fun m1 =>
    if type = TYPE_STR ∧ val.isSome then copy_string malloc m1 val
    else some (alloc_string malloc m1 0))

/-- The characters of a part of a buffer, if all of them were stored. -/
def stored_bytes : List (Option Nat) → Option (List Nat)
  | [] => some []
  | none :: _ => none
  | some c :: r => (stored_bytes r).map (fun w => c :: w)

/-- The bytes of the string at `p`, if `p` points to a live `string_t` whose
buffer is live, has `len + 1` bytes and holds `len` stored characters; an
empty string has no buffer. -/
def string_value (m : memory) (p : Nat) : Option (List Nat) :=
  match m.read p with
  | some (.string s) =>
    match s.ptr with
    | none => if s.len = 0 then some [] else none
    | some q =>
      match m.read q with
      | some (.chars bytes) =>
        if 0 < s.len ∧ bytes.length = s.len.toNat + 1 then
          stored_bytes (bytes.take s.len.toNat)
        else none
      | _ => none
  | _ => none

/-- The addresses of the blocks of the string at `p`: the `string_t` and its
buffer. -/
def storage (m : memory) (p : Nat) : List Nat :=
  match m.read p with
  | some (.string s) => p :: s.ptr.toList
  | _ => [p]

/-- An allocator returns the address of no live block. -/
def fresh (malloc : memory → Nat) : Prop := ∀ m : memory, m.read (malloc m) = none

/-- Every live block of `m` is a block of `m1` with the same content. -/
def memory.kept (m m1 : memory) : Prop := ∀ a, m.read a ≠ none → m1.read a = m.read a

/-- The string `u` at `p` in `m1` is new with respect to `m`: its blocks were
not live in `m`, and every live block of `m` is unchanged in `m1`. -/
def allocated (m : memory) (p : Nat) (m1 : memory) (u : List Nat) : Prop :=
  m.read p = none ∧ m.kept m1 ∧ string_value m1 p = some u ∧ ∀ a ∈ storage m1 p, m.read a = none

/-- An allocator: the address after the highest address in use. -/
def bump (m : memory) : Nat := (m.cells.map (fun c => c.1)).foldl max 0 + 1

/-- An allocator that reuses freed blocks: the lowest address above 0 that is
not in use. -/
def first_fit (m : memory) : Nat :=
  ((List.range (m.cells.length + 2)).find?
    (fun a => decide (0 < a) && !(m.cells.map (fun c => c.1)).contains a)).getD (bump m)

/-- The memory in which the only string is `HELLO`, the value of `S$`. -/
def hello_memory : Nat × memory := string_from_cstr first_fit ⟨[]⟩ (cstr "HELLO")

/-- The values seen when `LEFT$(S$, 3)` is evaluated with `S$ = "HELLO"` and
`S$ = "X"` is executed afterwards, with an allocator that reuses freed blocks:
the result and `S$` after the call, and the result and `S$` after the
assignment. -/
def left_scenario : Option (Option (List Nat) × Option (List Nat) × Option (List Nat) ×
    Option (List Nat)) :=
  (string_operand first_fit hello_memory.2 (some hello_memory.1)).bind (fun a =>
    (left_call first_fit a.2 a.1 3).bind (fun b =>
      let x := string_from_cstr first_fit b.2 (cstr "X")
      (set_string_variable first_fit x.2 (some hello_memory.1) (some x.1) TYPE_STR).bind
        (fun c => some (string_value b.2 b.1, string_value b.2 hello_memory.1,
          string_value c.2 b.1, string_value c.2 c.1))))

end Mem

/-- The program `10 S$ = "HELLO"` / `20 T$ = LEFT$(S$, 3)` / `30 S$ = "X"` /
`40 PRINT T$; S$`. -/
def left_program : state_t :=
  load_program init_state
    [(10, "S$ = \"HELLO\""), (20, "T$ = LEFT$(S$, 3)"), (30, "S$ = \"X\""),
      (40, "PRINT T$; S$")]

/-- The program `10 S$ = "HELLO"` / `20 PRINT LEFT$(S$, 3); S$`. -/
def left_print_program : state_t :=
  load_program init_state [(10, "S$ = \"HELLO\""), (20, "PRINT LEFT$(S$, 3); S$")]

/-! ## The stack pointers -/

/-- The three stack pointers `forsp`, `gosubsp` and `whilesp`. -/
def pointers (s : state_t) : Nat × Nat × Nat := (s.forsp, s.gosubsp, s.whilesp)

/-- No stack holds more than `STACK_SIZE` entries. The pointers are natural
numbers in this embedding: the code decrements one only after it has tested
that it is not zero (`do_return`, `do_next`, `do_wend`) or right after it has
incremented it (`do_while`). -/
def stacks_ok (s : state_t) : Prop :=
  s.forsp ≤ STACK_SIZE ∧ s.gosubsp ≤ STACK_SIZE ∧ s.whilesp ≤ STACK_SIZE

/-- The outcome `r` ends in a state whose stack pointers are `k`, where `st`
gives the state of a normal return. -/
def Res.keeps {α : Type} (st : α → state_t) (k : Nat × Nat × Nat) (r : Res α) : Prop :=
  match r with
  | .ok a => pointers (st a) = k
  | .error _ s => pointers s = k
  | _ => True

/-- The outcome `r` ends in a state in which no stack holds more than
`STACK_SIZE` entries. -/
def Res.bounded {α : Type} (st : α → state_t) (r : Res α) : Prop :=
  match r with
  | .ok a => stacks_ok (st a)
  | .error _ s => stacks_ok s
  | _ => True

/-- The bound on the three stack pointers. -/
def within (k : Nat × Nat × Nat) : Prop :=
  k.1 ≤ STACK_SIZE ∧ k.2.1 ≤ STACK_SIZE ∧ k.2.2 ≤ STACK_SIZE

/-- An evaluator function leaves the stack pointers as they are, whatever
its outcome. -/
def evaluator.frame (ev : evaluator) : Prop :=
  ∀ s k, pointers s = k → (ev s).keeps (fun r => r.2.2) k

/-- The outcome `r` is not a normal return, and if it is an error the stack
pointers are `k` in the state it was raised in. -/
def Res.refuses {α : Type} (k : Nat × Nat × Nat) (r : Res α) : Prop :=
  match r with
  | .ok _ => False
  | .error _ s => pointers s = k
  | _ => True

/-- The states the interpreter can get into from the initial state: by storing
and deleting program lines, by commands in direct mode, by runs of the program,
and inside a run by single statements (whether they return or raise an error)
and by whole iterations of the main loop. -/
inductive reachable : state_t → Prop
  | init : reachable init_state
  | insert (s : state_t) (n : Int) (t : List Nat) : reachable s → reachable (insert_line s n t)
  | delete (s : state_t) (n : Int) : reachable s → reachable (delete_line s n)
  | direct (fuel : Nat) (s s1 : state_t) (line : List Nat) :
      reachable s → execute_direct fuel s line = .ok s1 → reachable s1
  | run (fuel n : Nat) (start : Int) (s s1 : state_t) :
      reachable s → run_program fuel n start s = .ok s1 → reachable s1
  | statement (fuel : Nat) (s s1 : state_t) :
      reachable s → execute_statement fuel s = .ok s1 → reachable s1
  | raised (fuel : Nat) (s s1 : state_t) (e : Nat) :
      reachable s → execute_statement fuel s = .error e s1 → reachable s1
  | line (fuel : Nat) (s s1 : state_t) :
      reachable s → run_line fuel s = .ok s1 → reachable s1

/-- The state after `FOR I = 1 TO 2` was entered in direct mode 50 times: the
FOR stack is full. -/
def full_for_state : state_t :=
  (fun s => (execute_direct 10 s (cstr "FOR I = 1 TO 2")).state)^[50] init_state

/-! ## Error codes of `gwbasic.h` without a caller in the modelled code -/

abbrev ERR_STRING_COMP : Nat := 16
abbrev ERR_UNDEF_USER : Nat := 18
abbrev ERR_NO_RESUME : Nat := 19
abbrev ERR_RESUME_NOERR : Nat := 20
abbrev ERR_BAD_MODE : Nat := 54

/-- The state in which a command typed at the prompt runs: `execute_direct`
has set `curlin = -1`. -/
def direct_state : state_t := { init_state with curlin := -1 }

/-! ## Row-major order, as specified -/

/-- The offset of the index tuple `is` in an array with the dimension sizes
`ds`, in the words of the specification: the sum over `j` of `i_j` times the
product of the sizes of the dimensions after `j`. -/
def spec_row_major : List Int → List Int → Int
  | _ :: ds, i :: is => i * ds.prod + spec_row_major ds is
  | _, _ => 0

/-- The index tuple `is` is in bounds for the dimension sizes `ds`: there is
one index for each dimension, and `0 <= i_j < d_j`. -/
def in_bounds (ds is : List Int) : Prop := List.Forall₂ (fun i d => 0 ≤ i ∧ i < d) is ds

/-- The state after `DIM A(2,3)` in the initial state. -/
def dim_a23_state : state_t :=
  { init_state with
    arrlist := [⟨cstr "A", TYPE_SNG, 2, [3, 4, 0, 0, 0, 0, 0, 0], 12,
      some (List.replicate 12 .zero)⟩] }

/-! ## The last-accessed cache of `find_variable` -/

/-- The cache `lastvar` is empty or points at an entry of `varlist`. -/
def cache_ok (s : state_t) : Prop :=
  s.lastvar = none ∨ ∃ i v, s.lastvar = some i ∧ s.varlist[i]? = some v

/-- A full search of the variable list for the normalised name and the type of
`name`, as the loop of `find_variable` does it without the cache: the index of
the first entry with that name and type. -/
def full_search (s : state_t) (name : List Nat) : Option Nat :=
  s.varlist.findIdx? (fun v => v.name == (normalize_name name).1 &&
    v.type == (normalize_name name).2)

/-- The states reached from one with no variables (as `main` sets it up) by
calls of `find_variable`, `set_variable`, `get_variable` and
`clear_variables`. -/
inductive variables_reachable : state_t → Prop
  | start (s : state_t) : s.varlist = [] → s.lastvar = none → variables_reachable s
  | find (s : state_t) (name : List Nat) (create : Bool) :
      variables_reachable s → variables_reachable (find_variable s name create).2
  | set (s s1 : state_t) (name : List Nat) (val : value_t) (type : Nat) :
      variables_reachable s → set_variable s name val type = .ok s1 → variables_reachable s1
  | get (s : state_t) (name : List Nat) :
      variables_reachable s → variables_reachable (get_variable s name).2.2
  | clear (s : state_t) : variables_reachable s → variables_reachable (clear_variables s)

/-- The state after `X% = 5` and a read of `Y`: two variables, the cache on
the second. -/
def two_variables_state : state_t := (get_variable x_int_state (cstr "Y")).2.2

/-! ## Numbers stored in array elements -/

/-- The program `10 DIM A(4)` / `20 A(1) = 3`. -/
def array_store_program : state_t :=
  load_program init_state [(10, "DIM A(4)"), (20, "A(1) = 3")]

/-- The program `10 DIM A(4)` / `20 A(1) = 1/2`. -/
def array_store_double_program : state_t :=
  load_program init_state [(10, "DIM A(4)"), (20, "A(1) = 1/2")]

/-- The program `10 DIM A(4)` / `20 A(1) = 3` / `30 PRINT A(1)`. -/
def array_print_program : state_t :=
  load_program init_state [(10, "DIM A(4)"), (20, "A(1) = 3"), (30, "PRINT A(1)")]

/-- The program `10 B = 3` / `20 PRINT B`. -/
def scalar_print_program : state_t :=
  load_program init_state [(10, "B = 3"), (20, "PRINT B")]

/-- The storage of the arrays in the state an outcome ended in. -/
def Res.array_data (r : Res state_t) : Option (List (Option (List value_t))) :=
  r.arrays.map (fun l => l.map (fun a => a.data))

/-- Whether an outcome is `unmodelled`: the code left the part of C that the
embedding gives a meaning to. -/
def Res.is_unmodelled {α : Type} (r : Res α) : Bool :=
  match r with
  | .unmodelled => true
  | _ => false

/-! ## GOSUB in a THEN clause, NEXT with a variable, IF in direct mode -/

/-- The program `10 IF 1 THEN GOSUB 100 ELSE PRINT "B"` / `20 PRINT "C"` /
`30 END` / `100 PRINT "S"` / `110 RETURN`. -/
def gosub_else_program : state_t :=
  load_program init_state [(10, "IF 1 THEN GOSUB 100 ELSE PRINT \"B\""), (20, "PRINT \"C\""),
    (30, "END"), (100, "PRINT \"S\""), (110, "RETURN")]

/-- The same program without the ELSE clause in line 10. -/
def gosub_then_program : state_t :=
  load_program init_state [(10, "IF 1 THEN GOSUB 100"), (20, "PRINT \"C\""),
    (30, "END"), (100, "PRINT \"S\""), (110, "RETURN")]

/-- The same program with `PRINT "A"` in the place of the GOSUB. -/
def print_else_program : state_t :=
  load_program init_state [(10, "IF 1 THEN PRINT \"A\" ELSE PRINT \"B\""), (20, "PRINT \"C\""),
    (30, "END"), (100, "PRINT \"S\""), (110, "RETURN")]

/-- The program `10 FOR I = 1 TO 2` / `20 FOR J = 1 TO 5` / `30 NEXT I` /
`40 PRINT I`. -/
def next_named_program : state_t :=
  load_program init_state [(10, "FOR I = 1 TO 2"), (20, "FOR J = 1 TO 5"), (30, "NEXT I"),
    (40, "PRINT I")]

/-- The program `10 IF 1 THEN PRINT "A"`. -/
def if_print_program : state_t := load_program init_state [(10, "IF 1 THEN PRINT \"A\"")]

/-- The program `10 IF 0 THEN PRINT "A" ELSE PRINT "B"`. -/
def if_else_print_program : state_t :=
  load_program init_state [(10, "IF 0 THEN PRINT \"A\" ELSE PRINT \"B\"")]

/-! ## A program that does not fit in the program area -/

/-- A tokenized line of 255 bytes: `REM` and a comment. -/
def long_line_text : List Nat := 0x8F :: List.replicate 253 65 ++ [0]

/-- The edits that enter `n` lines of 255 bytes, numbered `1` to `n`. -/
def long_line_edits (n : Nat) : List edit :=
  (List.range n).map (fun (k : Nat) => edit.insert ((k : Int) + 1) long_line_text)

/-- The records of `n` lines of 255 bytes, numbered `1` to `n`. -/
def long_line_records (n : Nat) : List line_t :=
  (List.range n).map (fun (k : Nat) => ⟨(k : Int) + 1, 266, long_line_text⟩)

/-! # Theorems -/

/-! ## The program line store -/

theorem insert_line_lines (s : state_t) (n : Int) (t : List Nat) :
    (insert_line s n t).lines = (insert_line_in s.lines n t).1 := by
  unfold insert_line
  split <;> rfl

theorem insert_line_in_hidden (l : line_t) (rest : List line_t) (n : Int) (t : List Nat)
    (h1 : is_end_marker l = true) :
    insert_line_in (l :: rest) n t = (⟨n, record_len t.length, t⟩ :: l :: rest, true) := by
  simp [insert_line_in, h1]

theorem insert_line_in_eq (l : line_t) (rest : List line_t) (n : Int) (t : List Nat)
    (h1 : ¬ is_end_marker l = true) (h2 : l.linenum = n) :
    insert_line_in (l :: rest) n t =
      ({ l with len := record_len t.length, text := t } :: rest, false) := by
  simp [insert_line_in, h1, h2]

theorem insert_line_in_gt (l : line_t) (rest : List line_t) (n : Int) (t : List Nat)
    (h1 : ¬ is_end_marker l = true) (h2 : ¬ l.linenum = n) (h3 : l.linenum > n) :
    insert_line_in (l :: rest) n t = (⟨n, record_len t.length, t⟩ :: l :: rest, true) := by
  simp [insert_line_in, h1, h2, h3]

theorem insert_line_in_lt (l : line_t) (rest : List line_t) (n : Int) (t : List Nat)
    (h1 : ¬ is_end_marker l = true) (h2 : ¬ l.linenum = n) (h3 : ¬ l.linenum > n) :
    insert_line_in (l :: rest) n t =
      (l :: (insert_line_in rest n t).1, (insert_line_in rest n t).2) := by
  simp only [insert_line_in, h1, h2, h3, if_false, Bool.false_eq_true]

theorem delete_line_in_hidden (l : line_t) (rest : List line_t) (n : Int)
    (h1 : is_end_marker l = true) :
    delete_line_in (l :: rest) n = (l :: rest, false) := by
  simp [delete_line_in, h1]

theorem delete_line_in_eq (l : line_t) (rest : List line_t) (n : Int)
    (h1 : ¬ is_end_marker l = true) (h2 : l.linenum = n) :
    delete_line_in (l :: rest) n = (rest, true) := by
  simp [delete_line_in, h1, h2]

theorem delete_line_in_ne (l : line_t) (rest : List line_t) (n : Int)
    (h1 : ¬ is_end_marker l = true) (h2 : ¬ l.linenum = n) :
    delete_line_in (l :: rest) n =
      (l :: (delete_line_in rest n).1, (delete_line_in rest n).2) := by
  simp only [delete_line_in, h1, h2, if_false, Bool.false_eq_true]

theorem delete_line_in_unchanged (n : Int) (ls : List line_t) :
    (delete_line_in ls n).2 = false → (delete_line_in ls n).1 = ls := by
  induction ls with
  | nil => intro _; rfl
  | cons l rest ih =>
    intro h2
    by_cases h3 : is_end_marker l = true
    · simp [delete_line_in, h3]
    · by_cases h4 : l.linenum = n
      · simp [delete_line_in, h3, h4] at h2
      · rw [delete_line_in_ne _ _ _ h3 h4] at h2 ⊢
        exact congrArg (l :: ·) (ih h2)

theorem delete_line_lines (s : state_t) (n : Int) :
    (delete_line s n).lines = (delete_line_in s.lines n).1 := by
  unfold delete_line
  split
  · rfl
  · rename_i h
    exact (delete_line_in_unchanged n s.lines (by simpa using h)).symm

theorem walk_cons_visible (l : line_t) (rest : List line_t) (h : ¬ is_end_marker l = true) :
    walk_linenums (l :: rest) = l.linenum :: walk_linenums rest := by
  simp [walk_linenums, h]

theorem walk_cons_hidden (l : line_t) (rest : List line_t) (h : is_end_marker l = true) :
    walk_linenums (l :: rest) = [] := by
  simp [walk_linenums, h]

theorem walk_new_cons (n : Int) (k : Nat) (t : List Nat) (rest : List line_t) :
    walk_linenums (⟨n, k, t⟩ :: rest) = [] ∨
      walk_linenums (⟨n, k, t⟩ :: rest) = n :: walk_linenums rest := by
  by_cases h : is_end_marker ⟨n, k, t⟩ = true
  · exact Or.inl (walk_cons_hidden _ _ h)
  · exact Or.inr (walk_cons_visible _ _ h)

theorem walk_insert_mem (ls : List line_t) (n : Int) (t : List Nat) :
    ∀ x ∈ walk_linenums (insert_line_in ls n t).1, x = n ∨ x ∈ walk_linenums ls := by
  induction ls with
  | nil =>
    intro x hx
    simp only [insert_line_in] at hx
    rcases walk_new_cons n (record_len t.length) t [] with h | h
    · rw [h] at hx; simp at hx
    · rw [h] at hx; simp [walk_linenums] at hx; exact Or.inl hx
  | cons l rest ih =>
    intro x hx
    by_cases h1 : is_end_marker l = true
    · rw [insert_line_in_hidden _ _ _ _ h1] at hx
      rcases walk_new_cons n (record_len t.length) t (l :: rest) with h | h
      · rw [h] at hx; simp at hx
      · rw [h, walk_cons_hidden _ _ h1] at hx; simp at hx; exact Or.inl hx
    · by_cases h2 : l.linenum = n
      · rw [insert_line_in_eq _ _ _ _ h1 h2] at hx
        have h1' : ¬ is_end_marker { l with len := record_len t.length, text := t } = true := h1
        rw [walk_cons_visible _ _ h1'] at hx
        rw [walk_cons_visible _ _ h1]
        simp at hx ⊢
        rcases hx with hx | hx
        · exact Or.inr (Or.inl (by rw [hx, h2]))
        · exact Or.inr (Or.inr hx)
      · by_cases h3 : l.linenum > n
        · rw [insert_line_in_gt _ _ _ _ h1 h2 h3] at hx
          rcases walk_new_cons n (record_len t.length) t (l :: rest) with h | h
          · rw [h] at hx; simp at hx
          · rw [h] at hx
            rcases List.mem_cons.mp hx with hx | hx
            · exact Or.inl hx
            · exact Or.inr hx
        · rw [insert_line_in_lt _ _ _ _ h1 h2 h3] at hx
          rw [walk_cons_visible _ _ h1] at hx ⊢
          rcases List.mem_cons.mp hx with hx | hx
          · exact Or.inr (List.mem_cons.mpr (Or.inl hx))
          · rcases ih x hx with h | h
            · exact Or.inl h
            · exact Or.inr (List.mem_cons.mpr (Or.inr h))

theorem walk_insert_sorted (ls : List line_t) (n : Int) (t : List Nat)
    (h : (walk_linenums ls).Pairwise (· < ·)) :
    (walk_linenums (insert_line_in ls n t).1).Pairwise (· < ·) := by
  induction ls with
  | nil =>
    simp only [insert_line_in]
    rcases walk_new_cons n (record_len t.length) t [] with h | h
    · rw [h]; simp
    · rw [h]; simp [walk_linenums]
  | cons l rest ih =>
    by_cases h1 : is_end_marker l = true
    · rw [insert_line_in_hidden _ _ _ _ h1]
      rcases walk_new_cons n (record_len t.length) t (l :: rest) with h | h
      · rw [h]; simp
      · rw [h, walk_cons_hidden _ _ h1]; simp
    · rw [walk_cons_visible _ _ h1, List.pairwise_cons] at h
      by_cases h2 : l.linenum = n
      · rw [insert_line_in_eq _ _ _ _ h1 h2]
        have h1' : ¬ is_end_marker { l with len := record_len t.length, text := t } = true := h1
        rw [walk_cons_visible _ _ h1', List.pairwise_cons]
        exact h
      · by_cases h3 : l.linenum > n
        · rw [insert_line_in_gt _ _ _ _ h1 h2 h3]
          rcases walk_new_cons n (record_len t.length) t (l :: rest) with h4 | h4
          · rw [h4]; simp
          · rw [h4, walk_cons_visible _ _ h1, List.pairwise_cons, List.pairwise_cons]
            refine ⟨?_, h.1, h.2⟩
            intro a ha
            rcases List.mem_cons.mp ha with ha | ha
            · rw [ha]; exact h3
            · exact lt_trans h3 (h.1 a ha)
        · rw [insert_line_in_lt _ _ _ _ h1 h2 h3]
          rw [walk_cons_visible _ _ h1, List.pairwise_cons]
          refine ⟨?_, ih h.2⟩
          intro a ha
          rcases walk_insert_mem rest n t a ha with ha | ha
          · rw [ha]; omega
          · exact h.1 a ha

theorem walk_delete_sublist (ls : List line_t) (n : Int) :
    (walk_linenums (delete_line_in ls n).1).Sublist (walk_linenums ls) := by
  induction ls with
  | nil => simp [delete_line_in]
  | cons l rest ih =>
    by_cases h1 : is_end_marker l = true
    · simp [delete_line_in, h1]
    · by_cases h2 : l.linenum = n
      · rw [delete_line_in_eq _ _ _ h1 h2]
        rw [walk_cons_visible _ _ h1]
        exact List.sublist_cons_self _ _
      · rw [delete_line_in_ne _ _ _ h1 h2]
        rw [walk_cons_visible _ _ h1, walk_cons_visible _ _ h1]
        exact ih.cons₂ _

theorem walk_apply_edit_sorted (s : state_t) (e : edit)
    (h : (walk_linenums s.lines).Pairwise (· < ·)) :
    (walk_linenums (apply_edit s e).lines).Pairwise (· < ·) := by
  cases e with
  | insert n t =>
    simp only [apply_edit, insert_line_lines]
    exact walk_insert_sorted _ _ _ h
  | delete n =>
    simp only [apply_edit, delete_line_lines]
    exact h.sublist (walk_delete_sublist _ _)

theorem walk_apply_edits_sorted (es : List edit) (s : state_t)
    (h : (walk_linenums s.lines).Pairwise (· < ·)) :
    (walk_linenums (apply_edits s es).lines).Pairwise (· < ·) := by
  induction es generalizing s with
  | nil => exact h
  | cons e es ih => exact ih _ (walk_apply_edit_sorted s e h)

theorem found_line_in_cons (l : line_t) (rest : List line_t) (m : Int) :
    found_line_in (l :: rest) m =
      if is_end_marker l = true then none
      else if l.linenum = m then some (l.linenum, l.text)
      else if l.linenum > m then none
      else found_line_in rest m := by
  by_cases h1 : is_end_marker l = true
  · simp [found_line_in, find_line_in, h1]
  · by_cases h2 : l.linenum = m
    · simp [found_line_in, find_line_in, h1, h2]
    · by_cases h3 : l.linenum > m
      · simp [found_line_in, find_line_in, h1, h2, h3]
      · simp only [found_line_in, find_line_in, h1, h2, h3, if_false, Bool.false_eq_true]
        cases find_line_in rest m with
        | none => rfl
        | some i => rfl

theorem found_line_in_new (n m : Int) (k : Nat) (t : List Nat) (rest : List line_t)
    (hn : n % 65536 ≠ 0) :
    found_line_in (⟨n, k, t⟩ :: rest) m =
      if n = m then some (n, t) else if n > m then none else found_line_in rest m := by
  have h : ¬ is_end_marker ⟨n, k, t⟩ = true := by simp [is_end_marker, hn]
  rw [found_line_in_cons, if_neg h]

theorem found_line_in_insert (ls : List line_t) (n m : Int) (t : List Nat)
    (hn : n % 65536 ≠ 0) :
    found_line_in (insert_line_in ls n t).1 m =
      if m = n then some (n, t) else found_line_in ls m := by
  induction ls with
  | nil =>
    simp only [insert_line_in]
    rw [found_line_in_new _ _ _ _ _ hn]
    by_cases h : n = m
    · simp [h]
    · have h' : ¬ m = n := fun e => h e.symm
      simp [h, h', found_line_in, find_line_in]
  | cons l rest ih =>
    by_cases h1 : is_end_marker l = true
    · rw [insert_line_in_hidden _ _ _ _ h1, found_line_in_new _ _ _ _ _ hn]
      by_cases h : n = m
      · simp [h]
      · have h' : ¬ m = n := fun e => h e.symm
        simp [h, h', found_line_in_cons, h1]
    · by_cases h2 : l.linenum = n
      · rw [insert_line_in_eq _ _ _ _ h1 h2]
        have h1' : ¬ is_end_marker { l with len := record_len t.length, text := t } = true := h1
        rw [found_line_in_cons, found_line_in_cons]
        simp only [h1, h1', if_false]
        by_cases h : n = m
        · simp [h2, h]
        · have h' : ¬ m = n := fun e => h e.symm
          simp [h2, h, h']
      · by_cases h3 : l.linenum > n
        · rw [insert_line_in_gt _ _ _ _ h1 h2 h3, found_line_in_new _ _ _ _ _ hn]
          by_cases h : n = m
          · simp [h]
          · have h' : ¬ m = n := fun e => h e.symm
            simp only [h, h', if_false]
            by_cases h4 : n > m
            · have h5 : ¬ l.linenum = m := by omega
              have h6 : l.linenum > m := by omega
              simp [h4, found_line_in_cons, h1, h5, h6]
            · simp [h4]
        · rw [insert_line_in_lt _ _ _ _ h1 h2 h3, found_line_in_cons, found_line_in_cons, ih]
          simp only [h1, if_false]
          by_cases h : m = n
          · subst h
            simp [h2, h3]
          · simp [h]

theorem found_line_in_above (ls : List line_t) (n m : Int) (hm : m ≤ n)
    (h : ∀ x ∈ walk_linenums ls, n < x) : found_line_in ls m = none := by
  cases ls with
  | nil => simp [found_line_in, find_line_in]
  | cons l rest =>
    rw [found_line_in_cons]
    by_cases h1 : is_end_marker l = true
    · simp [h1]
    · rw [walk_cons_visible _ _ h1] at h
      have := h l.linenum (List.mem_cons_self _ _)
      have h5 : ¬ l.linenum = m := by omega
      have h6 : l.linenum > m := by omega
      simp [h1, h5, h6]

theorem found_line_in_delete (ls : List line_t) (n m : Int)
    (hs : (walk_linenums ls).Pairwise (· < ·)) :
    found_line_in (delete_line_in ls n).1 m =
      if m = n then none else found_line_in ls m := by
  induction ls with
  | nil => simp [delete_line_in, found_line_in, find_line_in]
  | cons l rest ih =>
    by_cases h1 : is_end_marker l = true
    · rw [delete_line_in_hidden _ _ _ h1, found_line_in_cons]
      simp [h1]
    · rw [walk_cons_visible _ _ h1, List.pairwise_cons] at hs
      by_cases h2 : l.linenum = n
      · rw [delete_line_in_eq _ _ _ h1 h2, found_line_in_cons]
        simp only [h1, if_false]
        by_cases h : m = n
        · simp only [h, if_true]
          exact found_line_in_above rest n n (le_refl _) (fun x hx => h2 ▸ hs.1 x hx)
        · have h5 : ¬ l.linenum = m := by omega
          simp only [h, h5, if_false]
          by_cases h6 : l.linenum > m
          · simp only [h6, if_true]
            exact found_line_in_above rest n m (by omega) (fun x hx => h2 ▸ hs.1 x hx)
          · simp [h6]
      · rw [delete_line_in_ne _ _ _ h1 h2, found_line_in_cons, found_line_in_cons, ih hs.2]
        simp only [h1, if_false]
        by_cases h : m = n
        · subst h
          simp [h2]
        · simp [h]

theorem insert_line_overrun (s : state_t) (n : Int) (t : List Nat) :
    (insert_line s n t).overrun =
      (s.overrun || decide (PROGRAM_SIZE < area_bytes (insert_line_in s.lines n t).1)) := by
  unfold insert_line
  split <;> rfl

theorem delete_line_overrun (s : state_t) (n : Int) : (delete_line s n).overrun = s.overrun := by
  unfold delete_line
  split <;> rfl

theorem area_bytes_cons (l : line_t) (ls : List line_t) :
    area_bytes (l :: ls) = l.len + area_bytes ls := by
  simp [area_bytes, Nat.add_assoc]

theorem area_bytes_delete_le (ls : List line_t) (n : Int) :
    area_bytes (delete_line_in ls n).1 ≤ area_bytes ls := by
  induction ls with
  | nil => simp [delete_line_in]
  | cons l rest ih =>
    by_cases h1 : is_end_marker l = true
    · rw [delete_line_in_hidden _ _ _ h1]
    · by_cases h2 : l.linenum = n
      · rw [delete_line_in_eq _ _ _ h1 h2, area_bytes_cons]
        simp only []
        omega
      · rw [delete_line_in_ne _ _ _ h1 h2, area_bytes_cons, area_bytes_cons]
        omega

/-- As long as no `insert_line` has written past the end of the program area,
the program lies within its `PROGRAM_SIZE` bytes. -/
theorem apply_edits_within_area (es : List edit) (s : state_t)
    (h : s.overrun = false → area_bytes s.lines ≤ PROGRAM_SIZE)
    (hfit : (apply_edits s es).overrun = false) :
    area_bytes (apply_edits s es).lines ≤ PROGRAM_SIZE := by
  induction es generalizing s with
  | nil => exact h hfit
  | cons e es ih =>
    refine ih (apply_edit s e) ?_ hfit
    cases e with
    | insert n t =>
      intro ho
      simp only [apply_edit, insert_line_overrun, Bool.or_eq_false_iff,
        decide_eq_false_iff_not] at ho
      simp only [apply_edit, insert_line_lines]
      omega
    | delete n =>
      intro ho
      simp only [apply_edit, delete_line_overrun] at ho
      simp only [apply_edit, delete_line_lines]
      exact le_trans (area_bytes_delete_le _ _) (h ho)

theorem apply_edits_overrun (es : List edit) (s : state_t) (h : s.overrun = true) :
    (apply_edits s es).overrun = true := by
  induction es generalizing s with
  | nil => exact h
  | cons e es ih =>
    refine ih (apply_edit s e) ?_
    cases e with
    | insert n t => simp [apply_edit, insert_line_overrun, h]
    | delete n => simp [apply_edit, delete_line_overrun, h]

theorem long_line_text_length : long_line_text.length = 255 := by
  unfold long_line_text
  rw [List.length_append, List.length_cons, List.length_replicate]
  rfl

theorem long_line_record_len : record_len long_line_text.length = 266 := by
  rw [long_line_text_length]
  decide

theorem insert_line_in_append (ls : List line_t) (n : Int) (t : List Nat)
    (h : ∀ l ∈ ls, is_end_marker l = false ∧ l.linenum < n) :
    insert_line_in ls n t = (ls ++ [⟨n, record_len t.length, t⟩], true) := by
  induction ls with
  | nil => simp [insert_line_in]
  | cons l rest ih =>
    obtain ⟨h1, h2⟩ := h l (List.mem_cons_self _ _)
    have h3 : ¬ l.linenum = n := by omega
    have h4 : ¬ l.linenum > n := by omega
    rw [insert_line_in, ih (fun x hx => h x (List.mem_cons_of_mem _ hx))]
    simp [h1, h3, h4]

theorem area_bytes_append (ls : List line_t) (l : line_t) :
    area_bytes (ls ++ [l]) = area_bytes ls + l.len := by
  simp [area_bytes]
  omega

theorem long_line_records_succ (k : Nat) :
    long_line_records (k + 1) = long_line_records k ++ [⟨(k : Int) + 1, 266, long_line_text⟩] := by
  simp [long_line_records, List.range_succ]

theorem long_line_records_below (k : Nat) (n : Int) (hk : (k : Int) < n) (hn : n < 65536) :
    ∀ l ∈ long_line_records k, is_end_marker l = false ∧ l.linenum < n := by
  intro l hl
  simp only [long_line_records, List.mem_map, List.mem_range] at hl
  obtain ⟨j, hj, rfl⟩ := hl
  refine ⟨?_, ?_⟩
  · simp only [is_end_marker, beq_eq_false_iff_ne, ne_eq]
    omega
  · show (j : Int) + 1 < n
    omega

theorem area_bytes_long_line_records (k : Nat) :
    area_bytes (long_line_records k) = 266 * k + 2 := by
  induction k with
  | zero => rfl
  | succ k ih =>
    rw [long_line_records_succ, area_bytes_append, ih]
    simp only []
    omega

theorem long_line_edits_succ (k : Nat) :
    long_line_edits (k + 1) = long_line_edits k ++ [.insert ((k : Int) + 1) long_line_text] := by
  simp [long_line_edits, List.range_succ]

/-- The store after `k` lines of 255 bytes have been entered in ascending
order: the `k` records of 266 bytes, and an overrun as soon as they and the
end marker take more than `PROGRAM_SIZE` bytes. -/
theorem apply_long_line_edits (k : Nat) (hk : k < 65535) :
    (apply_edits init_state (long_line_edits k)).lines = long_line_records k ∧
    (apply_edits init_state (long_line_edits k)).overrun =
      decide (PROGRAM_SIZE < 266 * k + 2) := by
  induction k with
  | zero => exact ⟨rfl, rfl⟩
  | succ k ih =>
    obtain ⟨h1, h2⟩ := ih (by omega)
    have hrec := long_line_record_len
    have hin := insert_line_in_append (long_line_records k) ((k : Int) + 1) long_line_text
      (long_line_records_below k _ (by omega) (by omega))
    rw [hrec] at hin
    rw [long_line_edits_succ, apply_edits, List.foldl_append]
    simp only [List.foldl_cons, List.foldl_nil, apply_edit]
    rw [← apply_edits]
    refine ⟨?_, ?_⟩
    · rw [insert_line_lines, h1, hin, long_line_records_succ]
    · rw [insert_line_overrun, h1, h2, hin, ← long_line_records_succ,
        area_bytes_long_line_records]
      by_cases hb : PROGRAM_SIZE < 266 * k + 2
      · have hb2 : PROGRAM_SIZE < 266 * (k + 1) + 2 := by omega
        simp [hb, hb2]
      · simp [hb]

theorem long_line_edits_range (k : Nat) (hk : k ≤ 65529) :
    ∀ e ∈ long_line_edits k, 1 ≤ e.linenum ∧ e.linenum ≤ 65529 := by
  intro e he
  simp only [long_line_edits, List.mem_map, List.mem_range] at he
  obtain ⟨j, hj, rfl⟩ := he
  simp only [edit.linenum]
  omega

/-- C2 (as stated, fails): `insert_line` makes room with `memmove` and never
tests the new end of the program against the end of the program area, a block
of `PROGRAM_SIZE` = 65536 bytes. 246 lines of 255 bytes, numbered 1 to 246,
take 65438 bytes; the insert of line 247 moves the end of the program to byte
65704, past the end of the block. From that write on the C program has no
defined state, so nothing is known about the walk. -/
theorem store_overrun_counterexample :
    (∀ e ∈ long_line_edits 247, 0 ≤ e.linenum ∧ e.linenum ≤ 65529) ∧
    long_line_text.length = 255 ∧
    area_bytes (apply_edits init_state (long_line_edits 246)).lines = 65438 ∧
    (apply_edits init_state (long_line_edits 246)).overrun = false ∧
    area_bytes (apply_edits init_state (long_line_edits 247)).lines = 65704 ∧
    PROGRAM_SIZE < area_bytes (apply_edits init_state (long_line_edits 247)).lines ∧
    (apply_edits init_state (long_line_edits 247)).overrun = true := by
  have h246 := apply_long_line_edits 246 (by decide)
  have h247 := apply_long_line_edits 247 (by decide)
  refine ⟨fun e he => ?_, long_line_text_length, ?_, ?_, ?_, ?_, ?_⟩
  · have := long_line_edits_range 247 (by decide) e he
    omega
  · rw [h246.1, area_bytes_long_line_records]
  · rw [h246.2]
    decide
  · rw [h247.1, area_bytes_long_line_records]
  · rw [h247.1, area_bytes_long_line_records]
    decide
  · rw [h247.2]
    decide

/-- C2 (as amended): starting from the empty store, after any sequence of
`insert_line` and `delete_line` calls with line numbers in `0..65529` in which
no insert has written past the end of the program area, the program lies
within the `PROGRAM_SIZE` bytes of the area and the store walk from the start
to the end marker visits strictly ascending line numbers. -/
theorem store_walk_strictly_ascending (es : List edit)
    (hrange : ∀ e ∈ es, 0 ≤ e.linenum ∧ e.linenum ≤ 65529)
    (hfit : (apply_edits init_state es).overrun = false) :
    area_bytes (apply_edits init_state es).lines ≤ PROGRAM_SIZE ∧
    (walk_linenums (apply_edits init_state es).lines).Pairwise (· < ·) := by
  have _ := hrange
  exact ⟨apply_edits_within_area es init_state (fun _ => by decide) hfit,
    walk_apply_edits_sorted es init_state (by simp [init_state, walk_linenums])⟩

theorem store_walk_strictly_ascending_witness :
    (apply_edits init_state
      [.insert 30 [0x91, 0], .insert 10 [0x8F, 0], .insert 20 [0x81, 0], .insert 10 [0x91, 0],
       .delete 20, .insert 0 [0x81, 0], .insert 5 [0x81, 0]]).overrun = false ∧
    area_bytes (apply_edits init_state
      [.insert 30 [0x91, 0], .insert 10 [0x8F, 0], .insert 20 [0x81, 0], .insert 10 [0x91, 0],
       .delete 20, .insert 0 [0x81, 0], .insert 5 [0x81, 0]]).lines ≤ PROGRAM_SIZE ∧
    (walk_linenums (apply_edits init_state
      [.insert 30 [0x91, 0], .insert 10 [0x8F, 0], .insert 20 [0x81, 0], .insert 10 [0x91, 0],
       .delete 20, .insert 0 [0x81, 0], .insert 5 [0x81, 0]]).lines).Pairwise (· < ·) :=
  ⟨by decide, store_walk_strictly_ascending _ (by decide) (by decide)⟩

theorem found_line_insert (s : state_t) (n m : Int) (t : List Nat) (hn : n % 65536 ≠ 0) :
    found_line (insert_line s n t) m = if m = n then some (n, t) else found_line s m := by
  simp only [found_line, insert_line_lines]
  exact found_line_in_insert _ _ _ _ hn

theorem found_line_delete (s : state_t) (n m : Int)
    (hs : (walk_linenums s.lines).Pairwise (· < ·)) :
    found_line (delete_line s n) m = if m = n then none else found_line s m := by
  simp only [found_line, delete_line_lines]
  exact found_line_in_delete _ _ _ hs

theorem found_line_refines (es : List edit) (s : state_t) (f : Int → Option (List Nat))
    (hes : ∀ e ∈ es, 1 ≤ e.linenum ∧ e.linenum ≤ 65529)
    (hs : (walk_linenums s.lines).Pairwise (· < ·))
    (hf : ∀ m, found_line s m = (f m).map (fun t => (m, t))) :
    ∀ m, found_line (apply_edits s es) m = (es.foldl spec_edit f m).map (fun t => (m, t)) := by
  induction es generalizing s f with
  | nil => exact hf
  | cons e es ih =>
    have he := hes e (List.mem_cons_self _ _)
    refine ih _ _ (fun e' h' => hes e' (List.mem_cons_of_mem _ h'))
      (walk_apply_edit_sorted s e hs) ?_
    intro m
    cases e with
    | insert n t =>
      have hn : n % 65536 ≠ 0 := by
        simp only [edit.linenum] at he
        omega
      simp only [apply_edit, spec_edit]
      rw [found_line_insert _ _ _ _ hn]
      by_cases h : m = n
      · simp [h]
      · simp [h, hf m]
    | delete n =>
      simp only [apply_edit, spec_edit]
      rw [found_line_delete _ _ _ hs]
      by_cases h : m = n
      · simp [h]
      · simp [h, hf m]

theorem insert_after_long_lines (n : Int) (t : List Nat) (hn : 246 < n ∧ n < 65536) :
    (insert_line (apply_edits init_state (long_line_edits 246)) n t).overrun =
      decide (PROGRAM_SIZE < 65438 + record_len t.length) := by
  have h246 := apply_long_line_edits 246 (by decide)
  have hin := insert_line_in_append (long_line_records 246) n t
    (long_line_records_below 246 n (by omega) hn.2)
  have hno : decide (PROGRAM_SIZE < 266 * 246 + 2) = false := by decide
  rw [insert_line_overrun, h246.1, h246.2, hno, hin, area_bytes_append,
    area_bytes_long_line_records]
  simp

/-- C3 (as stated, fails): in the store that holds 246 lines of 255 bytes
(65438 of the 65536 bytes of the program area), `insert_line(300, t)` with a
text of 255 bytes writes up to byte 65704, past the end of the block that
holds the program: `insert_line` never tests the size. What `find_line`
returns after that write is not defined. The insert of a line of two bytes
still fits. -/
theorem store_lookup_overrun_counterexample :
    (∀ e ∈ long_line_edits 246, 1 ≤ e.linenum ∧ e.linenum ≤ 65529) ∧
    (apply_edits init_state (long_line_edits 246)).overrun = false ∧
    area_bytes (apply_edits init_state (long_line_edits 246)).lines = 65438 ∧
    record_len long_line_text.length = 266 ∧
    (insert_line (apply_edits init_state (long_line_edits 246)) 300
      long_line_text).overrun = true ∧
    (insert_line (apply_edits init_state (long_line_edits 246)) 300 [0x81, 0]).overrun =
      false := by
  have h246 := apply_long_line_edits 246 (by decide)
  have hrec := long_line_record_len
  refine ⟨long_line_edits_range 246 (by decide), ?_, ?_, hrec, ?_, ?_⟩
  · rw [h246.2]
    decide
  · rw [h246.1, area_bytes_long_line_records]
  · rw [insert_after_long_lines 300 long_line_text (by decide), hrec]
    decide
  · rw [insert_after_long_lines 300 [0x81, 0] (by decide)]
    decide

/-- C3 (as amended): for line numbers in `1..65529`, and as long as no insert
has written past the end of the program area, the store behaves as a finite
map from line number to token bytes. In a store built from the empty one by
inserts and deletes, `find_line` returns what the finite map `spec_store` of
the same edits holds; after an `insert_line(n, t)` that fits in the area,
`find_line(n)` returns a line numbered `n` with text `t`; after
`delete_line(n)`, `find_line(n)` returns `NULL`; and both leave the result of
`find_line(m)` as it was for every `m` other than `n`. The program lies within
the `PROGRAM_SIZE` bytes of the area before and after. -/
theorem store_behaves_as_finite_map (es : List edit) (n : Int) (t : List Nat)
    (hes : ∀ e ∈ es, 1 ≤ e.linenum ∧ e.linenum ≤ 65529) (hn : 1 ≤ n ∧ n ≤ 65529)
    (hfit : (insert_line (apply_edits init_state es) n t).overrun = false) :
    (area_bytes (apply_edits init_state es).lines ≤ PROGRAM_SIZE ∧
      area_bytes (insert_line (apply_edits init_state es) n t).lines ≤ PROGRAM_SIZE ∧
      area_bytes (delete_line (apply_edits init_state es) n).lines ≤ PROGRAM_SIZE) ∧
    (∀ m, found_line (apply_edits init_state es) m =
      (spec_store es m).map (fun t => (m, t))) ∧
    found_line (insert_line (apply_edits init_state es) n t) n = some (n, t) ∧
    found_line (delete_line (apply_edits init_state es) n) n = none ∧
    ∀ m, m ≠ n →
      found_line (insert_line (apply_edits init_state es) n t) m =
        found_line (apply_edits init_state es) m ∧
      found_line (delete_line (apply_edits init_state es) n) m =
        found_line (apply_edits init_state es) m := by
  have hs := walk_apply_edits_sorted es init_state (by simp [init_state, walk_linenums])
  have hn' : n % 65536 ≠ 0 := by omega
  have hfit0 : (apply_edits init_state es).overrun = false ∧
      ¬ PROGRAM_SIZE < area_bytes (insert_line_in (apply_edits init_state es).lines n t).1 := by
    simpa only [insert_line_overrun, Bool.or_eq_false_iff, decide_eq_false_iff_not] using hfit
  have harea := apply_edits_within_area es init_state (fun _ => by decide) hfit0.1
  refine ⟨⟨harea, ?_, ?_⟩, ?_, ?_, ?_, ?_⟩
  · rw [insert_line_lines]
    omega
  · rw [delete_line_lines]
    exact le_trans (area_bytes_delete_le _ _) harea
  · exact found_line_refines es init_state _ hes (by simp [init_state, walk_linenums])
      (fun m => by simp [found_line, found_line_in, find_line_in, init_state])
  · rw [found_line_insert _ _ _ _ hn']; simp
  · rw [found_line_delete _ _ _ hs]; simp
  · intro m hm
    rw [found_line_insert _ _ _ _ hn', found_line_delete _ _ _ hs]
    simp [hm]

theorem store_behaves_as_finite_map_witness :
    (insert_line (apply_edits init_state
        [.insert 20 [0x91, 0], .insert 10 [0x8F, 0], .delete 20, .insert 30 [0x81, 0]])
      10 [0x90, 0]).overrun = false ∧
    (area_bytes (apply_edits init_state
        [.insert 20 [0x91, 0], .insert 10 [0x8F, 0], .delete 20, .insert 30 [0x81, 0]]).lines ≤
        PROGRAM_SIZE ∧
      area_bytes (insert_line (apply_edits init_state
          [.insert 20 [0x91, 0], .insert 10 [0x8F, 0], .delete 20, .insert 30 [0x81, 0]])
        10 [0x90, 0]).lines ≤ PROGRAM_SIZE ∧
      area_bytes (delete_line (apply_edits init_state
          [.insert 20 [0x91, 0], .insert 10 [0x8F, 0], .delete 20, .insert 30 [0x81, 0]])
        10).lines ≤ PROGRAM_SIZE) ∧
    (∀ m, found_line (apply_edits init_state
        [.insert 20 [0x91, 0], .insert 10 [0x8F, 0], .delete 20, .insert 30 [0x81, 0]]) m =
      (spec_store [.insert 20 [0x91, 0], .insert 10 [0x8F, 0], .delete 20, .insert 30 [0x81, 0]]
        m).map (fun t => (m, t))) ∧
    found_line (insert_line (apply_edits init_state
        [.insert 20 [0x91, 0], .insert 10 [0x8F, 0], .delete 20, .insert 30 [0x81, 0]])
      10 [0x90, 0]) 10 = some (10, [0x90, 0]) ∧
    found_line (delete_line (apply_edits init_state
        [.insert 20 [0x91, 0], .insert 10 [0x8F, 0], .delete 20, .insert 30 [0x81, 0]])
      10) 10 = none ∧
    ∀ m, m ≠ 10 →
      found_line (insert_line (apply_edits init_state
          [.insert 20 [0x91, 0], .insert 10 [0x8F, 0], .delete 20, .insert 30 [0x81, 0]])
        10 [0x90, 0]) m =
        found_line (apply_edits init_state
          [.insert 20 [0x91, 0], .insert 10 [0x8F, 0], .delete 20, .insert 30 [0x81, 0]]) m ∧
      found_line (delete_line (apply_edits init_state
          [.insert 20 [0x91, 0], .insert 10 [0x8F, 0], .delete 20, .insert 30 [0x81, 0]])
        10) m =
        found_line (apply_edits init_state
          [.insert 20 [0x91, 0], .insert 10 [0x8F, 0], .delete 20, .insert 30 [0x81, 0]]) m :=
  ⟨by decide, store_behaves_as_finite_map _ 10 [0x90, 0] (by decide) (by decide) (by decide)⟩

/-! ## Decimal numerals -/

theorem digits_value_append (xs : List Nat) (d : Nat) :
    digits_value (xs ++ [d]) = digits_value xs * 10 + (d - 48) := by
  simp [digits_value, List.foldl_append]

theorem dec_digits_aux_acc (fuel n : Nat) (acc : List Nat) :
    dec_digits_aux fuel n acc = dec_digits_aux fuel n [] ++ acc := by
  induction fuel generalizing n acc with
  | zero => simp [dec_digits_aux]
  | succ f ih =>
    by_cases h : n < 10
    · simp [dec_digits_aux, h]
    · simp only [dec_digits_aux, h, if_false]
      rw [ih (n / 10) ((48 + n % 10) :: acc), ih (n / 10) [48 + n % 10]]
      simp

theorem dec_digits_aux_small (fuel n : Nat) (h : n < 10) :
    dec_digits_aux (fuel + 1) n [] = [48 + n] := by
  simp [dec_digits_aux, h]

theorem dec_digits_aux_step (fuel n : Nat) (h : ¬ n < 10) :
    dec_digits_aux (fuel + 1) n [] = dec_digits_aux fuel (n / 10) [] ++ [48 + n % 10] := by
  simp only [dec_digits_aux, h, if_false]
  rw [dec_digits_aux_acc]

theorem digits_value_dec_digits_aux (fuel n : Nat) (h : n < fuel) :
    digits_value (dec_digits_aux fuel n []) = n := by
  induction fuel generalizing n with
  | zero => omega
  | succ f ih =>
    by_cases h1 : n < 10
    · rw [dec_digits_aux_small f n h1]
      simp [digits_value]
    · rw [dec_digits_aux_step f n h1, digits_value_append, ih (n / 10) (by omega)]
      omega

theorem digits_value_dec_digits (n : Nat) : digits_value (dec_digits n) = n :=
  digits_value_dec_digits_aux (n + 1) n (by omega)

theorem dec_digits_aux_digits (fuel n : Nat) :
    ∀ c ∈ dec_digits_aux fuel n [], 48 ≤ c ∧ c ≤ 57 := by
  induction fuel generalizing n with
  | zero => simp [dec_digits_aux]
  | succ f ih =>
    intro c hc
    by_cases h1 : n < 10
    · rw [dec_digits_aux_small f n h1] at hc
      simp at hc
      omega
    · rw [dec_digits_aux_step f n h1] at hc
      rcases List.mem_append.mp hc with hc | hc
      · exact ih _ c hc
      · simp at hc
        omega

theorem dec_digits_digits (n : Nat) : ∀ c ∈ dec_digits n, 48 ≤ c ∧ c ≤ 57 :=
  dec_digits_aux_digits (n + 1) n

theorem dec_digits_aux_length (fuel n k : Nat) (h : n < 10 ^ k) (hk : 1 ≤ k) :
    (dec_digits_aux fuel n []).length ≤ k := by
  induction fuel generalizing n k with
  | zero => simp [dec_digits_aux]
  | succ f ih =>
    by_cases h1 : n < 10
    · rw [dec_digits_aux_small f n h1]
      simpa using hk
    · rw [dec_digits_aux_step f n h1]
      have hk2 : 2 ≤ k := by
        by_contra hc
        have : k = 1 := by omega
        subst this
        omega
      have h2 : n / 10 < 10 ^ (k - 1) := by
        have : 10 ^ k = 10 ^ (k - 1) * 10 := by
          rw [← pow_succ]
          congr 1
          omega
        rw [this] at h
        exact Nat.div_lt_of_lt_mul (by omega)
      have := ih (n / 10) (k - 1) h2 (by omega)
      simp
      omega

theorem dec_digits_length (n : Nat) (h : n < 10 ^ 10) : (dec_digits n).length ≤ 10 :=
  dec_digits_aux_length (n + 1) n 10 h (by decide)

theorem dec_digits_cons (n : Nat) : ∃ c r, dec_digits n = c :: r ∧ 48 ≤ c ∧ c ≤ 57 := by
  have hd := dec_digits_digits n
  have hne : dec_digits n ≠ [] := by
    unfold dec_digits
    by_cases h1 : n < 10
    · rw [dec_digits_aux_small n n h1]
      simp
    · rw [dec_digits_aux_step n n h1]
      simp
  cases hdd : dec_digits n with
  | nil => exact absurd hdd hne
  | cons c r =>
    rw [hdd] at hd
    exact ⟨c, r, rfl, hd c (List.mem_cons_self _ _)⟩

/-! ## Tokenizer round trip -/

set_option maxRecDepth 100000 in
/-- C1 (fails): for the text `IF A THEN 10` the tokens are `IF`, `A`, `THEN`,
`1`, `0`; `detokenize_line` writes them as `IF ATHEN 10`, with no space between
the identifier and the keyword, and tokenizing that text gives the different
bytes `IF`, `A`, `T`, `H`, `E`, `N`, `1`, `0`: the round trip
`tokenize_line (detokenize_line (tokenize_line T)) = tokenize_line T` does not
hold for this `T`. -/
theorem detokenize_round_trip_fails :
    tokenize_line if_then_text = [0x8B, 65, 0xFF, 0x86, 49, 48, 0] ∧
    detokenize_line (tokenize_line if_then_text) = cstr "IF ATHEN 10" ∧
    tokenize_line (detokenize_line (tokenize_line if_then_text)) =
      [0x8B, 65, 84, 72, 69, 78, 49, 48, 0] ∧
    tokenize_line (detokenize_line (tokenize_line if_then_text)) ≠
      tokenize_line if_then_text := by
  decide

/-! ## Structural edits and the variables -/

set_option maxRecDepth 100000 in
/-- C4 (fails): in a store that holds line 10 and one variable, `insert_line`
for line 10 replaces the text of the line and leaves the variable list as it
was, not empty: the replacing path does not clear the variables. -/
theorem replace_line_keeps_variables :
    found_line store_with_variable 10 = some (10, tokenize_line (cstr "PRINT A")) ∧
    found_line (insert_line store_with_variable 10 (tokenize_line (cstr "PRINT 1"))) 10 =
      some (10, tokenize_line (cstr "PRINT 1")) ∧
    (insert_line store_with_variable 10 (tokenize_line (cstr "PRINT 1"))).varlist =
      store_with_variable.varlist ∧
    (insert_line store_with_variable 10 (tokenize_line (cstr "PRINT 1"))).varlist ≠ [] := by
  decide

/-! ## WHILE and WEND -/

set_option maxRecDepth 1000000 in
/-- C9 (fails): the program `10 WHILE 0` / `20 PRINT "X"` / `30 WEND` /
`40 PRINT "DONE"` does not continue after the `WEND`: the false `WHILE` only
skips the rest of line 10, so line 20 prints `X`, and the `WEND` of line 30
finds the WHILE stack empty and raises the syntax error. -/
theorem while_false_runs_body :
    (run_program 10 100 0 while_false_program).output =
      some (cstr "X\nSyntax error in 30\n") := by
  decide!

set_option maxRecDepth 1000000 in
/-- C10 (fails): the program `10 X = 0` / `20 WHILE X < 3` / `30 X = X + 1` /
`40 PRINT X` / `50 WEND` runs its body twice, not three times, and then stops
with a syntax error in line 50: `WEND` goes back to the text after the
condition, which is not evaluated again, and drops the WHILE entry. -/
theorem wend_does_not_reevaluate :
    (run_program 10 100 0 while_count_program).output =
      some (cstr "1\n2\nSyntax error in 50\n") := by
  decide!

/-! ## Integer literals -/

theorem ends_expression_cases (rest : List Nat) (h : ends_expression rest = true) :
    rest = [] ∨ (∃ r, rest = 0 :: r) ∨ (∃ r, rest = 58 :: r) ∨ (∃ r, rest = 44 :: r) ∨
    (∃ r, rest = 59 :: r) ∨ (∃ r, rest = 41 :: r) ∨ (∃ r, rest = 0xA2 :: r) ∨
    (∃ r, rest = 0xFF :: 0x85 :: r) ∨ (∃ r, rest = 0xFF :: 0x86 :: r) ∨
    (∃ r, rest = 0xFF :: 0x88 :: r) := by
  cases rest with
  | nil => exact Or.inl rfl
  | cons c r =>
    right
    cases r with
    | nil =>
      simp [ends_expression] at h
      simp
      omega
    | cons d r =>
      simp [ends_expression] at h
      simp
      omega

theorem parse_number_loop_stop (rest numbuf : List Nat) (h : ends_expression rest = true) :
    parse_number_loop rest numbuf false false TYPE_INT = (numbuf, TYPE_INT, rest) := by
  rcases ends_expression_cases rest h with h | ⟨r, h⟩ | ⟨r, h⟩ | ⟨r, h⟩ | ⟨r, h⟩ | ⟨r, h⟩ |
    ⟨r, h⟩ | ⟨r, h⟩ | ⟨r, h⟩ | ⟨r, h⟩ <;> subst h <;> rw [parse_number_loop.eq_def] <;> simp

theorem parse_number_loop_digits (ds rest numbuf : List Nat)
    (hds : ∀ c ∈ ds, 48 ≤ c ∧ c ≤ 57) (hlen : numbuf.length + ds.length < 79)
    (h : ends_expression rest = true) :
    parse_number_loop (ds ++ rest) numbuf false false TYPE_INT = (numbuf ++ ds, TYPE_INT, rest) := by
  induction ds generalizing numbuf with
  | nil => simpa using parse_number_loop_stop rest numbuf h
  | cons c ds ih =>
    have hc := hds c (List.mem_cons_self _ _)
    have hl : ¬ numbuf.length + 1 ≥ 79 := by simp at hlen; omega
    rw [List.cons_append, parse_number_loop.eq_def]
    simp only [hc, and_self, if_true, hl, if_false]
    rw [ih (numbuf ++ [c]) (fun x hx => hds x (List.mem_cons_of_mem _ hx))
      (by simp at hlen ⊢; omega)]
    simp


/-! ## The text pointer -/

@[simp] theorem set_txt_txtptr (s : state_t) (t : List Nat) : (set_txt s t).txtptr = some t := rfl
@[simp] theorem set_txt_set_txt (s : state_t) (t u : List Nat) :
    set_txt (set_txt s t) u = set_txt s u := rfl
@[simp] theorem peek_char_set_txt_cons (s : state_t) (c : Nat) (r : List Nat) :
    peek_char (set_txt s (c :: r)) = c := rfl
@[simp] theorem peek_char_set_txt_nil (s : state_t) : peek_char (set_txt s []) = 0 := rfl

theorem skip_spaces_set_txt (s : state_t) (t : List Nat) :
    skip_spaces (set_txt s t) = set_txt s (t.dropWhile (fun c => c == 32 || c == 9)) := rfl

@[simp] theorem skip_spaces_set_txt_nil (s : state_t) :
    skip_spaces (set_txt s []) = set_txt s [] := rfl

theorem skip_spaces_set_txt_cons (s : state_t) (c : Nat) (r : List Nat)
    (h1 : c ≠ 32) (h2 : c ≠ 9) : skip_spaces (set_txt s (c :: r)) = set_txt s (c :: r) := by
  rw [skip_spaces_set_txt, List.dropWhile_cons_of_neg]
  simp [h1, h2]

theorem advance_set_txt_cons (s : state_t) (c : Nat) (r : List Nat) (h : c ≠ 0) :
    advance (set_txt s (c :: r)) = set_txt s r := by
  simp [advance, get_next_char, set_txt, h]

@[simp] theorem advance_set_txt_nil (s : state_t) : advance (set_txt s []) = set_txt s [] := rfl

theorem advance_set_txt_zero (s : state_t) (r : List Nat) :
    advance (set_txt s (0 :: r)) = set_txt s (0 :: r) := rfl

theorem atoi_dec_digits (n : Nat) (hn : n ≤ 2147483647) : atoi (dec_digits n) = some (n : Int) := by
  have h : (dec_digits n).takeWhile IS_DIGIT = dec_digits n := by
    rw [List.takeWhile_eq_self_iff]
    intro x hx
    have := dec_digits_digits n x hx
    simp [IS_DIGIT, this]
  simp [atoi, h, digits_value_dec_digits, hn]

theorem parse_number_literal (s : state_t) (n : Nat) (rest : List Nat) (hn : n ≤ 2147483647)
    (h : ends_expression rest = true) :
    parse_number (set_txt s (dec_digits n ++ rest)) =
      .ok (.intval n, TYPE_INT, set_txt s rest) := by
  have hl : ([] : List Nat).length + (dec_digits n).length < 79 := by
    have := dec_digits_length n (by omega)
    simp
    omega
  have hloop := parse_number_loop_digits (dec_digits n) rest [] (dec_digits_digits n) hl h
  simp only [List.nil_append] at hloop
  unfold parse_number
  simp only [set_txt_txtptr, Option.getD_some, hloop]
  rcases ends_expression_cases rest h with h | ⟨r, h⟩ | ⟨r, h⟩ | ⟨r, h⟩ | ⟨r, h⟩ | ⟨r, h⟩ |
    ⟨r, h⟩ | ⟨r, h⟩ | ⟨r, h⟩ | ⟨r, h⟩ <;> subst h <;>
    simp [atoi_dec_digits n hn, set_txt]

/-! ## Expressions that end at a stop text -/

@[simp] theorem Res.ok_bind {α β : Type} (a : α) (f : α → Res β) : (Res.ok a >>= f) = f a := rfl
@[simp] theorem Res.pure_eq {α : Type} (a : α) : (pure a : Res α) = Res.ok a := rfl

theorem skip_spaces_stop (s : state_t) (rest : List Nat) (h : ends_expression rest = true) :
    skip_spaces (set_txt s rest) = set_txt s rest := by
  rcases ends_expression_cases rest h with h | ⟨r, h⟩ | ⟨r, h⟩ | ⟨r, h⟩ | ⟨r, h⟩ | ⟨r, h⟩ |
    ⟨r, h⟩ | ⟨r, h⟩ | ⟨r, h⟩ | ⟨r, h⟩ <;> subst h <;>
    rfl

theorem peek_char_stop (s : state_t) (rest : List Nat) (h : ends_expression rest = true) :
    peek_char (set_txt s rest) ≠ 43 ∧ peek_char (set_txt s rest) ≠ 45 ∧
    peek_char (set_txt s rest) ≠ 42 ∧ peek_char (set_txt s rest) ≠ 47 ∧
    peek_char (set_txt s rest) ≠ 92 ∧ peek_char (set_txt s rest) ≠ 94 ∧
    peek_char (set_txt s rest) ≠ 61 ∧ peek_char (set_txt s rest) ≠ 60 ∧
    peek_char (set_txt s rest) ≠ 62 := by
  rcases ends_expression_cases rest h with h | ⟨r, h⟩ | ⟨r, h⟩ | ⟨r, h⟩ | ⟨r, h⟩ | ⟨r, h⟩ |
    ⟨r, h⟩ | ⟨r, h⟩ | ⟨r, h⟩ | ⟨r, h⟩ <;> subst h <;> simp

theorem match_token_stop (s : state_t) (rest : List Nat) (tk : Nat)
    (h : ends_expression rest = true) (htk : 0xFF87 ≤ tk ∧ tk ≤ 0xFF9A ∧ tk ≠ 0xFF88) :
    match_token tk (set_txt s rest) = (false, set_txt s rest) := by
  have hs := skip_spaces_stop s rest h
  obtain ⟨h1, h2, h3⟩ := htk
  interval_cases tk <;> simp only [match_token, hs] <;>
  rcases ends_expression_cases rest h with h | ⟨r, h⟩ | ⟨r, h⟩ | ⟨r, h⟩ | ⟨r, h⟩ | ⟨r, h⟩ |
    ⟨r, h⟩ | ⟨r, h⟩ | ⟨r, h⟩ | ⟨r, h⟩ <;> subst h <;>
    simp [advance_set_txt_cons] at h3 ⊢ <;> decide

theorem expr_power_loop_stop (unary : evaluator) (v : value_t) (t : Nat) (s : state_t)
    (rest : List Nat) (h : ends_expression rest = true) :
    expr_power_loop unary v t (set_txt s rest) = .ok (v, t, set_txt s rest) := by
  have hp := peek_char_stop s rest h
  simp [expr_power_loop, match_token_stop s rest TOK_POWER h (by decide), hp]

theorem expr_mult_loop_stop (power : evaluator) (fuel : Nat) (v : value_t) (t : Nat) (s : state_t)
    (rest : List Nat) (h : ends_expression rest = true) :
    expr_mult_loop power (fuel + 1) v t (set_txt s rest) = .ok (v, t, set_txt s rest) := by
  have hp := peek_char_stop s rest h
  simp [expr_mult_loop, skip_spaces_stop s rest h, match_token_stop s rest TOK_MULT h (by decide),
    match_token_stop s rest TOK_DIV h (by decide), match_token_stop s rest TOK_IDIV h (by decide),
    match_token_stop s rest TOK_MOD h (by decide), hp]

theorem expr_add_loop_stop (mult : evaluator) (fuel : Nat) (v : value_t) (t : Nat) (s : state_t)
    (rest : List Nat) (h : ends_expression rest = true) :
    expr_add_loop mult (fuel + 1) v t (set_txt s rest) = .ok (v, t, set_txt s rest) := by
  have hp := peek_char_stop s rest h
  simp [expr_add_loop, skip_spaces_stop s rest h, match_token_stop s rest TOK_PLUS h (by decide),
    match_token_stop s rest TOK_MINUS h (by decide), hp]

theorem expr_and_loop_stop (not : evaluator) (fuel : Nat) (v : value_t) (t : Nat) (s : state_t)
    (rest : List Nat) (h : ends_expression rest = true) :
    expr_and_loop not (fuel + 1) v t (set_txt s rest) = .ok (v, t, set_txt s rest) := by
  simp [expr_and_loop, match_token_stop s rest TOK_AND h (by decide)]

theorem expr_or_loop_stop (and : evaluator) (fuel : Nat) (v : value_t) (t : Nat) (s : state_t)
    (rest : List Nat) (h : ends_expression rest = true) :
    expr_or_loop and (fuel + 1) v t (set_txt s rest) = .ok (v, t, set_txt s rest) := by
  simp [expr_or_loop, match_token_stop s rest TOK_OR h (by decide),
    match_token_stop s rest TOK_XOR h (by decide)]

theorem expr_compare_stop (add : evaluator) (s0 : state_t) (v : value_t) (t : Nat) (s : state_t)
    (rest : List Nat) (h : ends_expression rest = true)
    (hadd : add s0 = .ok (v, t, set_txt s rest)) :
    expr_compare add s0 = .ok (v, t, set_txt s rest) := by
  have hp := peek_char_stop s rest h
  simp [expr_compare, hadd, skip_spaces_stop s rest h, match_token_stop s rest TOK_EQ h (by decide),
    match_token_stop s rest TOK_NE h (by decide), match_token_stop s rest TOK_LT h (by decide),
    match_token_stop s rest TOK_GT h (by decide), match_token_stop s rest TOK_LE h (by decide),
    match_token_stop s rest TOK_GE h (by decide), hp]

/-- An operand that ends at a stop text is the value of the whole expression. -/
theorem eval_expr_of_unary (fuel : Nat) (s0 : state_t) (v : value_t) (t : Nat) (s : state_t)
    (rest : List Nat) (h : ends_expression rest = true)
    (hu : expr_unary (eval_expr (fuel + 1)) (fuel + 1) s0 = .ok (v, t, set_txt s rest)) :
    eval_expr (fuel + 2) s0 = .ok (v, t, set_txt s rest) := by
  have h1 : expr_power (expr_unary (eval_expr (fuel + 1)) (fuel + 1)) s0 =
      .ok (v, t, set_txt s rest) := by
    simp [expr_power, hu, expr_power_loop_stop _ _ _ _ _ h]
  have h2 : expr_mult (expr_power (expr_unary (eval_expr (fuel + 1)) (fuel + 1))) (fuel + 1) s0 =
      .ok (v, t, set_txt s rest) := by
    simp [expr_mult, h1, expr_mult_loop_stop _ _ _ _ _ _ h]
  have h3 : expr_add (expr_mult (expr_power (expr_unary (eval_expr (fuel + 1)) (fuel + 1)))
      (fuel + 1)) (fuel + 1) s0 = .ok (v, t, set_txt s rest) := by
    simp [expr_add, h2, expr_add_loop_stop _ _ _ _ _ _ h]
  have h4 := expr_compare_stop _ s0 v t s rest h h3
  show expr_or (expr_and (expr_not (expr_compare (expr_add (expr_mult (expr_power
      (expr_unary (eval_expr (fuel + 1)) (fuel + 1))) (fuel + 1)) (fuel + 1)))) (fuel + 1))
      (fuel + 1) s0 = _
  simp [expr_or, expr_and, expr_not, h4, expr_and_loop_stop _ _ _ _ _ _ h,
    expr_or_loop_stop _ _ _ _ _ _ h]

theorem match_token_digit (s : state_t) (tk c : Nat) (r : List Nat)
    (hc : 48 ≤ c ∧ c ≤ 57) (h1 : tk &&& 0xFF00 ≠ 0) (h2 : (tk >>> 8) &&& 0xFF = 0xFF) :
    match_token tk (set_txt s (c :: r)) = (false, set_txt s (c :: r)) := by
  have hs := skip_spaces_set_txt_cons s c r (by omega) (by omega)
  have hne : ¬ c = 255 := by omega
  simp [match_token, h1, h2, hs, hne]

theorem expr_primary_literal (ev : evaluator) (s : state_t) (n : Nat) (rest : List Nat)
    (hn : n ≤ 2147483647) (h : ends_expression rest = true) :
    expr_primary ev (set_txt s (dec_digits n ++ rest)) =
      .ok (.intval n, TYPE_INT, set_txt s rest) := by
  obtain ⟨c, r, hd, hc⟩ := dec_digits_cons n
  have hsk : skip_spaces (set_txt s (dec_digits n ++ rest)) = set_txt s (dec_digits n ++ rest) := by
    rw [hd]
    exact skip_spaces_set_txt_cons _ _ _ (by omega) (by omega)
  have hpk : peek_char (set_txt s (dec_digits n ++ rest)) = c := by
    rw [hd]
    rfl
  simp only [expr_primary, hsk, hpk, hc, and_self, true_or, if_true]
  exact parse_number_literal s n rest hn h

theorem expr_unary_literal (ev : evaluator) (fuel : Nat) (s : state_t) (n : Nat)
    (rest : List Nat) (hn : n ≤ 2147483647) (h : ends_expression rest = true) :
    expr_unary ev (fuel + 1) (set_txt s (dec_digits n ++ rest)) =
      .ok (.intval n, TYPE_INT, set_txt s rest) := by
  obtain ⟨c, r, hd, hc⟩ := dec_digits_cons n
  have hsk : skip_spaces (set_txt s (c :: (r ++ rest))) = set_txt s (c :: (r ++ rest)) :=
    skip_spaces_set_txt_cons _ _ _ (by omega) (by omega)
  have hp := expr_primary_literal ev s n rest hn h
  rw [hd] at hp ⊢
  have h43 : ¬ c = 43 := by omega
  have h45 : ¬ c = 45 := by omega
  simp only [List.cons_append] at hp ⊢
  simp [expr_unary, hsk, match_token_digit s TOK_PLUS c _ hc (by decide) (by decide),
    match_token_digit s TOK_MINUS c _ hc (by decide) (by decide),
    match_token_digit s TOK_NOT c _ hc (by decide) (by decide), h43, h45, hp]

theorem wrap32_small (i : Int) (h : -2147483648 ≤ i ∧ i ≤ 2147483647) : wrap32 i = i := by
  unfold wrap32
  omega

theorem expr_unary_neg_literal (ev : evaluator) (fuel : Nat) (s : state_t) (n : Nat)
    (rest : List Nat) (hn : n ≤ 2147483647) (h : ends_expression rest = true) :
    expr_unary ev (fuel + 2) (set_txt s ([0xFF, 0x8A] ++ dec_digits n ++ rest)) =
      .ok (.intval (-(n : Int)), TYPE_INT, set_txt s rest) := by
  obtain ⟨c, r, hd, hc⟩ := dec_digits_cons n
  have hu := expr_unary_literal ev fuel s n rest hn h
  have hsr : skip_raw 45 (set_txt s (dec_digits n ++ rest)) = set_txt s (dec_digits n ++ rest) := by
    rw [hd]
    have : ¬ c = 45 := by omega
    simp [skip_raw, this]
  have hw := wrap32_small (-(n : Int)) (by omega)
  have hsk : skip_spaces (set_txt s (0xFF :: 0x8A :: (dec_digits n ++ rest))) =
      set_txt s (0xFF :: 0x8A :: (dec_digits n ++ rest)) :=
    skip_spaces_set_txt_cons _ _ _ (by decide) (by decide)
  have hplus : match_token TOK_PLUS (set_txt s (0xFF :: 0x8A :: (dec_digits n ++ rest))) =
      (false, set_txt s (0xFF :: 0x8A :: (dec_digits n ++ rest))) := by
    simp [match_token, hsk, advance_set_txt_cons]
    decide
  have hminus : match_token TOK_MINUS (set_txt s (0xFF :: 0x8A :: (dec_digits n ++ rest))) =
      (true, set_txt s (dec_digits n ++ rest)) := by
    have e1 : TOK_MINUS >>> 8 &&& 255 = 255 := by decide
    have e2 : TOK_MINUS &&& 255 = 138 := by decide
    have e3 : TOK_MINUS &&& 65280 ≠ 0 := by decide
    simp [match_token, hsk, advance_set_txt_cons, e1, e2, e3]
  rw [expr_unary]
  simp [hsk, hplus, hminus, hsr, hu, value_t.as_int, hw]

/-- An integer literal that ends at a stop text evaluates to its value, of
type Integer, and leaves the text pointer at the stop text. -/
theorem eval_expr_int_literal (fuel : Nat) (s : state_t) (a : Int) (rest : List Nat)
    (ha : -2147483647 ≤ a ∧ a ≤ 2147483647) (h : ends_expression rest = true) :
    eval_expr (fuel + 3) (set_txt s (int_tokens a ++ rest)) =
      .ok (.intval a, TYPE_INT, set_txt s rest) := by
  apply eval_expr_of_unary (fuel + 1) _ _ _ _ _ h
  by_cases hneg : a < 0
  · have hu := expr_unary_neg_literal (eval_expr (fuel + 2)) fuel s a.natAbs rest (by omega) h
    have : (-(a.natAbs : Int)) = a := by omega
    rw [this] at hu
    simpa [int_tokens, hneg] using hu
  · have hu := expr_unary_literal (eval_expr (fuel + 2)) (fuel + 1) s a.natAbs rest (by omega) h
    have : ((a.natAbs : Int)) = a := by omega
    rw [this] at hu
    simpa [int_tokens, hneg] using hu

theorem eval_numeric_int_literal (fuel : Nat) (s : state_t) (a : Int) (rest : List Nat)
    (ha : -2147483647 ≤ a ∧ a ≤ 2147483647) (h : ends_expression rest = true) :
    eval_numeric (eval_expr (fuel + 3)) (set_txt s (int_tokens a ++ rest)) =
      .ok (dyadic.ofInt a, set_txt s rest) := by
  simp [eval_numeric, eval_expr_int_literal fuel s a rest ha h, switch_double, value_t.as_int]

theorem eval_integer_int_literal (fuel : Nat) (s : state_t) (a : Int) (rest : List Nat)
    (ha : -2147483647 ≤ a ∧ a ≤ 2147483647) (h : ends_expression rest = true) :
    eval_integer (eval_expr (fuel + 3)) (set_txt s (int_tokens a ++ rest)) =
      .ok (a, set_txt s rest) := by
  simp [eval_integer, eval_expr_int_literal fuel s a rest ha h, value_t.as_int]

/-! ## GOSUB and RETURN -/

theorem set_txt_of_txtptr (s : state_t) (t : List Nat) (h : s.txtptr = some t) :
    set_txt s t = s := by
  cases s
  simp_all [set_txt]

theorem do_gosub_literal (fuel : Nat) (s : state_t) (t : Int) (rest : List Nat) (i : Nat)
    (ht : 0 ≤ t ∧ t ≤ 65529) (h : ends_expression rest = true)
    (htxt : s.txtptr = some (int_tokens t ++ rest)) (hsp : s.gosubsp < STACK_SIZE)
    (hfind : find_line_in s.lines t = some i) :
    do_gosub (eval_expr (fuel + 3)) s =
      .ok { s with
        gosubstack := array_set s.gosubstack s.gosubsp ⟨s.curlin, some rest⟩,
        gosubsp := s.gosubsp + 1,
        curlin := t, txtptr := some (line_text s i), curline_ptr := some i } := by
  have he := eval_integer_int_literal fuel s t rest (by omega) h
  rw [set_txt_of_txtptr s _ htxt] at he
  have hsp' : ¬ s.gosubsp ≥ STACK_SIZE := by omega
  have hf : find_line (set_txt s rest) t = some i := hfind
  simp only [do_gosub, hsp', if_false, he, Res.ok_bind, hf]
  rfl

theorem nested_gosubs_ok (fuel : Nat) (L : List line_t) (cs : List call_site) (s : state_t)
    (hL : s.lines = L) (hcs : ∀ c ∈ cs, c.valid L)
    (hsp : s.gosubsp + cs.length ≤ STACK_SIZE) :
    ∃ s1, nested_gosubs (eval_expr (fuel + 3)) cs s = .ok s1 ∧ s1.lines = L ∧
      s1.gosubsp = s.gosubsp + cs.length ∧
      (∀ k, k < s.gosubsp → s1.gosubstack k = s.gosubstack k) ∧
      (∀ c cs', cs = c :: cs' →
        s1.gosubstack s.gosubsp = ⟨(c.before s).curlin, some c.rest⟩) := by
  induction cs generalizing s with
  | nil =>
    exact ⟨s, rfl, hL, by simp, fun _ _ => rfl, fun c cs' h => by simp at h⟩
  | cons c cs ih =>
    obtain ⟨ht0, ht1, hrest, hfind, hb⟩ := hcs c (List.mem_cons_self _ _)
    obtain ⟨hbl, hbsp, hbst, hbtxt⟩ := hb s hL
    simp only [List.length_cons] at hsp
    obtain ⟨i, hi⟩ := Option.ne_none_iff_exists'.mp hfind
    have hg := do_gosub_literal fuel (c.before s) c.target c.rest i ⟨ht0, ht1⟩ hrest hbtxt
      (by rw [hbsp]; omega) (by rw [hbl]; exact hi)
    obtain ⟨s1, h1, h2, h3, h4, _⟩ := ih _ (show ({ c.before s with
        gosubstack := array_set (c.before s).gosubstack (c.before s).gosubsp
          ⟨(c.before s).curlin, some c.rest⟩,
        gosubsp := (c.before s).gosubsp + 1,
        curlin := c.target, txtptr := some (line_text (c.before s) i),
        curline_ptr := some i } : state_t).lines = L from hbl)
      (fun c' hc' => hcs c' (List.mem_cons_of_mem _ hc'))
      (by simp only [hbsp]; omega)
    refine ⟨s1, ?_, h2, ?_, ?_, ?_⟩
    · simp only [nested_gosubs, hg, Res.ok_bind, h1]
    · simp only [h3, hbsp, List.length_cons]; omega
    · intro k hk
      rw [h4 k (by simp only [hbsp]; omega)]
      simp only [array_set, hbsp]
      rw [if_neg (by omega)]
      exact hbst k hk
    · intro c' cs' hc
      injection hc with hc1 hc2
      subst hc1
      rw [h4 _ (by simp only [hbsp]; omega)]
      simp [array_set, hbsp]

theorem update_curline_ptr_eq (s : state_t) :
    update_curline_ptr s = { s with curline_ptr := (update_curline_ptr s).curline_ptr } := by
  unfold update_curline_ptr
  split <;> rfl

theorem do_return_ok (s : state_t) (h : s.gosubsp ≠ 0) :
    ∃ s1, do_return s = .ok s1 ∧ s1.gosubsp = s.gosubsp - 1 ∧
      s1.gosubstack = s.gosubstack ∧ s1.lines = s.lines ∧
      s1.curlin = (s.gosubstack (s.gosubsp - 1)).linenum ∧
      s1.txtptr = (s.gosubstack (s.gosubsp - 1)).text := by
  refine ⟨_, by rw [do_return, if_neg h], ?_, ?_, ?_, ?_, ?_⟩ <;>
    rw [update_curline_ptr_eq]

theorem nested_returns_ok (gs : List (state_t → state_t)) (s : state_t)
    (hgs : ∀ g ∈ gs, keeps_gosub_stack g) (hsp : gs.length ≤ s.gosubsp) :
    ∃ s2, nested_returns gs s = .ok s2 ∧ s2.gosubsp = s.gosubsp - gs.length ∧
      (∀ k, k < s.gosubsp - gs.length → s2.gosubstack k = s.gosubstack k) ∧
      (gs ≠ [] → s2.curlin = (s.gosubstack (s.gosubsp - gs.length)).linenum ∧
        s2.txtptr = (s.gosubstack (s.gosubsp - gs.length)).text) := by
  induction gs generalizing s with
  | nil => exact ⟨s, rfl, by simp, fun _ _ => rfl, fun h => absurd rfl h⟩
  | cons g gs ih =>
    have hg1 := fun s => (hgs g (List.mem_cons_self _ _) s).1
    have hg2 := fun s => (hgs g (List.mem_cons_self _ _) s).2
    simp only [List.length_cons] at hsp ⊢
    have hne : ¬ (g s).gosubsp = 0 := by rw [hg1 s]; omega
    obtain ⟨s1, hr, hr1, hr2, _, hr3, hr4⟩ := do_return_ok (g s) hne
    rw [hg1 s] at hr1 hr3 hr4
    obtain ⟨s2, h1, h2, h3, h4⟩ := ih s1 (fun g' hg' => hgs g' (List.mem_cons_of_mem _ hg'))
      (by rw [hr1]; omega)
    refine ⟨s2, ?_, ?_, ?_, ?_⟩
    · simp only [nested_returns, hr, Res.ok_bind, h1]
    · rw [h2, hr1]; omega
    · intro k hk
      rw [h3 k (by rw [hr1]; omega), hr2]
      exact hg2 s k (by omega)
    · intro _
      by_cases hgs' : gs = []
      · subst hgs'
        simp only [nested_returns] at h1
        injection h1 with h1
        subst h1
        simp only [List.length_nil, Nat.zero_add]
        rw [hr3, hr4, hg2 s _ (by omega)]
        exact ⟨rfl, rfl⟩
      · obtain ⟨h5, h6⟩ := h4 hgs'
        have e : s1.gosubsp - gs.length = s.gosubsp - (gs.length + 1) := by rw [hr1]; omega
        rw [h5, h6, e, hr2, hg2 s _ (by omega)]
        exact ⟨rfl, rfl⟩

/-- C8: for every `N ≥ 1` with initial GOSUB depth `+ N ≤ STACK_SIZE`, `N`
nested GOSUBs to existing lines (each reached by code that leaves the entries
of the GOSUB stack in use alone) succeed and bring the stack to depth `+ N`;
`N` RETURNs after them (reached the same way) succeed and leave the stack at
its initial depth, the current line number equal to the line of the first
GOSUB and the text pointer just after the target of the first GOSUB. A RETURN
executed with an empty GOSUB stack raises error 3, RETURN without GOSUB. -/
theorem gosub_return_balance (fuel : Nat) (s0 : state_t) (c : call_site) (cs : List call_site)
    (gs : List (state_t → state_t))
    (hcs : ∀ c' ∈ c :: cs, c'.valid s0.lines) (hgs : ∀ g ∈ gs, keeps_gosub_stack g)
    (hlen : gs.length = (c :: cs).length)
    (hsp : s0.gosubsp + (c :: cs).length ≤ STACK_SIZE) :
    (∃ s1 s2, nested_gosubs (eval_expr (fuel + 3)) (c :: cs) s0 = .ok s1 ∧
      s1.gosubsp = s0.gosubsp + (c :: cs).length ∧
      nested_returns gs s1 = .ok s2 ∧
      s2.gosubsp = s0.gosubsp ∧ s2.curlin = (c.before s0).curlin ∧
      s2.txtptr = some c.rest) ∧
    ∀ s, s.gosubsp = 0 → (do_return s).raised = some ERR_RETURN := by
  constructor
  · obtain ⟨s1, h1, _, h3, _, h5⟩ := nested_gosubs_ok fuel s0.lines (c :: cs) s0 rfl hcs hsp
    obtain ⟨s2, r1, r2, _, r4⟩ := nested_returns_ok gs s1 hgs (by rw [h3, hlen]; omega)
    have hne : gs ≠ [] := by
      intro h
      rw [h] at hlen
      simp at hlen
    obtain ⟨r5, r6⟩ := r4 hne
    have e : s1.gosubsp - gs.length = s0.gosubsp := by rw [h3, hlen]; omega
    rw [e, h5 c cs rfl] at r5 r6
    exact ⟨s1, s2, h1, h3, r1, by rw [r2, e], r5, r6⟩
  · intro s hs
    simp [do_return, hs, error, Res.raised]

set_option maxRecDepth 100000 in
theorem gosub_return_balance_witness :
    (∃ s1 s2, nested_gosubs (eval_expr 3) [gosub_site_10, gosub_site_100] gosub_program =
        .ok s1 ∧
      s1.gosubsp = gosub_program.gosubsp + [gosub_site_10, gosub_site_100].length ∧
      nested_returns [fun s => s, fun s => s] s1 = .ok s2 ∧
      s2.gosubsp = gosub_program.gosubsp ∧
      s2.curlin = (gosub_site_10.before gosub_program).curlin ∧
      s2.txtptr = some gosub_site_10.rest) ∧
    ∀ s, s.gosubsp = 0 → (do_return s).raised = some ERR_RETURN :=
  gosub_return_balance 0 gosub_program gosub_site_10 [gosub_site_100] [fun s => s, fun s => s]
    (by
      intro c hc
      simp only [List.mem_cons, List.mem_singleton, List.not_mem_nil, or_false] at hc
      rcases hc with hc | hc <;> subst hc
      · exact ⟨by decide, by decide, by decide, by decide, fun s hs =>
          ⟨hs, rfl, fun _ _ => rfl, rfl⟩⟩
      · exact ⟨by decide, by decide, by decide, by decide, fun s hs =>
          ⟨hs, rfl, fun _ _ => rfl, rfl⟩⟩)
    (by
      intro g hg
      simp only [List.mem_cons, List.mem_singleton, List.not_mem_nil, or_false] at hg
      rcases hg with hg | hg <;> subst hg <;> exact fun s => ⟨rfl, fun _ _ => rfl⟩)
    (by decide) (by decide)

/-! ## Variables -/

theorem cache_hit_spec (s : state_t) (nm : List Nat) (ty i : Nat)
    (h : cache_hit s nm ty = some i) :
    s.lastvar = some i ∧ ∃ v, s.varlist[i]? = some v ∧ v.name = nm ∧ v.type = ty := by
  unfold cache_hit at h
  split at h
  · simp at h
  · rename_i j hj
    split at h
    · rename_i v hv
      split at h
      · rename_i hc
        simp at h
        subst h
        exact ⟨hj, v, by simpa using hv, hc.1, hc.2⟩
      · simp at h
    · simp at h

theorem cache_hit_of (s : state_t) (nm : List Nat) (ty i : Nat) (v : var_t)
    (h1 : s.lastvar = some i) (h2 : s.varlist[i]? = some v) (h3 : v.name = nm)
    (h4 : v.type = ty) : cache_hit s nm ty = some i := by
  simp [cache_hit, h1, h2, h3, h4]

/-- `find_variable(name, 1)` returns a variable of the normalised name and
type, changes nothing but the variable list and the cache, and leaves the
cache pointing at the variable. -/
theorem find_variable_create (s : state_t) (name : List Nat) :
    ∃ i v s1, find_variable s name true = (some i, s1) ∧
      s1.varlist[i]? = some v ∧
      v.name = (normalize_name name).1 ∧ v.type = (normalize_name name).2 ∧
      s1.lastvar = some i ∧
      s1 = { s with varlist := s1.varlist, lastvar := s1.lastvar } := by
  cases hc : cache_hit s (normalize_name name).1 (normalize_name name).2 with
  | some i =>
    obtain ⟨h1, v, h2, h3, h4⟩ := cache_hit_spec _ _ _ _ hc
    exact ⟨i, v, s, by simp only [find_variable, hc], h2, h3, h4, h1, rfl⟩
  | none =>
    cases hf : s.varlist.findIdx? (fun v => v.name == (normalize_name name).1 &&
        v.type == (normalize_name name).2) with
    | some i =>
      have hf' := hf
      rw [List.findIdx?_eq_some_iff_getElem] at hf'
      obtain ⟨hlt, hp, _⟩ := hf'
      simp at hp
      refine ⟨i, s.varlist[i], { s with lastvar := some i }, by simp only [find_variable, hc, hf],
        ?_, hp.1, hp.2, rfl, rfl⟩
      simp [List.getElem?_eq_getElem hlt]
    | none =>
      refine ⟨s.varlist.length,
        ⟨(normalize_name name).1, (normalize_name name).2, initial_value (normalize_name name).2⟩,
        { s with
          varlist := s.varlist ++ [⟨(normalize_name name).1, (normalize_name name).2,
            initial_value (normalize_name name).2⟩],
          lastvar := some s.varlist.length },
        by simp only [find_variable, hc, hf, if_true], ?_, rfl, rfl, rfl, rfl⟩
      simp

theorem find_variable_hit (s : state_t) (name : List Nat) (i : Nat) (v : var_t) (b : Bool)
    (h1 : s.lastvar = some i) (h2 : s.varlist[i]? = some v)
    (h3 : v.name = (normalize_name name).1) (h4 : v.type = (normalize_name name).2) :
    find_variable s name b = (some i, s) := by
  simp only [find_variable, cache_hit_of s _ _ i v h1 h2 h3 h4]

/-- The value and type `get_variable` reads depend on the variable list and
the cache only. -/
theorem find_variable_congr (s t : state_t) (name : List Nat) (b : Bool)
    (h1 : t.varlist = s.varlist) (h2 : t.lastvar = s.lastvar) :
    find_variable t name b =
      ((find_variable s name b).1,
        { t with varlist := (find_variable s name b).2.varlist,
                 lastvar := (find_variable s name b).2.lastvar }) := by
  have hch : ∀ nm ty, cache_hit t nm ty = cache_hit s nm ty := by
    intro nm ty
    simp only [cache_hit, h1, h2]
  have ht : t = { t with varlist := s.varlist, lastvar := s.lastvar } := by
    cases t
    simp_all
  simp only [find_variable, hch, h1]
  cases cache_hit s (normalize_name name).1 (normalize_name name).2 with
  | some i => exact Prod.ext rfl ht
  | none =>
    simp only
    cases s.varlist.findIdx? (fun v => v.name == (normalize_name name).1 &&
        v.type == (normalize_name name).2) with
    | some i => simp only
    | none =>
      cases b
      · exact Prod.ext rfl ht
      · rfl

/-- The value and type `get_variable` reads depend on the variable list and
the cache only. -/
theorem get_variable_congr (s t : state_t) (name : List Nat)
    (h1 : t.varlist = s.varlist) (h2 : t.lastvar = s.lastvar) :
    (get_variable t name).1 = (get_variable s name).1 ∧
    (get_variable t name).2.1 = (get_variable s name).2.1 := by
  have ht := find_variable_congr s t name true h1 h2
  simp only [get_variable, ht]
  cases hfs : find_variable s name true with
  | mk oi s1 =>
    cases oi with
    | none => exact ⟨rfl, rfl⟩
    | some i =>
      simp only
      cases s1.varlist.get? i <;> exact ⟨rfl, rfl⟩

/-- The variable `get_variable` reads after `set_variable` has stored a double
in a single-precision variable. -/
theorem set_variable_single (s : state_t) (name : List Nat) (d : dyadic)
    (hty : (normalize_name name).2 = TYPE_SNG) :
    ∃ s2, set_variable s name (.dblval d) TYPE_DBL = .ok s2 ∧
      s2 = { s with varlist := s2.varlist, lastvar := s2.lastvar } ∧
      (get_variable s2 name).1 = .sngval d.to_single ∧
      (get_variable s2 name).2.1 = TYPE_SNG := by
  obtain ⟨i, v, s1, hs, hv, hn, ht, hl, hs1⟩ := find_variable_create s name
  have hlt : i < s1.varlist.length := by
    by_contra hc
    rw [List.getElem?_eq_none (by omega)] at hv
    simp at hv
  have hvt : v.type = TYPE_SNG := by rw [ht, hty]
  refine ⟨{ s1 with varlist := s1.varlist.set i { v with value := .sngval d.to_single } },
    ?_, ?_, ?_⟩
  · simp [set_variable, hs, hv, switch_double, value_t.as_double, hvt]
  · rw [hs1]
  · have hf := find_variable_hit
      { s1 with varlist := s1.varlist.set i { v with value := .sngval d.to_single } } name i
      { v with value := .sngval d.to_single } true hl (by simp [hlt]) hn ht
    simp only [get_variable, hf]
    simp [hlt, hvt]

/-! ## Runs of the main loop -/

theorem line_entries_not_running (fuel i n : Nat) (s : state_t) (h : ¬ s.running = true) :
    line_entries fuel i n s = 0 := by
  cases n with
  | zero => rfl
  | succ n => simp [line_entries, h]

/-- The entries counted over a run are those of its first part plus those of
the rest. -/
theorem line_entries_add (fuel i m n : Nat) (s s' : state_t)
    (h : run_lines fuel m s = .ok s') :
    line_entries fuel i (m + n) s = line_entries fuel i m s + line_entries fuel i n s' := by
  induction m generalizing s with
  | zero =>
    simp only [run_lines] at h
    injection h with h
    subst h
    simp [line_entries]
  | succ m ih =>
    by_cases hr : s.running = true
    · simp only [run_lines, hr, if_true] at h
      cases hl : run_line fuel s with
      | ok s1 =>
        rw [hl] at h
        have := ih s1 h
        rw [show m + 1 + n = (m + n) + 1 by omega]
        simp only [line_entries, hr, hl, if_true]
        rw [this]
        omega
      | error e st => rw [hl] at h; exact absurd h (by simp [Bind.bind, Res.bind])
      | unmodelled => rw [hl] at h; exact absurd h (by simp [Bind.bind, Res.bind])
      | fuel => rw [hl] at h; exact absurd h (by simp [Bind.bind, Res.bind])
    · simp only [run_lines, hr, if_false] at h
      injection h with h
      subst h
      rw [line_entries_not_running _ _ _ _ hr, line_entries_not_running _ _ _ _ hr,
        line_entries_not_running _ _ _ _ hr]

theorem run_lines_add (fuel m n : Nat) (s s' : state_t) (h : run_lines fuel m s = .ok s') :
    run_lines fuel (m + n) s = run_lines fuel n s' := by
  induction m generalizing s with
  | zero =>
    simp only [run_lines] at h
    injection h with h
    subst h
    simp
  | succ m ih =>
    by_cases hr : s.running = true
    · simp only [run_lines, hr, if_true] at h
      cases hl : run_line fuel s with
      | ok s1 =>
        rw [hl] at h
        rw [show m + 1 + n = (m + n) + 1 by omega]
        simp only [run_lines, hr, hl, if_true, Res.ok_bind]
        exact ih s1 h
      | error e st => rw [hl] at h; exact absurd h (by simp [Bind.bind, Res.bind])
      | unmodelled => rw [hl] at h; exact absurd h (by simp [Bind.bind, Res.bind])
      | fuel => rw [hl] at h; exact absurd h (by simp [Bind.bind, Res.bind])
    · simp only [run_lines, hr, if_false] at h
      injection h with h
      subst h
      cases n with
      | zero => simp [run_lines, hr]
      | succ n => simp [run_lines, hr]

theorem run_lines_one (fuel : Nat) (s s' : state_t) (hr : s.running = true)
    (h : run_line fuel s = .ok s') : run_lines fuel 1 s = .ok s' := by
  simp [run_lines, hr, h]

theorem line_entries_one (fuel i : Nat) (s : state_t) :
    line_entries fuel i 1 s =
      if s.running = true ∧ s.curline_ptr = some i ∧ s.txtptr = some (line_text s i)
      then 1 else 0 := by
  simp only [line_entries]
  by_cases hr : s.running = true
  · simp only [hr, if_true]
    cases run_line fuel s <;> simp
  · simp [hr]

/-! ## Lines of a well-formed program -/

theorem store_ok_tail (l : line_t) (L : List line_t) (h : store_ok (l :: L)) : store_ok L :=
  ⟨(List.pairwise_cons.mp h.1).2, fun x hx => h.2 x (List.mem_cons_of_mem _ hx)⟩

/-- In a well-formed program `find_line` finds every line by its number. -/
theorem find_line_in_get (L : List line_t) (i : Nat) (l : line_t) (h : store_ok L)
    (hl : L[i]? = some l) : find_line_in L l.linenum = some i := by
  induction L generalizing i with
  | nil => simp at hl
  | cons l0 L ih =>
    have hm : ¬ is_end_marker l0 = true := by
      have := h.2 l0 (List.mem_cons_self _ _)
      simp [this]
    cases i with
    | zero =>
      simp at hl
      subst hl
      simp [find_line_in, hm]
    | succ i =>
      simp at hl
      have hmem : l ∈ L := List.getElem?_mem hl
      have hlt : l0.linenum < l.linenum := by
        have := (List.pairwise_cons.mp h.1).1 l.linenum (List.mem_map_of_mem _ hmem)
        exact this
      have h1 : ¬ l0.linenum = l.linenum := by omega
      have h2 : ¬ l0.linenum > l.linenum := by omega
      simp [find_line_in, hm, h1, h2, ih i (store_ok_tail _ _ h) (by simpa using hl)]

theorem store_ok_linenum_ne (L : List line_t) (i j : Nat) (li lj : line_t) (h : store_ok L)
    (hi : L[i]? = some li) (hj : L[j]? = some lj) (hij : i ≠ j) :
    li.linenum ≠ lj.linenum := by
  intro he
  have h1 := find_line_in_get L i li h hi
  have h2 := find_line_in_get L j lj h hj
  rw [he, h2] at h1
  injection h1 with h1
  exact hij h1.symm

/-! ## The steps of the main loop -/

@[simp] theorem trace_line_curlin (s : state_t) : (trace_line s).curlin = s.curlin := by
  unfold trace_line; split <;> rfl
@[simp] theorem trace_line_txtptr (s : state_t) : (trace_line s).txtptr = s.txtptr := by
  unfold trace_line; split <;> rfl
@[simp] theorem trace_line_running (s : state_t) : (trace_line s).running = s.running := by
  unfold trace_line; split <;> rfl
@[simp] theorem trace_line_lines (s : state_t) : (trace_line s).lines = s.lines := by
  unfold trace_line; split <;> rfl
@[simp] theorem trace_line_curline_ptr (s : state_t) :
    (trace_line s).curline_ptr = s.curline_ptr := by
  unfold trace_line; split <;> rfl
@[simp] theorem trace_line_forsp (s : state_t) : (trace_line s).forsp = s.forsp := by
  unfold trace_line; split <;> rfl
@[simp] theorem trace_line_forstack (s : state_t) : (trace_line s).forstack = s.forstack := by
  unfold trace_line; split <;> rfl
@[simp] theorem trace_line_varlist (s : state_t) : (trace_line s).varlist = s.varlist := by
  unfold trace_line; split <;> rfl
@[simp] theorem trace_line_lastvar (s : state_t) : (trace_line s).lastvar = s.lastvar := by
  unfold trace_line; split <;> rfl

theorem peek_char_of_txtptr (s : state_t) (c : Nat) (r : List Nat)
    (h : s.txtptr = some (c :: r)) : peek_char s = c := by
  simp [peek_char, h]

/-- The move to the next line at the end of an iteration of the main loop. -/
theorem next_line_advance (s : state_t) (i : Nat) (l : line_t) (hr : s.running = true)
    (hp : s.curline_ptr = some i) (hl : s.lines[i + 1]? = some l)
    (hm : is_end_marker l = false) :
    next_line s.curlin s =
      .ok { s with curlin := l.linenum, txtptr := some l.text, curline_ptr := some (i + 1) } := by
  simp [next_line, hr, hp, at_program_end, hl, hm]

theorem next_line_end (s : state_t) (i : Nat) (hr : s.running = true)
    (hp : s.curline_ptr = some i) (hl : s.lines[i + 1]? = none) :
    next_line s.curlin s = .ok { s with running := false } := by
  simp [next_line, hr, hp, at_program_end, hl]

theorem next_line_jump (s : state_t) (prev : Int) (h : s.curlin ≠ prev) :
    next_line prev s = .ok s := by
  simp [next_line, h]

/-- A line whose statements are finished: the main loop goes to the line after
it. -/
theorem run_line_at_end (fuel : Nat) (s : state_t) (i : Nat) (l : line_t)
    (hr : s.running = true) (htxt : s.txtptr = some [0]) (hp : s.curline_ptr = some i)
    (hl : s.lines[i + 1]? = some l) (hm : is_end_marker l = false) :
    ∃ s', run_line (fuel + 1) s = .ok s' ∧ at_line_start (i + 1) s' ∧
      s' = { s with curlin := l.linenum, txtptr := some l.text, curline_ptr := some (i + 1),
                    output := s'.output } := by
  have hpk : peek_char (trace_line s) = 0 := peek_char_of_txtptr _ 0 [] (by simp [htxt])
  have hrs : run_statements (fuel + 1) (fuel + 1) (trace_line s).curlin (trace_line s) =
      .ok (trace_line s, (trace_line s).curlin) := by
    simp [run_statements, hpk]
  have hn := next_line_advance (trace_line s) i l (by simp [hr]) (by simp [hp]) (by simp [hl]) hm
  refine ⟨{ trace_line s with
      curlin := l.linenum, txtptr := some l.text, curline_ptr := some (i + 1) },
    by simp only [run_line, hrs, Res.ok_bind, hn], ?_, ?_⟩
  · exact ⟨by simp [hr], rfl, l, by simp [hl], rfl, rfl⟩
  · unfold trace_line
    split <;> rfl

/-! ## Statements -/

theorem execute_statement_for (fuel : Nat) (s : state_t) (r : List Nat) :
    execute_statement (fuel + 1) (set_txt s (0x82 :: r)) =
      do_for (eval_expr (fuel + 1)) (set_txt s r) := by
  have hs := skip_spaces_set_txt_cons s 0x82 r (by decide) (by decide)
  have ha := advance_set_txt_cons s 0x82 r (by decide)
  have hb : (130 : Nat) &&& 128 ≠ 0 := by decide
  simp [execute_statement, hs, ha, hb]

theorem execute_statement_next (fuel : Nat) (s : state_t) (r : List Nat) :
    execute_statement (fuel + 1) (set_txt s (0x83 :: r)) = do_next (set_txt s r) := by
  have hs := skip_spaces_set_txt_cons s 0x83 r (by decide) (by decide)
  have ha := advance_set_txt_cons s 0x83 r (by decide)
  have hb : (131 : Nat) &&& 128 ≠ 0 := by decide
  simp [execute_statement, hs, ha, hb]

theorem execute_statement_print (fuel : Nat) (s : state_t) (r : List Nat) :
    execute_statement (fuel + 1) (set_txt s (0x91 :: r)) =
      do_print (eval_expr (fuel + 1)) (fuel + 1) (set_txt s r) := by
  have hs := skip_spaces_set_txt_cons s 0x91 r (by decide) (by decide)
  have ha := advance_set_txt_cons s 0x91 r (by decide)
  have hb : (145 : Nat) &&& 128 ≠ 0 := by decide
  simp [execute_statement, hs, ha, hb]

theorem execute_statement_if (fuel : Nat) (s : state_t) (r : List Nat) :
    execute_statement (fuel + 1) (set_txt s (0x8B :: r)) =
      do_if (execute_statement fuel) (eval_expr (fuel + 1)) (fuel + 1) (set_txt s r) := by
  have hs := skip_spaces_set_txt_cons s 0x8B r (by decide) (by decide)
  have ha := advance_set_txt_cons s 0x8B r (by decide)
  have hb : (139 : Nat) &&& 128 ≠ 0 := by decide
  simp [execute_statement, hs, ha, hb]

theorem int_tokens_head (a : Int) :
    ∃ c r, int_tokens a = c :: r ∧ c ≠ 32 ∧ c ≠ 9 ∧ c ≠ 61 ∧ c ≠ 0 := by
  unfold int_tokens
  split
  · exact ⟨0xFF, _, rfl, by decide, by decide, by decide, by decide⟩
  · obtain ⟨c, r, h, hc⟩ := dec_digits_cons a.natAbs
    exact ⟨c, r, h, by omega, by omega, by omega, by omega⟩

theorem match_token_hit (s : state_t) (tk lo : Nat) (r : List Nat) (hlo : lo ≠ 0)
    (h1 : tk &&& 0xFF00 ≠ 0) (h2 : (tk >>> 8) &&& 0xFF = 0xFF) (h3 : tk &&& 0xFF = lo) :
    match_token tk (set_txt s (0xFF :: lo :: r)) = (true, set_txt s r) := by
  have hs := skip_spaces_set_txt_cons s 0xFF (lo :: r) (by decide) (by decide)
  simp [match_token, h1, h2, h3, hs, advance_set_txt_cons, hlo]

theorem to_single_ofInt (a : Int) (h : a.natAbs < 16777216) :
    (dyadic.ofInt a).to_single = dyadic.ofInt a := by
  have h' : a.natAbs < 2 ^ 24 := by norm_num; exact h
  unfold dyadic.to_single dyadic.round_to dyadic.ofInt
  simp only
  rw [if_pos h']
  rfl

theorem get_variable_state (s : state_t) (name : List Nat) :
    (get_variable s name).2.2 =
      { s with varlist := (get_variable s name).2.2.varlist,
               lastvar := (get_variable s name).2.2.lastvar } := by
  obtain ⟨i, v, s1, hs, hv, _, _, _, hs1⟩ := find_variable_create s name
  simp only [get_variable, hs, List.get?_eq_getElem?, hv]
  exact hs1

theorem get_variable_again (s : state_t) (name : List Nat) :
    (get_variable (get_variable s name).2.2 name).1 = (get_variable s name).1 ∧
    (get_variable (get_variable s name).2.2 name).2.1 = (get_variable s name).2.1 := by
  obtain ⟨i, v, s1, hs, hv, hn, ht, hl, hs1⟩ := find_variable_create s name
  have hf := find_variable_hit s1 name i v true hl hv hn ht
  simp [get_variable, hs, hv, hf]

/-- The statement `FOR I = a TO b` (with `STEP -1` when `down`) after its
token: `I` is set to `a` and the entry of the loop is pushed. -/
theorem do_for_literal (fuel : Nat) (s : state_t) (a b : Int) (down : Bool)
    (ha : -2147483647 ≤ a ∧ a ≤ 2147483647) (hb : -2147483647 ≤ b ∧ b ≤ 2147483647)
    (hsp : s.forsp < STACK_SIZE) :
    ∃ s', do_for (eval_expr (fuel + 3)) (set_txt s ((for_tokens a b down).drop 1)) = .ok s' ∧
      s' = { s with
        txtptr := some [0],
        forstack := array_set s.forstack s.forsp
          ⟨s.curlin, some [0], [73], dyadic.ofInt b, dyadic.ofInt (if down then -1 else 1)⟩,
        forsp := s.forsp + 1, varlist := s'.varlist, lastvar := s'.lastvar } ∧
      (get_variable s' [73]).1 = .sngval (dyadic.ofInt a).to_single ∧
      (get_variable s' [73]).2.1 = TYPE_SNG := by
  -- the parts of the text
  generalize htail : (if down then [0xFF, 0x88, 0xFF, 0x8A, 49] else ([] : List Nat)) ++ [0] = tail
  have htxt : (for_tokens a b down).drop 1 =
      73 :: 0xFF :: 0x96 :: (int_tokens a ++ 0xFF :: 0x85 :: (int_tokens b ++ tail)) := by
    simp [for_tokens, ← htail]
  rw [htxt]
  have hetail : ends_expression tail = true := by
    rw [← htail]
    cases down <;> rfl
  -- the name and the equals sign
  have h1 : parse_name is_plain_name_char (skip_spaces (set_txt s
      (73 :: 0xFF :: 0x96 :: (int_tokens a ++ 0xFF :: 0x85 :: (int_tokens b ++ tail))))) =
      ([73], set_txt s (0xFF :: 0x96 :: (int_tokens a ++ 0xFF :: 0x85 :: (int_tokens b ++ tail)))) := by
    rw [skip_spaces_set_txt_cons _ _ _ (by decide) (by decide)]
    simp [parse_name, read_name, is_plain_name_char, IS_ALNUM, IS_ALPHA, IS_DIGIT, set_txt]
  obtain ⟨c, r, hc, hc32, hc9, hc61, hc0⟩ := int_tokens_head a
  have h2 : expect_equals (set_txt s
      (0xFF :: 0x96 :: (int_tokens a ++ 0xFF :: 0x85 :: (int_tokens b ++ tail)))) =
      .ok (set_txt s (int_tokens a ++ 0xFF :: 0x85 :: (int_tokens b ++ tail))) := by
    have hm := match_token_hit s TOK_EQ 0x96
      (int_tokens a ++ 0xFF :: 0x85 :: (int_tokens b ++ tail)) (by decide) (by decide)
      (by decide) (by decide)
    have hs := skip_spaces_set_txt_cons s 0xFF
      (0x96 :: (int_tokens a ++ 0xFF :: 0x85 :: (int_tokens b ++ tail))) (by decide) (by decide)
    simp only [expect_equals, hs, hm, peek_char_set_txt_cons]
    rw [hc]
    simp [skip_raw, hc61]
  have h3 := eval_numeric_int_literal fuel s a (0xFF :: 0x85 :: (int_tokens b ++ tail)) ha
    (by simp [ends_expression])
  obtain ⟨s2, h4, h5, h6, h7⟩ := set_variable_single
    (set_txt s (0xFF :: 0x85 :: (int_tokens b ++ tail))) [73] (dyadic.ofInt a) (by decide)
  have h5' : s2 = set_txt s2 (0xFF :: 0x85 :: (int_tokens b ++ tail)) := by
    rw [set_txt_of_txtptr]
    rw [h5]
    rfl
  have hsk : skip_spaces s2 = s2 := by
    rw [h5']
    exact skip_spaces_set_txt_cons _ _ _ (by decide) (by decide)
  have h8 : match_token TOK_TO (skip_spaces s2) = (true, set_txt s2 (int_tokens b ++ tail)) := by
    rw [hsk, h5']
    exact match_token_hit _ TOK_TO 0x85 _ (by decide) (by decide) (by decide) (by decide)
  have h9 := eval_numeric_int_literal fuel s2 b tail hb hetail
  have hfsp : s2.forsp = s.forsp := by rw [h5]; rfl
  have hfst : s2.forstack = s.forstack := by rw [h5]; rfl
  have hcur : s2.curlin = s.curlin := by rw [h5]; rfl
  have hnsp : ¬ s.forsp ≥ STACK_SIZE := by omega
  have hframe : ∀ t, ({ set_txt s2 t with
        forstack := array_set s.forstack s.forsp
          ⟨s.curlin, some t, [73], dyadic.ofInt b, dyadic.ofInt (if down then -1 else 1)⟩,
        forsp := s.forsp + 1 } : state_t) =
      { s with
        txtptr := some t,
        forstack := array_set s.forstack s.forsp
          ⟨s.curlin, some t, [73], dyadic.ofInt b, dyadic.ofInt (if down then -1 else 1)⟩,
        forsp := s.forsp + 1, varlist := s2.varlist, lastvar := s2.lastvar } := by
    intro t
    rw [h5]
    rfl
  have hres : do_for (eval_expr (fuel + 3)) (set_txt s
      (73 :: 0xFF :: 0x96 :: (int_tokens a ++ 0xFF :: 0x85 :: (int_tokens b ++ tail)))) =
      .ok { set_txt s2 [0] with
        forstack := array_set s.forstack s.forsp
          ⟨s.curlin, some [0], [73], dyadic.ofInt b, dyadic.ofInt (if down then -1 else 1)⟩,
        forsp := s.forsp + 1 } := by
    simp only [do_for, h1, h2, Res.ok_bind, h3, h4, h8, h9]
    cases down with
    | false =>
      have ht : tail = [0] := by rw [← htail]; rfl
      subst ht
      have h10 : match_token TOK_STEP (skip_spaces (set_txt s2 [0])) = (false, set_txt s2 [0]) := by
        have hs := skip_spaces_set_txt_cons s2 0 [] (by decide) (by decide)
        simp [match_token, hs]
      have e1 : (set_txt s2 [0]).forsp = s.forsp := hfsp
      have e2 : (set_txt s2 [0]).forstack = s.forstack := hfst
      have e3 : (set_txt s2 [0]).curlin = s.curlin := hcur
      simp only [h10, Bool.false_eq_true, if_false, Res.pure_eq, Res.ok_bind, e1, e2, e3, hnsp,
        set_txt_txtptr]
      rfl
    | true =>
      have ht : tail = 0xFF :: 0x88 :: (int_tokens (-1) ++ [0]) := by rw [← htail]; rfl
      subst ht
      have h10 : match_token TOK_STEP (skip_spaces (set_txt s2
          (0xFF :: 0x88 :: (int_tokens (-1) ++ [0])))) =
          (true, set_txt s2 (int_tokens (-1) ++ [0])) := by
        rw [skip_spaces_set_txt_cons _ _ _ (by decide) (by decide)]
        exact match_token_hit _ TOK_STEP 0x88 _ (by decide) (by decide) (by decide) (by decide)
      have h11 := eval_numeric_int_literal fuel s2 (-1) [0] (by decide) (by rfl)
      have e1 : (set_txt s2 [0]).forsp = s.forsp := hfsp
      have e2 : (set_txt s2 [0]).forstack = s.forstack := hfst
      have e3 : (set_txt s2 [0]).curlin = s.curlin := hcur
      simp only [h10, h11, if_true, Res.pure_eq, Res.ok_bind, e1, e2, e3, hnsp, if_false,
        set_txt_txtptr]
      rfl
  refine ⟨_, hres, ?_, ?_⟩
  · rw [hframe]
  · have hg := get_variable_congr s2 ({ set_txt s2 [0] with
        forstack := array_set s.forstack s.forsp
          ⟨s.curlin, some [0], [73], dyadic.ofInt b, dyadic.ofInt (if down then -1 else 1)⟩,
        forsp := s.forsp + 1 } : state_t) [73] rfl rfl
    rw [hg.1, hg.2]
    exact ⟨h6, h7⟩

theorem add_ofInt (x y : Int) (h : (x + y).natAbs < 9007199254740992) :
    (dyadic.ofInt x).add (dyadic.ofInt y) = dyadic.ofInt (x + y) := by
  have h' : (x + y).natAbs < 2 ^ 53 := by norm_num; exact h
  unfold dyadic.add dyadic.round_to dyadic.ofInt
  simp only [max_self, Nat.sub_self, pow_zero, mul_one]
  rw [if_pos h']
  rfl

theorem lt_ofInt (x y : Int) : (dyadic.ofInt x).lt (dyadic.ofInt y) = decide (x < y) := by
  simp [dyadic.lt, dyadic.ofInt]

theorem skip_spaces_of_txtptr (s : state_t) (c : Nat) (r : List Nat)
    (h : s.txtptr = some (c :: r)) (h1 : c ≠ 32) (h2 : c ≠ 9) : skip_spaces s = s := by
  have := skip_spaces_set_txt_cons s c r h1 h2
  rwa [set_txt_of_txtptr s _ h] at this

@[simp] theorem update_curline_ptr_varlist (s : state_t) :
    (update_curline_ptr s).varlist = s.varlist := by
  rw [update_curline_ptr_eq]
@[simp] theorem update_curline_ptr_lastvar (s : state_t) :
    (update_curline_ptr s).lastvar = s.lastvar := by
  rw [update_curline_ptr_eq]

/-- The statement `NEXT` in a loop on `I` whose next value is still within the
limit: `I` is stepped and the text pointer goes back to the loop head. -/
theorem do_next_continue (s : state_t) (lf : Int) (sp : Nat) (limit step x : Int)
    (htxt : s.txtptr = some [0]) (hsp : s.forsp = sp + 1)
    (hst : s.forstack sp = ⟨lf, some [0], [73], dyadic.ofInt limit, dyadic.ofInt step⟩)
    (hv : (get_variable s [73]).1 = .sngval (dyadic.ofInt x))
    (ht : (get_variable s [73]).2.1 = TYPE_SNG)
    (hx : (x + step).natAbs < 16777216)
    (hdone : ¬ (if 0 ≤ step then limit < x + step else x + step < limit)) :
    ∃ s', do_next s = .ok s' ∧
      s' = update_curline_ptr { s with
        curlin := lf, txtptr := some [0], varlist := s'.varlist, lastvar := s'.lastvar } ∧
      (get_variable s' [73]).1 = .sngval (dyadic.ofInt (x + step)) ∧
      (get_variable s' [73]).2.1 = TYPE_SNG := by
  have hsk := skip_spaces_of_txtptr s 0 [] htxt (by decide) (by decide)
  have hpk : peek_char s = 0 := peek_char_of_txtptr s 0 [] htxt
  have hne : ¬ s.forsp = 0 := by omega
  have hsp1 : s.forsp - 1 = sp := by omega
  have hadd := add_ofInt x step (by omega)
  have hg := get_variable_state s [73]
  obtain ⟨s2, h4, h5, h6, h7⟩ := set_variable_single (get_variable s [73]).2.2 [73]
    (dyadic.ofInt (x + step)) (by decide)
  rw [to_single_ofInt _ hx] at h6
  have hfs : s2.forstack = s.forstack := by rw [h5, hg]
  have hfp : s2.forsp = s.forsp := by rw [h5, hg]
  have hd : (if 0 ≤ (dyadic.ofInt step).num then
      (dyadic.ofInt limit).lt (dyadic.ofInt (x + step))
      else (dyadic.ofInt (x + step)).lt (dyadic.ofInt limit)) = false := by
    simp only [lt_ofInt]
    show (if 0 ≤ step then _ else _) = false
    split <;> rename_i h0 <;> simp only [h0, if_true, if_false] at hdone <;> simp [hdone]
  have hres : do_next s = .ok (update_curline_ptr { s2 with curlin := lf, txtptr := some [0] }) := by
    have hal : IS_ALPHA 0 = false := by decide
    have hty : ¬ TYPE_SNG = TYPE_INT := by decide
    simp only [do_next, hsk, hpk, hne, if_false, hal, Bool.false_eq_true, hsp1, hst, hv, ht, hty,
      switch_double, value_t.as_single, if_true, hadd, hd, h4, Res.ok_bind, Res.pure_eq, hfs, hfp]
  have hs2 : s2 = { s with varlist := s2.varlist, lastvar := s2.lastvar } := by
    rw [h5, hg]
  have e : ({ s2 with curlin := lf, txtptr := some [0] } : state_t) =
      { s with curlin := lf, txtptr := some [0], varlist := s2.varlist,
               lastvar := s2.lastvar } := by
    rw [hs2]
  refine ⟨_, hres, ?_, ?_⟩
  · simp only [update_curline_ptr_varlist, update_curline_ptr_lastvar]
    rw [e]
  · have hc := get_variable_congr s2
      (update_curline_ptr { s2 with curlin := lf, txtptr := some [0] }) [73]
      (by simp) (by simp)
    rw [hc.1, hc.2]
    exact ⟨h6, h7⟩

/-- The statement `NEXT` in a loop on `I` whose next value is beyond the limit:
the entry of the loop is dropped and execution goes on after `NEXT`. -/
theorem do_next_done (s : state_t) (lf : Int) (sp : Nat) (limit step x : Int)
    (htxt : s.txtptr = some [0]) (hsp : s.forsp = sp + 1)
    (hst : s.forstack sp = ⟨lf, some [0], [73], dyadic.ofInt limit, dyadic.ofInt step⟩)
    (hv : (get_variable s [73]).1 = .sngval (dyadic.ofInt x))
    (ht : (get_variable s [73]).2.1 = TYPE_SNG)
    (hx : (x + step).natAbs < 9007199254740992)
    (hdone : if 0 ≤ step then limit < x + step else x + step < limit) :
    ∃ s', do_next s = .ok s' ∧
      s' = { s with forsp := sp, varlist := s'.varlist, lastvar := s'.lastvar } := by
  have hsk := skip_spaces_of_txtptr s 0 [] htxt (by decide) (by decide)
  have hpk : peek_char s = 0 := peek_char_of_txtptr s 0 [] htxt
  have hne : ¬ s.forsp = 0 := by omega
  have hsp1 : s.forsp - 1 = sp := by omega
  have hadd := add_ofInt x step hx
  have hg := get_variable_state s [73]
  have hfp : (get_variable s [73]).2.2.forsp = s.forsp := by rw [hg]
  have hd : (if 0 ≤ (dyadic.ofInt step).num then
      (dyadic.ofInt limit).lt (dyadic.ofInt (x + step))
      else (dyadic.ofInt (x + step)).lt (dyadic.ofInt limit)) = true := by
    simp only [lt_ofInt]
    show (if 0 ≤ step then _ else _) = true
    split <;> rename_i h0 <;> simp only [h0, if_true, if_false] at hdone <;> simp [hdone]
  have hres : do_next s = .ok { (get_variable s [73]).2.2 with forsp := sp } := by
    have hal : IS_ALPHA 0 = false := by decide
    have hty : ¬ TYPE_SNG = TYPE_INT := by decide
    simp only [do_next, hsk, hpk, hne, if_false, hal, Bool.false_eq_true, hsp1, hst, hv, ht, hty,
      switch_double, value_t.as_single, if_true, hadd, hd, hfp]
  refine ⟨_, hres, ?_⟩
  show ({ (get_variable s [73]).2.2 with forsp := sp } : state_t) =
    { s with forsp := sp, varlist := (get_variable s [73]).2.2.varlist,
             lastvar := (get_variable s [73]).2.2.lastvar }
  rw [hg]

/-! ## The lines of a FOR loop -/

theorem run_statements_single (fuel n : Nat) (prev : Int) (s s1 : state_t) (c : Nat)
    (r : List Nat) (htxt : s.txtptr = some (c :: r)) (hc : c ≠ 0) (hr : s.running = true)
    (hex : execute_statement fuel s = .ok s1) (hcur : s1.curlin = s.curlin)
    (hend : s1.txtptr = some [0]) :
    run_statements fuel (n + 1) prev s = .ok (s1, s.curlin) := by
  have hpk : peek_char s = c := peek_char_of_txtptr s c r htxt
  have hsk := skip_spaces_of_txtptr s1 0 [] hend (by decide) (by decide)
  have hpk1 : peek_char s1 = 0 := peek_char_of_txtptr s1 0 [] hend
  simp [run_statements, hpk, hc, hr, hex, hcur, hsk, hpk1]

theorem run_statements_jump (fuel n : Nat) (prev : Int) (s s1 : state_t) (c : Nat)
    (r : List Nat) (htxt : s.txtptr = some (c :: r)) (hc : c ≠ 0) (hr : s.running = true)
    (hex : execute_statement fuel s = .ok s1) (hcur : s1.curlin ≠ s.curlin) :
    run_statements fuel (n + 1) prev s = .ok (s1, s.curlin) := by
  have hpk : peek_char s = c := peek_char_of_txtptr s c r htxt
  simp [run_statements, hpk, hc, hr, hex, hcur]

/-- The line `FOR I = a TO b`: the loop is entered and the main loop goes to
the first line of the body. -/
theorem run_line_for (f : Nat) (s : state_t) (i : Nat) (lf l1 : line_t) (a b : Int)
    (down : Bool) (hstart : at_line_start i s) (hlf : s.lines[i]? = some lf)
    (htext : lf.text = for_tokens a b down) (hl1 : s.lines[i + 1]? = some l1)
    (hm1 : is_end_marker l1 = false) (hsp : s.forsp < STACK_SIZE)
    (ha : a.natAbs < 16777216) (hb : b.natAbs < 16777216) :
    ∃ s', run_line (f + 3) s = .ok s' ∧ at_line_start (i + 1) s' ∧
      loop_context s.lines lf.linenum s.forsp b (if down then -1 else 1) a s' := by
  obtain ⟨hrun, hptr, l, hl, hcur, htxt⟩ := hstart
  rw [hlf] at hl
  injection hl with hl
  subst hl
  rw [htext] at htxt
  have htxt' : (trace_line s).txtptr = some (0x82 :: (for_tokens a b down).drop 1) := by
    rw [trace_line_txtptr, htxt]
    rfl
  obtain ⟨s1, h1, h2, h3, h4⟩ := do_for_literal f (trace_line s) a b down (by omega) (by omega)
    (by simpa using hsp)
  have hex : execute_statement (f + 3) (trace_line s) = .ok s1 := by
    rw [← set_txt_of_txtptr _ _ htxt', execute_statement_for, h1]
  have hs1cur : s1.curlin = (trace_line s).curlin := by rw [h2]
  have hs1txt : s1.txtptr = some [0] := by rw [h2]
  have hrs := run_statements_single (f + 3) (f + 2) (trace_line s).curlin (trace_line s) s1 _ _
    htxt' (by decide) (by simpa using hrun) hex hs1cur hs1txt
  have hs1run : s1.running = true := by rw [h2]; simpa using hrun
  have hs1ptr : s1.curline_ptr = some i := by rw [h2]; simpa using hptr
  have hs1lines : s1.lines = s.lines := by rw [h2]; simp
  have hn := next_line_advance s1 i l1 hs1run hs1ptr (by rw [hs1lines]; exact hl1) hm1
  rw [hs1cur] at hn
  refine ⟨{ s1 with curlin := l1.linenum, txtptr := some l1.text, curline_ptr := some (i + 1) },
    by simp only [run_line, hrs, Res.ok_bind, hn], ?_, ?_⟩
  · exact ⟨hs1run, rfl, l1, by rw [← hs1lines] at hl1; exact hl1, rfl, rfl⟩
  · have hg := get_variable_congr s1 ({ s1 with
        curlin := l1.linenum, txtptr := some l1.text, curline_ptr := some (i + 1) } : state_t)
      [73] rfl rfl
    refine ⟨hs1lines, ?_, ?_, ?_, ?_⟩
    · show s1.forsp = _
      rw [h2]; simp
    · show s1.forstack s.forsp = _
      rw [h2]
      simp [array_set, hcur]
    · rw [hg.1, h3, to_single_ofInt a ha]
    · rw [hg.2, h4]

theorem update_curline_ptr_found (s : state_t) (i : Nat) (h : find_line s s.curlin = some i) :
    update_curline_ptr s = { s with curline_ptr := some i } := by
  simp [update_curline_ptr, h]

/-- The line `NEXT` while the loop goes on: `I` is stepped and the main loop is
at the end of the line of `FOR`. -/
theorem run_line_next_continue (f : Nat) (s : state_t) (i j : Nat) (lf ln : line_t) (sp : Nat)
    (limit step x : Int) (hstore : store_ok s.lines) (hstart : at_line_start j s)
    (hlf : s.lines[i]? = some lf) (hln : s.lines[j]? = some ln) (hij : i ≠ j)
    (htext : ln.text = [TOK_NEXT, 0])
    (hctx : loop_context s.lines lf.linenum sp limit step x s)
    (hx : (x + step).natAbs < 16777216)
    (hdone : ¬ (if 0 ≤ step then limit < x + step else x + step < limit)) :
    ∃ s', run_line (f + 1) s = .ok s' ∧ s'.running = true ∧ s'.curline_ptr = some i ∧
      s'.txtptr = some [0] ∧
      loop_context s.lines lf.linenum sp limit step (x + step) s' := by
  obtain ⟨hrun, hptr, l, hl, hcur, htxt⟩ := hstart
  rw [hln] at hl
  injection hl with hl
  subst hl
  rw [htext] at htxt
  obtain ⟨_, hsp, hst, hv, ht⟩ := hctx
  have htxt' : (trace_line s).txtptr = some (0x83 :: [0]) := by
    rw [trace_line_txtptr, htxt]
  have hg := get_variable_congr s (set_txt (trace_line s) [0]) [73] (by simp [set_txt])
    (by simp [set_txt])
  obtain ⟨s1, h1, h2, h3, h4⟩ := do_next_continue (set_txt (trace_line s) [0]) lf.linenum sp
    limit step x rfl (by simpa [set_txt] using hsp) (by simpa [set_txt] using hst)
    (by rw [hg.1, hv]) (by rw [hg.2, ht]) hx hdone
  have hex : execute_statement (f + 1) (trace_line s) = .ok s1 := by
    rw [← set_txt_of_txtptr _ _ htxt', execute_statement_next, h1]
  have hfind : find_line ({ set_txt (trace_line s) [0] with
      curlin := lf.linenum, txtptr := some [0], varlist := s1.varlist,
      lastvar := s1.lastvar } : state_t) lf.linenum = some i := by
    have := find_line_in_get s.lines i lf hstore hlf
    simpa [find_line, set_txt] using this
  have h2' := h2
  rw [update_curline_ptr_found _ i hfind] at h2'
  have hne : ln.linenum ≠ lf.linenum := fun e =>
    (store_ok_linenum_ne s.lines i j lf ln hstore hlf hln hij) e.symm
  have hs1cur : s1.curlin ≠ (trace_line s).curlin := by
    rw [h2', trace_line_curlin, hcur]
    exact fun e => hne e.symm
  have hrs := run_statements_jump (f + 1) f (trace_line s).curlin (trace_line s) s1 _ _
    htxt' (by decide) (by simpa using hrun) hex hs1cur
  have hn := next_line_jump s1 (trace_line s).curlin hs1cur
  refine ⟨s1, by simp only [run_line, hrs, Res.ok_bind, hn], ?_, ?_, ?_, ?_⟩
  · rw [h2']; simpa [set_txt] using hrun
  · rw [h2']
  · rw [h2']
  · refine ⟨by rw [h2']; simp [set_txt], by rw [h2']; simpa [set_txt] using hsp,
      by rw [h2']; simpa [set_txt] using hst, h3, h4⟩

/-- The line `NEXT` when the loop is finished: the entry of the loop is
dropped and the main loop goes to the line after `NEXT`, or stops at the end
of the program. -/
theorem run_line_next_done (f : Nat) (s : state_t) (j : Nat) (ln : line_t) (lf : Int)
    (sp : Nat) (limit step x : Int) (hstore : store_ok s.lines) (hstart : at_line_start j s)
    (hln : s.lines[j]? = some ln) (htext : ln.text = [TOK_NEXT, 0])
    (hctx : loop_context s.lines lf sp limit step x s)
    (hx : (x + step).natAbs < 9007199254740992)
    (hdone : if 0 ≤ step then limit < x + step else x + step < limit) :
    ∃ s', run_line (f + 1) s = .ok s' ∧ s'.forsp = sp ∧ s'.lines = s.lines ∧
      (s'.running = true → at_line_start (j + 1) s') := by
  obtain ⟨hrun, hptr, l, hl, hcur, htxt⟩ := hstart
  rw [hln] at hl
  injection hl with hl
  subst hl
  rw [htext] at htxt
  obtain ⟨_, hsp, hst, hv, ht⟩ := hctx
  have htxt' : (trace_line s).txtptr = some (0x83 :: [0]) := by
    rw [trace_line_txtptr, htxt]
  have hg := get_variable_congr s (set_txt (trace_line s) [0]) [73] (by simp [set_txt])
    (by simp [set_txt])
  obtain ⟨s1, h1, h2⟩ := do_next_done (set_txt (trace_line s) [0]) lf sp
    limit step x rfl (by simpa [set_txt] using hsp) (by simpa [set_txt] using hst)
    (by rw [hg.1, hv]) (by rw [hg.2, ht]) hx hdone
  have hex : execute_statement (f + 1) (trace_line s) = .ok s1 := by
    rw [← set_txt_of_txtptr _ _ htxt', execute_statement_next, h1]
  have hs1cur : s1.curlin = (trace_line s).curlin := by rw [h2]; rfl
  have hs1txt : s1.txtptr = some [0] := by rw [h2]; rfl
  have hrs := run_statements_single (f + 1) f (trace_line s).curlin (trace_line s) s1 _ _
    htxt' (by decide) (by simpa using hrun) hex hs1cur hs1txt
  have hs1run : s1.running = true := by rw [h2]; simpa [set_txt] using hrun
  have hs1ptr : s1.curline_ptr = some j := by rw [h2]; simpa [set_txt] using hptr
  have hs1lines : s1.lines = s.lines := by rw [h2]; simp [set_txt]
  have hs1sp : s1.forsp = sp := by rw [h2]
  cases hnx : s.lines[j + 1]? with
  | none =>
    have hn : next_line (trace_line s).curlin s1 = .ok { s1 with running := false } := by
      rw [← hs1cur]
      exact next_line_end s1 j hs1run hs1ptr (by rw [hs1lines]; exact hnx)
    exact ⟨{ s1 with running := false }, by simp only [run_line, hrs, Res.ok_bind, hn],
      hs1sp, hs1lines, fun h => by simp at h⟩
  | some l2 =>
    have hm : is_end_marker l2 = false := hstore.2 l2 (List.getElem?_mem hnx)
    have hn := next_line_advance s1 j l2 hs1run hs1ptr (by rw [hs1lines]; exact hnx) hm
    rw [hs1cur] at hn
    exact ⟨{ s1 with curlin := l2.linenum, txtptr := some l2.text, curline_ptr := some (j + 1) },
      by simp only [run_line, hrs, Res.ok_bind, hn], hs1sp, hs1lines,
      fun _ => ⟨hs1run, rfl, l2, by rw [← hs1lines] at hnx; exact hnx, rfl, rfl⟩⟩

theorem line_entries_one_other (fuel i p : Nat) (s : state_t) (hp : s.curline_ptr = some p)
    (hne : p ≠ i) : line_entries fuel i 1 s = 0 := by
  rw [line_entries_one]
  simp [hp, hne]

theorem loop_context_congr (L : List line_t) (lf : Int) (sp : Nat) (limit step x : Int)
    (s t : state_t) (h : loop_context L lf sp limit step x s) (h1 : t.lines = s.lines)
    (h2 : t.forsp = s.forsp) (h3 : t.forstack = s.forstack) (h4 : t.varlist = s.varlist)
    (h5 : t.lastvar = s.lastvar) : loop_context L lf sp limit step x t := by
  obtain ⟨a1, a2, a3, a4, a5⟩ := h
  have hg := get_variable_congr s t [73] h4 h5
  exact ⟨by rw [h1, a1], by rw [h2, a2], by rw [h3, a3], by rw [hg.1, a4], by rw [hg.2, a5]⟩

/-- The iterations of a loop from an entry of its body on: with `I = x` the
body is entered `((b - x) * step).toNat + 1` times until the loop is left. -/
theorem loop_iterations (f : Nat) (L : List line_t) (i j : Nat) (lf ln l1 : line_t) (sp : Nat)
    (b st : Int) (hstore : store_ok L) (hlf : L[i]? = some lf) (hln : L[j]? = some ln)
    (hl1 : L[i + 1]? = some l1) (hij : i + 1 < j) (htext : ln.text = [TOK_NEXT, 0])
    (hbody : runs_body (f + 3) L lf.linenum sp b st i j) (hst : st = 1 ∨ st = -1)
    (hb : b.natAbs < 16777216) :
    ∀ (k : Nat) (x : Int) (s : state_t), k = ((b - x) * st).toNat → x.natAbs < 16777216 →
      at_line_start (i + 1) s → loop_context L lf.linenum sp b st x s →
      ∃ n s', run_lines (f + 3) n s = .ok s' ∧ line_entries (f + 3) (i + 1) n s = k + 1 ∧
        s'.forsp = sp ∧ s'.lines = L ∧ (s'.running = true → at_line_start (j + 1) s') := by
  intro k
  induction k with
  | zero =>
    intro x s hk hx hstart hctx
    obtain ⟨m, s1, hm1, hm2, hm3, hm4⟩ := hbody x s hstart hctx
    have hL : s1.lines = L := hm4.1
    have hdone : if 0 ≤ st then b < x + st else x + st < b := by
      rcases hst with h | h <;> subst h <;> simp at hk ⊢ <;> omega
    obtain ⟨s2, h1, h2, h3, h4⟩ := run_line_next_done (f + 2) s1 j ln lf.linenum sp b st x
      (by rw [hL]; exact hstore) hm3 (by rw [hL]; exact hln) htext (by rw [hL]; exact hm4)
      (by rcases hst with h | h <;> subst h <;> omega) hdone
    refine ⟨m + 1, s2, ?_, ?_, h2, by rw [h3, hL], h4⟩
    · rw [run_lines_add _ _ _ _ _ hm1]
      exact run_lines_one _ _ _ hm3.1 h1
    · rw [line_entries_add _ _ _ _ _ _ hm1, hm2,
        line_entries_one_other _ _ j _ hm3.2.1 (by omega)]
  | succ k ih =>
    intro x s hk hx hstart hctx
    obtain ⟨m, s1, hm1, hm2, hm3, hm4⟩ := hbody x s hstart hctx
    have hL : s1.lines = L := hm4.1
    have hdone : ¬ (if 0 ≤ st then b < x + st else x + st < b) := by
      rcases hst with h | h <;> subst h <;> simp at hk ⊢ <;> omega
    have hx' : (x + st).natAbs < 16777216 := by
      rcases hst with h | h <;> subst h <;> simp at hk <;> omega
    obtain ⟨s2, h1, h2, h3, h4, h5⟩ := run_line_next_continue (f + 2) s1 i j lf ln sp b st x
      (by rw [hL]; exact hstore) hm3 (by rw [hL]; exact hlf) (by rw [hL]; exact hln)
      (by omega) htext (by rw [hL]; exact hm4) hx' hdone
    rw [hL] at h5
    have hL2 : s2.lines = L := h5.1
    obtain ⟨s3, g1, g2, g3⟩ := run_line_at_end (f + 2) s2 i l1 h2 h4 h3
      (by rw [hL2]; exact hl1) (hstore.2 l1 (List.getElem?_mem hl1))
    have hctx3 : loop_context L lf.linenum sp b st (x + st) s3 :=
      loop_context_congr _ _ _ _ _ _ s2 s3 h5 (by rw [g3]) (by rw [g3]) (by rw [g3])
        (by rw [g3]) (by rw [g3])
    obtain ⟨n, s4, e1, e2, e3, e4, e5⟩ := ih (x + st) s3
      (by rcases hst with h | h <;> subst h <;> simp at hk ⊢ <;> omega) hx' g2 hctx3
    have r2 : run_lines (f + 3) 1 s1 = .ok s2 := run_lines_one _ _ _ hm3.1 h1
    have r3 : run_lines (f + 3) 1 s2 = .ok s3 := run_lines_one _ _ _ h2 g1
    refine ⟨m + (1 + (1 + n)), s4, ?_, ?_, e3, e4, e5⟩
    · rw [run_lines_add _ _ _ _ _ hm1, run_lines_add _ _ _ _ _ r2, run_lines_add _ _ _ _ _ r3]
      exact e1
    · rw [line_entries_add _ _ _ _ _ _ hm1, line_entries_add _ _ _ _ _ _ r2,
        line_entries_add _ _ _ _ _ _ r3, hm2, e2,
        line_entries_one_other _ _ j _ hm3.2.1 (by omega),
        line_entries_one_other _ _ i _ h3 (by omega)]
      omega

/-! ## PRINT of a one-character string literal -/

theorem match_token_miss (s : state_t) (tk c : Nat) (r : List Nat)
    (h32 : c ≠ 32) (h9 : c ≠ 9) (hc : c ≠ 0xFF) (h1 : tk &&& 0xFF00 ≠ 0)
    (h2 : (tk >>> 8) &&& 0xFF = 0xFF) :
    match_token tk (set_txt s (c :: r)) = (false, set_txt s (c :: r)) := by
  have hs := skip_spaces_set_txt_cons s c r h32 h9
  simp [match_token, h1, h2, hs, hc]

theorem parse_string_literal_char (s : state_t) (ch : Nat) (rest : List Nat)
    (h0 : ch ≠ 0) (h10 : ch ≠ 10) (h34 : ch ≠ 34) :
    parse_string_literal (set_txt s (34 :: ch :: 34 :: rest)) = (some [ch], set_txt s rest) := by
  have ha := advance_set_txt_cons s 34 (ch :: 34 :: rest) (by decide)
  simp only [parse_string_literal, ha, set_txt_txtptr]
  simp [string_literal_loop, h0, h10, h34, string_from_cstr]
  rfl

theorem eval_expr_string_char (f : Nat) (s : state_t) (ch : Nat) (rest : List Nat)
    (h0 : ch ≠ 0) (h10 : ch ≠ 10) (h34 : ch ≠ 34) (h : ends_expression rest = true) :
    eval_expr (f + 2) (set_txt s (34 :: ch :: 34 :: rest)) =
      .ok (.strval (some [ch]), TYPE_STR, set_txt s rest) := by
  apply eval_expr_of_unary f _ _ _ _ _ h
  have hs := skip_spaces_set_txt_cons s 34 (ch :: 34 :: rest) (by decide) (by decide)
  have hp := parse_string_literal_char s ch rest h0 h10 h34
  simp [expr_unary, hs,
    match_token_miss s TOK_PLUS 34 _ (by decide) (by decide) (by decide) (by decide) (by decide),
    match_token_miss s TOK_MINUS 34 _ (by decide) (by decide) (by decide) (by decide) (by decide),
    match_token_miss s TOK_NOT 34 _ (by decide) (by decide) (by decide) (by decide) (by decide),
    expr_primary, hp]

/-- The statement `PRINT "c"` writes the character and a newline. -/
theorem execute_statement_print_char (f : Nat) (s : state_t) (ch : Nat) (rest : List Nat)
    (h0 : ch ≠ 0) (h10 : ch ≠ 10) (h34 : ch ≠ 34)
    (h : rest.headD 0 = 0 ∨ rest.headD 0 = 58 ∨ rest.headD 0 = 0xA2) :
    execute_statement (f + 2) (set_txt s (0x91 :: 34 :: ch :: 34 :: rest)) =
      .ok (set_txt (put s [ch, 10]) rest) := by
  have he : ends_expression rest = true := by
    unfold ends_expression
    rcases h with h | h | h <;> rw [h] <;> rfl
  have hev := eval_expr_string_char f s ch rest h0 h10 h34 he
  have hs := skip_spaces_set_txt_cons s 34 (ch :: 34 :: rest) (by decide) (by decide)
  have hm := match_token_miss s TOK_TAB 34 (ch :: 34 :: rest) (by decide) (by decide)
    (by decide) (by decide) (by decide)
  have hsk : skip_spaces (put (set_txt s rest) [ch]) = put (set_txt s rest) [ch] := by
    have := skip_spaces_stop (put s [ch]) rest he
    exact this
  have hpk : peek_char (put (set_txt s rest) [ch]) = rest.headD 0 := by
    cases rest <;> rfl
  have hfin : peek_char (put (set_txt s rest) [ch]) = 0 ∨
      peek_char (put (set_txt s rest) [ch]) = 58 ∨
      peek_char (put (set_txt s rest) [ch]) = TOK_ELSE := by
    rw [hpk]
    exact h
  rw [execute_statement_print, do_print]
  rw [show f + 1 + 1 = (f + 1) + 1 from rfl, do_print_loop]
  have hpv : print_value (.strval (some [ch])) TYPE_STR = some ([ch], 1) := by
    simp [print_value, value_t.as_string, h0]
  simp [hs, hm, hev, hpv]
  rw [do_print_loop]
  simp only [hsk, hfin, if_true]
  simp [put, set_txt]

/-- A line of one statement that does not jump: the main loop goes to the next
line. -/
theorem run_line_single (fuel : Nat) (s s1 : state_t) (k : Nat) (l l2 : line_t) (c : Nat)
    (r : List Nat) (hstart : at_line_start k s) (hl : s.lines[k]? = some l)
    (htext : l.text = c :: r) (hc : c ≠ 0) (hl2 : s.lines[k + 1]? = some l2)
    (hm : is_end_marker l2 = false)
    (hex : execute_statement (fuel + 1) (trace_line s) = .ok s1)
    (hs1 : s1 = { s with txtptr := some [0], output := s1.output }) :
    ∃ s', run_line (fuel + 1) s = .ok s' ∧ at_line_start (k + 1) s' ∧
      s' = { s with curlin := l2.linenum, txtptr := some l2.text, curline_ptr := some (k + 1),
                    output := s'.output } := by
  obtain ⟨hrun, hptr, l', hl', hcur, htxt⟩ := hstart
  rw [hl] at hl'
  injection hl' with hl'
  subst hl'
  rw [htext] at htxt
  have hrs := run_statements_single (fuel + 1) fuel (trace_line s).curlin (trace_line s) s1 c r
    (by rw [trace_line_txtptr, htxt]) hc (by simpa using hrun) hex
    (by rw [hs1]; simp) (by rw [hs1])
  have hn := next_line_advance s1 k l2 (by rw [hs1]; exact hrun) (by rw [hs1]; exact hptr)
    (by rw [hs1]; exact hl2) hm
  have hcur1 : s1.curlin = (trace_line s).curlin := by rw [hs1]; simp
  rw [hcur1] at hn
  refine ⟨{ s1 with curlin := l2.linenum, txtptr := some l2.text, curline_ptr := some (k + 1) },
    by simp only [run_line, hrs, Res.ok_bind, hn], ?_, ?_⟩
  · exact ⟨by rw [hs1]; exact hrun, rfl, l2, by rw [hs1]; exact hl2, rfl, rfl⟩
  · rw [hs1]

/-- The line `PRINT "c"`: the main loop goes to the next line. -/
theorem run_line_print_char (f : Nat) (s : state_t) (k : Nat) (l l2 : line_t) (ch : Nat)
    (hstart : at_line_start k s) (hl : s.lines[k]? = some l)
    (htext : l.text = [0x91, 34, ch, 34, 0]) (h0 : ch ≠ 0) (h10 : ch ≠ 10) (h34 : ch ≠ 34)
    (hl2 : s.lines[k + 1]? = some l2) (hm : is_end_marker l2 = false) :
    ∃ s', run_line (f + 2) s = .ok s' ∧ at_line_start (k + 1) s' ∧
      s' = { s with curlin := l2.linenum, txtptr := some l2.text, curline_ptr := some (k + 1),
                    output := s'.output } := by
  have htxt : (trace_line s).txtptr = some [0x91, 34, ch, 34, 0] := by
    obtain ⟨_, _, l', hl', _, htxt⟩ := hstart
    rw [hl] at hl'
    injection hl' with hl'
    subst hl'
    rw [trace_line_txtptr, htxt, htext]
  have hex := execute_statement_print_char f (trace_line s) ch [0] h0 h10 h34 (Or.inl rfl)
  rw [set_txt_of_txtptr _ _ htxt] at hex
  refine run_line_single (f + 1) s _ k l l2 _ _ hstart hl htext (by decide) hl2 hm hex ?_
  unfold trace_line
  split <;> rfl

/-- The entries of the body of a loop `FOR I = a TO b` (with `STEP -1` when
`down`) from the line of `FOR` until the loop is left. -/
theorem for_loop_entries (f : Nat) (s0 : state_t) (i j : Nat) (lf ln : line_t) (a b : Int)
    (down : Bool) (hstore : store_ok s0.lines) (hstart : at_line_start i s0)
    (hlf : s0.lines[i]? = some lf) (hfor : lf.text = for_tokens a b down)
    (hln : s0.lines[j]? = some ln) (hnext : ln.text = [TOK_NEXT, 0]) (hij : i + 1 < j)
    (hsp : s0.forsp < STACK_SIZE)
    (hbody : runs_body (f + 3) s0.lines lf.linenum s0.forsp b (if down then -1 else 1) i j)
    (ha : a.natAbs < 16777216) (hb : b.natAbs < 16777216) :
    ∃ n s', run_lines (f + 3) n s0 = .ok s' ∧
      line_entries (f + 3) (i + 1) n s0 = ((b - a) * (if down then -1 else 1)).toNat + 1 ∧
      s'.forsp = s0.forsp ∧ s'.lines = s0.lines ∧
      (s'.running = true → at_line_start (j + 1) s') := by
  have hlen : j < s0.lines.length := by
    by_contra hc
    rw [List.getElem?_eq_none (by omega)] at hln
    simp at hln
  have hlt : i + 1 < s0.lines.length := by omega
  have hl1 : s0.lines[i + 1]? = some s0.lines[i + 1] := List.getElem?_eq_getElem hlt
  obtain ⟨s1, h1, h2, h3⟩ := run_line_for f s0 i lf _ a b down hstart hlf hfor hl1
    (hstore.2 _ (List.getElem?_mem hl1)) hsp ha hb
  obtain ⟨n, s2, e1, e2, e3, e4, e5⟩ := loop_iterations f s0.lines i j lf ln _ s0.forsp b
    (if down then -1 else 1) hstore hlf hln hl1 hij hnext hbody
    (by cases down <;> simp) hb _ a s1 rfl ha h2 h3
  have r1 : run_lines (f + 3) 1 s0 = .ok s1 := run_lines_one _ _ _ hstart.1 h1
  refine ⟨1 + n, s2, ?_, ?_, e3, e4, e5⟩
  · rw [run_lines_add _ _ _ _ _ r1]
    exact e1
  · rw [line_entries_add _ _ _ _ _ _ r1, e2, line_entries_one_other _ _ i _ hstart.2.1 (by omega)]
    omega

/-- A body that is the one line `PRINT "c"` neither assigns `I` nor jumps. -/
theorem runs_body_print_char (f : Nat) (L : List line_t) (lf : Int) (sp : Nat)
    (limit step : Int) (i : Nat) (l l2 : line_t) (ch : Nat) (hl : L[i + 1]? = some l)
    (htext : l.text = [0x91, 34, ch, 34, 0]) (h0 : ch ≠ 0) (h10 : ch ≠ 10) (h34 : ch ≠ 34)
    (hl2 : L[i + 2]? = some l2) (hm : is_end_marker l2 = false) :
    runs_body (f + 2) L lf sp limit step i (i + 2) := by
  intro x s hstart hctx
  have hL : s.lines = L := hctx.1
  obtain ⟨s', h1, h2, h3⟩ := run_line_print_char f s (i + 1) l l2 ch hstart
    (by rw [hL]; exact hl) htext h0 h10 h34 (by rw [hL]; exact hl2) hm
  refine ⟨1, s', run_lines_one _ _ _ hstart.1 h1, ?_, h2, ?_⟩
  · rw [line_entries_one]
    obtain ⟨hrun, hptr, l', hl', _, htxt⟩ := hstart
    have : line_text s (i + 1) = l'.text := by simp [line_text, hl']
    rw [if_pos ⟨hrun, hptr, by rw [this]; exact htxt⟩]
  · exact loop_context_congr _ _ _ _ _ _ s s' hctx (by rw [h3]) (by rw [h3]) (by rw [h3])
      (by rw [h3]) (by rw [h3])

/-! ## FOR loops: the claims -/

/-- C6 (amended): in a running program, a loop `FOR I = a TO b` ... `NEXT`
with integers `a <= b` of magnitude below 16777216 and the default step enters
its body exactly `b - a + 1` times and is then left (the FOR stack is back at
its depth, execution is at the line after `NEXT` or the program has ended);
with `STEP -1` and `a >= b` it enters its body exactly `a - b + 1` times. The
body, the lines between the line of `FOR` and the line of `NEXT`, neither
assigns `I` nor jumps. -/
theorem for_loop_runs_body (f : Nat) (s0 : state_t) (i j : Nat) (lf ln : line_t) (a b : Int)
    (down : Bool) (hstore : store_ok s0.lines) (hstart : at_line_start i s0)
    (hlf : s0.lines[i]? = some lf) (hfor : lf.text = for_tokens a b down)
    (hln : s0.lines[j]? = some ln) (hnext : ln.text = [TOK_NEXT, 0]) (hij : i + 1 < j)
    (hsp : s0.forsp < STACK_SIZE)
    (hbody : runs_body (f + 3) s0.lines lf.linenum s0.forsp b (if down then -1 else 1) i j)
    (ha : a.natAbs < 16777216) (hb : b.natAbs < 16777216)
    (hab : if down then b ≤ a else a ≤ b) :
    ∃ n s', run_lines (f + 3) n s0 = .ok s' ∧
      line_entries (f + 3) (i + 1) n s0 = (if down then a - b + 1 else b - a + 1).toNat ∧
      s'.forsp = s0.forsp ∧ s'.lines = s0.lines ∧
      (s'.running = true → at_line_start (j + 1) s') := by
  obtain ⟨n, s', h1, h2, h3⟩ := for_loop_entries f s0 i j lf ln a b down hstore hstart hlf hfor
    hln hnext hij hsp hbody ha hb
  refine ⟨n, s', h1, ?_, h3⟩
  rw [h2]
  cases down <;> simp at hab ⊢ <;> omega

set_option maxRecDepth 100000 in
theorem for_loop_runs_body_witness :
    (∃ n s', run_lines 3 n (program_start for_up_program) = .ok s' ∧
      line_entries 3 1 n (program_start for_up_program) = 5 ∧
      s'.forsp = (program_start for_up_program).forsp ∧
      s'.lines = (program_start for_up_program).lines ∧
      (s'.running = true → at_line_start 3 s')) ∧
    (∃ n s', run_lines 3 n (program_start for_down_program) = .ok s' ∧
      line_entries 3 1 n (program_start for_down_program) = 5 ∧
      s'.forsp = (program_start for_down_program).forsp ∧
      s'.lines = (program_start for_down_program).lines ∧
      (s'.running = true → at_line_start 3 s')) :=
  ⟨for_loop_runs_body 0 (program_start for_up_program) 0 2
      ⟨10, record_len 9, for_tokens 1 5 false⟩ ⟨30, record_len 2, [TOK_NEXT, 0]⟩ 1 5 false
      (by unfold store_ok; decide) ⟨rfl, rfl, ⟨10, record_len 9, for_tokens 1 5 false⟩, by decide, rfl, by decide⟩
      (by decide) rfl (by decide) rfl (by decide) (by decide)
      (runs_body_print_char 1 _ _ _ _ _ 0 ⟨20, record_len 5, [0x91, 34, 88, 34, 0]⟩
        ⟨30, record_len 2, [TOK_NEXT, 0]⟩ 88 (by decide) rfl (by decide) (by decide) (by decide)
        (by decide) (by decide))
      (by decide) (by decide) (by decide),
   for_loop_runs_body 0 (program_start for_down_program) 0 2
      ⟨10, record_len 14, for_tokens 5 1 true⟩ ⟨30, record_len 2, [TOK_NEXT, 0]⟩ 5 1 true
      (by unfold store_ok; decide) ⟨rfl, rfl, ⟨10, record_len 14, for_tokens 5 1 true⟩, by decide, rfl, by decide⟩
      (by decide) rfl (by decide) rfl (by decide) (by decide)
      (runs_body_print_char 1 _ _ _ _ _ 0 ⟨20, record_len 5, [0x91, 34, 88, 34, 0]⟩
        ⟨30, record_len 2, [TOK_NEXT, 0]⟩ 88 (by decide) rfl (by decide) (by decide) (by decide)
        (by decide) (by decide))
      (by decide) (by decide) (by decide)⟩

set_option maxRecDepth 1000000 in
/-- C6 (as stated, fails): the program `10 FOR I = 16777216 TO 16777218` /
`20 PRINT "X"` / `30 NEXT` / `40 PRINT "DONE"` has `a <= b`, the default step
and a body that neither assigns `I` nor jumps, and `b - a + 1 = 3`; its body is
entered 13 times during the first 40 iterations of the main loop. The loop
variable is single precision: the value 16777217 that `NEXT` stores is rounded
back to 16777216, so the limit is never passed. -/
theorem for_loop_large_values_counterexample :
    for_large_program.lines.map (fun l => l.text) =
      [for_tokens 16777216 16777218 false, [TOK_PRINT, 34, 88, 34, 0], [TOK_NEXT, 0],
       [TOK_PRINT, 34, 68, 79, 78, 69, 34, 0]] ∧
    line_entries 10 1 40 (program_start for_large_program) = 13 := by
  constructor
  · decide
  · decide!

/-- C7 (amended): a FOR loop whose start value already lies beyond its limit
runs its body once. In a running program, `FOR I = a TO b` ... `NEXT` with the
default step and integers `a > b` of magnitude below 16777216 (with `STEP -1`:
`a < b`) enters the lines between `FOR` and `NEXT` exactly once and is then
left: the limit is tested by `NEXT` only. -/
theorem for_loop_beyond_limit_runs_once (f : Nat) (s0 : state_t) (i j : Nat) (lf ln : line_t)
    (a b : Int) (down : Bool) (hstore : store_ok s0.lines) (hstart : at_line_start i s0)
    (hlf : s0.lines[i]? = some lf) (hfor : lf.text = for_tokens a b down)
    (hln : s0.lines[j]? = some ln) (hnext : ln.text = [TOK_NEXT, 0]) (hij : i + 1 < j)
    (hsp : s0.forsp < STACK_SIZE)
    (hbody : runs_body (f + 3) s0.lines lf.linenum s0.forsp b (if down then -1 else 1) i j)
    (ha : a.natAbs < 16777216) (hb : b.natAbs < 16777216)
    (hab : if down then a < b else b < a) :
    ∃ n s', run_lines (f + 3) n s0 = .ok s' ∧
      line_entries (f + 3) (i + 1) n s0 = 1 ∧
      s'.forsp = s0.forsp ∧ s'.lines = s0.lines ∧
      (s'.running = true → at_line_start (j + 1) s') := by
  obtain ⟨n, s', h1, h2, h3⟩ := for_loop_entries f s0 i j lf ln a b down hstore hstart hlf hfor
    hln hnext hij hsp hbody ha hb
  refine ⟨n, s', h1, ?_, h3⟩
  rw [h2]
  cases down <;> simp at hab ⊢ <;> omega

set_option maxRecDepth 100000 in
theorem for_loop_beyond_limit_runs_once_witness :
    ∃ n s', run_lines 3 n (program_start for_beyond_program) = .ok s' ∧
      line_entries 3 1 n (program_start for_beyond_program) = 1 ∧
      s'.forsp = (program_start for_beyond_program).forsp ∧
      s'.lines = (program_start for_beyond_program).lines ∧
      (s'.running = true → at_line_start 3 s') :=
  for_loop_beyond_limit_runs_once 0 (program_start for_beyond_program) 0 2
    ⟨10, record_len 9, for_tokens 1 0 false⟩ ⟨30, record_len 2, [TOK_NEXT, 0]⟩ 1 0 false
    (by unfold store_ok; decide)
    ⟨rfl, rfl, ⟨10, record_len 9, for_tokens 1 0 false⟩, by decide, rfl, by decide⟩
    (by decide) rfl (by decide) rfl (by decide) (by decide)
    (runs_body_print_char 1 _ _ _ _ _ 0 ⟨20, record_len 5, [0x91, 34, 88, 34, 0]⟩
      ⟨30, record_len 2, [TOK_NEXT, 0]⟩ 88 (by decide) rfl (by decide) (by decide) (by decide)
      (by decide) (by decide))
    (by decide) (by decide) (by decide)

set_option maxRecDepth 1000000 in
/-- C7 (as stated, fails): the program `10 FOR I = 1 TO 0` / `20 PRINT "X"` /
`30 NEXT` / `40 PRINT "DONE"` enters the body of its loop once, not zero times:
the run prints `X` before `DONE`. -/
theorem for_loop_beyond_limit_counterexample :
    for_beyond_program.lines.map (fun l => l.text) =
      [for_tokens 1 0 false, [TOK_PRINT, 34, 88, 34, 0], [TOK_NEXT, 0],
       [TOK_PRINT, 34, 68, 79, 78, 69, 34, 0]] ∧
    line_entries 10 1 100 (program_start for_beyond_program) = 1 ∧
    (run_program 10 100 0 for_beyond_program).output = some (cstr "X\nDONE\n") := by
  refine ⟨?_, ?_, ?_⟩
  · decide
  · decide!
  · decide!

/-! ## IF ... THEN ... ELSE -/

theorem join_statements_single (c : statement) : join_statements [c] = c.text := by
  simp [join_statements]

theorem join_statements_cons (c d : statement) (cs : List statement) :
    join_statements (c :: d :: cs) = c.text ++ 58 :: join_statements (d :: cs) := by
  rw [join_statements]
  simp

theorem run_effects_cons (c : statement) (cs : List statement) (s : state_t) :
    run_effects (c :: cs) s = run_effects cs (c.effect s) := rfl

theorem join_statements_nonzero (exec : state_t → Res state_t) (S : List statement)
    (hS : ∀ c ∈ S, c.simple exec) : ∀ b ∈ join_statements S, b ≠ 0 := by
  induction S with
  | nil => simp [join_statements]
  | cons c cs ih =>
    have hc := (hS c (List.mem_cons_self _ _)).1
    have ih' := ih (fun d hd => hS d (List.mem_cons_of_mem _ hd))
    cases cs with
    | nil => rw [join_statements_single]; exact hc
    | cons d cs =>
      rw [join_statements_cons]
      intro b hb
      rcases List.mem_append.mp hb with hb | hb
      · exact hc b hb
      · rcases List.mem_cons.mp hb with hb | hb
        · rw [hb]; decide
        · exact ih' b hb

theorem join_statements_head (exec : state_t → Res state_t) (c : statement)
    (cs : List statement) (hc : c.simple exec) :
    ∃ b r, join_statements (c :: cs) = b :: r ∧ b ≠ 0 ∧ b ≠ 0xA2 ∧ ¬ (48 ≤ b ∧ b ≤ 57) ∧
      b ≠ 32 ∧ b ≠ 9 := by
  obtain ⟨h0, ⟨b, r, hb, h1, h2, h3, h4⟩, _⟩ := hc
  have hb0 : b ≠ 0 := h0 b (by rw [hb]; exact List.mem_cons_self _ _)
  cases cs with
  | nil => exact ⟨b, r, by rw [join_statements_single, hb], hb0, h1, h2, h3, h4⟩
  | cons d cs =>
    exact ⟨b, r ++ 58 :: join_statements (d :: cs), by rw [join_statements_cons, hb]; rfl,
      hb0, h1, h2, h3, h4⟩

theorem ends_statement_cons (c : Nat) (r : List Nat) (h : c = 0 ∨ c = 58 ∨ c = 0xA2) :
    ends_statement (c :: r) = true := by
  rcases h with h | h | h <;> subst h <;> rfl

/-- The THEN branch: the statements before `ELSE` are executed in turn and the
rest of the line is skipped. -/
theorem then_loop_statements (exec : state_t → Res state_t) (S : List statement)
    (hS : ∀ c ∈ S, c.simple exec) (hne : S ≠ []) (fuel : Nat) (hfuel : S.length ≤ fuel)
    (s : state_t) (hrun : s.running = true) (rest : List Nat) :
    then_loop exec fuel (set_txt s (join_statements S ++ 0xA2 :: rest)) =
      .ok (skip_to_eol (set_txt (run_effects S s) (0xA2 :: rest))) := by
  induction S generalizing s fuel with
  | nil => exact absurd rfl hne
  | cons c cs ih =>
    have hc := hS c (List.mem_cons_self _ _)
    obtain ⟨b, r, hb, hb0, hbe, _, hb32, hb9⟩ := join_statements_head exec c cs hc
    obtain ⟨_, _, heff, hexec⟩ := hc
    cases fuel with
    | zero => simp at hfuel
    | succ n =>
      have hpk : peek_char (set_txt s (join_statements (c :: cs) ++ 0xA2 :: rest)) = b := by
        rw [hb]; rfl
      have hrun' : (set_txt s (join_statements (c :: cs) ++ 0xA2 :: rest)).running = true := hrun
      rw [then_loop]
      simp only [hpk, hrun', hb0, hbe, ne_eq, not_false_eq_true, and_self, if_true, if_false]
      cases cs with
      | nil =>
        rw [join_statements_single, hexec s _ hrun (ends_statement_cons _ _ (Or.inr (Or.inr rfl)))]
        have hs := skip_spaces_set_txt_cons (c.effect s) 0xA2 rest (by decide) (by decide)
        simp [hs, run_effects]
      | cons d cs =>
        rw [join_statements_cons]
        have e : (c.text ++ 58 :: join_statements (d :: cs)) ++ 0xA2 :: rest =
            c.text ++ 58 :: (join_statements (d :: cs) ++ 0xA2 :: rest) := by simp
        rw [e, hexec s _ hrun (ends_statement_cons _ _ (Or.inr (Or.inl rfl)))]
        have hs := skip_spaces_set_txt_cons (c.effect s) 58
          (join_statements (d :: cs) ++ 0xA2 :: rest) (by decide) (by decide)
        have ha := advance_set_txt_cons (c.effect s) 58
          (join_statements (d :: cs) ++ 0xA2 :: rest) (by decide)
        simp only [Res.ok_bind, hs, peek_char_set_txt_cons, ha]
        have h58 : ¬ (58 : Nat) = TOK_ELSE := by decide
        simp only [h58, if_false, if_true]
        rw [ih (fun x hx => hS x (List.mem_cons_of_mem _ hx)) (by simp) n
          (by simp at hfuel ⊢; omega) (c.effect s) (by rw [(heff s).1]; exact hrun)]
        rfl

/-- The ELSE branch: its statements are executed in turn up to the end of the
line. -/
theorem else_loop_statements (exec : state_t → Res state_t) (S : List statement)
    (hS : ∀ c ∈ S, c.simple exec) (hne : S ≠ []) (fuel : Nat) (hfuel : S.length ≤ fuel)
    (s : state_t) (hrun : s.running = true) :
    else_loop exec fuel (set_txt s (join_statements S ++ [0])) =
      .ok (set_txt (run_effects S s) [0]) := by
  induction S generalizing s fuel with
  | nil => exact absurd rfl hne
  | cons c cs ih =>
    have hc := hS c (List.mem_cons_self _ _)
    obtain ⟨b, r, hb, hb0, hbe, _, hb32, hb9⟩ := join_statements_head exec c cs hc
    obtain ⟨_, _, heff, hexec⟩ := hc
    cases fuel with
    | zero => simp at hfuel
    | succ n =>
      have hpk : peek_char (set_txt s (join_statements (c :: cs) ++ [0])) = b := by
        rw [hb]; rfl
      have hrun' : (set_txt s (join_statements (c :: cs) ++ [0])).running = true := hrun
      rw [else_loop]
      simp only [hpk, hrun', hb0, ne_eq, not_false_eq_true, and_self, if_true]
      cases cs with
      | nil =>
        rw [join_statements_single, hexec s _ hrun (ends_statement_cons _ _ (Or.inl rfl))]
        have hs := skip_spaces_set_txt_cons (c.effect s) 0 [] (by decide) (by decide)
        simp [hs, run_effects]
      | cons d cs =>
        rw [join_statements_cons]
        have e : (c.text ++ 58 :: join_statements (d :: cs)) ++ [0] =
            c.text ++ 58 :: (join_statements (d :: cs) ++ [0]) := by simp
        rw [e, hexec s _ hrun (ends_statement_cons _ _ (Or.inr (Or.inl rfl)))]
        have hs := skip_spaces_set_txt_cons (c.effect s) 58
          (join_statements (d :: cs) ++ [0]) (by decide) (by decide)
        have ha := advance_set_txt_cons (c.effect s) 58
          (join_statements (d :: cs) ++ [0]) (by decide)
        simp only [Res.ok_bind, hs, peek_char_set_txt_cons, ha, if_true]
        rw [ih (fun x hx => hS x (List.mem_cons_of_mem _ hx)) (by simp) n
          (by simp at hfuel ⊢; omega) (c.effect s) (by rw [(heff s).1]; exact hrun)]
        rfl

theorem dropWhile_append_stop (p : Nat → Bool) (t : List Nat) (c : Nat) (r : List Nat)
    (ht : ∀ b ∈ t, p b = true) (hc : p c = false) :
    (t ++ c :: r).dropWhile p = c :: r := by
  induction t with
  | nil => simp [List.dropWhile, hc]
  | cons b t ih =>
    have hb := ht b (List.mem_cons_self _ _)
    simp only [List.cons_append, List.dropWhile, hb]
    exact ih (fun x hx => ht x (List.mem_cons_of_mem _ hx))

theorem skip_to_eol_set_txt (s : state_t) (t : List Nat) (hnz : ∀ b ∈ t, b ≠ 0) :
    skip_to_eol (set_txt s (t ++ [0])) = set_txt s [0] := by
  have := dropWhile_append_stop (fun c => c != 0) t 0 [] (fun b hb => by simp [hnz b hb])
    (by simp)
  simp [skip_to_eol, set_txt, this]

theorem skip_one_token_byte (s : state_t) (c : Nat) (r : List Nat) (h0 : c ≠ 0) (h34 : c ≠ 34)
    (hff : c ≠ 0xFF) : skip_one_token (set_txt s (c :: r)) = set_txt s r := by
  simp [skip_one_token, h0, h34, hff, advance_set_txt_cons]

theorem skip_one_token_token (s : state_t) (d : Nat) (r : List Nat) (hd : d ≠ 0) :
    skip_one_token (set_txt s (0xFF :: d :: r)) = set_txt s r := by
  simp [skip_one_token, advance_set_txt_cons, hd]

theorem skip_one_token_string (s : state_t) (str r : List Nat)
    (hstr : ∀ c ∈ str, c ≠ 0 ∧ c ≠ 34) :
    skip_one_token (set_txt s (34 :: (str ++ 34 :: r))) = set_txt s r := by
  have hd := dropWhile_append_stop (fun c => c != 0 && c != 34) str 34 r
    (fun b hb => by simp [hstr b hb]) (by simp)
  have ha := advance_set_txt_cons s 34 (str ++ 34 :: r) (by decide)
  simp only [skip_one_token, peek_char_set_txt_cons, ha, set_txt_txtptr, hd]
  simp [skip_raw, peek_char, advance, get_next_char, set_txt]

/-- The scan of the false branch steps over the items of the THEN part and
stops at `ELSE`. -/
theorem else_scan_scannable (exec : state_t → Res state_t) (ev : evaluator) (lf : Nat)
    (t : List Nat) (hsc : scannable t) (fuel : Nat) (hfuel : t.length < fuel) (s : state_t)
    (rest : List Nat) :
    else_scan exec ev lf fuel (set_txt s (t ++ 0xA2 :: rest)) =
      else_scan exec ev lf 1 (set_txt s (0xA2 :: rest)) := by
  induction hsc generalizing fuel with
  | nil =>
    cases fuel with
    | zero => simp at hfuel
    | succ n => simp [else_scan]
  | byte c r h0 h34 hff he _ ih =>
    cases fuel with
    | zero => simp at hfuel
    | succ n =>
      have hne : ¬ c = TOK_ELSE := he
      rw [List.cons_append, else_scan]
      simp only [peek_char_set_txt_cons, h0, hne, if_false, skip_one_token_byte s c _ h0 h34 hff]
      exact ih n (by simp at hfuel; omega)
  | token d r hd _ ih =>
    cases fuel with
    | zero => simp at hfuel
    | succ n =>
      have hne : ¬ (0xFF : Nat) = TOK_ELSE := by decide
      have h0 : ¬ (0xFF : Nat) = 0 := by decide
      rw [List.cons_append, List.cons_append, else_scan]
      simp only [peek_char_set_txt_cons, h0, hne, if_false, skip_one_token_token s d _ hd]
      exact ih n (by simp at hfuel; omega)
  | string str r hstr _ ih =>
    cases fuel with
    | zero => simp at hfuel
    | succ n =>
      have hne : ¬ (34 : Nat) = TOK_ELSE := by decide
      have h0 : ¬ (34 : Nat) = 0 := by decide
      have e : (34 :: (str ++ 34 :: r)) ++ 0xA2 :: rest =
          34 :: (str ++ 34 :: (r ++ 0xA2 :: rest)) := by simp
      rw [e, else_scan]
      simp only [peek_char_set_txt_cons, h0, hne, if_false, skip_one_token_string s str _ hstr]
      exact ih n (by simp at hfuel; omega)

theorem run_effects_frame (exec : state_t → Res state_t) (S : List statement)
    (hS : ∀ c ∈ S, c.simple exec) (s : state_t) :
    (run_effects S s).running = s.running ∧ (run_effects S s).curlin = s.curlin ∧
    (run_effects S s).curline_ptr = s.curline_ptr ∧ (run_effects S s).lines = s.lines := by
  induction S generalizing s with
  | nil => exact ⟨rfl, rfl, rfl, rfl⟩
  | cons c cs ih =>
    obtain ⟨_, _, heff, _⟩ := hS c (List.mem_cons_self _ _)
    obtain ⟨h1, h2, h3, h4⟩ := heff s
    obtain ⟨g1, g2, g3, g4⟩ := ih (fun d hd => hS d (List.mem_cons_of_mem _ hd)) (c.effect s)
    rw [run_effects_cons]
    exact ⟨by rw [g1, h1], by rw [g2, h2], by rw [g3, h3], by rw [g4, h4]⟩

/-- The statement `IF c THEN S1 ELSE S2` after its token: when the condition
is not zero the statements of `S1` are executed, when it is zero those of
`S2`, and the text pointer is left at the end of the line. -/
theorem do_if_branch (exec : state_t → Res state_t) (ev : evaluator) (fuel : Nat)
    (cond : List Nat) (S1 S2 : List statement) (s sc : state_t) (cv : dyadic)
    (hS1 : ∀ c ∈ S1, c.simple exec) (hS2 : ∀ c ∈ S2, c.simple exec)
    (hne1 : S1 ≠ []) (hne2 : S2 ≠ []) (hlen1 : S1.length ≤ fuel) (hlen2 : S2.length ≤ fuel)
    (hscan : scannable (join_statements S1))
    (hcond : eval_numeric ev (set_txt s (cond ++ 0xFF :: 0x86 ::
        (join_statements S1 ++ 0xA2 :: (join_statements S2 ++ [0])))) =
      .ok (cv, set_txt sc (0xFF :: 0x86 ::
        (join_statements S1 ++ 0xA2 :: (join_statements S2 ++ [0])))))
    (hrun : sc.running = true) :
    do_if exec ev fuel (set_txt s (cond ++ 0xFF :: 0x86 ::
        (join_statements S1 ++ 0xA2 :: (join_statements S2 ++ [0])))) =
      .ok (set_txt (run_effects (if cv.num ≠ 0 then S1 else S2) sc) [0]) := by
  obtain ⟨c1, cs1, rfl⟩ := List.exists_cons_of_ne_nil hne1
  obtain ⟨c2, cs2, rfl⟩ := List.exists_cons_of_ne_nil hne2
  obtain ⟨b1, r1, hb1, hb10, hb1e, hb1d, hb132, hb19⟩ :=
    join_statements_head exec c1 cs1 (hS1 c1 (List.mem_cons_self _ _))
  obtain ⟨b2, r2, hb2, hb20, hb2e, hb2d, hb232, hb29⟩ :=
    join_statements_head exec c2 cs2 (hS2 c2 (List.mem_cons_self _ _))
  generalize hbody : join_statements (c1 :: cs1) ++ 0xA2 :: (join_statements (c2 :: cs2) ++ [0])
    = body at hcond ⊢
  have hbody' : body = b1 :: (r1 ++ 0xA2 :: (join_statements (c2 :: cs2) ++ [0])) := by
    rw [← hbody, hb1]; rfl
  have hs1 : skip_spaces (match_token TOK_THEN
      (skip_spaces (set_txt sc (0xFF :: 0x86 :: body)))).2 = set_txt sc body := by
    rw [skip_spaces_set_txt_cons _ _ _ (by decide) (by decide),
      match_token_hit sc TOK_THEN 0x86 body (by decide) (by decide) (by decide) (by decide)]
    rw [hbody']
    exact skip_spaces_set_txt_cons _ _ _ hb132 hb19
  have hpk : peek_char (set_txt sc body) = b1 := by rw [hbody']; rfl
  simp only [do_if, hcond, Res.ok_bind, hs1, hpk, hb1d, if_false]
  by_cases hcv : cv.num ≠ 0
  · simp only [hcv, ne_eq, not_false_eq_true, if_true]
    rw [← hbody, then_loop_statements exec (c1 :: cs1) hS1 hne1 fuel hlen1 sc hrun]
    have hnz : ∀ b ∈ 0xA2 :: join_statements (c2 :: cs2), b ≠ 0 := by
      intro b hb
      rcases List.mem_cons.mp hb with hb | hb
      · rw [hb]; decide
      · exact join_statements_nonzero exec _ hS2 b hb
    have := skip_to_eol_set_txt (run_effects (c1 :: cs1) sc) _ hnz
    rw [List.cons_append] at this
    rw [this]
  · have hcv' : cv.num = 0 := by simpa using hcv
    simp only [hcv', ne_eq, not_true_eq_false, if_false]
    have hlen : (join_statements (c1 :: cs1)).length <
        ((set_txt sc body).txtptr.getD []).length + 1 := by
      rw [← hbody]
      simp
      omega
    rw [← hbody] at hlen ⊢
    rw [else_scan_scannable exec ev fuel _ hscan _ hlen, else_scan]
    have ha := advance_set_txt_cons sc 0xA2 (join_statements (c2 :: cs2) ++ [0]) (by decide)
    have hsk : skip_spaces (set_txt sc (join_statements (c2 :: cs2) ++ [0])) =
        set_txt sc (join_statements (c2 :: cs2) ++ [0]) := by
      rw [hb2]
      exact skip_spaces_set_txt_cons _ _ _ hb232 hb29
    have hpk2 : peek_char (set_txt sc (join_statements (c2 :: cs2) ++ [0])) = b2 := by
      rw [hb2]; rfl
    have h0 : ¬ (0xA2 : Nat) = 0 := by decide
    have he : (0xA2 : Nat) = TOK_ELSE := rfl
    simp only [peek_char_set_txt_cons, h0, he, if_true, if_false, ha, hsk, hpk2, hb2d]
    exact else_loop_statements exec (c2 :: cs2) hS2 hne2 fuel hlen2 sc hrun

theorem print_char_statement_simple (f : Nat) (ch : Nat) (h0 : ch ≠ 0) (h10 : ch ≠ 10)
    (h34 : ch ≠ 34) : (print_char_statement ch).simple (execute_statement (f + 2)) := by
  refine ⟨?_, ⟨0x91, [34, ch, 34], rfl, by decide, by decide, by decide, by decide⟩,
    fun s => ⟨rfl, rfl, rfl, rfl⟩, ?_⟩
  · intro b hb
    simp [print_char_statement] at hb
    omega
  · intro s rest _ hrest
    have h : rest.headD 0 = 0 ∨ rest.headD 0 = 58 ∨ rest.headD 0 = 0xA2 := by
      simp only [ends_statement, Bool.or_eq_true, beq_iff_eq] at hrest
      omega
    exact execute_statement_print_char f s ch rest h0 h10 h34 h

theorem scannable_print_char (ch : Nat) (h0 : ch ≠ 0) (h34 : ch ≠ 34) :
    scannable (join_statements [print_char_statement ch]) := by
  rw [join_statements_single]
  exact scannable.byte 0x91 _ (by decide) (by decide) (by decide) (by decide)
    (scannable.string [ch] [] (fun c hc => by simp at hc; subst hc; exact ⟨h0, h34⟩)
      scannable.nil)

/-- C5: in a running program, a line `IF c THEN S1 ELSE S2` whose parts `S1`
and `S2` are lists of simple statements (no IF, no jump) executes exactly the
statements of `S1` when `c` evaluates to a value that is not zero, and exactly
those of `S2` when `c` evaluates to zero; execution then continues at the
start of the next line. -/
theorem if_then_else_runs_one_branch (f : Nat) (s0 sc : state_t) (i : Nat) (l l2 : line_t)
    (cond : List Nat) (S1 S2 : List statement) (cv : dyadic)
    (hstart : at_line_start i s0) (hl : s0.lines[i]? = some l)
    (htext : l.text = if_tokens cond S1 S2)
    (hl2 : s0.lines[i + 1]? = some l2) (hm : is_end_marker l2 = false)
    (hS1 : ∀ c ∈ S1, c.simple (execute_statement (f + 1)))
    (hS2 : ∀ c ∈ S2, c.simple (execute_statement (f + 1)))
    (hne1 : S1 ≠ []) (hne2 : S2 ≠ []) (hlen1 : S1.length ≤ f + 2) (hlen2 : S2.length ≤ f + 2)
    (hscan : scannable (join_statements S1))
    (hcond : eval_numeric (eval_expr (f + 2)) (set_txt (trace_line s0) (cond ++ 0xFF :: 0x86 ::
        (join_statements S1 ++ 0xA2 :: (join_statements S2 ++ [0])))) =
      .ok (cv, set_txt sc (0xFF :: 0x86 ::
        (join_statements S1 ++ 0xA2 :: (join_statements S2 ++ [0])))))
    (hsc : sc.running = true ∧ sc.curlin = s0.curlin ∧ sc.curline_ptr = s0.curline_ptr ∧
      sc.lines = s0.lines) :
    run_line (f + 2) s0 =
      .ok { run_effects (if cv.num ≠ 0 then S1 else S2) sc with
        curlin := l2.linenum, txtptr := some l2.text, curline_ptr := some (i + 1) } := by
  obtain ⟨hrun, hptr, l', hl', hcur, htxt⟩ := hstart
  rw [hl] at hl'
  injection hl' with hl'
  subst hl'
  have htok : if_tokens cond S1 S2 = 0x8B :: (cond ++ 0xFF :: 0x86 ::
      (join_statements S1 ++ 0xA2 :: (join_statements S2 ++ [0]))) := by
    simp [if_tokens]
  rw [htext, htok] at htxt
  have htxt' : (trace_line s0).txtptr = some (0x8B :: (cond ++ 0xFF :: 0x86 ::
      (join_statements S1 ++ 0xA2 :: (join_statements S2 ++ [0])))) := by
    rw [trace_line_txtptr, htxt]
  have hif := do_if_branch (execute_statement (f + 1)) (eval_expr (f + 2)) (f + 2) cond S1 S2
    (trace_line s0) sc cv hS1 hS2 hne1 hne2 hlen1 hlen2 hscan hcond hsc.1
  have hex : execute_statement (f + 2) (trace_line s0) =
      .ok (set_txt (run_effects (if cv.num ≠ 0 then S1 else S2) sc) [0]) := by
    rw [← set_txt_of_txtptr _ _ htxt', execute_statement_if, hif]
  have hfr : ∀ S : List statement, (∀ c ∈ S, c.simple (execute_statement (f + 1))) →
      (run_effects S sc).running = true ∧ (run_effects S sc).curlin = s0.curlin ∧
      (run_effects S sc).curline_ptr = some i ∧ (run_effects S sc).lines = s0.lines := by
    intro S hS
    obtain ⟨g1, g2, g3, g4⟩ := run_effects_frame _ S hS sc
    exact ⟨by rw [g1, hsc.1], by rw [g2, hsc.2.1], by rw [g3, hsc.2.2.1, hptr],
      by rw [g4, hsc.2.2.2]⟩
  have hfr' : (run_effects (if cv.num ≠ 0 then S1 else S2) sc).running = true ∧
      (run_effects (if cv.num ≠ 0 then S1 else S2) sc).curlin = s0.curlin ∧
      (run_effects (if cv.num ≠ 0 then S1 else S2) sc).curline_ptr = some i ∧
      (run_effects (if cv.num ≠ 0 then S1 else S2) sc).lines = s0.lines := by
    split
    · exact hfr S1 hS1
    · exact hfr S2 hS2
  obtain ⟨e1, e2, e3, e4⟩ := hfr'
  have hrs := run_statements_single (f + 2) (f + 1) (trace_line s0).curlin (trace_line s0) _ _ _
    htxt' (by decide) (by simpa using hrun) hex (by simpa [set_txt] using e2) rfl
  have hn := next_line_advance (set_txt (run_effects (if cv.num ≠ 0 then S1 else S2) sc) [0])
    i l2 e1 e3 (by show (run_effects _ sc).lines[i + 1]? = _; rw [e4]; exact hl2) hm
  have hc : (set_txt (run_effects (if cv.num ≠ 0 then S1 else S2) sc) [0]).curlin =
      (trace_line s0).curlin := by simpa [set_txt] using e2
  rw [hc] at hn
  simp only [run_line, hrs, Res.ok_bind, hn]
  rfl

set_option maxRecDepth 1000000 in
theorem if_then_else_runs_one_branch_witness :
    run_line 3 (program_start if_true_program) =
      .ok { run_effects [print_char_statement 65] (trace_line (program_start if_true_program)) with
        curlin := 20, txtptr := some [TOK_END, 0], curline_ptr := some 1 } ∧
    run_line 3 (program_start if_false_program) =
      .ok { run_effects [print_char_statement 66] (trace_line (program_start if_false_program)) with
        curlin := 20, txtptr := some [TOK_END, 0], curline_ptr := some 1 } ∧
    (run_line 3 (program_start if_true_program)).output = some (cstr "A\n") ∧
    (run_line 3 (program_start if_false_program)).output = some (cstr "B\n") :=
  ⟨if_then_else_runs_one_branch 1 (program_start if_true_program)
      (trace_line (program_start if_true_program)) 0
      ⟨10, record_len 14, if_tokens [49] [print_char_statement 65] [print_char_statement 66]⟩
      ⟨20, record_len 2, [TOK_END, 0]⟩ [49] [print_char_statement 65] [print_char_statement 66]
      (dyadic.ofInt 1)
      ⟨rfl, rfl, _, by decide, rfl, by decide⟩ (by decide) rfl (by decide) (by decide)
      (fun c hc => by
        simp only [List.mem_singleton] at hc
        subst hc
        exact print_char_statement_simple 0 65 (by decide) (by decide) (by decide))
      (fun c hc => by
        simp only [List.mem_singleton] at hc
        subst hc
        exact print_char_statement_simple 0 66 (by decide) (by decide) (by decide))
      (List.cons_ne_nil _ _) (List.cons_ne_nil _ _) (by decide) (by decide)
      (scannable_print_char 65 (by decide) (by decide))
      (eval_numeric_int_literal 0 _ 1 _ (by decide) rfl)
      ⟨rfl, rfl, rfl, rfl⟩,
   if_then_else_runs_one_branch 1 (program_start if_false_program)
      (trace_line (program_start if_false_program)) 0
      ⟨10, record_len 14, if_tokens [48] [print_char_statement 65] [print_char_statement 66]⟩
      ⟨20, record_len 2, [TOK_END, 0]⟩ [48] [print_char_statement 65] [print_char_statement 66]
      (dyadic.ofInt 0)
      ⟨rfl, rfl, _, by decide, rfl, by decide⟩ (by decide) rfl (by decide) (by decide)
      (fun c hc => by
        simp only [List.mem_singleton] at hc
        subst hc
        exact print_char_statement_simple 0 65 (by decide) (by decide) (by decide))
      (fun c hc => by
        simp only [List.mem_singleton] at hc
        subst hc
        exact print_char_statement_simple 0 66 (by decide) (by decide) (by decide))
      (List.cons_ne_nil _ _) (List.cons_ne_nil _ _) (by decide) (by decide)
      (scannable_print_char 65 (by decide) (by decide))
      (eval_numeric_int_literal 0 _ 0 _ (by decide) rfl)
      ⟨rfl, rfl, rfl, rfl⟩,
   by decide!, by decide!⟩

/-! ## Integer division and remainder -/

theorem tmod_neg_left (a b : Int) : Int.tmod (-a) b = -Int.tmod a b := by
  rw [Int.tmod_def, Int.tmod_def, Int.neg_tdiv]
  ring

theorem tmod_natAbs_lt (a b : Int) (hb : b ≠ 0) : (Int.tmod a b).natAbs < b.natAbs := by
  have hpos : (0 : Int) < (b.natAbs : Int) := by omega
  have hswap : Int.tmod a b = Int.tmod a (b.natAbs : Int) := by
    rcases Int.natAbs_eq b with h | h
    · rw [← h]
    · conv_lhs => rw [h]
      rw [Int.tmod_neg]
  rw [hswap]
  by_cases ha : 0 ≤ a
  · have h1 := Int.tmod_nonneg (b.natAbs : Int) ha
    have h2 := Int.tmod_lt_of_pos a hpos
    omega
  · have h0 : 0 ≤ -a := by omega
    have h1 := Int.tmod_nonneg (b.natAbs : Int) h0
    have h2 := Int.tmod_lt_of_pos (-a) hpos
    rw [tmod_neg_left] at h1 h2
    omega

/-- C12: for Integer operands `a` and `b` with `b` non-zero (the pair
`a = -2147483648`, `b = -1` apart), `a \ b` is an Integer `q` and `a MOD b` an
Integer `r` with `q * b + r = a`; the quotient is truncated toward zero
(`|q|` is the whole part of `|a| / |b|`), so the remainder is smaller than the
divisor in absolute value and has the sign of the dividend. -/
theorem integer_division_and_mod (s : state_t) (a b : Int) (hb : b ≠ 0)
    (hx : ¬ (a = -2147483648 ∧ b = -1)) :
    ∃ q r : Int,
      mult_step 92 (.intval a) TYPE_INT (.intval b) TYPE_INT s = .ok (.intval q, TYPE_INT, s) ∧
      mult_step 37 (.intval a) TYPE_INT (.intval b) TYPE_INT s = .ok (.intval r, TYPE_INT, s) ∧
      q * b + r = a ∧ q.natAbs = a.natAbs / b.natAbs ∧ r.natAbs < b.natAbs ∧
      (0 ≤ a → 0 ≤ r) ∧ (a ≤ 0 → r ≤ 0) := by
  refine ⟨Int.tdiv a b, Int.tmod a b, ?_, ?_, ?_, ?_, ?_, ?_, ?_⟩
  · simp [mult_step, to_int_operand, value_t.as_int, hb, hx]
  · simp [mult_step, to_int_operand, value_t.as_int, hb, hx]
  · exact Int.tdiv_add_tmod' a b
  · exact Int.natAbs_tdiv a b
  · exact tmod_natAbs_lt a b hb
  · exact fun h => Int.tmod_nonneg b h
  · intro h
    have h0 : 0 ≤ -a := by omega
    have := Int.tmod_nonneg b h0
    rw [tmod_neg_left] at this
    omega

theorem integer_division_and_mod_witness :
    ∃ q r : Int,
      mult_step 92 (.intval 5) TYPE_INT (.intval 2) TYPE_INT init_state =
        .ok (.intval q, TYPE_INT, init_state) ∧
      mult_step 37 (.intval 5) TYPE_INT (.intval 2) TYPE_INT init_state =
        .ok (.intval r, TYPE_INT, init_state) ∧
      q * 2 + r = 5 ∧ q.natAbs = (5 : Int).natAbs / (2 : Int).natAbs ∧
      r.natAbs < (2 : Int).natAbs ∧ ((0 : Int) ≤ 5 → 0 ≤ r) ∧ ((5 : Int) ≤ 0 → r ≤ 0) :=
  integer_division_and_mod init_state 5 2 (by decide) (by decide)

/-- The expressions `5 \ 2`, `5 MOD 2`, `-7 \ 2` and `-7 MOD 2` evaluate to the
Integers 2, 1, -3 and -1. -/
theorem integer_division_examples :
    (eval_source "5 \\ 2").value = some (.intval 2, TYPE_INT) ∧
    (eval_source "5 MOD 2").value = some (.intval 1, TYPE_INT) ∧
    (eval_source "-7 \\ 2").value = some (.intval (-3), TYPE_INT) ∧
    (eval_source "-7 MOD 2").value = some (.intval (-1), TYPE_INT) := by
  decide

/-! ## Division by zero -/

/-- The expressions `1/0`, `1\0`, `1 MOD 0`, `1.5/0`, `1.5\0`, `1.5 MOD 0` and
`1/0.0` raise error 11. -/
theorem division_by_zero_examples :
    (eval_source "1/0").raised = some ERR_DIV_ZERO ∧
    (eval_source "1\\0").raised = some ERR_DIV_ZERO ∧
    (eval_source "1 MOD 0").raised = some ERR_DIV_ZERO ∧
    (eval_source "1.5/0").raised = some ERR_DIV_ZERO ∧
    (eval_source "1.5\\0").raised = some ERR_DIV_ZERO ∧
    (eval_source "1.5 MOD 0").raised = some ERR_DIV_ZERO ∧
    (eval_source "1/0.0").raised = some ERR_DIV_ZERO := by
  decide

theorem concat_strings_ok (st : state_t) (a b : List Nat) (h0 : 0 < a.length + b.length)
    (h : a.length + b.length ≤ 255) :
    concat_strings st (some a) (some b) = .ok (some (a ++ b)) := by
  have h1 : ¬ a.length + b.length > 255 := by omega
  have h2 : ¬ a.length + b.length = 0 := by omega
  simp only [concat_strings, h1, h2, if_false]

theorem concat_strings_long (st : state_t) (a b : List Nat) (h : 255 < a.length + b.length) :
    concat_strings st (some a) (some b) = error ERR_STRING_LONG st := by
  simp only [concat_strings, gt_iff_lt, h, if_true]

/-- The expression `"AB" + "CD"` is the string `ABCD`. -/
theorem concat_strings_example :
    (eval_source "\"AB\" + \"CD\"").value = some (.strval (some (cstr "ABCD")), TYPE_STR) := by
  decide

/-- C14 (fails for two empty strings): `concat_strings` of two strings of
length 0 has no result. Its `alloc_string(0)` leaves `result->ptr` null and the
terminator is stored through it, so the call, and with it the expression
`"" + ""`, ends in undefined behaviour. -/
theorem concat_strings_empty_operands (st : state_t) :
    concat_strings st (some []) (some []) = .unmodelled ∧
    eval_source "\"\" + \"\"" = .unmodelled :=
  ⟨rfl, rfl⟩

/-! ## Operands of different kinds -/

theorem add_step_raised (op : Nat) (l r : value_t) (lt rt : Nat) (s : state_t) :
    (add_step op l lt r rt s).raised = none ∨
    (add_step op l lt r rt s).raised = some ERR_STRING_LONG := by
  unfold add_step
  by_cases h1 : lt = TYPE_STR ∧ rt = TYPE_STR ∧ op = 43
  · rw [if_pos h1]
    cases l.as_string with
    | none => left; rfl
    | some a =>
      cases r.as_string with
      | none => left; rfl
      | some b =>
        cases a with
        | none => left; rfl
        | some x =>
          cases b with
          | none => left; rfl
          | some y =>
            by_cases hlong : x.length + y.length > 255
            · right
              simp [concat_strings, hlong, error, Res.raised, bind, Res.bind]
            · left
              by_cases hz : x.length + y.length = 0
              · simp [concat_strings, hz, Res.raised, bind, Res.bind]
              · simp [concat_strings, hlong, hz, Res.raised, bind, Res.bind]
  · rw [if_neg h1]
    by_cases h2 : lt = TYPE_INT ∧ rt = TYPE_INT
    · rw [if_pos h2]
      cases l.as_int <;> cases r.as_int <;> left <;> rfl
    · rw [if_neg h2]
      cases to_double l lt <;> cases to_double r rt <;> left <;> rfl

theorem compare_step_raised (op : Nat) (l r : value_t) (lt rt : Nat) (s : state_t) :
    (compare_step op l lt r rt s).raised = none := by
  unfold compare_step
  by_cases h1 : lt = TYPE_STR ∧ rt = TYPE_STR
  · simp only [h1, and_self, if_true]
    cases l.as_string <;> cases r.as_string <;> simp only [] <;> first | rfl | (split_ifs <;> rfl)
  · simp only [h1, if_false]
    cases to_double l lt <;> cases to_double r rt <;> simp only [] <;> first | rfl | (split_ifs <;> rfl)

/-- C16 (fails): the operation steps of `+`, `-` and of the comparison
operators never raise Type mismatch (error 13), whatever the types of their
operands; a String operand next to a numeric one takes the numeric branch,
which reads the string pointer as a number. The expressions `"A" + 1`,
`1 - "A"` and `"A" = 1` raise no error. -/
theorem mixed_operands_raise_no_error :
    (∀ (op : Nat) (l r : value_t) (lt rt : Nat) (s : state_t),
      (add_step op l lt r rt s).raised ≠ some ERR_TYPE_MISM ∧
      (compare_step op l lt r rt s).raised = none) ∧
    (∀ s : state_t,
      add_step 43 (.strval (some [65])) TYPE_STR (.intval 1) TYPE_INT s = .unmodelled ∧
      compare_step TOK_EQ (.strval (some [65])) TYPE_STR (.intval 1) TYPE_INT s = .unmodelled) ∧
    (eval_source "\"A\" + 1").raised = none ∧
    (eval_source "1 - \"A\"").raised = none ∧
    (eval_source "\"A\" = 1").raised = none := by
  refine ⟨fun op l r lt rt s => ⟨?_, compare_step_raised op l r lt rt s⟩,
    fun s => ⟨rfl, rfl⟩, by decide, by decide, by decide⟩
  rcases add_step_raised op l r lt rt s with h | h <;> rw [h] <;> decide

/-! ## Arrays -/

@[simp] theorem error_state_arrlist (n : Nat) (s : state_t) :
    (error_state n s).arrlist = s.arrlist := by
  unfold error_state
  split_ifs <;> rfl

theorem find_array_known (s : state_t) (name : List Nat) (create : Bool) (i : Nat)
    (h : s.arrlist.findIdx? (fun a => a.name == (normalize_name name).1) = some i) :
    find_array s name create = (some i, s) := by
  simp only [find_array, h]

theorem find_array_unknown (s : state_t) (name : List Nat)
    (h : s.arrlist.findIdx? (fun a => a.name == (normalize_name name).1) = none) :
    find_array s name false = (none, s) := by
  simp [find_array, h]

theorem find_array_new (s : state_t) (name : List Nat)
    (h : s.arrlist.findIdx? (fun a => a.name == (normalize_name name).1) = none) :
    find_array s name true = (some s.arrlist.length,
      { s with arrlist := s.arrlist ++
          [⟨(normalize_name name).1, (normalize_name name).2, 0, List.replicate 8 0, 0, none⟩] }) := by
  simp [find_array, h]

/-- A reference to an array that is not in the table raises Subscript out of
range, whatever the subscripts. -/
theorem array_element_unknown (s : state_t) (name : List Nat) (indices : List Int)
    (h : (find_array s name false).1 = none) :
    array_element s name indices = error ERR_SUBSCRIPT s := by
  simp only [array_element, h]

theorem take_succ_set (l : List Int) (i : Nat) (d : Int) (h : i < l.length) :
    (l.set i d).take (i + 1) = l.take i ++ [d] := by
  induction l generalizing i with
  | nil => simp at h
  | cons x xs ih =>
    cases i with
    | zero => simp
    | succ i =>
      simp only [List.length_cons, Nat.add_lt_add_iff_right] at h
      simp [ih i h]

theorem dimension_sizes_ok (ds : List Int) (i : Nat) (size : Int) (adims adims1 : List Int)
    (sz : Int) (h : dimension_sizes ds i size adims = some (adims1, some sz)) :
    sz = size * ds.prod ∧ adims1.length = adims.length ∧
    (i + ds.length ≤ adims.length → adims1.take (i + ds.length) = adims.take i ++ ds) ∧
    (size ≤ 16384 → sz ≤ 16384) := by
  induction ds generalizing i size adims with
  | nil =>
    simp only [dimension_sizes, Option.some.injEq, Prod.mk.injEq] at h
    obtain ⟨rfl, rfl⟩ := h
    simp
  | cons d ds ih =>
    rw [dimension_sizes] at h
    by_cases hov : size * d < -9223372036854775808 ∨ 9223372036854775807 < size * d
    · rw [if_pos hov] at h
      simp at h
    rw [if_neg hov] at h
    by_cases hbig : size * d > 16384
    · rw [if_pos hbig] at h
      simp at h
    · rw [if_neg hbig] at h
      obtain ⟨h1, h2, h3, h4⟩ := ih (i + 1) (size * d) (adims.set i d) h
      refine ⟨?_, ?_, ?_, ?_⟩
      · rw [h1, List.prod_cons, mul_assoc]
      · rw [h2, List.length_set]
      · intro hlen
        simp only [List.length_cons] at hlen
        rw [List.length_set] at h3
        have := h3 (by omega)
        rw [take_succ_set adims i d (by omega)] at this
        have e : i + (d :: ds).length = i + 1 + ds.length := by
          simp only [List.length_cons]
          omega
        rw [e, this]
        simp
      · intro _
        exact h4 (by omega)

theorem drop_succ_set (l : List Int) (i k : Nat) (d : Int) (h : i < k) :
    (l.set i d).drop k = l.drop k := by
  induction l generalizing i k with
  | nil => simp
  | cons x xs ih =>
    cases k with
    | zero => omega
    | succ k =>
      cases i with
      | zero => simp
      | succ i => simpa using ih i k (by omega)

/-- For sizes that are positive values of `int`, the size loop stops at the
first dimension `j` at which the running product exceeds 16384: the sizes up
to that one have been stored, the later slots are as they were. -/
theorem dimension_sizes_fail (ds : List Int) (i : Nat) (size : Int) (adims : List Int)
    (hpos : ∀ d ∈ ds, 1 ≤ d ∧ d ≤ 2147483647) (hsz : 1 ≤ size ∧ size ≤ 16384)
    (h : 16384 < size * ds.prod) (hlen : i + ds.length ≤ adims.length) :
    ∃ j adims1, j < ds.length ∧ dimension_sizes ds i size adims = some (adims1, none) ∧
      size * (ds.take j).prod ≤ 16384 ∧ 16384 < size * (ds.take (j + 1)).prod ∧
      adims1.length = adims.length ∧
      adims1.take (i + j + 1) = adims.take i ++ ds.take (j + 1) ∧
      adims1.drop (i + j + 1) = adims.drop (i + j + 1) := by
  induction ds generalizing i size adims with
  | nil =>
    simp only [List.prod_nil, mul_one] at h
    omega
  | cons d ds ih =>
    obtain ⟨hd1, hd2⟩ := hpos d (List.mem_cons_self _ _)
    simp only [List.length_cons] at hlen
    have hlo : 1 ≤ size * d := by nlinarith
    have hhi : size * d ≤ 16384 * 2147483647 := by nlinarith
    have hov : ¬ (size * d < -9223372036854775808 ∨ 9223372036854775807 < size * d) := by omega
    rw [dimension_sizes, if_neg hov]
    by_cases hbig : size * d > 16384
    · rw [if_pos hbig]
      refine ⟨0, adims.set i d, by simp, rfl, by simpa using hsz.2, by simpa using hbig,
        by simp, ?_, ?_⟩
      · simpa using take_succ_set adims i d (by omega)
      · exact drop_succ_set adims i (i + 0 + 1) d (by omega)
    · rw [if_neg hbig]
      obtain ⟨j, adims1, hj, hres, hb1, hb2, hl, ht, hdr⟩ :=
        ih (i + 1) (size * d) (adims.set i d)
          (fun x hx => hpos x (List.mem_cons_of_mem _ hx)) ⟨hlo, by omega⟩
          (by rw [List.prod_cons, ← mul_assoc] at h; exact h)
          (by rw [List.length_set]; omega)
      refine ⟨j + 1, adims1, by simpa using hj, hres, ?_, ?_, by rw [hl, List.length_set], ?_, ?_⟩
      · simpa [List.take_succ_cons, mul_assoc] using hb1
      · simpa [List.take_succ_cons, mul_assoc] using hb2
      · have e : i + (j + 1) + 1 = i + 1 + j + 1 := by omega
        rw [e, ht, take_succ_set adims i d (by omega)]
        simp [List.take_succ_cons]
      · have e : i + (j + 1) + 1 = i + 1 + j + 1 := by omega
        rw [e, hdr]
        exact drop_succ_set adims i _ d (by omega)

theorem find_array_create_entry (s : state_t) (name : List Nat) :
    ∃ i arr, find_array s name true = (some i, (find_array s name true).2) ∧
      (find_array s name true).2.arrlist[i]? = some arr ∧
      arr.name = (normalize_name name).1 ∧
      (find_array s name true).2.arrlist.findIdx?
        (fun a => a.name == (normalize_name name).1) = some i ∧
      ((find_array s name false).1 = none →
        arr = ⟨(normalize_name name).1, (normalize_name name).2, 0, List.replicate 8 0, 0, none⟩ ∧
        (find_array s name true).2.arrlist = s.arrlist ++ [arr]) ∧
      (∀ j, (find_array s name false).1 = some j →
        j = i ∧ (find_array s name true).2 = s) := by
  cases h : s.arrlist.findIdx? (fun a => a.name == (normalize_name name).1) with
  | none =>
    refine ⟨s.arrlist.length,
      ⟨(normalize_name name).1, (normalize_name name).2, 0, List.replicate 8 0, 0, none⟩,
      ?_, ?_, ?_, ?_, ?_, ?_⟩
    · rw [find_array_new s name h]
    · rw [find_array_new s name h]
      simp
    · rfl
    · rw [find_array_new s name h]
      simp [h]
    · intro _
      rw [find_array_new s name h]
      exact ⟨rfl, rfl⟩
    · intro j hj
      rw [find_array_unknown s name h] at hj
      simp at hj
  | some i =>
    obtain ⟨hlt, hp, _⟩ := List.findIdx?_eq_some_iff_getElem.mp h
    refine ⟨i, s.arrlist[i], ?_, ?_, ?_, ?_, ?_, ?_⟩
    · rw [find_array_known s name true i h]
    · rw [find_array_known s name true i h]
      simp [hlt]
    · simpa using hp
    · rw [find_array_known s name true i h]
      exact h
    · intro hn
      rw [find_array_known s name false i h] at hn
      simp at hn
    · intro j hj
      rw [find_array_known s name false i h] at hj
      rw [find_array_known s name true i h]
      simp at hj
      exact ⟨hj.symm, rfl⟩

set_option maxRecDepth 1000000 in
/-- C18 (fails): in a state without arrays a subscripted reference to `A` is
not auto-dimensioned. `array_element` looks the name up without creating it
and raises Subscript out of range (error 9), whatever the subscripts; the
program `10 A(3) = 1` stops with that error and leaves the array table empty. -/
theorem first_use_raises_subscript :
    (∀ indices : List Int,
      array_element init_state (cstr "A") indices = error ERR_SUBSCRIPT init_state) ∧
    (run_program 10 10 0 first_use_program).output =
      some (cstr "Subscript out of range in 10\n") ∧
    (run_program 10 10 0 first_use_program).arrays = some [] := by
  refine ⟨fun indices => array_element_unknown _ _ _ rfl, by decide!, by decide!⟩

theorem dimension_array_unfold (s s0 : state_t) (name : List Nat) (dims : List Int) (type : Nat)
    (i : Nat) (arr : array_t) (hf : find_array s name true = (some i, s0))
    (hget : s0.arrlist[i]? = some arr) :
    dimension_array s name dims type =
      if (match (find_array s name false).1 with
          | some i => (match s.arrlist[i]? with | some a => decide (a.ndims > 0) | none => false)
          | none => false) = true then error ERR_REDIM s
      else
        match dimension_sizes dims 0 1 arr.dims with
        | none => .unmodelled
        | some (adims, none) =>
          let arr1 : array_t := { arr with dims := adims }
          error ERR_OUT_OF_MEM { s0 with arrlist := s0.arrlist.set i arr1 }
        | some (adims, some size) =>
          let arr1 : array_t :=
            { arr with dims := adims, ndims := dims.length, size := wrap32 size, type := type }
          if size < 0 then error ERR_OUT_OF_MEM { s0 with arrlist := s0.arrlist.set i arr1 }
          else
            let elem : value_t := if type = TYPE_STR then .strval empty_string else .zero
            let arr2 : array_t := { arr1 with data := some (List.replicate size.toNat elem) }
            .ok { s0 with arrlist := s0.arrlist.set i arr2 } := by
  unfold dimension_array
  simp only [hf, List.get?_eq_getElem?, hget]

theorem findIdx?_set_name (l : List array_t) (i : Nat) (a b : array_t) (n : List Nat)
    (hget : l[i]? = some a) (hname : b.name = a.name) :
    (l.set i b).findIdx? (fun x => x.name == n) = l.findIdx? (fun x => x.name == n) := by
  induction l generalizing i with
  | nil => simp at hget
  | cons x xs ih =>
    cases i with
    | zero =>
      simp only [List.getElem?_cons_zero, Option.some.injEq] at hget
      subst hget
      simp [List.findIdx?_cons, hname]
    | succ i =>
      simp only [List.getElem?_cons_succ] at hget
      simp [List.findIdx?_cons, ih i hget]

theorem dimension_array_ok_inv (s s1 : state_t) (name : List Nat) (dims : List Int) (type : Nat)
    (hinv : arrays_ok s) (hlen : dims.length ≤ 8)
    (h : dimension_array s name dims type = .ok s1) :
    ∃ i arr, s1.arrlist[i]? = some arr ∧
      s1.arrlist.findIdx? (fun a => a.name == (normalize_name name).1) = some i ∧
      arr.ndims = dims.length ∧ arr.dims.take dims.length = dims ∧ arr.size = dims.prod ∧
      arr.dims.length = 8 ∧ (∃ elem, arr.data = some (List.replicate dims.prod.toNat elem)) := by
  obtain ⟨i, arr, hf, hget, hname, hidx, hnew, hold⟩ := find_array_create_entry s name
  have hdl : arr.dims.length = 8 := by
    cases hfa : (find_array s name false).1 with
    | none => rw [(hnew hfa).1]; rfl
    | some j =>
      obtain ⟨_, hs⟩ := hold j hfa
      rw [hs] at hget
      exact hinv arr (List.getElem?_mem hget)
  rw [dimension_array_unfold s _ name dims type i arr hf hget] at h
  by_cases hr : (match (find_array s name false).1 with
      | some i => (match s.arrlist[i]? with | some a => decide (a.ndims > 0) | none => false)
      | none => false) = true
  · rw [if_pos hr] at h
    simp [error] at h
  · rw [if_neg hr] at h
    cases hd : dimension_sizes dims 0 1 arr.dims with
    | none =>
      rw [hd] at h
      simp at h
    | some r =>
      obtain ⟨adims, o⟩ := r
      obtain ⟨hlt, _⟩ := List.getElem?_eq_some_iff.mp hget
      cases o with
      | none =>
        rw [hd] at h
        simp [error] at h
      | some size =>
        rw [hd] at h
        simp only [] at h
        by_cases hneg : size < 0
        · rw [if_pos hneg] at h
          simp [error] at h
        · rw [if_neg hneg] at h
          simp only [Res.ok.injEq] at h
          subst h
          obtain ⟨h1, h2, h3, h4⟩ := dimension_sizes_ok dims 0 1 arr.dims adims size hd
          have h16 := h4 (by decide)
          have hw : wrap32 size = size := wrap32_small size (by omega)
          rw [hw]
          refine ⟨i, ⟨arr.name, type, dims.length, adims, size, some (List.replicate size.toNat
            (if type = TYPE_STR then .strval empty_string else .zero))⟩, ?_, ?_, rfl, ?_, ?_, ?_, ?_⟩
          · simp [hlt]
          · simp only []
            exact (findIdx?_set_name _ i arr ⟨arr.name, type, dims.length, adims, size,
              some (List.replicate size.toNat
                (if type = TYPE_STR then .strval empty_string else .zero))⟩ _ hget rfl).trans hidx
          · simpa using h3 (by omega)
          · simp [h1]
          · simp [h2, hdl]
          · refine ⟨if type = TYPE_STR then .strval empty_string else .zero, ?_⟩
            simp [h1]

theorem element_offset_some (is ds : List Int) (o m : Int) (hlen : is.length = ds.length) :
    (∃ off, element_offset is ds o m = some off) ↔
      List.Forall₂ (fun i d => 0 ≤ i ∧ i < d) is ds := by
  induction is generalizing ds o m with
  | nil =>
    cases ds with
    | nil => simp [element_offset]
    | cons d ds => simp at hlen
  | cons i is ih =>
    cases ds with
    | nil => simp at hlen
    | cons d ds =>
      simp only [List.length_cons, Nat.add_right_cancel_iff] at hlen
      rw [element_offset, List.forall₂_cons]
      by_cases hb : i < 0 ∨ i ≥ d
      · rw [if_pos hb]
        constructor
        · rintro ⟨off, h⟩
          simp at h
        · rintro ⟨h, _⟩
          omega
      · rw [if_neg hb, ih ds _ _ hlen]
        constructor
        · intro h
          exact ⟨by omega, h⟩
        · exact fun h => h.2

theorem element_offset_bound (is ds : List Int) (o m off : Int) (hm : 0 ≤ m)
    (hlen : is.length = ds.length) (h : element_offset is ds o m = some off) :
    o ≤ off ∧ off + m ≤ o + m * ds.prod := by
  induction is generalizing ds o m with
  | nil =>
    cases ds with
    | nil =>
      simp only [element_offset, Option.some.injEq] at h
      subst h
      simp
    | cons d ds => simp at hlen
  | cons i is ih =>
    cases ds with
    | nil => simp at hlen
    | cons d ds =>
      simp only [List.length_cons, Nat.add_right_cancel_iff] at hlen
      rw [element_offset] at h
      by_cases hb : i < 0 ∨ i ≥ d
      · rw [if_pos hb] at h
        simp at h
      · rw [if_neg hb] at h
        have hd : 0 ≤ d := by omega
        obtain ⟨h1, h2⟩ := ih ds (o + i * m) (m * d) (mul_nonneg hm hd) hlen h
        have hi : 0 ≤ i * m := mul_nonneg (by omega) hm
        have hi2 : (i + 1) * m ≤ d * m := mul_le_mul_of_nonneg_right (by omega) hm
        rw [List.prod_cons]
        constructor
        · omega
        · nlinarith

theorem array_element_dimensioned (s : state_t) (name : List Nat) (indices : List Int)
    (i : Nat) (arr : array_t)
    (hidx : s.arrlist.findIdx? (fun a => a.name == (normalize_name name).1) = some i)
    (hget : s.arrlist[i]? = some arr) (hnd : arr.ndims ≠ 0) :
    array_element s name indices =
      if indices.length ≠ arr.ndims then error ERR_SUBSCRIPT s
      else
        match element_offset indices.reverse (arr.dims.take arr.ndims).reverse 0 1 with
        | none => error ERR_SUBSCRIPT s
        | some offset => .ok (i, offset.toNat, s) := by
  unfold array_element
  simp only [find_array_known s name false i hidx, List.get?_eq_getElem?, hget, hnd, if_false,
    Res.pure_eq, Res.ok_bind]

theorem forall₂_bounds (indices bounds : List Int) :
    List.Forall₂ (fun i d => 0 ≤ i ∧ i < d) indices.reverse (bounds.map (· + 1)).reverse ↔
      List.Forall₂ (fun i b => 0 ≤ i ∧ i ≤ b) indices bounds := by
  rw [List.forall₂_reverse_iff, List.forall₂_map_right_iff]
  constructor <;> intro h <;> refine h.imp ?_ <;> intro a b hab <;> omega

/-- C17: after a `dimension_array` that succeeded for the bounds `b1..bk`
(`1 <= k <= 8`, sizes `b1+1..bk+1`), `array_element` accepts a list of
subscripts exactly when there are `k` of them and each lies in `0..bj`: it
then returns an element of the array storage, and raises Subscript out of
range (error 9) for every other list of subscripts. -/
theorem subscripts_accepted_iff (s s1 : state_t) (name : List Nat) (type : Nat)
    (bounds indices : List Int) (hinv : arrays_ok s)
    (hk : 1 ≤ bounds.length ∧ bounds.length ≤ 8)
    (hdim : dimension_array s name (bounds.map (· + 1)) type = .ok s1) :
    (List.Forall₂ (fun i b => 0 ≤ i ∧ i ≤ b) indices bounds →
      ∃ i off, array_element s1 name indices = .ok (i, off, s1) ∧
        (read_element s1 i off).isSome = true) ∧
    (¬ List.Forall₂ (fun i b => 0 ≤ i ∧ i ≤ b) indices bounds →
      array_element s1 name indices = error ERR_SUBSCRIPT s1) := by
  obtain ⟨i, arr, hget, hidx, hnd, htake, hsize, hdl, elem, hdata⟩ :=
    dimension_array_ok_inv s s1 name (bounds.map (· + 1)) type hinv (by simpa using hk.2) hdim
  have hne : arr.ndims ≠ 0 := by
    rw [hnd, List.length_map]
    omega
  have hae := array_element_dimensioned s1 name indices i arr hidx hget hne
  rw [hnd, htake, List.length_map] at hae
  constructor
  · intro hall
    have hlen : indices.length = bounds.length := hall.length_eq
    have hlen' : indices.reverse.length = (bounds.map (· + 1)).reverse.length := by
      simp [hlen]
    obtain ⟨off, hoff⟩ := (element_offset_some _ _ 0 1 hlen').mpr ((forall₂_bounds _ _).mpr hall)
    obtain ⟨hb1, hb2⟩ := element_offset_bound _ _ 0 1 off (by decide) hlen' hoff
    refine ⟨i, off.toNat, ?_, ?_⟩
    · rw [hae, if_neg (by simp [hlen]), hoff]
    · rw [List.prod_reverse] at hb2
      have hlt : off.toNat < (List.map (fun x => x + 1) bounds).prod.toNat := by omega
      simp [read_element, hget, hdata, hlt]
  · intro hall
    rw [hae]
    by_cases hlen : indices.length = bounds.length
    · have hlen' : indices.reverse.length = (bounds.map (· + 1)).reverse.length := by
        simp [hlen]
      have hnone : element_offset indices.reverse (bounds.map (· + 1)).reverse 0 1 = none := by
        cases h : element_offset indices.reverse (bounds.map (· + 1)).reverse 0 1 with
        | none => rfl
        | some off =>
          exact absurd ((forall₂_bounds _ _).mp ((element_offset_some _ _ 0 1 hlen').mp ⟨off, h⟩))
            hall
      rw [if_neg (by simp [hlen]), hnone]
    · rw [if_pos hlen]

theorem subscripts_accepted_iff_witness :
    (List.Forall₂ (fun i b => 0 ≤ i ∧ i ≤ b) ([4] : List Int) [4] →
      ∃ i off, array_element dim_a4_state (cstr "A") [4] = .ok (i, off, dim_a4_state) ∧
        (read_element dim_a4_state i off).isSome = true) ∧
    (¬ List.Forall₂ (fun i b => 0 ≤ i ∧ i ≤ b) ([4] : List Int) [4] →
      array_element dim_a4_state (cstr "A") [4] = error ERR_SUBSCRIPT dim_a4_state) :=
  subscripts_accepted_iff init_state dim_a4_state (cstr "A") TYPE_SNG [4] [4]
    (fun a ha => by simp [init_state] at ha) ⟨by decide, by decide⟩ rfl

set_option maxRecDepth 1000000 in
/-- After `DIM A(4)`, the statement `A(4) = 1` succeeds and `A(5) = 1` raises
Subscript out of range; after `DIM A(2,3)` the subscript lists `(2,3)` and
`(0,0)` are accepted, `(3,0)`, `(2)`, `(1,1,1)` and `(-1,1)` are not. -/
theorem subscripts_examples :
    (run_program 10 10 0 (load_program init_state [(10, "DIM A(4): A(4) = 1: PRINT \"OK\"")])).output =
      some (cstr "OK\n") ∧
    (run_program 10 10 0 (load_program init_state [(10, "DIM A(4): A(5) = 1: PRINT \"OK\"")])).output =
      some (cstr "Subscript out of range in 10\n") ∧
    (run_program 10 10 0 (load_program init_state
      [(10, "DIM A(2,3): A(2,3) = 1: A(0,0) = 1: PRINT \"OK\"")])).output = some (cstr "OK\n") ∧
    (run_program 10 10 0 (load_program init_state [(10, "DIM A(2,3): A(3,0) = 1")])).output =
      some (cstr "Subscript out of range in 10\n") ∧
    (run_program 10 10 0 (load_program init_state [(10, "DIM A(2,3): A(2) = 1")])).output =
      some (cstr "Subscript out of range in 10\n") ∧
    (run_program 10 10 0 (load_program init_state [(10, "DIM A(2,3): A(1,1,1) = 1")])).output =
      some (cstr "Subscript out of range in 10\n") ∧
    (run_program 10 10 0 (load_program init_state [(10, "DIM A(2,3): A(-1,1) = 1")])).output =
      some (cstr "Subscript out of range in 10\n") := by
  refine ⟨?_, ?_, ?_, ?_, ?_, ?_, ?_⟩ <;> decide!

/-! ## The size limit of `dimension_array` -/

theorem map_header_set (l : List array_t) (i : Nat) (a b : array_t) (hget : l[i]? = some a)
    (hb : b.header = a.header) : (l.set i b).map array_t.header = l.map array_t.header := by
  induction l generalizing i with
  | nil => simp at hget
  | cons x xs ih =>
    cases i with
    | zero =>
      simp only [List.getElem?_cons_zero, Option.some.injEq] at hget
      subst hget
      simp [hb]
    | succ i =>
      simp only [List.getElem?_cons_succ] at hget
      simp [ih i hget]

set_option maxRecDepth 1000000 in
/-- C19 (as stated, fails): `dimension_array` for 201 * 201 elements under the
new name `A` raises Out of memory and leaves an entry for `A` in the array
table, which was empty before the call: the entry is created before the sizes
are checked. For a name that is already dimensioned the error is Duplicate
definition (error 10), not Out of memory. And for the sizes
-1073741824, 131072, 65536, 2, -1 (`DIM A(-1073741825,131071,65535,1,-2)`),
whose product is 2^64, no partial product exceeds 16384 before the product
-2^63 * 2 leaves the range of `long`: Out of memory is not raised. -/
theorem dimension_array_failure_counterexample :
    init_state.arrlist = [] ∧
    (dimension_array init_state (cstr "A") [201, 201] TYPE_SNG).raised = some ERR_OUT_OF_MEM ∧
    (dimension_array init_state (cstr "A") [201, 201] TYPE_SNG).arrays =
      some [⟨cstr "A", TYPE_SNG, 0, [201, 201, 0, 0, 0, 0, 0, 0], 0, none⟩] ∧
    (dimension_array dim_a4_state (cstr "A") [201, 201] TYPE_SNG).raised = some ERR_REDIM ∧
    ([-1073741824, 131072, 65536, 2, -1] : List Int).prod = 18446744073709551616 ∧
    ([-1073741824, 131072, 65536] : List Int).prod = -9223372036854775808 ∧
    (dimension_array init_state (cstr "A") [-1073741824, 131072, 65536, 2, -1]
      TYPE_SNG).raised = none ∧
    (dimension_array init_state (cstr "A") [-1073741824, 131072, 65536, 2, -1]
      TYPE_SNG).is_unmodelled = true ∧
    (execute_direct 10 init_state
      (cstr "DIM A(-1073741825,131071,65535,1,-2)")).is_unmodelled = true := by
  refine ⟨by decide, by decide, by decide, by decide, by norm_num, by norm_num, ?_, ?_, ?_⟩ <;>
    decide!

/-- C19 (amended): for a name that is not the name of a dimensioned array and
at most eight sizes, each a positive `int`, whose product exceeds 16384,
`dimension_array` raises Out of memory (error 7) at the first dimension `j`
at which the running product exceeds 16384. No storage has been allocated and
no array has become dimensioned: the array table is the one
`find_array(name, 1)` leaves (if the name was unknown, an undimensioned entry
for it has been appended), except that the `dims` of the entry of the name
hold the sizes read up to dimension `j`; name, type, `ndims`, `size` and
`data` of every entry are what they were. -/
theorem dimension_array_out_of_memory (s : state_t) (name : List Nat) (dims : List Int)
    (type : Nat)
    (hnd : ∀ a ∈ s.arrlist, a.name = (normalize_name name).1 → a.ndims = 0)
    (hinv : arrays_ok s) (hlen : dims.length ≤ 8)
    (hpos : ∀ d ∈ dims, 1 ≤ d ∧ d ≤ 2147483647) (hbig : 16384 < dims.prod) :
    ∃ i old j, (find_array s name true).1 = some i ∧
      (find_array s name true).2.arrlist[i]? = some old ∧
      old.name = (normalize_name name).1 ∧ old.ndims = 0 ∧
      (find_array s name true).2.arrlist =
        (if (find_array s name false).1 = none then
          s.arrlist ++ [⟨(normalize_name name).1, (normalize_name name).2, 0,
            List.replicate 8 0, 0, none⟩]
         else s.arrlist) ∧
      j < dims.length ∧ (dims.take j).prod ≤ 16384 ∧ 16384 < (dims.take (j + 1)).prod ∧
      dimension_array s name dims type =
        error ERR_OUT_OF_MEM
          { (find_array s name true).2 with
            arrlist := (find_array s name true).2.arrlist.set i
              { old with dims := dims.take (j + 1) ++ old.dims.drop (j + 1) } } ∧
      ∀ s1, dimension_array s name dims type = .error ERR_OUT_OF_MEM s1 →
        s1.arrlist.map array_t.header = (find_array s name true).2.arrlist.map array_t.header := by
  obtain ⟨i, arr, hf, hget, hname, hidx, hnew, hold⟩ := find_array_create_entry s name
  have hr : ¬ (match (find_array s name false).1 with
      | some i => (match s.arrlist[i]? with | some a => decide (a.ndims > 0) | none => false)
      | none => false) = true := by
    cases hfa : (find_array s name false).1 with
    | none => simp
    | some j =>
      obtain ⟨rfl, hs⟩ := hold j hfa
      rw [hs] at hget
      have := hnd arr (List.getElem?_mem hget) hname
      simp [hget, this]
  have htab : (find_array s name true).2.arrlist =
      if (find_array s name false).1 = none then
        s.arrlist ++ [⟨(normalize_name name).1, (normalize_name name).2, 0,
          List.replicate 8 0, 0, none⟩]
      else s.arrlist := by
    cases hfa : (find_array s name false).1 with
    | none =>
      obtain ⟨h1, h2⟩ := hnew hfa
      rw [h2, h1]
      simp
    | some j =>
      obtain ⟨_, hs⟩ := hold j hfa
      rw [hs]
      simp
  have hnd0 : arr.ndims = 0 := by
    cases hfa : (find_array s name false).1 with
    | none => rw [(hnew hfa).1]
    | some j =>
      obtain ⟨_, hs⟩ := hold j hfa
      rw [hs] at hget
      exact hnd arr (List.getElem?_mem hget) hname
  have hdl : arr.dims.length = 8 := by
    cases hfa : (find_array s name false).1 with
    | none => rw [(hnew hfa).1]; rfl
    | some j =>
      obtain ⟨_, hs⟩ := hold j hfa
      rw [hs] at hget
      exact hinv arr (List.getElem?_mem hget)
  obtain ⟨j, adims, hj, hres, hb1, hb2, hl, ht, hdr⟩ :=
    dimension_sizes_fail dims 0 1 arr.dims hpos ⟨by decide, by decide⟩ (by omega) (by omega)
  simp only [one_mul, zero_add, List.take_zero, List.nil_append] at hb1 hb2 ht hdr
  have hadims : adims = dims.take (j + 1) ++ arr.dims.drop (j + 1) := by
    rw [← ht, ← hdr, List.take_append_drop]
  have hda : dimension_array s name dims type =
      error ERR_OUT_OF_MEM
        { (find_array s name true).2 with
          arrlist := (find_array s name true).2.arrlist.set i
            { arr with dims := dims.take (j + 1) ++ arr.dims.drop (j + 1) } } := by
    rw [dimension_array_unfold s _ name dims type i arr hf hget, if_neg hr, hres, hadims]
  have hfi : (find_array s name true).1 = some i := by rw [hf]
  refine ⟨i, arr, j, hfi, hget, hname, hnd0, htab, hj, hb1, hb2, hda, ?_⟩
  intro s1 h1
  rw [hda] at h1
  simp only [error, Res.error.injEq, true_and] at h1
  rw [← h1, error_state_arrlist]
  exact map_header_set _ i arr _ hget rfl

theorem dimension_array_out_of_memory_witness :
    ∃ i old j, (find_array init_state (cstr "A") true).1 = some i ∧
      (find_array init_state (cstr "A") true).2.arrlist[i]? = some old ∧
      old.name = (normalize_name (cstr "A")).1 ∧ old.ndims = 0 ∧
      (find_array init_state (cstr "A") true).2.arrlist =
        (if (find_array init_state (cstr "A") false).1 = none then
          init_state.arrlist ++ [⟨(normalize_name (cstr "A")).1, (normalize_name (cstr "A")).2, 0,
            List.replicate 8 0, 0, none⟩]
         else init_state.arrlist) ∧
      j < ([201, 201] : List Int).length ∧ (([201, 201] : List Int).take j).prod ≤ 16384 ∧
      16384 < (([201, 201] : List Int).take (j + 1)).prod ∧
      dimension_array init_state (cstr "A") [201, 201] TYPE_SNG =
        error ERR_OUT_OF_MEM
          { (find_array init_state (cstr "A") true).2 with
            arrlist := (find_array init_state (cstr "A") true).2.arrlist.set i
              { old with dims := ([201, 201] : List Int).take (j + 1) ++ old.dims.drop (j + 1) } } ∧
      ∀ s1, dimension_array init_state (cstr "A") [201, 201] TYPE_SNG =
          .error ERR_OUT_OF_MEM s1 →
        s1.arrlist.map array_t.header =
          (find_array init_state (cstr "A") true).2.arrlist.map array_t.header :=
  dimension_array_out_of_memory init_state (cstr "A") [201, 201] TYPE_SNG
    (fun a ha => by simp [init_state] at ha) (fun a ha => by simp [init_state] at ha)
    (by decide) (by decide) (by decide)

/-! ## Comparison of strings -/

theorem compare_strings_nil_left (b : List Nat) :
    compare_strings (some []) (some b) = -(b.length : Int) := by
  simp [compare_strings, memcmp]

theorem compare_strings_nil_right (a : List Nat) :
    compare_strings (some a) (some []) = (a.length : Int) := by
  simp [compare_strings, memcmp]

theorem compare_strings_cons (x y : Nat) (a b : List Nat) :
    compare_strings (some (x :: a)) (some (y :: b)) =
      if x = y then compare_strings (some a) (some b) else (x : Int) - (y : Int) := by
  by_cases h : x = y
  · subst h
    simp [compare_strings, memcmp, Nat.succ_min_succ]
  · have hne : (x : Int) - (y : Int) ≠ 0 := by omega
    simp [compare_strings, memcmp, Nat.succ_min_succ, h, hne]

theorem compare_strings_sign (a b : List Nat) :
    (compare_strings (some a) (some b) < 0 ↔ spec_lex_lt a b = true) ∧
    (compare_strings (some a) (some b) = 0 ↔ a = b) ∧
    (0 < compare_strings (some a) (some b) ↔ spec_lex_lt b a = true) := by
  induction a generalizing b with
  | nil =>
    cases b with
    | nil => simp [compare_strings_nil_left, spec_lex_lt]
    | cons y b =>
      rw [compare_strings_nil_left]
      simp only [spec_lex_lt, List.length_cons]
      refine ⟨?_, ?_, ?_⟩ <;> simp <;> omega
  | cons x a ih =>
    cases b with
    | nil =>
      rw [compare_strings_nil_right]
      simp only [spec_lex_lt, List.length_cons]
      refine ⟨?_, ?_, ?_⟩ <;> simp <;> omega
    | cons y b =>
      rw [compare_strings_cons]
      obtain ⟨h1, h2, h3⟩ := ih b
      by_cases h : x = y
      · subst h
        simp [spec_lex_lt, h1, h2, h3]
      · rw [if_neg h]
        have h' : ¬ y = x := fun e => h e.symm
        have e1 : (x == y) = false := by simp [h]
        have e2 : (y == x) = false := by simp [h']
        clear h1 h2 h3 ih
        simp only [spec_lex_lt, List.cons.injEq, h, false_and, e1, e2, Bool.false_and,
          Bool.or_false, decide_eq_true_eq]
        refine ⟨by omega, ?_, by omega⟩
        simp only [iff_false]
        omega

theorem compare_step_strings (op : Nat) (a b : List Nat) (s : state_t) :
    compare_step op (.strval (some a)) TYPE_STR (.strval (some b)) TYPE_STR s =
      .ok (.intval (if (if op = TOK_EQ then decide (compare_strings (some a) (some b) = 0)
          else if op = TOK_NE then decide (compare_strings (some a) (some b) ≠ 0)
          else if op = TOK_LT then decide (compare_strings (some a) (some b) < 0)
          else if op = TOK_GT then decide (compare_strings (some a) (some b) > 0)
          else if op = TOK_LE then decide (compare_strings (some a) (some b) ≤ 0)
          else decide (compare_strings (some a) (some b) ≥ 0)) = true then -1 else 0),
        TYPE_INT, s) := by
  simp only [compare_step, value_t.as_string, and_self, if_true]
  split_ifs <;> rfl

/-- C15: `compare_strings` is negative, zero or positive exactly when the
first string is less than, equal to or greater than the second in the
lexicographic order of their bytes (a proper prefix is less), and each of the
operators `=`, `<>`, `<`, `>`, `<=`, `>=` on two String operands gives Integer
`-1` when its relation holds in that order and Integer `0` when it does not. -/
theorem compare_strings_lexicographic (a b : List Nat) (s : state_t) :
    (compare_strings (some a) (some b) < 0 ↔ spec_lex_lt a b = true) ∧
    (compare_strings (some a) (some b) = 0 ↔ a = b) ∧
    (0 < compare_strings (some a) (some b) ↔ spec_lex_lt b a = true) ∧
    compare_step TOK_EQ (.strval (some a)) TYPE_STR (.strval (some b)) TYPE_STR s =
      .ok (.intval (if a = b then -1 else 0), TYPE_INT, s) ∧
    compare_step TOK_NE (.strval (some a)) TYPE_STR (.strval (some b)) TYPE_STR s =
      .ok (.intval (if a ≠ b then -1 else 0), TYPE_INT, s) ∧
    compare_step TOK_LT (.strval (some a)) TYPE_STR (.strval (some b)) TYPE_STR s =
      .ok (.intval (if spec_lex_lt a b = true then -1 else 0), TYPE_INT, s) ∧
    compare_step TOK_GT (.strval (some a)) TYPE_STR (.strval (some b)) TYPE_STR s =
      .ok (.intval (if spec_lex_lt b a = true then -1 else 0), TYPE_INT, s) ∧
    compare_step TOK_LE (.strval (some a)) TYPE_STR (.strval (some b)) TYPE_STR s =
      .ok (.intval (if spec_lex_lt a b = true ∨ a = b then -1 else 0), TYPE_INT, s) ∧
    compare_step TOK_GE (.strval (some a)) TYPE_STR (.strval (some b)) TYPE_STR s =
      .ok (.intval (if spec_lex_lt b a = true ∨ a = b then -1 else 0), TYPE_INT, s) := by
  obtain ⟨h1, h2, h3⟩ := compare_strings_sign a b
  refine ⟨h1, h2, h3, ?_, ?_, ?_, ?_, ?_, ?_⟩
  · rw [compare_step_strings]
    simp [h2]
  · rw [compare_step_strings]
    simp [h2]
  · rw [compare_step_strings]
    simp [h1]
  · rw [compare_step_strings]
    simp [h3]
  · rw [compare_step_strings]
    have : compare_strings (some a) (some b) ≤ 0 ↔ spec_lex_lt a b = true ∨ a = b := by
      rw [← h1, ← h2]
      omega
    simp [this]
  · rw [compare_step_strings]
    have : compare_strings (some a) (some b) ≥ 0 ↔ spec_lex_lt b a = true ∨ a = b := by
      rw [← h3, ← h2]
      omega
    simp [this]

/-- The six comparison operators on the strings `A` and `B`, and a string
against its proper prefix. -/
theorem compare_strings_examples :
    (eval_source "\"A\" = \"B\"").value = some (.intval 0, TYPE_INT) ∧
    (eval_source "\"A\" <> \"B\"").value = some (.intval (-1), TYPE_INT) ∧
    (eval_source "\"A\" < \"B\"").value = some (.intval (-1), TYPE_INT) ∧
    (eval_source "\"A\" > \"B\"").value = some (.intval 0, TYPE_INT) ∧
    (eval_source "\"A\" <= \"B\"").value = some (.intval (-1), TYPE_INT) ∧
    (eval_source "\"A\" >= \"B\"").value = some (.intval 0, TYPE_INT) ∧
    (eval_source "\"AB\" > \"A\"").value = some (.intval (-1), TYPE_INT) ∧
    (eval_source "\"A\" < \"AB\"").value = some (.intval (-1), TYPE_INT) ∧
    (eval_source "\"AB\" = \"AB\"").value = some (.intval (-1), TYPE_INT) ∧
    (eval_source "\"\" < \"A\"").value = some (.intval (-1), TYPE_INT) := by
  decide

theorem spec_lex_lt_iff (a b : List Nat) : spec_lex_lt a b = true ↔ a < b := by
  induction a generalizing b with
  | nil =>
    cases b with
    | nil => simp [spec_lex_lt]
    | cons y b => simp [spec_lex_lt, List.nil_lt_cons]
  | cons x a ih =>
    cases b with
    | nil => simp [spec_lex_lt]
    | cons y b =>
      simp only [spec_lex_lt, Bool.or_eq_true, decide_eq_true_eq, Bool.and_eq_true, beq_iff_eq,
        ih b]
      constructor
      · rintro (h | ⟨rfl, h⟩)
        · exact List.Lex.rel h
        · exact List.Lex.cons h
      · intro h
        cases h with
        | rel h => exact Or.inl h
        | cons h => exact Or.inr ⟨rfl, h⟩

/-! ## Variables are identified by normalised name and type -/

theorem normalize_name_loop_append (base rest : List Nat) (room : Nat)
    (hbase : ∀ c ∈ base, is_plain_name_char c = true) (hroom : base.length ≤ room) :
    normalize_name_loop room (base ++ rest) =
      (base.map upcase ++ (normalize_name_loop (room - base.length) rest).1,
        (normalize_name_loop (room - base.length) rest).2) := by
  induction base generalizing room with
  | nil => simp
  | cons c base ih =>
    cases room with
    | zero => simp at hroom
    | succ room =>
      have hc : (IS_ALNUM c || c == 46) = true := hbase c (List.mem_cons_self _ _)
      simp only [List.length_cons, Nat.add_le_add_iff_right] at hroom
      rw [List.cons_append, normalize_name_loop, if_pos hc,
        ih room (fun x hx => hbase x (List.mem_cons_of_mem _ hx)) hroom]
      simp

theorem normalize_name_suffix (base : List Nat) (c : Nat)
    (hbase : ∀ c ∈ base, is_plain_name_char c = true) (hlen : base.length < NAMLEN)
    (hc : is_type_suffix c = true) :
    normalize_name (base ++ [c]) = (base.map upcase, suffix_type c) := by
  have hloop := normalize_name_loop_append base [c] NAMLEN hbase (by omega)
  obtain ⟨k, hk⟩ : ∃ k, NAMLEN - base.length = k + 1 := ⟨NAMLEN - base.length - 1, by omega⟩
  rw [hk] at hloop
  simp only [is_type_suffix, Bool.or_eq_true, beq_iff_eq] at hc
  rcases hc with ((rfl | rfl) | rfl) | rfl <;>
    simp [normalize_name, hloop, normalize_name_loop, suffix_type, IS_ALNUM, IS_ALPHA, IS_DIGIT]

theorem IS_ALNUM_upcase (c : Nat) : IS_ALNUM (upcase c) = IS_ALNUM c := by
  unfold upcase
  split_ifs with h
  · simp only [IS_ALNUM, IS_ALPHA, IS_DIGIT]
    have h1 : 65 ≤ c - 97 + 65 := by omega
    have h2 : c - 97 + 65 ≤ 90 := by omega
    have h3 : 97 ≤ c := h.1
    have h4 : c ≤ 122 := h.2
    simp [h1, h2, h3, h4]
  · rfl

theorem upcase_upcase (c : Nat) : upcase (upcase c) = upcase c := by
  unfold upcase
  split_ifs <;> omega

theorem upcase_eq_of (c d k : Nat) (hk : k = 36 ∨ k = 37 ∨ k = 33 ∨ k = 35 ∨ k = 46)
    (h : upcase c = upcase d) : c = k ↔ d = k := by
  unfold upcase at h
  split_ifs at h <;> omega

/-- Names that differ only in the case of their letters have the same
normalised name and the same type. -/
theorem normalize_name_loop_case (n1 n2 : List Nat) (room : Nat)
    (h : n1.map upcase = n2.map upcase) :
    normalize_name_loop room n1 = normalize_name_loop room n2 := by
  induction n1 generalizing n2 room with
  | nil =>
    cases n2 with
    | nil => rfl
    | cons d n2 => simp at h
  | cons c n1 ih =>
    cases n2 with
    | nil => simp at h
    | cons d n2 =>
      simp only [List.map_cons, List.cons.injEq] at h
      obtain ⟨hcd, ht⟩ := h
      cases room with
      | zero => rfl
      | succ room =>
        have ha : IS_ALNUM c = IS_ALNUM d := by
          rw [← IS_ALNUM_upcase c, ← IS_ALNUM_upcase d, hcd]
        have h46 := upcase_eq_of c d 46 (by omega) hcd
        have h36 := upcase_eq_of c d 36 (by omega) hcd
        have h37 := upcase_eq_of c d 37 (by omega) hcd
        have h33 := upcase_eq_of c d 33 (by omega) hcd
        have h35 := upcase_eq_of c d 35 (by omega) hcd
        simp only [normalize_name_loop, ha, ih n2 room ht, hcd, h36, h37, h33, h35,
          beq_iff_eq, h46]
        simp only [Bool.or_eq_true, beq_iff_eq, h46]

theorem normalize_name_case (n1 n2 : List Nat) (h : n1.map upcase = n2.map upcase) :
    normalize_name n1 = normalize_name n2 := by
  simp only [normalize_name, normalize_name_loop_case n1 n2 NAMLEN h]

/-- Names with the same normalised name and type denote the same variable:
`find_variable`, `get_variable` and `set_variable` do not tell them apart. -/
theorem same_key_same_variable (n1 n2 : List Nat) (h : normalize_name n1 = normalize_name n2)
    (s : state_t) :
    (∀ b, find_variable s n1 b = find_variable s n2 b) ∧
    get_variable s n1 = get_variable s n2 ∧
    ∀ val type, set_variable s n1 val type = set_variable s n2 val type := by
  have hf : ∀ b, find_variable s n1 b = find_variable s n2 b := by
    intro b
    simp only [find_variable, h]
  exact ⟨hf, by simp only [get_variable, hf], fun val type => by simp only [set_variable, hf]⟩

theorem find_variable_varlist (s : state_t) (name : List Nat) :
    (find_variable s name true).2.varlist = s.varlist ∨
    ((find_variable s name true).2.varlist =
        s.varlist ++ [⟨(normalize_name name).1, (normalize_name name).2,
          initial_value (normalize_name name).2⟩] ∧
      ∀ v ∈ s.varlist, v.key ≠ normalize_name name) := by
  cases hc : cache_hit s (normalize_name name).1 (normalize_name name).2 with
  | some i =>
    left
    simp only [find_variable, hc]
  | none =>
    cases hf : s.varlist.findIdx? (fun v => v.name == (normalize_name name).1 &&
        v.type == (normalize_name name).2) with
    | some i =>
      left
      simp only [find_variable, hc, hf]
    | none =>
      right
      refine ⟨by simp [find_variable, hc, hf], ?_⟩
      intro v hv hk
      have := List.findIdx?_eq_none_iff.mp hf v hv
      simp [var_t.key] at hk
      rw [← hk] at this
      simp at this

theorem map_key_set (l : List var_t) (i : Nat) (a b : var_t) (hget : l[i]? = some a)
    (hb : b.key = a.key) : (l.set i b).map var_t.key = l.map var_t.key := by
  induction l generalizing i with
  | nil => simp at hget
  | cons x xs ih =>
    cases i with
    | zero =>
      simp only [List.getElem?_cons_zero, Option.some.injEq] at hget
      subst hget
      simp [hb]
    | succ i =>
      simp only [List.getElem?_cons_succ] at hget
      simp [ih i hget]

theorem mem_set_other (l : List var_t) (i : Nat) (a b w : var_t) (hget : l[i]? = some a)
    (hb : b.key = a.key) (hw : w.key ≠ a.key) : w ∈ l.set i b ↔ w ∈ l := by
  induction l generalizing i with
  | nil => simp at hget
  | cons x xs ih =>
    cases i with
    | zero =>
      simp only [List.getElem?_cons_zero, Option.some.injEq] at hget
      subst hget
      simp only [List.set_cons_zero, List.mem_cons]
      constructor
      · rintro (h | h)
        · subst h
          exact absurd hb hw
        · exact Or.inr h
      · rintro (h | h)
        · subst h
          exact absurd rfl hw
        · exact Or.inr h
    | succ i =>
      simp only [List.getElem?_cons_succ] at hget
      simp [ih i hget]

/-- A `set_variable` that returns has changed at most the value of the
variable `find_variable` gave it. -/
theorem set_variable_ok_inv (s s' : state_t) (name : List Nat) (val : value_t) (type : Nat)
    (h : set_variable s name val type = .ok s') :
    ∃ i v, (find_variable s name true).2.varlist[i]? = some v ∧
      v.key = normalize_name name ∧
      (s'.varlist = (find_variable s name true).2.varlist ∨
        ∃ x, s'.varlist = (find_variable s name true).2.varlist.set i ⟨v.name, v.type, x⟩) := by
  obtain ⟨i, v, s1, hs, hv, hn, ht, hl, hs1⟩ := find_variable_create s name
  refine ⟨i, v, by rw [hs]; exact hv, by simp [var_t.key, hn, ht], ?_⟩
  rw [hs]
  simp only [set_variable, hs, List.get?_eq_getElem?, hv] at h
  cases hd : switch_double val type with
  | none => simp [hd] at h
  | some dval =>
    simp only [hd] at h
    by_cases h1 : v.type = TYPE_INT
    · rw [if_pos h1] at h
      cases hti : dval.to_int with
      | none => simp [hti] at h
      | some n =>
        simp only [hti, Res.ok.injEq] at h
        exact Or.inr ⟨.intval n, by rw [← h]⟩
    · rw [if_neg h1] at h
      by_cases h2 : v.type = TYPE_SNG
      · rw [if_pos h2] at h
        simp only [Res.ok.injEq] at h
        exact Or.inr ⟨_, by rw [← h]⟩
      · rw [if_neg h2] at h
        by_cases h3 : v.type = TYPE_DBL
        · rw [if_pos h3] at h
          simp only [Res.ok.injEq] at h
          exact Or.inr ⟨_, by rw [← h]⟩
        · rw [if_neg h3] at h
          by_cases h4 : v.type = TYPE_STR
          · rw [if_pos h4] at h
            by_cases h5 : type = TYPE_STR
            · rw [if_pos h5] at h
              cases hst : val.as_string with
              | none => simp [hst] at h
              | some p =>
                cases p with
                | none =>
                  simp only [hst, Res.ok.injEq] at h
                  exact Or.inr ⟨_, by rw [← h]⟩
                | some bytes =>
                  simp only [hst, Res.ok.injEq] at h
                  exact Or.inr ⟨_, by rw [← h]⟩
            · rw [if_neg h5] at h
              simp only [Res.ok.injEq] at h
              exact Or.inr ⟨_, by rw [← h]⟩
          · rw [if_neg h4] at h
            simp only [Res.ok.injEq] at h
            exact Or.inl (by rw [← h])

theorem key_unique (l : List var_t) (hok : (l.map var_t.key).Nodup) (v w : var_t)
    (hv : v ∈ l) (hw : w ∈ l) (h : v.key = w.key) : v = w :=
  List.inj_on_of_nodup_map hok hv hw h

/-- What `get_variable` returns: the value of the variable of the normalised
name and type if the list has one, the initial value of the type if it has
none; and always that type. -/
theorem get_variable_lookup (s : state_t) (name : List Nat) (hok : vars_ok s) :
    (∀ v ∈ s.varlist, v.key = normalize_name name → (get_variable s name).1 = v.value) ∧
    ((∀ v ∈ s.varlist, v.key ≠ normalize_name name) →
      (get_variable s name).1 = initial_value (normalize_name name).2) ∧
    (get_variable s name).2.1 = (normalize_name name).2 := by
  have hkey : ∀ w : var_t, w.name = (normalize_name name).1 → w.type = (normalize_name name).2 →
      w.key = normalize_name name := by
    intro w h1 h2
    simp [var_t.key, h1, h2]
  cases hc : cache_hit s (normalize_name name).1 (normalize_name name).2 with
  | some i =>
    obtain ⟨_, w, hw, hn, ht⟩ := cache_hit_spec _ _ _ _ hc
    have hg : get_variable s name = (w.value, w.type, s) := by
      simp only [get_variable, find_variable, hc, List.get?_eq_getElem?, hw]
    have hwm : w ∈ s.varlist := List.getElem?_mem hw
    refine ⟨?_, ?_, ?_⟩
    · intro v hv hk
      rw [hg, key_unique _ hok v w hv hwm (hk.trans (hkey w hn ht).symm)]
    · intro hnone
      exact absurd (hkey w hn ht) (hnone w hwm)
    · rw [hg]
      exact ht
  | none =>
    cases hf : s.varlist.findIdx? (fun v => v.name == (normalize_name name).1 &&
        v.type == (normalize_name name).2) with
    | some i =>
      obtain ⟨hlt, hp, _⟩ := List.findIdx?_eq_some_iff_getElem.mp hf
      have hw : s.varlist[i]? = some s.varlist[i] := List.getElem?_eq_getElem hlt
      simp only [Bool.and_eq_true, beq_iff_eq] at hp
      have hg : get_variable s name = (s.varlist[i].value, s.varlist[i].type,
          { s with lastvar := some i }) := by
        simp only [get_variable, find_variable, hc, hf, List.get?_eq_getElem?, hw]
      have hwm : s.varlist[i] ∈ s.varlist := List.getElem_mem hlt
      refine ⟨?_, ?_, ?_⟩
      · intro v hv hk
        rw [hg, key_unique _ hok v _ hv hwm (hk.trans (hkey _ hp.1 hp.2).symm)]
      · intro hnone
        exact absurd (hkey _ hp.1 hp.2) (hnone _ hwm)
      · rw [hg]
        exact hp.2
    | none =>
      have hg : get_variable s name = (initial_value (normalize_name name).2,
          (normalize_name name).2,
          { s with varlist := s.varlist ++ [⟨(normalize_name name).1, (normalize_name name).2,
                      initial_value (normalize_name name).2⟩],
                   lastvar := some s.varlist.length }) := by
        simp [get_variable, find_variable, hc, hf]
      refine ⟨?_, ?_, ?_⟩
      · intro v hv hk
        have := List.findIdx?_eq_none_iff.mp hf v hv
        simp only [var_t.key] at hk
        rw [← hk] at this
        simp at this
      · intro _
        rw [hg]
      · rw [hg]

/-- A `set_variable` that returns keeps the variables of every other name or
type, and the list keeps its variables apart. -/
theorem set_variable_frame (s s' : state_t) (name : List Nat) (val : value_t) (type : Nat)
    (hok : vars_ok s) (h : set_variable s name val type = .ok s') :
    vars_ok s' ∧ ∀ w : var_t, w.key ≠ normalize_name name → (w ∈ s'.varlist ↔ w ∈ s.varlist) := by
  obtain ⟨i, v, hv, hk, hs'⟩ := set_variable_ok_inv s s' name val type h
  have hok1 : ((find_variable s name true).2.varlist.map var_t.key).Nodup ∧
      ∀ w : var_t, w.key ≠ normalize_name name →
        (w ∈ (find_variable s name true).2.varlist ↔ w ∈ s.varlist) := by
    rcases find_variable_varlist s name with h1 | ⟨h1, h2⟩
    · rw [h1]
      exact ⟨hok, fun _ _ => Iff.rfl⟩
    · rw [h1]
      constructor
      · rw [List.map_append, List.nodup_append]
        refine ⟨hok, by simp, ?_⟩
        intro k hk1 hk2
        simp only [List.map_cons, List.map_nil, List.mem_singleton] at hk2
        obtain ⟨u, hu, huk⟩ := List.mem_map.mp hk1
        apply h2 u hu
        rw [huk, hk2]
        rfl
      · intro w hw
        simp only [List.mem_append, List.mem_singleton]
        constructor
        · rintro (hm | hm)
          · exact hm
          · subst hm
            exact absurd rfl hw
        · exact Or.inl
  rcases hs' with hs' | ⟨x, hs'⟩
  · unfold vars_ok
    rw [hs']
    exact hok1
  · unfold vars_ok
    rw [hs']
    constructor
    · rw [map_key_set _ i v ⟨v.name, v.type, x⟩ hv rfl]
      exact hok1.1
    · intro w hw
      rw [mem_set_other _ i v ⟨v.name, v.type, x⟩ w hv rfl (by rw [hk]; exact hw)]
      exact hok1.2 w hw

theorem get_variable_frame (s s' : state_t) (n1 n2 : List Nat) (val : value_t) (type : Nat)
    (hok : vars_ok s) (hne : normalize_name n2 ≠ normalize_name n1)
    (h : set_variable s n1 val type = .ok s') :
    (get_variable s' n2).1 = (get_variable s n2).1 ∧
    (get_variable s' n2).2.1 = (get_variable s n2).2.1 := by
  obtain ⟨hok', hmem⟩ := set_variable_frame s s' n1 val type hok h
  obtain ⟨a1, a2, a3⟩ := get_variable_lookup s n2 hok
  obtain ⟨b1, b2, b3⟩ := get_variable_lookup s' n2 hok'
  refine ⟨?_, by rw [a3, b3]⟩
  by_cases hex : ∃ v ∈ s.varlist, v.key = normalize_name n2
  · obtain ⟨v, hv, hk⟩ := hex
    have hv' : v ∈ s'.varlist := (hmem v (by rw [hk]; exact hne)).mpr hv
    rw [a1 v hv hk, b1 v hv' hk]
  · have hnone : ∀ v ∈ s.varlist, v.key ≠ normalize_name n2 := fun v hv hk => hex ⟨v, hv, hk⟩
    have hnone' : ∀ v ∈ s'.varlist, v.key ≠ normalize_name n2 := by
      intro v hv hk
      exact hnone v ((hmem v (by rw [hk]; exact hne)).mp hv) hk
    rw [a2 hnone, b2 hnone']

set_option maxRecDepth 1000000 in
/-- C20 (as stated, fails): with a base name of 40 letters, the longest a name
can be, the suffix is never read: the names with `%` and with `$` are both
normalised to the bare name with the default type. `set_variable` on the one
changes what `get_variable` returns for the other, and the program
`10 X...X% = 5` / `20 PRINT X...X$` prints 5. -/
theorem long_name_suffix_counterexample :
    long_name.length = 40 ∧
    normalize_name (long_name ++ cstr "%") = (long_name, TYPE_SNG) ∧
    normalize_name (long_name ++ cstr "$") = (long_name, TYPE_SNG) ∧
    (get_variable init_state (long_name ++ cstr "$")).1 = .sngval ⟨0, 0⟩ ∧
    (∃ s', set_variable init_state (long_name ++ cstr "%") (.intval 5) TYPE_INT = .ok s' ∧
      (get_variable s' (long_name ++ cstr "$")).1 = .sngval ⟨5, 0⟩) ∧
    (run_program 10 10 0 long_name_program).output = some (cstr "5\n") := by
  refine ⟨by decide, by decide, by decide, by decide, ⟨_, rfl, rfl⟩, by decide!⟩

/-- C20 (amended): for a base name of fewer than 40 characters, `set_variable`
on the name with one type suffix leaves the value and the type that
`get_variable` returns for the name with a suffix of another type as they
were, and the type is the one of the suffix; and two names that differ only in
the case of their letters denote the same variable for `find_variable`,
`get_variable` and `set_variable`, in every state. -/
theorem variables_identified_by_name_and_type (s s' : state_t) (base : List Nat) (c1 c2 : Nat)
    (val : value_t) (type : Nat) (hok : vars_ok s)
    (hbase : ∀ c ∈ base, is_plain_name_char c = true) (hlen : base.length < NAMLEN)
    (hc1 : is_type_suffix c1 = true) (hc2 : is_type_suffix c2 = true)
    (hty : suffix_type c1 ≠ suffix_type c2)
    (hset : set_variable s (base ++ [c1]) val type = .ok s') :
    ((get_variable s' (base ++ [c2])).1 = (get_variable s (base ++ [c2])).1 ∧
      (get_variable s' (base ++ [c2])).2.1 = suffix_type c2 ∧
      (get_variable s (base ++ [c2])).2.1 = suffix_type c2) ∧
    ∀ (n1 n2 : List Nat) (st : state_t), n1.map upcase = n2.map upcase →
      (∀ b, find_variable st n1 b = find_variable st n2 b) ∧
      get_variable st n1 = get_variable st n2 ∧
      ∀ v t, set_variable st n1 v t = set_variable st n2 v t := by
  have h1 := normalize_name_suffix base c1 hbase hlen hc1
  have h2 := normalize_name_suffix base c2 hbase hlen hc2
  have hne : normalize_name (base ++ [c2]) ≠ normalize_name (base ++ [c1]) := by
    rw [h1, h2]
    intro h
    simp only [Prod.mk.injEq, true_and] at h
    exact hty h.symm
  obtain ⟨g1, g2⟩ := get_variable_frame s s' (base ++ [c1]) (base ++ [c2]) val type hok hne hset
  have g3 := (get_variable_lookup s (base ++ [c2]) hok).2.2
  rw [h2] at g3
  refine ⟨⟨g1, by rw [g2, g3], g3⟩, ?_⟩
  intro n1 n2 st h
  exact same_key_same_variable n1 n2 (normalize_name_case n1 n2 h) st

theorem variables_identified_by_name_and_type_witness :
    ((get_variable x_int_state (cstr "X" ++ [36])).1 =
        (get_variable init_state (cstr "X" ++ [36])).1 ∧
      (get_variable x_int_state (cstr "X" ++ [36])).2.1 = suffix_type 36 ∧
      (get_variable init_state (cstr "X" ++ [36])).2.1 = suffix_type 36) ∧
    ∀ (n1 n2 : List Nat) (st : state_t), n1.map upcase = n2.map upcase →
      (∀ b, find_variable st n1 b = find_variable st n2 b) ∧
      get_variable st n1 = get_variable st n2 ∧
      ∀ v t, set_variable st n1 v t = set_variable st n2 v t :=
  variables_identified_by_name_and_type init_state x_int_state (cstr "X") 37 36 (.intval 5)
    TYPE_INT (by simp [vars_ok, init_state]) (by decide) (by decide) (by decide) (by decide)
    (by decide) rfl

/-- The variables `X%`, `X$`, `X#` and `X` are four variables, and `x%` is
`X%`. -/
theorem variable_suffix_example :
    (run_program 10 10 0 (load_program init_state
      [(10, "X% = 5"), (20, "PRINT X$; X; X#; X%; x%")])).output = some (cstr "0055\n") := by
  decide!

/-! ## Sums and differences of integer literals -/

theorem parse_number_loop_end (rest numbuf : List Nat) (h : ends_number rest = true) :
    parse_number_loop rest numbuf false false TYPE_INT = (numbuf, TYPE_INT, rest) := by
  cases rest with
  | nil => rfl
  | cons c r =>
    simp only [ends_number, List.headD_cons, Bool.and_eq_true, Bool.not_eq_true', bne_iff_ne,
      ne_eq, Bool.and_eq_false_iff, decide_eq_false_iff_not] at h
    obtain ⟨⟨⟨⟨⟨⟨⟨⟨h0, h1⟩, h2⟩, h3⟩, h4⟩, h5⟩, _⟩, _⟩, _⟩ := h
    have hd : ¬ (48 ≤ c ∧ c ≤ 57) := by
      intro hc
      rcases h0 with h0 | h0 <;> omega
    rw [parse_number_loop.eq_def]
    simp [hd, h1, h2, h3, h4, h5]

theorem parse_number_loop_digits_end (ds rest numbuf : List Nat)
    (hds : ∀ c ∈ ds, 48 ≤ c ∧ c ≤ 57) (hlen : numbuf.length + ds.length < 79)
    (h : ends_number rest = true) :
    parse_number_loop (ds ++ rest) numbuf false false TYPE_INT = (numbuf ++ ds, TYPE_INT, rest) := by
  induction ds generalizing numbuf with
  | nil => simpa using parse_number_loop_end rest numbuf h
  | cons c ds ih =>
    have hc := hds c (List.mem_cons_self _ _)
    have hl : ¬ numbuf.length + 1 ≥ 79 := by simp at hlen; omega
    rw [List.cons_append, parse_number_loop.eq_def]
    simp only [hc, and_self, if_true, hl, if_false]
    rw [ih (numbuf ++ [c]) (fun x hx => hds x (List.mem_cons_of_mem _ hx))
      (by simp at hlen ⊢; omega)]
    simp

theorem parse_number_literal_end (s : state_t) (n : Nat) (rest : List Nat) (hn : n ≤ 2147483647)
    (h : ends_number rest = true) :
    parse_number (set_txt s (dec_digits n ++ rest)) =
      .ok (.intval n, TYPE_INT, set_txt s rest) := by
  have hl : ([] : List Nat).length + (dec_digits n).length < 79 := by
    have := dec_digits_length n (by omega)
    simp
    omega
  have hloop := parse_number_loop_digits_end (dec_digits n) rest [] (dec_digits_digits n) hl h
  simp only [List.nil_append] at hloop
  unfold parse_number
  simp only [set_txt_txtptr, Option.getD_some, hloop]
  cases rest with
  | nil => simp [atoi_dec_digits n hn, set_txt]
  | cons c r =>
    simp only [ends_number, List.headD_cons, Bool.and_eq_true, bne_iff_ne, ne_eq] at h
    obtain ⟨⟨⟨_, h37⟩, h33⟩, h35⟩ := h
    simp [atoi_dec_digits n hn, set_txt, h37, h33, h35]

theorem expr_primary_literal_end (ev : evaluator) (s : state_t) (n : Nat) (rest : List Nat)
    (hn : n ≤ 2147483647) (h : ends_number rest = true) :
    expr_primary ev (set_txt s (dec_digits n ++ rest)) =
      .ok (.intval n, TYPE_INT, set_txt s rest) := by
  obtain ⟨c, r, hd, hc⟩ := dec_digits_cons n
  have hsk : skip_spaces (set_txt s (dec_digits n ++ rest)) = set_txt s (dec_digits n ++ rest) := by
    rw [hd]
    exact skip_spaces_set_txt_cons _ _ _ (by omega) (by omega)
  have hpk : peek_char (set_txt s (dec_digits n ++ rest)) = c := by
    rw [hd]
    rfl
  simp only [expr_primary, hsk, hpk, hc, and_self, true_or, if_true]
  exact parse_number_literal_end s n rest hn h

theorem expr_unary_literal_end (ev : evaluator) (fuel : Nat) (s : state_t) (n : Nat)
    (rest : List Nat) (hn : n ≤ 2147483647) (h : ends_number rest = true) :
    expr_unary ev (fuel + 1) (set_txt s (dec_digits n ++ rest)) =
      .ok (.intval n, TYPE_INT, set_txt s rest) := by
  obtain ⟨c, r, hd, hc⟩ := dec_digits_cons n
  have hsk : skip_spaces (set_txt s (c :: (r ++ rest))) = set_txt s (c :: (r ++ rest)) :=
    skip_spaces_set_txt_cons _ _ _ (by omega) (by omega)
  have hp := expr_primary_literal_end ev s n rest hn h
  rw [hd] at hp ⊢
  have h43 : ¬ c = 43 := by omega
  have h45 : ¬ c = 45 := by omega
  simp only [List.cons_append] at hp ⊢
  simp [expr_unary, hsk, match_token_digit s TOK_PLUS c _ hc (by decide) (by decide),
    match_token_digit s TOK_MINUS c _ hc (by decide) (by decide),
    match_token_digit s TOK_NOT c _ hc (by decide) (by decide), h43, h45, hp]

theorem additive_tokens_cases (minus token : Bool) :
    additive_tokens minus token =
      (if token then [0xFF, if minus then 0x8A else 0x89] else [if minus then 45 else 43]) := by
  cases minus <;> cases token <;> decide

theorem ends_number_additive (minus token : Bool) (r : List Nat) :
    ends_number (additive_tokens minus token ++ r) = true := by
  rw [additive_tokens_cases]
  cases minus <;> cases token <;> rfl

theorem ends_number_of_ends_expression (rest : List Nat) (h : ends_expression rest = true) :
    ends_number rest = true := by
  rcases ends_expression_cases rest h with h | ⟨r, h⟩ | ⟨r, h⟩ | ⟨r, h⟩ | ⟨r, h⟩ | ⟨r, h⟩ |
    ⟨r, h⟩ | ⟨r, h⟩ | ⟨r, h⟩ | ⟨r, h⟩ <;> subst h <;> rfl

theorem match_token_other (s : state_t) (tk lo : Nat) (r : List Nat)
    (h1 : tk &&& 0xFF00 ≠ 0) (h2 : (tk >>> 8) &&& 0xFF = 0xFF) (h3 : tk &&& 0xFF ≠ lo) :
    match_token tk (set_txt s (0xFF :: lo :: r)) = (false, set_txt s (0xFF :: lo :: r)) := by
  have hs := skip_spaces_set_txt_cons s 0xFF (lo :: r) (by decide) (by decide)
  have h3' : ¬ lo = tk &&& 0xFF := fun e => h3 e.symm
  simp [match_token, h1, h2, hs, advance_set_txt_cons, h3']

/-- The tests of the multiplicative levels fail in front of a `+` or `-`. -/
theorem match_token_additive (s : state_t) (minus token : Bool) (r : List Nat) (tk : Nat)
    (htk : tk = TOK_POWER ∨ tk = TOK_MULT ∨ tk = TOK_DIV ∨ tk = TOK_IDIV ∨ tk = TOK_MOD) :
    match_token tk (set_txt s (additive_tokens minus token ++ r)) =
      (false, set_txt s (additive_tokens minus token ++ r)) := by
  rw [additive_tokens_cases]
  cases token
  · cases minus <;> rcases htk with rfl | rfl | rfl | rfl | rfl <;>
      exact match_token_miss s _ _ r (by decide) (by decide) (by decide) (by decide) (by decide)
  · cases minus <;> rcases htk with rfl | rfl | rfl | rfl | rfl <;>
      exact match_token_other s _ _ r (by decide) (by decide) (by decide)

theorem peek_char_additive (s : state_t) (minus token : Bool) (r : List Nat) :
    peek_char (set_txt s (additive_tokens minus token ++ r)) ≠ 94 ∧
    peek_char (set_txt s (additive_tokens minus token ++ r)) ≠ 42 ∧
    peek_char (set_txt s (additive_tokens minus token ++ r)) ≠ 47 ∧
    peek_char (set_txt s (additive_tokens minus token ++ r)) ≠ 92 ∧
    skip_spaces (set_txt s (additive_tokens minus token ++ r)) =
      set_txt s (additive_tokens minus token ++ r) := by
  rw [additive_tokens_cases]
  cases minus <;> cases token <;> simp [skip_spaces_set_txt]

/-- An integer literal in front of a `+` or `-`, as the operand that
`expr_mult` returns to `expr_add`. -/
theorem expr_mult_literal_additive (ev : evaluator) (f g : Nat) (s : state_t) (n : Nat)
    (minus token : Bool) (r : List Nat) (hn : n ≤ 2147483647) :
    expr_mult (expr_power (expr_unary ev (f + 1))) (g + 1)
        (set_txt s (dec_digits n ++ (additive_tokens minus token ++ r))) =
      .ok (.intval n, TYPE_INT, set_txt s (additive_tokens minus token ++ r)) := by
  have hu := expr_unary_literal_end ev f s n _ hn (ends_number_additive minus token r)
  obtain ⟨p1, p2, p3, p4, hsk⟩ := peek_char_additive s minus token r
  have m1 := match_token_additive s minus token r TOK_POWER (by simp)
  have m2 := match_token_additive s minus token r TOK_MULT (by simp)
  have m3 := match_token_additive s minus token r TOK_DIV (by simp)
  have m4 := match_token_additive s minus token r TOK_IDIV (by simp)
  have m5 := match_token_additive s minus token r TOK_MOD (by simp)
  have hp : expr_power (expr_unary ev (f + 1))
      (set_txt s (dec_digits n ++ (additive_tokens minus token ++ r))) =
      .ok (.intval n, TYPE_INT, set_txt s (additive_tokens minus token ++ r)) := by
    simp [expr_power, hu, expr_power_loop, m1, p1]
  simp [expr_mult, hp, expr_mult_loop, hsk, m2, m3, m4, m5, p2, p3, p4]

/-- An integer literal at the end of an expression, as the operand that
`expr_mult` returns to `expr_add`. -/
theorem expr_mult_literal (ev : evaluator) (f g : Nat) (s : state_t) (n : Nat)
    (rest : List Nat) (hn : n ≤ 2147483647) (h : ends_expression rest = true) :
    expr_mult (expr_power (expr_unary ev (f + 1))) (g + 1) (set_txt s (dec_digits n ++ rest)) =
      .ok (.intval n, TYPE_INT, set_txt s rest) := by
  have hu := expr_unary_literal ev f s n rest hn h
  have hp : expr_power (expr_unary ev (f + 1)) (set_txt s (dec_digits n ++ rest)) =
      .ok (.intval n, TYPE_INT, set_txt s rest) := by
    simp [expr_power, hu, expr_power_loop_stop _ _ _ _ _ h]
  simp [expr_mult, hp, expr_mult_loop_stop _ _ _ _ _ _ h]

theorem skip_raw_digits (s : state_t) (c n : Nat) (rest : List Nat) (hc : c = 43 ∨ c = 45) :
    skip_raw c (set_txt s (dec_digits n ++ rest)) = set_txt s (dec_digits n ++ rest) := by
  obtain ⟨d, r, hd, hdig⟩ := dec_digits_cons n
  rw [hd]
  have : ¬ d = c := by omega
  simp [skip_raw, this]

theorem add_step_integers (minus : Bool) (a b : Int) (s : state_t)
    (h : -2147483648 ≤ (if minus then a - b else a + b) ∧
      (if minus then a - b else a + b) ≤ 2147483647) :
    add_step (if minus then 45 else 43) (.intval a) TYPE_INT (.intval b) TYPE_INT s =
      .ok (.intval (if minus then a - b else a + b), TYPE_INT, s) := by
  cases minus
  · simp only [Bool.false_eq_true, if_false] at h ⊢
    simp [add_step, value_t.as_int, wrap32_small _ h]
  · simp only [if_true] at h ⊢
    simp [add_step, value_t.as_int, wrap32_small _ h]

/-- The loop of `expr_add` in front of `+ b` or `- b` for an integer literal
`b` that ends the expression: one operation, then the loop ends. -/
theorem expr_add_loop_literal (ev : evaluator) (f g k : Nat) (s : state_t) (a : Int) (b : Nat)
    (minus token : Bool) (rest : List Nat) (hb : b ≤ 2147483647)
    (hfit : -2147483648 ≤ (if minus then a - b else a + b) ∧
      (if minus then a - b else a + b) ≤ 2147483647)
    (h : ends_expression rest = true) :
    expr_add_loop (expr_mult (expr_power (expr_unary ev (f + 1))) (g + 1)) (k + 2)
        (.intval a) TYPE_INT (set_txt s (additive_tokens minus token ++ (dec_digits b ++ rest))) =
      .ok (.intval (if minus then a - b else a + b), TYPE_INT, set_txt s rest) := by
  have hm := expr_mult_literal ev f g s b rest hb h
  have hstep := add_step_integers minus a b (set_txt s rest) hfit
  have hstop := expr_add_loop_stop (expr_mult (expr_power (expr_unary ev (f + 1))) (g + 1)) k
    (.intval (if minus then a - b else a + b)) TYPE_INT s rest h
  have hr43 := skip_raw_digits s 43 b rest (Or.inl rfl)
  have hr45 := skip_raw_digits s 45 b rest (Or.inr rfl)
  rw [expr_add_loop, additive_tokens_cases]
  cases token
  · cases minus
    · have m1 : match_token TOK_PLUS (set_txt s (43 :: (dec_digits b ++ rest))) =
          (false, set_txt s (43 :: (dec_digits b ++ rest))) :=
        match_token_miss s _ _ _ (by decide) (by decide) (by decide) (by decide) (by decide)
      have hsk : skip_raw 43 (set_txt s (43 :: (dec_digits b ++ rest))) =
          set_txt s (dec_digits b ++ rest) := by
        simp [skip_raw, advance_set_txt_cons]
      simp only [Bool.false_eq_true, if_false, List.singleton_append, skip_spaces_set_txt_cons s 43 _
        (by decide) (by decide), m1, peek_char_set_txt_cons, beq_self_eq_true, Bool.or_true,
        if_true, hsk, hm, Res.ok_bind] at hstep ⊢
      rw [hstep]
      exact hstop
    · have m1 : match_token TOK_PLUS (set_txt s (45 :: (dec_digits b ++ rest))) =
          (false, set_txt s (45 :: (dec_digits b ++ rest))) :=
        match_token_miss s _ _ _ (by decide) (by decide) (by decide) (by decide) (by decide)
      have m2 : match_token TOK_MINUS (set_txt s (45 :: (dec_digits b ++ rest))) =
          (false, set_txt s (45 :: (dec_digits b ++ rest))) :=
        match_token_miss s _ _ _ (by decide) (by decide) (by decide) (by decide) (by decide)
      have hsk : skip_raw 45 (set_txt s (45 :: (dec_digits b ++ rest))) =
          set_txt s (dec_digits b ++ rest) := by
        simp [skip_raw, advance_set_txt_cons]
      have hne : (45 == 43) = false := by decide
      simp only [Bool.false_eq_true, if_false, if_true, List.singleton_append,
        skip_spaces_set_txt_cons s 45 _ (by decide) (by decide), m1, m2, peek_char_set_txt_cons,
        hne, Bool.or_false, beq_self_eq_true, Bool.or_true, hsk, hm, Res.ok_bind] at hstep ⊢
      rw [hstep]
      exact hstop
  · cases minus
    · have m1 : match_token TOK_PLUS (set_txt s (0xFF :: 0x89 :: (dec_digits b ++ rest))) =
          (true, set_txt s (dec_digits b ++ rest)) :=
        match_token_hit s _ _ _ (by decide) (by decide) (by decide) (by decide)
      simp only [Bool.false_eq_true, if_false, if_true, List.cons_append, List.nil_append,
        skip_spaces_set_txt_cons s 0xFF _ (by decide) (by decide), m1, Bool.true_or, hr43, hm,
        Res.ok_bind] at hstep ⊢
      rw [hstep]
      exact hstop
    · have m1 : match_token TOK_PLUS (set_txt s (0xFF :: 0x8A :: (dec_digits b ++ rest))) =
          (false, set_txt s (0xFF :: 0x8A :: (dec_digits b ++ rest))) :=
        match_token_other s _ _ _ (by decide) (by decide) (by decide)
      have m2 : match_token TOK_MINUS (set_txt s (0xFF :: 0x8A :: (dec_digits b ++ rest))) =
          (true, set_txt s (dec_digits b ++ rest)) :=
        match_token_hit s _ _ _ (by decide) (by decide) (by decide) (by decide)
      have hne : (255 == 43) = false := by decide
      simp only [Bool.false_eq_true, if_false, if_true, List.cons_append, List.nil_append,
        skip_spaces_set_txt_cons s 0xFF _ (by decide) (by decide), m1, m2, peek_char_set_txt_cons,
        hne, Bool.or_false, Bool.true_or, hr45, hm, Res.ok_bind] at hstep ⊢
      rw [hstep]
      exact hstop

/-- The token text of `a + b` or `a - b`, for integer literals, evaluates to
the Integer sum or difference. -/
theorem eval_expr_add_tokens (fuel : Nat) (s : state_t) (a b : Nat) (minus token : Bool)
    (rest : List Nat) (ha : a ≤ 2147483647) (hb : b ≤ 2147483647)
    (hfit : minus = false → a + b ≤ 2147483647) (h : ends_expression rest = true) :
    eval_expr (fuel + 3)
        (set_txt s (dec_digits a ++ (additive_tokens minus token ++ (dec_digits b ++ rest)))) =
      .ok (.intval (if minus then (a : Int) - b else a + b), TYPE_INT, set_txt s rest) := by
  have hfit' : -2147483648 ≤ (if minus then (a : Int) - b else a + b) ∧
      (if minus then (a : Int) - b else a + b) ≤ 2147483647 := by
    cases minus
    · have := hfit rfl
      simp only [Bool.false_eq_true, if_false]
      omega
    · simp only [if_true]
      omega
  have hm := expr_mult_literal_additive (eval_expr (fuel + 2)) (fuel + 1) (fuel + 1) s a minus token
    (dec_digits b ++ rest) ha
  have hl := expr_add_loop_literal (eval_expr (fuel + 2)) (fuel + 1) (fuel + 1) fuel s a b minus
    token rest hb hfit' h
  have h3 : expr_add (expr_mult (expr_power (expr_unary (eval_expr (fuel + 2)) (fuel + 2)))
      (fuel + 2)) (fuel + 2)
        (set_txt s (dec_digits a ++ (additive_tokens minus token ++ (dec_digits b ++ rest)))) =
      .ok (.intval (if minus then (a : Int) - b else a + b), TYPE_INT, set_txt s rest) := by
    simp only [expr_add, hm, Res.ok_bind]
    exact hl
  have h4 := expr_compare_stop _ _ _ _ s rest h h3
  show expr_or (expr_and (expr_not (expr_compare (expr_add (expr_mult (expr_power
      (expr_unary (eval_expr (fuel + 2)) (fuel + 2))) (fuel + 2)) (fuel + 2)))) (fuel + 2))
      (fuel + 2) _ = _
  simp [expr_or, expr_and, expr_not, h4, expr_and_loop_stop _ _ _ _ _ _ h,
    expr_or_loop_stop _ _ _ _ _ _ h]

/-! ### The tokenizer on `a + b` -/

theorem is_number_char_digit (c : Nat) (h : 48 ≤ c ∧ c ≤ 57) : is_number_char c = true := by
  simp [is_number_char, h]

/-- A number at the head of the input (a digit, then characters that belong
to a number), followed by nothing or by a character that cannot continue a
number, is copied to the token buffer. -/
theorem tokenize_loop_number (fuel : Nat) (c : Nat) (ds rest out : List Nat)
    (hc : 48 ≤ c ∧ c ≤ 57) (hds : ∀ y ∈ ds, is_number_char y = true)
    (hrest : rest = [] ∨ ∃ x r, rest = x :: r ∧ is_number_char x = false ∧
      x ≠ 37 ∧ x ≠ 33 ∧ x ≠ 35 ∧ x ≠ 36) :
    tokenize_loop (fuel + 1) (c :: ds ++ rest) false false false out =
      tokenize_loop fuel rest false false false (out ++ c :: ds) := by
  have hall : ∀ y ∈ c :: ds, is_number_char y = true := by
    intro y hy
    rcases List.mem_cons.mp hy with rfl | hy
    · exact is_number_char_digit y hc
    · exact hds y hy
  have htw : (c :: ds ++ rest).takeWhile is_number_char = c :: ds := by
    rcases hrest with rfl | ⟨x, r, rfl, hx, _⟩
    · rw [List.append_nil, List.takeWhile_eq_self_iff]
      exact hall
    · rw [List.takeWhile_append_of_pos hall]
      simp [List.takeWhile, hx]
  have hdrop : (c :: ds ++ rest).drop (c :: ds).length = rest := List.drop_left _ _
  have h0 : ¬ c = 0 := by omega
  have h32 : ¬ c = 32 := by omega
  have h9 : ¬ c = 9 := by omega
  have h34 : ¬ c = 34 := by omega
  have h39 : ¬ c = 39 := by omega
  have ha1 : ¬ (65 ≤ c ∧ c ≤ 90) := by omega
  have ha2 : ¬ (97 ≤ c ∧ c ≤ 122) := by omega
  rw [List.cons_append, tokenize_loop]
  simp only [h0, if_false, Bool.not_false, Bool.and_self, Bool.true_and, beq_iff_eq, h32, h9,
    Bool.or_self, Bool.false_eq_true, h34, h39, Bool.or_false, Bool.and_eq_true, decide_eq_true_eq,
    ha1, ha2, or_self, hc, and_self, Bool.true_or, Bool.or_eq_true, true_or, if_true]
  rw [← List.cons_append, htw, hdrop]
  rcases hrest with rfl | ⟨x, r, rfl, hx, h37, h33, h35, h36⟩
  · rfl
  · simp [h37, h33, h35, h36]

theorem tokenize_loop_nil (fuel : Nat) (out : List Nat) :
    tokenize_loop fuel [] false false false out = out := by
  cases fuel <;> rfl

theorem tokenize_loop_space (fuel : Nat) (rest out : List Nat) :
    tokenize_loop (fuel + 1) (32 :: rest) false false false out =
      tokenize_loop fuel rest false false false out := by
  rw [tokenize_loop]
  simp

theorem tokenize_loop_additive (fuel : Nat) (minus : Bool) (rest out : List Nat) :
    tokenize_loop (fuel + 1) ((if minus then 45 else 43) :: rest) false false false out =
      tokenize_loop fuel rest false false false (out ++ additive_tokens minus true) := by
  rw [tokenize_loop]
  cases minus <;> simp [additive_tokens]

theorem tokenize_loop_numeral (n b : Nat) (out : List Nat) :
    tokenize_loop (n + 1) (dec_digits b) false false false out = out ++ dec_digits b := by
  obtain ⟨cb, rb, hdb, hcb⟩ := dec_digits_cons b
  have hrb : ∀ y ∈ rb, is_number_char y = true := by
    intro y hy
    exact is_number_char_digit y (dec_digits_digits b y (by rw [hdb]; exact List.mem_cons_of_mem _ hy))
  have h := tokenize_loop_number n cb rb [] out hcb hrb (Or.inl rfl)
  rw [List.append_nil] at h
  rw [hdb, h, tokenize_loop_nil]

theorem tokenize_loop_space_numeral (n b : Nat) (out : List Nat) :
    tokenize_loop (n + 2) (32 :: dec_digits b) false false false out = out ++ dec_digits b := by
  rw [tokenize_loop_space, tokenize_loop_numeral]

/-- The tokenizer on `a + b` and `a - b`: after a space the operator becomes
its token; directly after the digits of `a` it is copied as a part of the
number. Spaces are dropped. -/
theorem tokenize_add_source (a b : Nat) (minus before after : Bool) :
    tokenize_line (add_source a b minus before after) =
      dec_digits a ++ (additive_tokens minus before ++ (dec_digits b ++ [0])) := by
  obtain ⟨ca, ra, hda, hca⟩ := dec_digits_cons a
  obtain ⟨cb, rb, hdb, hcb⟩ := dec_digits_cons b
  have hra : ∀ y ∈ ra, is_number_char y = true := by
    intro y hy
    exact is_number_char_digit y (dec_digits_digits a y (by rw [hda]; exact List.mem_cons_of_mem _ hy))
  have hrb : ∀ y ∈ rb, is_number_char y = true := by
    intro y hy
    exact is_number_char_digit y (dec_digits_digits b y (by rw [hdb]; exact List.mem_cons_of_mem _ hy))
  have hop : is_number_char (if minus then 45 else 43) = true := by
    cases minus <;> rfl
  have hraw : additive_tokens minus false = [if minus then 45 else 43] := by
    cases minus <;> rfl
  have hla : (dec_digits a).length = ra.length + 1 := by rw [hda]; rfl
  have hlb : (dec_digits b).length = rb.length + 1 := by rw [hdb]; rfl
  unfold tokenize_line add_source
  cases before
  · have hrao : ∀ y ∈ ra ++ [if minus then 45 else 43], is_number_char y = true := by
      intro y hy
      rcases List.mem_append.mp hy with h3 | h4
      · exact hra y h3
      · rw [List.mem_singleton.mp h4]
        exact hop
    cases after
    · have hall : ∀ y ∈ ra ++ [if minus then 45 else 43] ++ dec_digits b,
          is_number_char y = true := by
        intro y hy
        rcases List.mem_append.mp hy with h1 | h2
        · exact hrao y h1
        · exact is_number_char_digit y (dec_digits_digits b y h2)
      have hstep := tokenize_loop_number
        ((dec_digits a ++ [] ++ [if minus then 45 else 43] ++ [] ++ dec_digits b).length)
        ca (ra ++ [if minus then 45 else 43] ++ dec_digits b) [] [] hca hall (Or.inl rfl)
      simp only [Bool.false_eq_true, if_false, hda, hraw]
      simp only [List.append_nil, List.nil_append, List.cons_append, List.append_assoc, hda]
        at hstep ⊢
      rw [hstep, tokenize_loop_nil]
      simp
    · have hlen : (dec_digits a ++ [] ++ [if minus then 45 else 43] ++ [32] ++
          dec_digits b).length + 1 = ra.length + rb.length + 2 + 1 + 1 + 1 := by
        simp [hla, hlb]
        omega
      have hstep := tokenize_loop_number (ra.length + rb.length + 2 + 1 + 1)
        ca (ra ++ [if minus then 45 else 43]) (32 :: dec_digits b) [] hca hrao
        (Or.inr ⟨32, _, rfl, by decide, by decide, by decide, by decide, by decide⟩)
      simp only [Bool.false_eq_true, if_false, if_true, hlen, hraw]
      rw [hda]
      simp only [List.append_nil, List.nil_append, List.cons_append, List.append_assoc]
        at hstep ⊢
      rw [hstep, tokenize_loop_space_numeral]
      simp
  · have hnum : ∀ (n : Nat) (rest : List Nat),
        tokenize_loop (n + 1) (ca :: ra ++ 32 :: rest) false false false [] =
          tokenize_loop n (32 :: rest) false false false (ca :: ra) := by
      intro n rest
      have h := tokenize_loop_number n ca ra (32 :: rest) [] hca hra
        (Or.inr ⟨32, _, rfl, by decide, by decide, by decide, by decide, by decide⟩)
      simpa using h
    cases after
    · have hlen : (dec_digits a ++ [32] ++ [if minus then 45 else 43] ++ [] ++
          dec_digits b).length + 1 = ra.length + rb.length + 1 + 1 + 1 + 1 + 1 := by
        simp [hla, hlb]
        omega
      simp only [Bool.false_eq_true, if_false, if_true, hlen]
      rw [hda]
      simp only [List.append_nil, List.nil_append, List.cons_append, List.append_assoc]
      rw [← List.cons_append, hnum, tokenize_loop_space, tokenize_loop_additive,
        tokenize_loop_numeral]
      simp
    · have hlen : (dec_digits a ++ [32] ++ [if minus then 45 else 43] ++ [32] ++
          dec_digits b).length + 1 = ra.length + rb.length + 1 + 2 + 1 + 1 + 1 := by
        simp [hla, hlb]
        omega
      simp only [if_true, hlen]
      rw [hda]
      simp only [List.append_nil, List.nil_append, List.cons_append, List.append_assoc]
      rw [← List.cons_append, hnum, tokenize_loop_space, tokenize_loop_additive,
        tokenize_loop_space_numeral]
      simp

/-- C11: for non-negative integer literals `a` and `b`, each within the range
of `int`, whose result fits an `int`, `eval_expr` on the tokenized text of
`a + b` or `a - b`, written with or without spaces around the operator,
returns type Integer and the value `a + b` or `a - b`, and has read the whole
text. The spaces are those of `add_source`: one before the operator or none,
one after it or none. -/
theorem add_sub_int_literals (fuel : Nat) (s : state_t) (a b : Nat)
    (minus before after : Bool) (ha : a ≤ 2147483647) (hb : b ≤ 2147483647)
    (hfit : minus = false → a + b ≤ 2147483647) :
    eval_expr (fuel + 3) (set_txt s (tokenize_line (add_source a b minus before after))) =
      .ok (.intval (if minus then (a : Int) - b else a + b), TYPE_INT, set_txt s [0]) := by
  rw [tokenize_add_source]
  exact eval_expr_add_tokens fuel s a b minus before [0] ha hb hfit rfl

theorem add_sub_int_literals_witness :
    eval_expr (0 + 3) (set_txt init_state (tokenize_line (add_source 3 2 false true true))) =
      .ok (.intval (if false then ((3 : Nat) : Int) - (2 : Nat) else (3 : Nat) + (2 : Nat)),
        TYPE_INT, set_txt init_state [0]) :=
  add_sub_int_literals 0 init_state 3 2 false true true (by decide) (by decide)
    (fun _ => by decide)

/-- The texts `3 + 2` and `3+2` are the two source forms of the sum of the
literals 3 and 2, and both evaluate to Integer 5; `3 - 2` and `2-3` to
Integer 1 and -1. -/
theorem add_sub_examples :
    add_source 3 2 false true true = cstr "3 + 2" ∧
    add_source 3 2 false false false = cstr "3+2" ∧
    (eval_source "3 + 2").value = some (.intval 5, TYPE_INT) ∧
    (eval_source "3+2").value = some (.intval 5, TYPE_INT) ∧
    (eval_source "3 - 2").value = some (.intval 1, TYPE_INT) ∧
    (eval_source "2-3").value = some (.intval (-1), TYPE_INT) := by
  decide

/-! ## Function names in the tokenizer -/

/-- The function names without `$` become their two-byte tokens, in upper
case, in lower case and with only the first letter in upper case. -/
theorem plain_functions_tokenized :
    plain_functions.all (fun k =>
      k.1 ∈ keywords.map (·.1) &&
      tokenize_line k.1 == emit_token k.2 ++ [0] &&
      tokenize_line (k.1.map downcase) == emit_token k.2 ++ [0] &&
      tokenize_line (k.1.take 1 ++ (k.1.drop 1).map downcase) == emit_token k.2 ++ [0] &&
      (emit_token k.2).length == 2 && (emit_token k.2).headD 0 == 0xFF) = true := by
  decide

/-- C29 (fails): the function names that end in `$` are in the keyword table
but are never encoded as tokens. The tokenizer collects a word of identifier
characters, `$` is not one of them, and the word without the `$` is not a
keyword: the names are copied as text, and `CHR$(65)` tokenizes to its own
characters, not to `0xFF 0xB1 (65)`. -/
theorem dollar_functions_not_tokenized :
    tokenize_line (cstr "CHR$(65)") = cstr "CHR$(65)" ++ [0] ∧
    tokenize_line (cstr "CHR$(65)") ≠ emit_token TOK_CHR ++ cstr "(65)" ++ [0] ∧
    dollar_functions.all (fun k =>
      k ∈ keywords && tokenize_line k.1 == k.1 ++ [0] &&
      tokenize_line (k.1.map downcase) == k.1.map downcase ++ [0] &&
      is_ident_char 36 == false) = true := by
  decide

/-! ## Comments and DATA in the tokenizer -/

/-- In a comment or a DATA statement every byte up to the end of the line is
copied. -/
theorem tokenize_loop_verbatim (fuel : Nat) (P : List Nat) (in_string in_data in_rem : Bool)
    (out : List Nat) (hmode : in_data = true ∨ in_rem = true) (hP : ∀ c ∈ P, c ≠ 0)
    (hfuel : P.length ≤ fuel) :
    tokenize_loop fuel P in_string in_data in_rem out = out ++ P := by
  induction P generalizing fuel in_string out with
  | nil => cases fuel <;> simp [tokenize_loop]
  | cons c rest ih =>
    cases fuel with
    | zero => simp at hfuel
    | succ f =>
      have hc : c ≠ 0 := hP c (List.mem_cons_self _ _)
      have hrest : ∀ x ∈ rest, x ≠ 0 := fun x hx => hP x (List.mem_cons_of_mem _ hx)
      have hf : rest.length ≤ f := by simpa using hfuel
      have hmode' : (!in_string && !in_data && !in_rem) = false := by
        rcases hmode with h | h <;> simp [h]
      have hmode2 : (in_string || in_data || in_rem) = true := by
        rcases hmode with h | h <;> simp [h]
      rw [tokenize_loop]
      simp only [hc, if_false, hmode', Bool.false_and, Bool.false_eq_true, hmode2, if_true]
      by_cases h34 : c = 34
      · rw [if_pos h34, ih f (!in_string) (out ++ [c]) hrest hf]
        simp
      · rw [if_neg h34, ih f in_string (out ++ [c]) hrest hf]
        simp

theorem takeWhile_word (w P : List Nat) (hw : ∀ c ∈ w, is_ident_char c = true)
    (hP : is_ident_char (P.headD 0) = false) :
    (w ++ P).takeWhile is_ident_char = w := by
  cases P with
  | nil =>
    rw [List.append_nil, List.takeWhile_eq_self_iff]
    exact hw
  | cons c r =>
    rw [List.takeWhile_append_of_pos hw]
    simp only [List.headD_cons] at hP
    simp [List.takeWhile, hP]

/-- The keywords `REM` and `DATA` in front of a payload that does not start
with an identifier character: the token, then the payload in verbatim mode. -/
theorem tokenize_keyword_payload (w P : List Nat) (token : Nat)
    (hw : ∀ c ∈ w, is_ident_char c = true) (hlen : w.length ≤ NAMLEN)
    (ha : ∃ c r, w = c :: r ∧ 65 ≤ c ∧ c ≤ 90)
    (hk : is_keyword w = token) (ht : token = TOK_DATA ∨ token = TOK_REM)
    (hP0 : ∀ c ∈ P, c ≠ 0) (hP : is_ident_char (P.headD 0) = false) :
    tokenize_line (w ++ P) = [token] ++ P ++ [0] := by
  obtain ⟨c, r, rfl, hc1, hc2⟩ := ha
  have htw := takeWhile_word (c :: r) P hw hP
  have htake : (((c :: r) ++ P).takeWhile is_ident_char).take NAMLEN = c :: r := by
    rw [htw]
    exact List.take_of_length_le hlen
  have hdrop : ((c :: r) ++ P).drop (c :: r).length = P := List.drop_left _ _
  have h0 : ¬ c = 0 := by omega
  have h32 : ¬ c = 32 := by omega
  have h9 : ¬ c = 9 := by omega
  have h34 : ¬ c = 34 := by omega
  have h39 : ¬ c = 39 := by omega
  have hmode : (token == TOK_DATA) = true ∨ (token == TOK_REM) = true := by
    rcases ht with h | h <;> simp [h]
  have hemit : emit_token token = [token] := by
    rcases ht with h | h <;> subst h <;> decide
  have htok : token ≠ 0 := by
    rcases ht with h | h <;> subst h <;> decide
  unfold tokenize_line
  rw [List.length_append, List.cons_append, tokenize_loop]
  simp only [h0, if_false, Bool.not_false, Bool.and_self, Bool.true_and, beq_iff_eq, h32, h9,
    Bool.or_self, Bool.false_eq_true, h34, h39, Bool.or_false, Bool.and_eq_true, decide_eq_true_eq,
    hc1, hc2, and_self, Bool.true_or, if_true]
  rw [← List.cons_append, htake, hdrop, hk]
  simp only [ne_eq, htok, not_false_eq_true, if_true, Bool.false_or]
  rw [tokenize_loop_verbatim _ P false _ _ _ (by simpa using hmode) hP0 (by simp), hemit]
  simp [h32, h9]

/-- C30: comment and DATA payloads are copied verbatim. For every payload `P`
without a NUL byte that does not start with an identifier character,
`tokenize_line` of `REM` followed by `P` is the byte `0x8F`, the bytes of `P`
and a terminating 0, and of `DATA` followed by `P` the byte `0x84`, the bytes
of `P` and 0; for every payload `P` without a NUL byte, `tokenize_line` of the
apostrophe (byte 39) followed by `P` is `0x8F`, the bytes of `P` and 0. -/
theorem comment_and_data_verbatim (P : List Nat) (hP0 : ∀ c ∈ P, c ≠ 0) :
    (is_ident_char (P.headD 0) = false →
      tokenize_line (cstr "REM" ++ P) = [0x8F] ++ P ++ [0] ∧
      tokenize_line (cstr "DATA" ++ P) = [0x84] ++ P ++ [0]) ∧
    tokenize_line (cstr "'" ++ P) = [0x8F] ++ P ++ [0] := by
  constructor
  · intro hP
    exact ⟨tokenize_keyword_payload (cstr "REM") P TOK_REM (by decide) (by decide)
        ⟨82, [69, 77], rfl, by decide, by decide⟩ (by decide) (Or.inr rfl) hP0 hP,
      tokenize_keyword_payload (cstr "DATA") P TOK_DATA (by decide) (by decide)
        ⟨68, [65, 84, 65], rfl, by decide, by decide⟩ (by decide) (Or.inl rfl) hP0 hP⟩
  · unfold tokenize_line
    show tokenize_loop ((39 :: P).length + 1) (39 :: P) false false false [] ++ [0] = _
    rw [List.length_cons, tokenize_loop]
    simp only [Nat.reduceEqDiff, if_false, Bool.not_false, Bool.and_self, Bool.true_and,
      Bool.false_eq_true, Bool.or_self, if_true]
    rw [tokenize_loop_verbatim _ P false false true _ (Or.inr rfl) hP0 (by simp)]
    rfl

theorem comment_and_data_verbatim_witness :
    (is_ident_char ((cstr " A  =  1 : PRINT \"x\"").headD 0) = false →
      tokenize_line (cstr "REM" ++ cstr " A  =  1 : PRINT \"x\"") =
        [0x8F] ++ cstr " A  =  1 : PRINT \"x\"" ++ [0] ∧
      tokenize_line (cstr "DATA" ++ cstr " A  =  1 : PRINT \"x\"") =
        [0x84] ++ cstr " A  =  1 : PRINT \"x\"" ++ [0]) ∧
    tokenize_line (cstr "'" ++ cstr " A  =  1 : PRINT \"x\"") =
      [0x8F] ++ cstr " A  =  1 : PRINT \"x\"" ++ [0] :=
  comment_and_data_verbatim (cstr " A  =  1 : PRINT \"x\"") (by decide)

/-! ## CONT -/

/-- C23 (fails): a CONT entered in direct mode never raises Can't continue.
`execute_direct` sets `curlin` to -1 before it runs the statement, so the test
`curlin == 0` of `do_cont` cannot succeed: in every state the command sets
`running` and changes nothing else. This holds in the initial state, where no
STOP has happened, and after a program that ended with END, as well as after
a STOP. -/
theorem direct_cont_never_fails :
    (∀ (fuel : Nat) (s : state_t),
      execute_direct (fuel + 1) s (cstr "CONT") = .ok { s with running := true }) ∧
    init_state.running = false ∧
    (execute_direct 1 init_state (cstr "CONT")).state.running = true ∧
    (execute_direct 1 init_state (cstr "CONT")).state.output = [] ∧
    after_end_state.running = false ∧ after_end_state.curlin = 0 ∧
    (execute_direct 1 after_end_state (cstr "CONT")).state.running = true ∧
    (execute_direct 1 after_end_state (cstr "CONT")).state.output = after_end_state.output ∧
    after_stop_state.curlin = 10 ∧
    (execute_direct 1 after_stop_state (cstr "CONT")).state.running = true := by
  have hgen : ∀ (fuel : Nat) (s : state_t),
      execute_direct (fuel + 1) s (cstr "CONT") = .ok { s with running := true } := by
    intro fuel s
    have ht : tokenize_line (cstr "CONT") = [0x99, 0] := by decide
    simp only [execute_direct, ht]
    rw [execute_statement]
    simp [skip_spaces, peek_char, advance, get_next_char, do_cont]
  refine ⟨hgen, rfl, ?_, ?_, by decide, by decide, ?_, ?_, by decide, ?_⟩
  · rw [hgen]
    rfl
  · rw [hgen]
    rfl
  · rw [hgen]
    rfl
  · rw [hgen]
    rfl
  · rw [hgen]
    rfl

/-! ## Line number 0 and the end marker -/

/-- A new line 0 is put in front of a program whose lines have positive
numbers, and its header is the end marker of every walk: no line is found any
more and the walk visits nothing. -/
theorem insert_line_zero_hides (s : state_t) (t : List Nat)
    (hpos : ∀ l ∈ s.lines, 0 < l.linenum) :
    (insert_line s 0 t).lines = ⟨0, record_len t.length, t⟩ :: s.lines ∧
    (∀ n, find_line (insert_line s 0 t) n = none) ∧
    walk_linenums (insert_line s 0 t).lines = [] := by
  have hl : (insert_line s 0 t).lines = ⟨0, record_len t.length, t⟩ :: s.lines := by
    rw [insert_line_lines]
    cases hs : s.lines with
    | nil => rfl
    | cons l rest =>
      have hp := hpos l (by rw [hs]; exact List.mem_cons_self _ _)
      by_cases hm : is_end_marker l = true
      · rw [insert_line_in_hidden l rest 0 t hm]
      · rw [insert_line_in_gt l rest 0 t hm (by omega) (by omega)]
  refine ⟨hl, ?_, ?_⟩
  · intro n
    simp [find_line, hl, find_line_in, is_end_marker]
  · rw [hl]
    simp [walk_linenums, is_end_marker]

set_option maxRecDepth 1000000 in
/-- C24 (fails for line 0): the header of line 0 starts with two zero bytes,
which is the end marker. After `insert_line(0, t)` into the empty store
`find_line(0)` returns `NULL`, for every `t`; inserted into the program
`10 PRINT "A"` / `20 PRINT "B"`, line 0 goes to the front and lines 10 and 20
are no longer found, the walk visits no line and RUN prints nothing, where the
program printed `A` and `B` before. -/
theorem line_zero_is_end_marker :
    (∀ t : List Nat, find_line (insert_line init_state 0 t) 0 = none ∧
      (insert_line init_state 0 t).lines = [⟨0, record_len t.length, t⟩]) ∧
    find_line two_line_program 10 = some 0 ∧ find_line two_line_program 20 = some 1 ∧
    find_line (insert_line two_line_program 0 (tokenize_line (cstr "PRINT \"Z\""))) 0 = none ∧
    find_line (insert_line two_line_program 0 (tokenize_line (cstr "PRINT \"Z\""))) 10 = none ∧
    find_line (insert_line two_line_program 0 (tokenize_line (cstr "PRINT \"Z\""))) 20 = none ∧
    (insert_line two_line_program 0 (tokenize_line (cstr "PRINT \"Z\""))).lines.map
      (fun l => l.linenum) = [0, 10, 20] ∧
    walk_linenums (insert_line two_line_program 0 (tokenize_line (cstr "PRINT \"Z\""))).lines =
      [] ∧
    (run_program 10 10 0 two_line_program).output = some (cstr "A\nB\n") ∧
    (run_program 10 10 0
      (insert_line two_line_program 0 (tokenize_line (cstr "PRINT \"Z\"")))).output =
      some [] := by
  refine ⟨fun t => ⟨?_, ?_⟩, by decide, by decide, by decide, by decide, by decide, by decide,
    by decide, by decide!, by decide!⟩
  · exact (insert_line_zero_hides init_state t (by simp [init_state])).2.1 0
  · exact (insert_line_zero_hides init_state t (by simp [init_state])).1

/-! ## GOTO to the line of the GOTO -/

set_option maxRecDepth 1000000 in
/-- C26 (fails for a jump to the current line): the main loop takes a jump to
have occurred when the line number has changed. In `10 GOTO 10` /
`20 PRINT "B"` the GOTO leaves the line number at 10, so the loop advances to
line 20: line 10 is entered once, and the run prints `B` and ends. The same
holds for `IF 1 THEN 10` on line 10. A jump to another line is taken:
`10 GOTO 30` skips line 20, and `20 GOTO 10` enters line 10 again and
again. -/
theorem goto_own_line_advances :
    (run_program 10 10 0 goto_self_program).output = some (cstr "B\n") ∧
    (run_program 10 10 0 goto_self_program).state.running = false ∧
    line_entries 10 0 10 (program_start goto_self_program) = 1 ∧
    (run_program 10 10 0 if_self_program).output = some (cstr "A\nB\n") ∧
    line_entries 10 0 10 (program_start if_self_program) = 1 ∧
    (run_program 10 10 0 goto_forward_program).output = some (cstr "C\n") ∧
    line_entries 10 0 9 (program_start goto_back_program) = 5 := by
  refine ⟨?_, ?_, ?_, ?_, ?_, ?_, ?_⟩ <;> decide!

/-! ## ELSE of a nested IF -/

set_option maxRecDepth 1000000 in
/-- C27 (as stated, fails): when the condition of an IF is false the scan
stops at the first ELSE token of the line, whichever IF it belongs to. The line
`IF 0 THEN IF 1 THEN PRINT "A" ELSE PRINT "B" ELSE PRINT "C"` prints `B`,
the clause of the inner IF, and does not print `C`. -/
theorem nested_else_counterexample :
    (nested_if_program.lines.map (fun l => l.text)) =
      [[TOK_IF, 48, 0xFF, 0x86, TOK_IF, 49, 0xFF, 0x86, TOK_PRINT, 34, 65, 34, TOK_ELSE,
        TOK_PRINT, 34, 66, 34, TOK_ELSE, TOK_PRINT, 34, 67, 34, 0]] ∧
    (run_program 10 10 0 nested_if_program).output = some (cstr "B\n") ∧
    (run_program 10 10 0 nested_if_program).output ≠ some (cstr "C\n") := by
  refine ⟨by decide, by decide!, by decide!⟩

/-! ## NOT and comparison -/

/-- C28 (as stated, fails): NOT is applied by `expr_unary`, below the
arithmetic operators, so it binds more tightly than a comparison: `NOT 1 = 0`
is evaluated as `(NOT 1) = 0`, which is Integer 0, and not as `NOT (1 = 0)`,
which is Integer -1. The two readings differ for `NOT 5 = 7` as well, and
`NOT 1 = -2` is true because `NOT 1` is -2. -/
theorem not_comparison_counterexample :
    (eval_source "NOT 1 = 0").value ≠ (eval_source "NOT (1 = 0)").value ∧
    tokenize_line (cstr "NOT 1 = 0") = [0xFF, 0x87, 49, 0xFF, 0x96, 48, 0] ∧
    (eval_source "NOT 1 = 0").value = some (.intval 0, TYPE_INT) ∧
    (eval_source "(NOT 1) = 0").value = some (.intval 0, TYPE_INT) ∧
    (eval_source "NOT (1 = 0)").value = some (.intval (-1), TYPE_INT) ∧
    (eval_source "NOT 1").value = some (.intval (-2), TYPE_INT) ∧
    (eval_source "NOT 1 = -2").value = some (.intval (-1), TYPE_INT) ∧
    (eval_source "NOT (1 = -2)").value = some (.intval (-1), TYPE_INT) ∧
    (eval_source "NOT 5 = 7").value = some (.intval 0, TYPE_INT) ∧
    (eval_source "NOT (5 = 7)").value = some (.intval (-1), TYPE_INT) := by
  decide

-- THEOREMS
/-- The ELSE part before a text that starts with the end of the line or with
another ELSE: its statements are executed in turn and the loop stops there. -/
theorem else_loop_statements_rest (exec : state_t → Res state_t) (S : List statement)
    (hS : ∀ c ∈ S, c.simple exec) (hne : S ≠ []) (fuel : Nat) (hfuel : S.length ≤ fuel)
    (s : state_t) (hrun : s.running = true) (e : Nat) (rest : List Nat)
    (he : e = 0 ∨ e = 0xA2) :
    else_loop exec fuel (set_txt s (join_statements S ++ e :: rest)) =
      .ok (set_txt (run_effects S s) (e :: rest)) := by
  have he32 : e ≠ 32 := by rcases he with h | h <;> rw [h] <;> decide
  have he9 : e ≠ 9 := by rcases he with h | h <;> rw [h] <;> decide
  have he58 : ¬ e = 58 := by rcases he with h | h <;> rw [h] <;> decide
  induction S generalizing s fuel with
  | nil => exact absurd rfl hne
  | cons c cs ih =>
    have hc := hS c (List.mem_cons_self _ _)
    obtain ⟨b, r, hb, hb0, hbe, _, hb32, hb9⟩ := join_statements_head exec c cs hc
    obtain ⟨_, _, heff, hexec⟩ := hc
    cases fuel with
    | zero => simp at hfuel
    | succ n =>
      have hpk : peek_char (set_txt s (join_statements (c :: cs) ++ e :: rest)) = b := by
        rw [hb]; rfl
      have hrun' : (set_txt s (join_statements (c :: cs) ++ e :: rest)).running = true := hrun
      rw [else_loop]
      simp only [hpk, hrun', hb0, ne_eq, not_false_eq_true, and_self, if_true]
      cases cs with
      | nil =>
        rw [join_statements_single, hexec s _ hrun
          (ends_statement_cons _ _ (by rcases he with h | h <;> simp [h]))]
        have hs := skip_spaces_set_txt_cons (c.effect s) e rest he32 he9
        simp [hs, run_effects, he58]
      | cons d cs =>
        rw [join_statements_cons]
        have e' : (c.text ++ 58 :: join_statements (d :: cs)) ++ e :: rest =
            c.text ++ 58 :: (join_statements (d :: cs) ++ e :: rest) := by simp
        rw [e', hexec s _ hrun (ends_statement_cons _ _ (Or.inr (Or.inl rfl)))]
        have hs := skip_spaces_set_txt_cons (c.effect s) 58
          (join_statements (d :: cs) ++ e :: rest) (by decide) (by decide)
        have ha := advance_set_txt_cons (c.effect s) 58
          (join_statements (d :: cs) ++ e :: rest) (by decide)
        simp only [Res.ok_bind, hs, peek_char_set_txt_cons, ha, if_true]
        rw [ih (fun x hx => hS x (List.mem_cons_of_mem _ hx)) (by simp) n
          (by simp at hfuel ⊢; omega) (c.effect s) (by rw [(heff s).1]; exact hrun)]
        rfl

/-- C27 (as amended): when the condition of `IF c THEN T ELSE S2 ...` is zero,
the scan steps over the text `T` item by item (plain bytes, two-byte tokens,
string literals) without counting the IFs in it and stops at the first ELSE
token; the statements `S2` after that ELSE are executed, up to the end of the
line or the next ELSE, where the text pointer is left. -/
theorem else_scan_selects_first_else (exec : state_t → Res state_t) (ev : evaluator)
    (fuel : Nat) (cond : List Nat) (b : Nat) (T : List Nat) (S2 : List statement)
    (e : Nat) (rest : List Nat) (s sc : state_t) (cv : dyadic)
    (hT : scannable (b :: T)) (hb32 : b ≠ 32) (hb9 : b ≠ 9)
    (hS2 : ∀ c ∈ S2, c.simple exec) (hne2 : S2 ≠ []) (hlen2 : S2.length ≤ fuel)
    (he : e = 0 ∨ e = 0xA2)
    (hcond : eval_numeric ev (set_txt s (cond ++ 0xFF :: 0x86 ::
        (b :: T ++ 0xA2 :: (join_statements S2 ++ e :: rest)))) =
      .ok (cv, set_txt sc (0xFF :: 0x86 ::
        (b :: T ++ 0xA2 :: (join_statements S2 ++ e :: rest)))))
    (hcv : cv.num = 0) (hrun : sc.running = true) :
    do_if exec ev fuel (set_txt s (cond ++ 0xFF :: 0x86 ::
        (b :: T ++ 0xA2 :: (join_statements S2 ++ e :: rest)))) =
      .ok (set_txt (run_effects S2 sc) (e :: rest)) := by
  obtain ⟨c2, cs2, rfl⟩ := List.exists_cons_of_ne_nil hne2
  obtain ⟨b2, r2, hb2, hb20, hb2e, hb2d, hb232, hb29⟩ :=
    join_statements_head exec c2 cs2 (hS2 c2 (List.mem_cons_self _ _))
  have hs1 : skip_spaces (match_token TOK_THEN
      (skip_spaces (set_txt sc (0xFF :: 0x86 ::
        (b :: T ++ 0xA2 :: (join_statements (c2 :: cs2) ++ e :: rest)))))).2 =
      set_txt sc (b :: T ++ 0xA2 :: (join_statements (c2 :: cs2) ++ e :: rest)) := by
    rw [skip_spaces_set_txt_cons _ _ _ (by decide) (by decide),
      match_token_hit sc TOK_THEN 0x86 _ (by decide) (by decide) (by decide) (by decide)]
    exact skip_spaces_set_txt_cons _ _ _ hb32 hb9
  simp only [do_if, hcond, Res.ok_bind, hs1, hcv, ne_eq, not_true_eq_false, if_false]
  have hlen : (b :: T).length <
      ((set_txt sc (b :: T ++ 0xA2 ::
        (join_statements (c2 :: cs2) ++ e :: rest))).txtptr.getD []).length + 1 := by
    simp [set_txt]
    omega
  rw [else_scan_scannable exec ev fuel _ hT _ hlen, else_scan]
  have ha := advance_set_txt_cons sc 0xA2 (join_statements (c2 :: cs2) ++ e :: rest)
    (by decide)
  have hsk : skip_spaces (set_txt sc (join_statements (c2 :: cs2) ++ e :: rest)) =
      set_txt sc (join_statements (c2 :: cs2) ++ e :: rest) := by
    rw [hb2]
    exact skip_spaces_set_txt_cons _ _ _ hb232 hb29
  have hpk2 : peek_char (set_txt sc (join_statements (c2 :: cs2) ++ e :: rest)) = b2 := by
    rw [hb2]; rfl
  have h0 : ¬ (0xA2 : Nat) = 0 := by decide
  have he' : (0xA2 : Nat) = TOK_ELSE := rfl
  simp only [peek_char_set_txt_cons, h0, he', if_true, if_false, ha, hsk, hpk2, hb2d]
  exact else_loop_statements_rest exec (c2 :: cs2) hS2 (List.cons_ne_nil _ _) fuel hlen2 sc
    hrun e rest he

set_option maxRecDepth 1000000 in
theorem else_scan_selects_first_else_witness :
    do_if (execute_statement 2) (eval_expr 3) 3
        (set_txt (program_start nested_if_program)
          [48, 0xFF, 0x86, 0x8B, 49, 0xFF, 0x86, 0x91, 34, 65, 34, 0xA2,
            0x91, 34, 66, 34, 0xA2, 0x91, 34, 67, 34, 0]) =
      .ok (set_txt (put (program_start nested_if_program) [66, 10])
        [0xA2, 0x91, 34, 67, 34, 0]) ∧
    (nested_if_program.lines.map (fun l => l.text)) =
      [[0x8B, 48, 0xFF, 0x86, 0x8B, 49, 0xFF, 0x86, 0x91, 34, 65, 34, 0xA2,
        0x91, 34, 66, 34, 0xA2, 0x91, 34, 67, 34, 0]] :=
  ⟨else_scan_selects_first_else (execute_statement 2) (eval_expr 3) 3 [48] 0x8B
      [49, 0xFF, 0x86, 0x91, 34, 65, 34] [print_char_statement 66] 0xA2 [0x91, 34, 67, 34, 0]
      (program_start nested_if_program) (program_start nested_if_program) (dyadic.ofInt 0)
      (scannable.byte 0x8B _ (by decide) (by decide) (by decide) (by decide)
        (scannable.byte 49 _ (by decide) (by decide) (by decide) (by decide)
          (scannable.token 0x86 _ (by decide)
            (scannable.byte 0x91 _ (by decide) (by decide) (by decide) (by decide)
              (scannable.string [65] [] (by decide) scannable.nil)))))
      (by decide) (by decide)
      (fun c hc => by
        simp only [List.mem_singleton] at hc
        subst hc
        exact print_char_statement_simple 0 66 (by decide) (by decide) (by decide))
      (List.cons_ne_nil _ _) (by decide) (Or.inr rfl)
      (eval_numeric_int_literal 0 _ 0 _ (by decide) rfl)
      rfl rfl,
   by decide⟩

/-! ## NOT before a comparison of literals -/

theorem ends_number_token (lo : Nat) (r : List Nat) : ends_number (0xFF :: lo :: r) = true := rfl

/-- The operand of NOT: `NOT n` for a numeral `n`, before the token of `=`. -/
theorem expr_unary_not_literal (ev : evaluator) (fuel : Nat) (s : state_t) (n : Nat)
    (r : List Nat) (hn : n ≤ 2147483647) :
    expr_unary ev (fuel + 2) (set_txt s (0xFF :: 0x87 :: (dec_digits n ++ 0xFF :: 0x96 :: r))) =
      .ok (.intval (-(n : Int) - 1), TYPE_INT, set_txt s (0xFF :: 0x96 :: r)) := by
  have hu := expr_unary_literal_end ev fuel s n (0xFF :: 0x96 :: r) hn rfl
  have hsk := skip_spaces_set_txt_cons s 0xFF (0x87 :: (dec_digits n ++ 0xFF :: 0x96 :: r))
    (by decide) (by decide)
  have m1 := match_token_other s TOK_PLUS 0x87 (dec_digits n ++ 0xFF :: 0x96 :: r)
    (by decide) (by decide) (by decide)
  have m2 := match_token_other s TOK_MINUS 0x87 (dec_digits n ++ 0xFF :: 0x96 :: r)
    (by decide) (by decide) (by decide)
  have m3 := match_token_hit s TOK_NOT 0x87 (dec_digits n ++ 0xFF :: 0x96 :: r)
    (by decide) (by decide) (by decide) (by decide)
  rw [expr_unary]
  simp only [hsk, m1, m2, m3, peek_char_set_txt_cons]
  simp [hu, value_t.as_int]

/-- The loops of the arithmetic levels stop in front of the token of `=`. -/
theorem arithmetic_stops_at_eq (unary : evaluator) (g k : Nat) (s0 s : state_t) (v : value_t)
    (t : Nat) (r : List Nat)
    (hu : unary s0 = .ok (v, t, set_txt s (0xFF :: 0x96 :: r))) :
    expr_add (expr_mult (expr_power unary) (g + 1)) (k + 1) s0 =
      .ok (v, t, set_txt s (0xFF :: 0x96 :: r)) := by
  have hsk := skip_spaces_set_txt_cons s 0xFF (0x96 :: r) (by decide) (by decide)
  have m1 := match_token_other s TOK_POWER 0x96 r (by decide) (by decide) (by decide)
  have m2 := match_token_other s TOK_MULT 0x96 r (by decide) (by decide) (by decide)
  have m3 := match_token_other s TOK_DIV 0x96 r (by decide) (by decide) (by decide)
  have m4 := match_token_other s TOK_IDIV 0x96 r (by decide) (by decide) (by decide)
  have m5 := match_token_other s TOK_MOD 0x96 r (by decide) (by decide) (by decide)
  have m6 := match_token_other s TOK_PLUS 0x96 r (by decide) (by decide) (by decide)
  have m7 := match_token_other s TOK_MINUS 0x96 r (by decide) (by decide) (by decide)
  have hp : expr_power unary s0 = .ok (v, t, set_txt s (0xFF :: 0x96 :: r)) := by
    simp [expr_power, hu, expr_power_loop, m1]
  have hm : expr_mult (expr_power unary) (g + 1) s0 =
      .ok (v, t, set_txt s (0xFF :: 0x96 :: r)) := by
    simp [expr_mult, hp, expr_mult_loop, hsk, m2, m3, m4, m5]
  simp [expr_add, hm, expr_add_loop, hsk, m6, m7]

/-- The right operand of the comparison: a numeral up to the end of the
expression. -/
theorem expr_add_literal (ev : evaluator) (f g k : Nat) (s : state_t) (n : Nat)
    (rest : List Nat) (hn : n ≤ 2147483647) (h : ends_expression rest = true) :
    expr_add (expr_mult (expr_power (expr_unary ev (f + 1))) (g + 1)) (k + 1)
        (set_txt s (dec_digits n ++ rest)) =
      .ok (.intval n, TYPE_INT, set_txt s rest) := by
  simp [expr_add, expr_mult_literal ev f g s n rest hn h, expr_add_loop_stop _ _ _ _ _ _ h]

theorem skip_raw_numeral (s : state_t) (c n : Nat) (rest : List Nat) (hc : c = 61) :
    skip_raw c (set_txt s (dec_digits n ++ rest)) = set_txt s (dec_digits n ++ rest) := by
  obtain ⟨d, r, hd, hdig⟩ := dec_digits_cons n
  rw [hd]
  have : ¬ d = c := by omega
  simp [skip_raw, this]

/-- The tokens of `NOT a = b` for numerals `a` and `b`: NOT is applied to `a`
alone and the result is compared with `b`. -/
theorem eval_expr_not_eq_tokens (fuel : Nat) (s : state_t) (a b : Nat) (rest : List Nat)
    (ha : a ≤ 2147483647) (hb : b ≤ 2147483647) (h : ends_expression rest = true) :
    eval_expr (fuel + 3)
        (set_txt s (0xFF :: 0x87 :: (dec_digits a ++ 0xFF :: 0x96 :: (dec_digits b ++ rest)))) =
      .ok (.intval (if -(a : Int) - 1 = b then -1 else 0), TYPE_INT, set_txt s rest) := by
  have hu := expr_unary_not_literal (eval_expr (fuel + 2)) fuel s a (dec_digits b ++ rest) ha
  have hl := arithmetic_stops_at_eq (expr_unary (eval_expr (fuel + 2)) (fuel + 2)) (fuel + 1)
    (fuel + 1) _ s _ _ _ hu
  have hr := expr_add_literal (eval_expr (fuel + 2)) (fuel + 1) (fuel + 1) (fuel + 1) s b rest hb h
  have hsk := skip_spaces_set_txt_cons s 0xFF (0x96 :: (dec_digits b ++ rest))
    (by decide) (by decide)
  have m := match_token_hit s TOK_EQ 0x96 (dec_digits b ++ rest)
    (by decide) (by decide) (by decide) (by decide)
  have hraw := skip_raw_numeral s 61 b rest rfl
  have hc : expr_compare (expr_add (expr_mult (expr_power
      (expr_unary (eval_expr (fuel + 2)) (fuel + 2))) (fuel + 2)) (fuel + 2))
      (set_txt s (0xFF :: 0x87 :: (dec_digits a ++ 0xFF :: 0x96 :: (dec_digits b ++ rest)))) =
      .ok (.intval (if -(a : Int) - 1 = b then -1 else 0), TYPE_INT, set_txt s rest) := by
    rw [expr_compare]
    simp only [hl, Res.ok_bind, hsk, m, Bool.true_or, if_true, hraw, hr]
    simp [compare_step, to_double, value_t.as_int, dyadic.eq, dyadic.ofInt, TYPE_INT, TYPE_STR]
  show expr_or (expr_and (expr_not (expr_compare (expr_add (expr_mult (expr_power
    (expr_unary (eval_expr (fuel + 2)) (fuel + 2))) (fuel + 2)) (fuel + 2)))) (fuel + 2))
    (fuel + 2) _ = _
  simp [expr_or, expr_and, expr_not, hc, expr_and_loop_stop _ _ _ _ _ _ h,
    expr_or_loop_stop _ _ _ _ _ _ h]

/-- A keyword other than DATA and REM in front of a character that does not
continue an identifier is replaced by its token. -/
theorem tokenize_loop_keyword (fuel : Nat) (c : Nat) (r X out : List Nat) (token : Nat)
    (hw : ∀ y ∈ c :: r, is_ident_char y = true) (hlen : (c :: r).length ≤ NAMLEN)
    (hc : 65 ≤ c ∧ c ≤ 90) (hk : is_keyword (c :: r) = token) (htok : token ≠ 0)
    (hnd : token ≠ TOK_DATA) (hnr : token ≠ TOK_REM)
    (hX : is_ident_char (X.headD 0) = false) :
    tokenize_loop (fuel + 1) (c :: r ++ X) false false false out =
      tokenize_loop fuel X false false false (out ++ emit_token token) := by
  have htw := takeWhile_word (c :: r) X hw hX
  have htake : (((c :: r) ++ X).takeWhile is_ident_char).take NAMLEN = c :: r := by
    rw [htw]
    exact List.take_of_length_le hlen
  have hdrop : ((c :: r) ++ X).drop (c :: r).length = X := List.drop_left _ _
  have h0 : ¬ c = 0 := by omega
  have h32 : ¬ c = 32 := by omega
  have h9 : ¬ c = 9 := by omega
  have h34 : ¬ c = 34 := by omega
  have h39 : ¬ c = 39 := by omega
  obtain ⟨hc1, hc2⟩ := hc
  rw [List.cons_append, tokenize_loop]
  simp only [h0, if_false, Bool.not_false, Bool.and_self, Bool.true_and, beq_iff_eq, h32, h9,
    Bool.or_self, Bool.false_eq_true, h34, h39, Bool.or_false, Bool.and_eq_true, decide_eq_true_eq,
    hc1, hc2, and_self, Bool.true_or, if_true]
  rw [← List.cons_append, htake, hdrop, hk]
  have hd1 : (token == TOK_DATA) = false := by simpa using hnd
  have hd2 : (token == TOK_REM) = false := by simpa using hnr
  simp [htok, hd1, hd2, h32, h9]

/-- The tokenizer on `NOT a = b`: the keyword and the operator become their
tokens, the numerals are copied and the spaces are dropped. -/
theorem tokenize_not_eq_source (a b : Nat) :
    tokenize_line (not_eq_source a b) =
      0xFF :: 0x87 :: (dec_digits a ++ 0xFF :: 0x96 :: (dec_digits b ++ [0])) := by
  obtain ⟨ca, ra, hda, hca⟩ := dec_digits_cons a
  have hra : ∀ y ∈ ra, is_number_char y = true := by
    intro y hy
    exact is_number_char_digit y (dec_digits_digits a y (by rw [hda]; exact List.mem_cons_of_mem _ hy))
  have hc : cstr "NOT " = 78 :: [79, 84] ++ [32] := by decide
  have hc2 : cstr " = " = [32, 61, 32] := by decide
  have hsrc : not_eq_source a b =
      78 :: [79, 84] ++ (32 :: (ca :: ra ++ 32 :: 61 :: 32 :: dec_digits b)) := by
    simp [not_eq_source, hda, hc, hc2]
  have hlen : (not_eq_source a b).length + 1 = (ra.length + (dec_digits b).length + 2) + 7 := by
    rw [hsrc]
    simp only [List.length_append, List.length_cons, List.length_nil]
    omega
  have hkw := tokenize_loop_keyword ((ra.length + (dec_digits b).length + 2) + 6) 78 [79, 84]
    (32 :: (ca :: ra ++ 32 :: 61 :: 32 :: dec_digits b)) [] TOK_NOT (by decide) (by decide)
    (by decide) (by decide) (by decide) (by decide) (by decide) rfl
  have hemit : emit_token TOK_EQ = [0xFF, 0x96] := by decide
  have hemit2 : emit_token TOK_NOT = [0xFF, 0x87] := by decide
  have heq : ∀ out, tokenize_loop ((ra.length + (dec_digits b).length + 2) + 3)
      (61 :: 32 :: dec_digits b) false false false out =
      tokenize_loop ((ra.length + (dec_digits b).length + 2) + 2)
        (32 :: dec_digits b) false false false (out ++ [0xFF, 0x96]) := by
    intro out
    rw [tokenize_loop]
    simp [hemit]
  unfold tokenize_line
  rw [hlen, hsrc, hkw, tokenize_loop_space,
    tokenize_loop_number _ ca ra (32 :: 61 :: 32 :: dec_digits b) _ hca hra
      (Or.inr ⟨32, _, rfl, by decide, by decide, by decide, by decide, by decide⟩),
    tokenize_loop_space, heq, tokenize_loop_space_numeral, hda, hemit2]
  simp

/-- C28 (as amended): NOT is applied by `expr_unary` and so binds more tightly
than a comparison. For all integer literals `a` and `b` (at most 2147483647)
the text `NOT a = b` is tokenized to the tokens of NOT, `a`, `=` and `b`, and
it evaluates as `(NOT a) = b`: Integer -1 if `-a - 1` equals `b` and Integer 0
otherwise, which for literals is always Integer 0. -/
theorem not_applies_before_comparison (a b : Nat) (ha : a ≤ 2147483647)
    (hb : b ≤ 2147483647) :
    tokenize_line (not_eq_source a b) =
      emit_token TOK_NOT ++ dec_digits a ++ emit_token TOK_EQ ++ dec_digits b ++ [0] ∧
    (∀ fuel s, eval_expr (fuel + 3) (set_txt s (tokenize_line (not_eq_source a b))) =
      .ok (.intval (if -(a : Int) - 1 = b then -1 else 0), TYPE_INT, set_txt s [0])) ∧
    (∀ fuel s, eval_expr (fuel + 3) (set_txt s (tokenize_line (not_eq_source a b))) =
      .ok (.intval 0, TYPE_INT, set_txt s [0])) := by
  have ht := tokenize_not_eq_source a b
  have he : ∀ fuel s, eval_expr (fuel + 3) (set_txt s (tokenize_line (not_eq_source a b))) =
      .ok (.intval (if -(a : Int) - 1 = b then -1 else 0), TYPE_INT, set_txt s [0]) := by
    intro fuel s
    rw [ht]
    exact eval_expr_not_eq_tokens fuel s a b [0] ha hb rfl
  refine ⟨?_, he, ?_⟩
  · rw [ht]
    have h1 : emit_token TOK_NOT = [0xFF, 0x87] := by decide
    have h2 : emit_token TOK_EQ = [0xFF, 0x96] := by decide
    simp [h1, h2]
  · intro fuel s
    rw [he fuel s]
    have hne : ¬ (-(a : Int) - 1 = b) := by omega
    simp [hne]

theorem not_applies_before_comparison_witness :
    (1 : Nat) ≤ 2147483647 ∧ (0 : Nat) ≤ 2147483647 ∧
    not_eq_source 1 0 = cstr "NOT 1 = 0" ∧
    tokenize_line (not_eq_source 1 0) =
      emit_token TOK_NOT ++ dec_digits 1 ++ emit_token TOK_EQ ++ dec_digits 0 ++ [0] ∧
    (∀ fuel s, eval_expr (fuel + 3) (set_txt s (tokenize_line (not_eq_source 1 0))) =
      .ok (.intval 0, TYPE_INT, set_txt s [0])) :=
  ⟨by decide, by decide, by decide,
    (not_applies_before_comparison 1 0 (by decide) (by decide)).1,
    (not_applies_before_comparison 1 0 (by decide) (by decide)).2.2⟩

/-! ## Assignment converts to the type of the variable -/

theorem to_int_ofInt (v : Int) (h : -2147483648 ≤ v ∧ v ≤ 2147483647) :
    (dyadic.ofInt v).to_int = some v := by
  simp [dyadic.to_int, dyadic.ofInt, h.1, h.2]

/-- Assignment to an Integer variable: the value read back is the `double` of
the assigned value converted to `int`. -/
theorem set_variable_integer (s : state_t) (name : List Nat) (val : value_t) (type : Nat)
    (d : dyadic) (n : Int) (hty : (normalize_name name).2 = TYPE_INT)
    (hd : switch_double val type = some d) (hn : d.to_int = some n) :
    ∃ s2, set_variable s name val type = .ok s2 ∧
      (get_variable s2 name).1 = .intval n ∧ (get_variable s2 name).2.1 = TYPE_INT := by
  obtain ⟨i, v, s1, hs, hv, hnm, ht, hl, hs1⟩ := find_variable_create s name
  have hlt : i < s1.varlist.length := by
    by_contra hc
    rw [List.getElem?_eq_none (by omega)] at hv
    simp at hv
  have hvt : v.type = TYPE_INT := by rw [ht, hty]
  refine ⟨{ s1 with varlist := s1.varlist.set i { v with value := .intval n } }, ?_, ?_⟩
  · simp [set_variable, hs, hv, hd, hn, hvt]
  · have hf := find_variable_hit
      { s1 with varlist := s1.varlist.set i { v with value := .intval n } } name i
      { v with value := .intval n } true hl (by simp [hlt]) hnm ht
    simp only [get_variable, hf]
    simp [hlt, hvt]

/-- Assignment to a Double variable: the value read back is the `double` of the
assigned value. -/
theorem set_variable_double (s : state_t) (name : List Nat) (val : value_t) (type : Nat)
    (d : dyadic) (hty : (normalize_name name).2 = TYPE_DBL)
    (hd : switch_double val type = some d) :
    ∃ s2, set_variable s name val type = .ok s2 ∧
      (get_variable s2 name).1 = .dblval d ∧ (get_variable s2 name).2.1 = TYPE_DBL := by
  obtain ⟨i, v, s1, hs, hv, hnm, ht, hl, hs1⟩ := find_variable_create s name
  have hlt : i < s1.varlist.length := by
    by_contra hc
    rw [List.getElem?_eq_none (by omega)] at hv
    simp at hv
  have hvt : v.type = TYPE_DBL := by rw [ht, hty]
  refine ⟨{ s1 with varlist := s1.varlist.set i { v with value := .dblval d } }, ?_, ?_⟩
  · simp [set_variable, hs, hv, hd, hvt, TYPE_DBL, TYPE_INT, TYPE_SNG]
  · have hf := find_variable_hit
      { s1 with varlist := s1.varlist.set i { v with value := .dblval d } } name i
      { v with value := .dblval d } true hl (by simp [hlt]) hnm ht
    simp only [get_variable, hf]
    simp [hlt, hvt]

/-- C21: `set_variable` converts through `double` to the type of the variable.
For every `int` value `v` (32 bits), assigning Integer `v` to a variable of
type Integer (name `ni`) and reading it back with `get_variable` yields
Integer `v`, and assigning it to a variable of type Double (name `nd`) yields
the Double `v`; assigning a Single or a Double value `x` whose truncation is
within `int` range to the Integer variable stores `x` truncated toward
zero. -/
theorem set_variable_converts (s : state_t) (ni nd : List Nat) (v : Int) (x : dyadic)
    (hi : (normalize_name ni).2 = TYPE_INT) (hd : (normalize_name nd).2 = TYPE_DBL)
    (hv : -2147483648 ≤ v ∧ v ≤ 2147483647)
    (hx : -2147483648 ≤ Int.tdiv x.num (2 ^ x.exp) ∧ Int.tdiv x.num (2 ^ x.exp) ≤ 2147483647) :
    (∃ s2, set_variable s ni (.intval v) TYPE_INT = .ok s2 ∧
      (get_variable s2 ni).1 = .intval v ∧ (get_variable s2 ni).2.1 = TYPE_INT) ∧
    (∃ s2, set_variable s nd (.intval v) TYPE_INT = .ok s2 ∧
      (get_variable s2 nd).1 = .dblval (dyadic.ofInt v) ∧ (get_variable s2 nd).2.1 = TYPE_DBL) ∧
    (∃ s2, set_variable s ni (.sngval x) TYPE_SNG = .ok s2 ∧
      (get_variable s2 ni).1 = .intval (Int.tdiv x.num (2 ^ x.exp)) ∧
      (get_variable s2 ni).2.1 = TYPE_INT) ∧
    (∃ s2, set_variable s ni (.dblval x) TYPE_DBL = .ok s2 ∧
      (get_variable s2 ni).1 = .intval (Int.tdiv x.num (2 ^ x.exp)) ∧
      (get_variable s2 ni).2.1 = TYPE_INT) := by
  have hxi : x.to_int = some (Int.tdiv x.num (2 ^ x.exp)) := by
    simp [dyadic.to_int, hx.1, hx.2]
  exact ⟨set_variable_integer s ni _ _ _ v hi rfl (to_int_ofInt v hv),
    set_variable_double s nd _ _ _ hd rfl,
    set_variable_integer s ni _ _ x _ hi rfl hxi,
    set_variable_integer s ni _ _ x _ hi rfl hxi⟩

theorem set_variable_converts_witness :
    (normalize_name (cstr "A%")).2 = TYPE_INT ∧ (normalize_name (cstr "B#")).2 = TYPE_DBL ∧
    (∃ s2, set_variable init_state (cstr "A%") (.intval (-7)) TYPE_INT = .ok s2 ∧
      (get_variable s2 (cstr "A%")).1 = .intval (-7) ∧
      (get_variable s2 (cstr "A%")).2.1 = TYPE_INT) ∧
    (∃ s2, set_variable init_state (cstr "B#") (.intval (-7)) TYPE_INT = .ok s2 ∧
      (get_variable s2 (cstr "B#")).1 = .dblval (dyadic.ofInt (-7)) ∧
      (get_variable s2 (cstr "B#")).2.1 = TYPE_DBL) ∧
    (∃ s2, set_variable init_state (cstr "A%") (.sngval ⟨-23, 3⟩) TYPE_SNG = .ok s2 ∧
      (get_variable s2 (cstr "A%")).1 = .intval (-2) ∧
      (get_variable s2 (cstr "A%")).2.1 = TYPE_INT) ∧
    (∃ s2, set_variable init_state (cstr "A%") (.dblval ⟨-23, 3⟩) TYPE_DBL = .ok s2 ∧
      (get_variable s2 (cstr "A%")).1 = .intval (-2) ∧
      (get_variable s2 (cstr "A%")).2.1 = TYPE_INT) := by
  have h := set_variable_converts init_state (cstr "A%") (cstr "B#") (-7) ⟨-23, 3⟩
    (by decide) (by decide) (by decide) (by decide)
  have e : Int.tdiv (-23) (2 ^ 3) = -2 := by decide
  simp only [e] at h
  exact ⟨by decide, by decide, h⟩

set_option maxRecDepth 1000000 in
/-- Assignments in a program: Integer 7 to `A%` and to `B#`, and the Single
values 2.9 and -2.9 to Integer variables, which hold 2 and -2 afterwards. -/
theorem assignment_examples :
    (run_program 10 10 0 assign_program).output = some (cstr "772-2\n") := by
  decide!

/-! ## Strings as heap objects -/

namespace Mem

theorem find_filter_ne (l : List (Nat × block)) (a p : Nat) (h : a ≠ p) :
    (l.filter (fun c => c.1 != p)).find? (fun c => c.1 == a) = l.find? (fun c => c.1 == a) := by
  induction l with
  | nil => rfl
  | cons c l ih =>
    by_cases hc : c.1 = p
    · have hca : ¬ c.1 = a := fun e => h (e.symm.trans hc)
      have h1 : (c.1 != p) = false := by simp [hc]
      have h2 : (c.1 == a) = false := by simp [hca]
      rw [List.filter_cons, List.find?_cons, h1, h2]
      simpa using ih
    · have h1 : (c.1 != p) = true := by simp [hc]
      rw [List.filter_cons, h1]
      simp only [if_true, List.find?_cons]
      rw [ih]

theorem find_filter_eq (l : List (Nat × block)) (p : Nat) :
    (l.filter (fun c => c.1 != p)).find? (fun c => c.1 == p) = none := by
  induction l with
  | nil => rfl
  | cons c l ih =>
    by_cases hc : c.1 = p
    · have h1 : (c.1 != p) = false := by simp [hc]
      rw [List.filter_cons, h1]
      simp [ih]
    · have h1 : (c.1 != p) = true := by simp [hc]
      have h2 : (c.1 == p) = false := by simp [hc]
      rw [List.filter_cons, h1]
      simp only [if_true, List.find?_cons, h2]
      exact ih

theorem read_write (m : memory) (p a : Nat) (b : block) :
    (m.write p b).read a = if a = p then some b else m.read a := by
  by_cases h : a = p
  · subst h
    simp [memory.read, memory.write]
  · have h' : ¬ p = a := fun e => h e.symm
    have h2 : (p == a) = false := by simp [h']
    simp only [memory.read, memory.write, List.find?_cons, h2, find_filter_ne _ _ _ h, h, if_false]

theorem read_release (m : memory) (p a : Nat) :
    (m.release p).read a = if a = p then none else m.read a := by
  by_cases h : a = p
  · subst h
    simp [memory.read, memory.release, find_filter_eq]
  · simp [memory.read, memory.release, h, find_filter_ne _ _ _ h]

theorem stored_bytes_map (w : List Nat) : stored_bytes (w.map some) = some w := by
  induction w with
  | nil => rfl
  | cons c w ih => simp [stored_bytes, ih]

theorem stored_bytes_eq (l : List (Option Nat)) (w : List Nat) (h : stored_bytes l = some w) :
    l = w.map some := by
  induction l generalizing w with
  | nil =>
    simp [stored_bytes] at h
    subst h
    rfl
  | cons c l ih =>
    cases c with
    | none => simp [stored_bytes] at h
    | some c =>
      simp only [stored_bytes, Option.map_eq_some'] at h
      obtain ⟨u, hu, rfl⟩ := h
      rw [ih u hu]
      rfl

theorem kept_refl (m : memory) : m.kept m := fun _ _ => rfl

theorem kept_trans (m m1 m2 : memory) (h1 : m.kept m1) (h2 : m1.kept m2) : m.kept m2 := by
  intro a ha
  have e := h1 a ha
  rw [h2 a (by rw [e]; exact ha), e]

/-- What `string_value m p = some w` says about the blocks. -/
theorem string_value_cases (m : memory) (p : Nat) (w : List Nat)
    (h : string_value m p = some w) :
    (m.read p = some (.string ⟨0, none⟩) ∧ w = []) ∨
    ∃ len q bytes, m.read p = some (.string ⟨len, some q⟩) ∧ m.read q = some (.chars bytes) ∧
      0 < len ∧ bytes.length = len.toNat + 1 ∧ bytes.take len.toNat = w.map some := by
  unfold string_value at h
  cases hp : m.read p with
  | none => simp [hp] at h
  | some b =>
    cases b with
    | chars bytes => simp [hp] at h
    | string s =>
      obtain ⟨len, ptr⟩ := s
      cases ptr with
      | none =>
        simp only [hp] at h
        by_cases hl : len = 0
        · subst hl
          simp at h
          exact Or.inl ⟨rfl, h⟩
        · simp [hl] at h
      | some q =>
        simp only [hp] at h
        cases hq : m.read q with
        | none => simp [hq] at h
        | some b =>
          cases b with
          | string s => simp [hq] at h
          | chars bytes =>
            simp only [hq] at h
            by_cases hc : 0 < len ∧ bytes.length = len.toNat + 1
            · rw [if_pos hc] at h
              exact Or.inr ⟨len, q, bytes, rfl, hq, hc.1, hc.2, stored_bytes_eq _ _ h⟩
            · rw [if_neg hc] at h
              simp at h

/-- The value of a string depends on its own blocks only. -/
theorem string_value_frame (m m1 : memory) (p : Nat)
    (h : ∀ a ∈ storage m p, m1.read a = m.read a) :
    string_value m1 p = string_value m p := by
  have hp : m1.read p = m.read p := by
    apply h
    unfold storage
    split <;> simp
  unfold string_value
  rw [hp]
  cases hr : m.read p with
  | none => rfl
  | some b =>
    cases b with
    | chars bytes => rfl
    | string s =>
      cases hq : s.ptr with
      | none => simp [hq]
      | some q =>
        have : m1.read q = m.read q := by
          apply h
          simp [storage, hr, hq]
        simp [hq, this]

theorem string_value_kept (m m1 : memory) (p : Nat) (w : List Nat) (hk : m.kept m1)
    (h : string_value m p = some w) : string_value m1 p = some w := by
  rw [string_value_frame m m1 p, h]
  intro a ha
  apply hk
  rcases string_value_cases m p w h with ⟨hp, _⟩ | ⟨len, q, bytes, hp, hq, _⟩
  · simp [storage, hp] at ha
    subst ha
    simp [hp]
  · simp [storage, hp] at ha
    rcases ha with rfl | rfl
    · simp [hp]
    · simp [hq]

theorem set_last (l : List (Option Nat)) (x y : Option Nat) :
    (l ++ [x]).set l.length y = l ++ [y] := by
  induction l with
  | nil => rfl
  | cons c l ih => simp [ih]

theorem drop_replicate_append (n : Nat) (x : List (Option Nat)) :
    (List.replicate n (none : Option Nat) ++ x).drop n = x := by
  have h := List.drop_left (List.replicate n (none : Option Nat)) x
  rwa [List.length_replicate] at h

/-- The blocks after `alloc_string(len)` for `len <= 0`. -/
theorem alloc_string_empty (malloc : memory → Nat) (m : memory) (len : Int) (h : len ≤ 0) :
    (alloc_string malloc m len).1 = malloc m ∧
    ∀ a, (alloc_string malloc m len).2.read a =
      if a = malloc m then some (.string ⟨len, none⟩) else m.read a := by
  have h' : ¬ len > 0 := by omega
  refine ⟨by simp [alloc_string, h'], fun a => ?_⟩
  simp only [alloc_string, h', if_false, read_write]
  split <;> rfl

/-- The blocks after `alloc_string(len)` for `len > 0`. -/
theorem alloc_string_buffer (malloc : memory → Nat) (hf : fresh malloc) (m : memory) (len : Int)
    (h : 0 < len) :
    ∃ q, q ≠ malloc m ∧ m.read q = none ∧ (alloc_string malloc m len).1 = malloc m ∧
      ∀ a, (alloc_string malloc m len).2.read a =
        if a = malloc m then some (.string ⟨len, some q⟩)
        else if a = q then some (.chars (List.replicate len.toNat none ++ [some 0]))
        else m.read a := by
  have hq := hf (m.write (malloc m) (.string default))
  rw [read_write] at hq
  have hne : malloc (m.write (malloc m) (.string default)) ≠ malloc m := by
    intro e
    rw [if_pos e] at hq
    simp at hq
  rw [if_neg hne] at hq
  refine ⟨_, hne, hq, by simp [alloc_string, h], fun a => ?_⟩
  simp only [alloc_string, gt_iff_lt, h, if_true, read_write]
  by_cases h1 : a = malloc m
  · simp [h1]
  · simp [h1]

/-- A new string of `k > 0` characters filled from the buffer `q0`. -/
theorem alloc_fill (malloc : memory → Nat) (hf : fresh malloc) (m : memory) (q0 : Nat)
    (s : List (Option Nat)) (k : Int) (u : List Nat) (hk : 0 < k)
    (hq0 : m.read q0 = some (.chars s)) (hks : k.toNat ≤ s.length)
    (hu : s.take k.toNat = u.map some) :
    ∃ m1, fill_string (alloc_string malloc m k).2 (alloc_string malloc m k).1 q0 k.toNat =
        some m1 ∧
      m.read (alloc_string malloc m k).1 = none ∧ m.kept m1 ∧
      string_value m1 (alloc_string malloc m k).1 = some u ∧
      ∀ a ∈ storage m1 (alloc_string malloc m k).1, m.read a = none := by
  obtain ⟨q, hqp, hqn, hr1, hr2⟩ := alloc_string_buffer malloc hf m k hk
  have hpn : m.read (malloc m) = none := hf m
  have hq0p : q0 ≠ malloc m := by
    intro e
    rw [e, hpn] at hq0
    simp at hq0
  have hq0q : q0 ≠ q := by
    intro e
    rw [e, hqn] at hq0
    simp at hq0
  have hul : u.length = k.toNat := by
    have := congrArg List.length hu
    simp at this
    omega
  have e1 : (alloc_string malloc m k).2.read (malloc m) = some (.string ⟨k, some q⟩) := by
    rw [hr2]; simp
  have e2 : (alloc_string malloc m k).2.read q =
      some (.chars (List.replicate k.toNat none ++ [some 0])) := by
    rw [hr2]; simp [hqp]
  have e3 : (alloc_string malloc m k).2.read q0 = some (.chars s) := by
    rw [hr2]; simp [hq0p, hq0q, hq0]
  have hset : (List.map some u ++ [some 0]).set k.toNat (some 0) = List.map some u ++ [some 0] := by
    have := set_last (List.map some u) (some 0) (some 0)
    rwa [List.length_map, hul] at this
  have hfill : fill_string (alloc_string malloc m k).2 (alloc_string malloc m k).1 q0 k.toNat =
      some (((alloc_string malloc m k).2.write q (.chars (u.map some ++ [some 0]))).write q
        (.chars (u.map some ++ [some 0]))) := by
    rw [hr1]
    simp only [fill_string, e1, memcpy, e2, e3, List.length_append, List.length_replicate,
      List.length_singleton, hks, and_true, Nat.le_add_right, if_true, Option.some_bind,
      drop_replicate_append, hu]
    simp only [store_char, read_write, if_true, List.length_append, List.length_map, hul,
      List.length_singleton, Nat.lt_add_one, hset]
  have hread : ∀ a, (((alloc_string malloc m k).2.write q (.chars (u.map some ++ [some 0]))).write q
      (.chars (u.map some ++ [some 0]))).read a =
      if a = q then some (.chars (u.map some ++ [some 0]))
      else if a = malloc m then some (.string ⟨k, some q⟩) else m.read a := by
    intro a
    rw [read_write, read_write, hr2]
    by_cases h1 : a = q
    · simp [h1]
    · by_cases h2 : a = malloc m
      · subst h2
        simp [h1]
      · simp [h1, h2]
  have hpq : malloc m ≠ q := fun e => hqp e.symm
  refine ⟨_, hfill, by rw [hr1]; exact hpn, ?_, ?_, ?_⟩
  · intro a ha
    rw [hread]
    have h1 : a ≠ q := fun e => ha (by rw [e]; exact hqn)
    have h2 : a ≠ malloc m := fun e => ha (by rw [e]; exact hpn)
    simp [h1, h2]
  · rw [hr1]
    unfold string_value
    rw [hread]
    simp only [hpq, if_false, if_true]
    rw [hread]
    simp only [if_true, hk, List.length_append, List.length_map, hul, List.length_singleton,
      and_self]
    have : (List.map some u ++ [some 0]).take k.toNat = List.map some u := by
      have := List.take_left (List.map some u) [some (0 : Nat)]
      rwa [List.length_map, hul] at this
    rw [this]
    exact stored_bytes_map u
  · intro a ha
    rw [hr1] at ha
    simp only [storage, hread, hpq, if_false, if_true, Option.toList_some, List.mem_cons,
      List.mem_singleton, List.not_mem_nil, or_false] at ha
    rcases ha with rfl | rfl
    · exact hpn
    · exact hqn

theorem alloc_string_zero (malloc : memory → Nat) (hf : fresh malloc) (m : memory) :
    allocated m (alloc_string malloc m 0).1 (alloc_string malloc m 0).2 [] := by
  obtain ⟨h1, h2⟩ := alloc_string_empty malloc m 0 (le_refl _)
  have hpn : m.read (malloc m) = none := hf m
  refine ⟨by rw [h1]; exact hpn, ?_, ?_, ?_⟩
  · intro a ha
    have hne : a ≠ malloc m := fun e => ha (by rw [e]; exact hpn)
    rw [h2, if_neg hne]
  · rw [h1]
    simp [string_value, h2]
  · intro a ha
    rw [h1] at ha
    simp [storage, h2] at ha
    rw [ha]
    exact hpn

theorem take_map_take (bytes : List (Option Nat)) (w : List Nat) (a b : Nat) (hab : b ≤ a)
    (h : bytes.take a = w.map some) : bytes.take b = (w.take b).map some := by
  rw [List.map_take, ← h, List.take_take, Nat.min_eq_left hab]

/-- `copy_string` of a string makes a new string with the same bytes. -/
theorem copy_string_spec (malloc : memory → Nat) (hf : fresh malloc) (m : memory) (p : Nat)
    (w : List Nat) (h : string_value m p = some w) :
    ∃ d m1, copy_string malloc m (some p) = some (d, m1) ∧ allocated m d m1 w := by
  rcases string_value_cases m p w h with ⟨hp, rfl⟩ | ⟨len, q, bytes, hp, hq, hlen, hbl, hw⟩
  · exact ⟨_, _, by simp [copy_string, hp], alloc_string_zero malloc hf m⟩
  · obtain ⟨m1, hfill, h1, h2, h3, h4⟩ := alloc_fill malloc hf m q bytes len w hlen hq
      (by omega) hw
    exact ⟨_, m1, by simp [copy_string, hp, hlen, hfill], h1, h2, h3, h4⟩

/-- `fn_left` of a string makes a new string with its first `n` bytes. -/
theorem fn_left_spec (malloc : memory → Nat) (hf : fresh malloc) (m : memory) (p : Nat)
    (w : List Nat) (n : Int) (h : string_value m p = some w) :
    ∃ r m1, fn_left malloc m (some p) n = some (r, m1) ∧ allocated m r m1 (w.take n.toNat) := by
  by_cases hn : n ≤ 0
  · have : n.toNat = 0 := by omega
    rw [this, List.take_zero]
    exact ⟨_, _, by simp [fn_left, hn], alloc_string_zero malloc hf m⟩
  · rcases string_value_cases m p w h with ⟨hp, rfl⟩ | ⟨len, q, bytes, hp, hq, hlen, hbl, hw⟩
    · have hn0 : n > 0 := by omega
      rw [List.take_nil]
      exact ⟨_, _, by simp [fn_left, hn, hp, hn0], alloc_string_zero malloc hf m⟩
    · have hwl : w.length = len.toNat := by
        have := congrArg List.length hw
        simp at this
        omega
      by_cases hc : n > len
      · have htk : w.take n.toNat = w := List.take_of_length_le (by omega)
        obtain ⟨m1, hfill, h1, h2, h3, h4⟩ := alloc_fill malloc hf m q bytes len w hlen hq
          (by omega) hw
        rw [htk]
        exact ⟨_, m1, by simp [fn_left, hn, hp, hc, hfill], h1, h2, h3, h4⟩
      · have hn0 : 0 < n := by omega
        obtain ⟨m1, hfill, h1, h2, h3, h4⟩ := alloc_fill malloc hf m q bytes n (w.take n.toNat)
          hn0 hq (by omega) (take_map_take bytes w len.toNat n.toNat (by omega) hw)
        exact ⟨_, m1, by simp [fn_left, hn, hp, hc, hfill], h1, h2, h3, h4⟩

/-- The blocks of a string with a value are live. -/
theorem storage_live (m : memory) (p : Nat) (w : List Nat) (h : string_value m p = some w)
    (a : Nat) (ha : a ∈ storage m p) : m.read a ≠ none := by
  rcases string_value_cases m p w h with ⟨hp, _⟩ | ⟨len, q, bytes, hp, hq, _⟩
  · simp [storage, hp] at ha
    subst ha
    simp [hp]
  · simp [storage, hp] at ha
    rcases ha with rfl | rfl
    · simp [hp]
    · simp [hq]

theorem storage_kept (m m1 : memory) (p : Nat) (hk : m.kept m1) (hp : m.read p ≠ none) :
    storage m1 p = storage m p := by
  unfold storage
  rw [hk p hp]

/-- A new string shares no block with a string that was there before. -/
theorem allocated_disjoint (m m1 : memory) (r p : Nat) (u w : List Nat)
    (hr : allocated m r m1 u) (hp : string_value m p = some w) :
    ∀ a ∈ storage m1 r, a ∉ storage m1 p := by
  intro a ha hap
  have hpl : m.read p ≠ none := by
    apply storage_live m p w hp
    unfold storage
    split <;> simp
  rw [storage_kept m m1 p hr.2.1 hpl] at hap
  exact storage_live m p w hp a hap (hr.2.2.2 a ha)

/-- `free_string` of a string with a value removes its blocks and nothing
else. -/
theorem free_string_spec (m : memory) (p : Nat) (w : List Nat) (h : string_value m p = some w) :
    ∃ m1, free_string m (some p) = some m1 ∧
      ∀ a, m1.read a = if a ∈ storage m p then none else m.read a := by
  rcases string_value_cases m p w h with ⟨hp, _⟩ | ⟨len, q, bytes, hp, hq, _⟩
  · refine ⟨m.release p, by simp [free_string, hp, free], fun a => ?_⟩
    rw [read_release]
    simp [storage, hp]
  · have hpq : p ≠ q := by
      intro e
      rw [e, hq] at hp
      simp at hp
    refine ⟨(m.release q).release p, ?_, fun a => ?_⟩
    · simp [free_string, hp, free, hq, read_release, hpq]
    · rw [read_release, read_release]
      simp only [storage, hp, Option.toList_some, List.mem_cons, List.mem_singleton,
        List.not_mem_nil, or_false]
      by_cases h1 : a = p
      · simp [h1]
      · by_cases h2 : a = q
        · simp [h1, h2]
        · simp [h1, h2]

/-- Freeing a string leaves a string that shares no block with it as it
is. -/
theorem string_value_free (m m1 : memory) (p r : Nat) (w u : List Nat)
    (hp : string_value m p = some w) (hr : string_value m r = some u)
    (hd : ∀ a ∈ storage m r, a ∉ storage m p) (hfree : free_string m (some p) = some m1) :
    string_value m1 r = some u ∧ storage m1 r = storage m r := by
  obtain ⟨m2, h2, hread⟩ := free_string_spec m p w hp
  rw [hfree] at h2
  injection h2 with h2
  subst h2
  have hsame : ∀ a ∈ storage m r, m1.read a = m.read a := by
    intro a ha
    rw [hread, if_neg (hd a ha)]
  refine ⟨by rw [string_value_frame m m1 r hsame, hr], ?_⟩
  have hrr : r ∈ storage m r := by
    unfold storage
    split <;> simp
  unfold storage
  rw [hsame r hrr]

theorem mem_storage_self (m : memory) (p : Nat) : p ∈ storage m p := by
  unfold storage
  split <;> simp

/-- C25: the value of a String variable or array element as an operand, and
the result of `LEFT$`, do not alias the storage of the variable. Let the
variable hold the pointer `p0` to a string with the bytes `w`, in any memory
and with any allocator that returns unused addresses. The operand is a new
string `p1` with the bytes `w` that shares no block with `p0`; `LEFT$` of it
and `n` is a new string `p2` with the first `n` bytes of `w` that shares no
block with `p0`, and the variable still holds `w`; and after any later
`set_variable` on the variable, with a value that is not the variable's own
storage, `p2` still holds the same bytes, while the variable holds the bytes
of the value. No step frees or reads a block that is not live. -/
theorem string_operand_does_not_alias (malloc : memory → Nat) (hf : fresh malloc) (m : memory)
    (p0 : Nat) (w : List Nat) (n : Int) (hS : string_value m p0 = some w) :
    ∃ p1 m1 p2 m2,
      string_operand malloc m (some p0) = some (some p1, m1) ∧
      string_value m1 p1 = some w ∧ string_value m1 p0 = some w ∧
      (∀ a ∈ storage m1 p1, a ∉ storage m1 p0) ∧
      left_call malloc m1 (some p1) n = some (p2, m2) ∧
      string_value m2 p2 = some (w.take n.toNat) ∧ string_value m2 p0 = some w ∧
      (∀ a ∈ storage m2 p2, a ∉ storage m2 p0) ∧
      ∀ (val : Option Nat) (type : Nat) (u : List Nat),
        (∀ q, val = some q →
          string_value m2 q = some u ∧ ∀ a ∈ storage m2 q, a ∉ storage m2 p0) →
        ∃ p3 m3, set_string_variable malloc m2 (some p0) val type = some (p3, m3) ∧
          string_value m3 p2 = some (w.take n.toNat) ∧
          string_value m3 p3 = some (if type = TYPE_STR ∧ val.isSome = true then u else []) := by
  obtain ⟨p1, m1, hc, ha1⟩ := copy_string_spec malloc hf m p0 w hS
  have hS1 : string_value m1 p0 = some w := string_value_kept m m1 p0 w ha1.2.1 hS
  have hd1 := allocated_disjoint m m1 p1 p0 w w ha1 hS
  obtain ⟨p2, m2', hl, ha2⟩ := fn_left_spec malloc hf m1 p1 w n ha1.2.2.1
  have h1' : string_value m2' p1 = some w := string_value_kept m1 m2' p1 w ha2.2.1 ha1.2.2.1
  have hS2' : string_value m2' p0 = some w := string_value_kept m1 m2' p0 w ha2.2.1 hS1
  have hd2 := allocated_disjoint m1 m2' p2 p1 _ w ha2 ha1.2.2.1
  have hd2' := allocated_disjoint m1 m2' p2 p0 _ w ha2 hS1
  have hst1 : storage m2' p1 = storage m1 p1 :=
    storage_kept m1 m2' p1 ha2.2.1 (storage_live m1 p1 w ha1.2.2.1 p1 (mem_storage_self m1 p1))
  have hst0 : storage m2' p0 = storage m1 p0 :=
    storage_kept m1 m2' p0 ha2.2.1 (storage_live m1 p0 w hS1 p0 (mem_storage_self m1 p0))
  have hd01 : ∀ a ∈ storage m2' p0, a ∉ storage m2' p1 := by
    intro a ha hb
    rw [hst0] at ha
    rw [hst1] at hb
    exact hd1 a hb ha
  obtain ⟨m2, hfree, _⟩ := free_string_spec m2' p1 w h1'
  obtain ⟨hv2, hs2⟩ := string_value_free m2' m2 p1 p2 w _ h1' ha2.2.2.1 hd2 hfree
  obtain ⟨hv0, hs0⟩ := string_value_free m2' m2 p1 p0 w w h1' hS2' hd01 hfree
  have hd20 : ∀ a ∈ storage m2 p2, a ∉ storage m2 p0 := by
    rw [hs2, hs0]
    exact hd2'
  refine ⟨p1, m1, p2, m2, by simp [string_operand, hc], ha1.2.2.1, hS1, hd1,
    by simp [left_call, hl, hfree], hv2, hv0, hd20, ?_⟩
  intro val type u hval
  obtain ⟨m3', hfree3, _⟩ := free_string_spec m2 p0 w hv0
  obtain ⟨hv3, _⟩ := string_value_free m2 m3' p0 p2 w _ hv0 hv2 hd20 hfree3
  by_cases hcs : type = TYPE_STR ∧ val.isSome = true
  · obtain ⟨q, rfl⟩ := Option.isSome_iff_exists.mp hcs.2
    obtain ⟨hq, hqd⟩ := hval q rfl
    obtain ⟨hq3, _⟩ := string_value_free m2 m3' p0 q w u hv0 hq hqd hfree3
    obtain ⟨p3, m3, hcopy, ha3⟩ := copy_string_spec malloc hf m3' q u hq3
    refine ⟨p3, m3, ?_, string_value_kept m3' m3 p2 _ ha3.2.1 hv3, ?_⟩
    · simp only [set_string_variable, hfree3, Option.some_bind, hcs, and_self, if_true, hcopy]
    · rw [if_pos hcs]
      exact ha3.2.2.1
  · have ha3 := alloc_string_zero malloc hf m3'
    refine ⟨(alloc_string malloc m3' 0).1, (alloc_string malloc m3' 0).2, ?_,
      string_value_kept m3' _ p2 _ ha3.2.1 hv3, ?_⟩
    · simp only [set_string_variable, hfree3, Option.some_bind, hcs, if_false]
    · rw [if_neg hcs]
      exact ha3.2.2.1

theorem read_none_of_not_mem (m : memory) (a : Nat)
    (h : a ∉ m.cells.map (fun c => c.1)) : m.read a = none := by
  simp only [memory.read, Option.map_eq_none', List.find?_eq_none]
  intro c hc
  have : c.1 ≠ a := fun e => h (by rw [← e]; exact List.mem_map_of_mem _ hc)
  simp [this]

theorem foldl_max_le (l : List Nat) (b : Nat) :
    b ≤ l.foldl max b ∧ ∀ x ∈ l, x ≤ l.foldl max b := by
  induction l generalizing b with
  | nil => simp
  | cons c l ih =>
    obtain ⟨h1, h2⟩ := ih (max b c)
    refine ⟨le_trans (le_max_left b c) h1, ?_⟩
    intro x hx
    rcases List.mem_cons.mp hx with rfl | hx
    · exact le_trans (le_max_right b x) h1
    · exact h2 x hx

theorem bump_fresh : fresh bump := by
  intro m
  apply read_none_of_not_mem
  intro h
  have := (foldl_max_le (m.cells.map (fun c => c.1)) 0).2 _ h
  unfold bump at this
  omega

theorem first_fit_fresh : fresh first_fit := by
  intro m
  unfold first_fit
  cases hfind : (List.range (m.cells.length + 2)).find?
      (fun a => decide (0 < a) && !(m.cells.map (fun c => c.1)).contains a) with
  | none => exact bump_fresh m
  | some a =>
    have h := List.find?_some hfind
    apply read_none_of_not_mem
    simp only [Bool.and_eq_true, Bool.not_eq_true', decide_eq_true_eq] at h
    simpa using h.2

theorem string_operand_does_not_alias_witness :
    string_value hello_memory.2 hello_memory.1 = some (cstr "HELLO") ∧
    ∃ p1 m1 p2 m2,
      string_operand first_fit hello_memory.2 (some hello_memory.1) = some (some p1, m1) ∧
      string_value m1 p1 = some (cstr "HELLO") ∧
      string_value m1 hello_memory.1 = some (cstr "HELLO") ∧
      (∀ a ∈ storage m1 p1, a ∉ storage m1 hello_memory.1) ∧
      left_call first_fit m1 (some p1) 3 = some (p2, m2) ∧
      string_value m2 p2 = some ((cstr "HELLO").take (3 : Int).toNat) ∧
      string_value m2 hello_memory.1 = some (cstr "HELLO") ∧
      (∀ a ∈ storage m2 p2, a ∉ storage m2 hello_memory.1) ∧
      ∀ (val : Option Nat) (type : Nat) (u : List Nat),
        (∀ q, val = some q →
          string_value m2 q = some u ∧ ∀ a ∈ storage m2 q, a ∉ storage m2 hello_memory.1) →
        ∃ p3 m3, set_string_variable first_fit m2 (some hello_memory.1) val type =
            some (p3, m3) ∧
          string_value m3 p2 = some ((cstr "HELLO").take (3 : Int).toNat) ∧
          string_value m3 p3 = some (if type = TYPE_STR ∧ val.isSome = true then u else []) :=
  ⟨by decide, string_operand_does_not_alias first_fit first_fit_fresh hello_memory.2
    hello_memory.1 (cstr "HELLO") 3 (by decide)⟩

/-- The scenario evaluated: `LEFT$(S$, 3)` is `HEL` and `S$` is `HELLO`
after the call; after `S$ = "X"` the result is still `HEL` and `S$` is `X`. The
copy made for the operand is in the blocks 3 and 4, which are freed by the call,
and the assignment reuses freed blocks. -/
theorem left_scenario_value :
    hello_memory = (1, ⟨[(2, .chars ((cstr "HELLO").map some ++ [some 0])),
      (1, .string ⟨5, some 2⟩)]⟩) ∧
    (string_operand first_fit hello_memory.2 (some 1)).map (fun r => r.1) = some (some 3) ∧
    left_scenario = some (some (cstr "HEL"), some (cstr "HELLO"), some (cstr "HEL"),
      some (cstr "X")) := by
  decide

end Mem

set_option maxRecDepth 1000000 in
/-- The evaluator on `LEFT$(S$, 3)` with `S$ = "HELLO"`: the value is `HEL`,
`S$` keeps its value, and a later assignment to `S$` does not change the value
that was assigned to `T$`. -/
theorem left_examples :
    (run_program 10 10 0 left_print_program).output = some (cstr "HELHELLO\n") ∧
    (run_program 10 10 0 left_program).output = some (cstr "HELX\n") := by
  constructor <;> decide!

/-! ## The stack pointers -/

@[simp] theorem pointers_advance (s : state_t) : pointers (advance s) = pointers s := by
  unfold advance get_next_char
  split
  · split <;> rfl
  · rfl

@[simp] theorem pointers_skip_spaces (s : state_t) : pointers (skip_spaces s) = pointers s := by
  unfold skip_spaces
  split <;> rfl

@[simp] theorem pointers_skip_to_eol (s : state_t) : pointers (skip_to_eol s) = pointers s := by
  unfold skip_to_eol
  split <;> rfl

@[simp] theorem pointers_match_token (t : Nat) (s : state_t) :
    pointers (match_token t s).2 = pointers s := by
  unfold match_token
  split_ifs <;> simp

@[simp] theorem pointers_skip_raw (c : Nat) (s : state_t) : pointers (skip_raw c s) = pointers s := by
  unfold skip_raw
  split_ifs <;> simp

@[simp] theorem pointers_skip_optional (c : Nat) (s : state_t) :
    pointers (skip_optional c s) = pointers s := by
  unfold skip_optional
  split_ifs <;> simp

@[simp] theorem pointers_put (s : state_t) (b : List Nat) : pointers (put s b) = pointers s := rfl

@[simp] theorem pointers_set_txt (s : state_t) (t : List Nat) : pointers (set_txt s t) = pointers s := rfl

@[simp] theorem pointers_error_state (e : Nat) (s : state_t) :
    pointers (error_state e s) = pointers s := by
  unfold error_state
  split_ifs <;> rfl

@[simp] theorem pointers_parse_name (accept : Nat → Bool) (s : state_t) :
    pointers (parse_name accept s).2 = pointers s := by
  unfold parse_name
  split <;> rfl

@[simp] theorem pointers_find_variable (s : state_t) (name : List Nat) (b : Bool) :
    pointers (find_variable s name b).2 = pointers s := by
  unfold find_variable
  simp only []
  split
  · rfl
  · split
    · rfl
    · split <;> rfl

@[simp] theorem pointers_get_variable (s : state_t) (name : List Nat) :
    pointers (get_variable s name).2.2 = pointers s := by
  have h := pointers_find_variable s name true
  unfold get_variable
  split
  · next s1 heq => rw [heq] at h; exact h
  · next i s1 heq =>
    rw [heq] at h
    split <;> exact h

@[simp] theorem pointers_find_array (s : state_t) (name : List Nat) (b : Bool) :
    pointers (find_array s name b).2 = pointers s := by
  unfold find_array
  split
  · rfl
  · split <;> rfl

@[simp] theorem pointers_parse_string_literal (s : state_t) :
    pointers (parse_string_literal s).2 = pointers s := by
  unfold parse_string_literal
  split
  · simp
  · rfl

@[simp] theorem pointers_write_element (s : state_t) (i o : Nat) (v : value_t) :
    pointers (write_element s i o v) = pointers s := by
  unfold write_element
  split <;> rfl

@[simp] theorem pointers_skip_one_token (s : state_t) : pointers (skip_one_token s) = pointers s := by
  unfold skip_one_token
  split_ifs
  · rfl
  · split
    · rw [pointers_skip_raw]
      rfl
    · simp
  · simp
  · simp

@[simp] theorem pointers_with_txtptr (s : state_t) (x : Option (List Nat)) :
    pointers ({ s with txtptr := x } : state_t) = pointers s := rfl

theorem keeps_ok {α : Type} (st : α → state_t) (k : Nat × Nat × Nat) (a : α)
    (h : pointers (st a) = k) : (Res.ok a).keeps st k := h

theorem keeps_pure {α : Type} (st : α → state_t) (k : Nat × Nat × Nat) (a : α)
    (h : pointers (st a) = k) : (pure a : Res α).keeps st k := h

theorem keeps_error {α : Type} (st : α → state_t) (k : Nat × Nat × Nat) (e : Nat) (s : state_t)
    (h : pointers s = k) : (error e s : Res α).keeps st k := by
  simp [error, Res.keeps, h]

theorem keeps_syntax_error {α : Type} (st : α → state_t) (k : Nat × Nat × Nat) (s : state_t)
    (h : pointers s = k) : (syntax_error s : Res α).keeps st k := keeps_error st k _ s h

theorem keeps_unmodelled {α : Type} (st : α → state_t) (k : Nat × Nat × Nat) :
    (Res.unmodelled : Res α).keeps st k := by
  simp [Res.keeps]

theorem keeps_fuel {α : Type} (st : α → state_t) (k : Nat × Nat × Nat) :
    (Res.fuel : Res α).keeps st k := by
  simp [Res.keeps]

/-- Sequencing: if the first part ends with the pointers `k` and the rest keeps
them, so does the whole. -/
theorem keeps_bind {α β : Type} (st : α → state_t) (st' : β → state_t) (k : Nat × Nat × Nat)
    (r : Res α) (f : α → Res β) (hr : r.keeps st k)
    (hf : ∀ a, pointers (st a) = k → (f a).keeps st' k) : (r >>= f).keeps st' k := by
  cases r with
  | ok a => exact hf a hr
  | error e s => exact hr
  | unmodelled => simp [Bind.bind, Res.bind, Res.keeps]
  | fuel => simp [Bind.bind, Res.bind, Res.keeps]

@[simp] theorem keeps_ok_iff {α : Type} (st : α → state_t) (k : Nat × Nat × Nat) (a : α) :
    (Res.ok a).keeps st k ↔ pointers (st a) = k := Iff.rfl

@[simp] theorem keeps_pure_iff {α : Type} (st : α → state_t) (k : Nat × Nat × Nat) (a : α) :
    (pure a : Res α).keeps st k ↔ pointers (st a) = k := Iff.rfl

@[simp] theorem keeps_error_iff {α : Type} (st : α → state_t) (k : Nat × Nat × Nat) (e : Nat)
    (s : state_t) : (error e s : Res α).keeps st k ↔ pointers s = k := by
  simp [error, Res.keeps]

@[simp] theorem keeps_syntax_error_iff {α : Type} (st : α → state_t) (k : Nat × Nat × Nat)
    (s : state_t) : (syntax_error s : Res α).keeps st k ↔ pointers s = k :=
  keeps_error_iff st k _ s

@[simp] theorem keeps_unmodelled_iff {α : Type} (st : α → state_t) (k : Nat × Nat × Nat) :
    (Res.unmodelled : Res α).keeps st k ↔ True := by
  simp [Res.keeps]

@[simp] theorem keeps_fuel_iff {α : Type} (st : α → state_t) (k : Nat × Nat × Nat) :
    (Res.fuel : Res α).keeps st k ↔ True := by
  simp [Res.keeps]

theorem keeps_parse_number (s : state_t) (k : Nat × Nat × Nat) (h : pointers s = k) :
    (parse_number s).keeps (fun r => r.2.2) k := by
  unfold parse_number
  simp only []
  repeat' split
  all_goals first | exact h | simp

theorem keeps_eval_numeric (ev : evaluator) (hev : ev.frame) (s : state_t)
    (k : Nat × Nat × Nat) (h : pointers s = k) :
    (eval_numeric ev s).keeps (fun r => r.2) k := by
  unfold eval_numeric
  refine keeps_bind (fun r => r.2.2) _ k _ _ (hev s k h) (fun r hr => ?_)
  split
  · exact hr
  · exact keeps_unmodelled _ _

theorem keeps_eval_string (ev : evaluator) (hev : ev.frame) (s : state_t)
    (k : Nat × Nat × Nat) (h : pointers s = k) :
    (eval_string ev s).keeps (fun r => r.2) k := by
  unfold eval_string
  refine keeps_bind (fun r => r.2.2) _ k _ _ (hev s k h) (fun r hr => ?_)
  split_ifs
  · exact keeps_syntax_error _ _ _ hr
  · split
    · exact hr
    · exact keeps_unmodelled _ _

theorem keeps_eval_integer (ev : evaluator) (hev : ev.frame) (s : state_t)
    (k : Nat × Nat × Nat) (h : pointers s = k) :
    (eval_integer ev s).keeps (fun r => r.2) k := by
  unfold eval_integer
  refine keeps_bind (fun r => r.2.2) _ k _ _ (hev s k h) (fun r hr => ?_)
  split_ifs
  · split
    · exact hr
    · exact keeps_unmodelled _ _
  · split
    · exact hr
    · exact keeps_unmodelled _ _
  · split
    · exact hr
    · exact keeps_unmodelled _ _
  · exact hr

theorem keeps_parse_subscripts (ev : evaluator) (hev : ev.frame) (room : Nat) (s : state_t)
    (k : Nat × Nat × Nat) (h : pointers s = k) :
    (parse_subscripts ev room s).keeps (fun r => r.2) k := by
  induction room generalizing s with
  | zero => exact h
  | succ room ih =>
    unfold parse_subscripts
    refine keeps_bind (fun r => r.2) _ k _ _ (keeps_eval_integer ev hev s k h) (fun r hr => ?_)
    split_ifs
    · refine keeps_bind (fun r => r.2) _ k _ _ (ih _ (by simpa using hr)) (fun r' hr' => ?_)
      exact hr'
    · exact keeps_pure _ _ _ (by simpa using hr)

theorem keeps_fn_sqr (s : state_t) (x : dyadic) (k : Nat × Nat × Nat) (h : pointers s = k) :
    (fn_sqr s x).keeps (fun _ => s) k := by
  unfold fn_sqr
  split <;> simp [h]

theorem keeps_fn_log (s : state_t) (x : dyadic) (k : Nat × Nat × Nat) (h : pointers s = k) :
    (fn_log s x).keeps (fun _ => s) k := by
  unfold fn_log
  split <;> simp [h]

theorem keeps_fn_rnd (s : state_t) (x : dyadic) (k : Nat × Nat × Nat) (h : pointers s = k) :
    (fn_rnd s x).keeps (fun r => r.2) k := by
  unfold fn_rnd
  repeat' split
  all_goals first | exact h | simp

theorem keeps_fn_asc (s : state_t) (str : string_p) (k : Nat × Nat × Nat) (h : pointers s = k) :
    (fn_asc s str).keeps (fun _ => s) k := by
  unfold fn_asc
  repeat' split
  all_goals first | exact h | simp [h]

theorem keeps_fn_chr (s : state_t) (n : Int) (k : Nat × Nat × Nat) (h : pointers s = k) :
    (fn_chr s n).keeps (fun _ => s) k := by
  unfold fn_chr
  repeat' split
  all_goals first | exact h | simp [h]

theorem keeps_apply_numeric_function (token : Nat) (arg : dyadic) (s : state_t)
    (k : Nat × Nat × Nat) (h : pointers s = k) :
    (apply_numeric_function token arg s).keeps (fun r => r.2.2) k := by
  unfold apply_numeric_function
  repeat' first
    | (refine keeps_bind _ _ k _ _ (keeps_fn_sqr _ _ k (by simp [*])) (fun _ _ => ?_))
    | (refine keeps_bind _ _ k _ _ (keeps_fn_log _ _ k (by simp [*])) (fun _ _ => ?_))
    | (refine keeps_bind _ _ k _ _ (keeps_fn_rnd _ _ k (by simp [*])) (fun _ _ => ?_))
    | split
  all_goals first | exact h | simp [*]

theorem keeps_call_tokenized_function (ev : evaluator) (hev : ev.frame) (token : Nat)
    (s : state_t) (k : Nat × Nat × Nat) (h : pointers s = k) :
    (call_tokenized_function ev token s).keeps (fun r => r.2.2) k := by
  unfold call_tokenized_function
  repeat' first
    | (refine keeps_bind _ _ k _ _ (keeps_eval_string ev hev _ k (by simp [*])) (fun _ _ => ?_))
    | (refine keeps_bind _ _ k _ _ (keeps_eval_numeric ev hev _ k (by simp [*])) (fun _ _ => ?_))
    | (refine keeps_bind _ _ k _ _ (keeps_fn_asc _ _ k (by simp [*])) (fun _ _ => ?_))
    | exact keeps_apply_numeric_function _ _ _ k (by simp [*])
    | split
  all_goals first | exact h | simp [*]

theorem keeps_call_tokenized_str_function (ev : evaluator) (hev : ev.frame) (token : Nat)
    (s : state_t) (k : Nat × Nat × Nat) (h : pointers s = k) :
    (call_tokenized_str_function ev token s).keeps (fun r => r.2.2) k := by
  unfold call_tokenized_str_function
  repeat' first
    | (refine keeps_bind _ _ k _ _ (keeps_eval_string ev hev _ k (by simp [*])) (fun _ _ => ?_))
    | (refine keeps_bind _ _ k _ _ (keeps_eval_numeric ev hev _ k (by simp [*])) (fun _ _ => ?_))
    | (refine keeps_bind _ _ k _ _ (keeps_eval_integer ev hev _ k (by simp [*])) (fun _ _ => ?_))
    | (refine keeps_bind _ _ k _ _ (keeps_parse_subscripts ev hev _ _ k (by simp [*]))
        (fun _ _ => ?_))
    | (refine keeps_bind _ _ k _ _ (hev _ k (by simp [*])) (fun _ _ => ?_))
    | (refine keeps_bind _ _ k _ _ (keeps_fn_chr _ _ k (by simp [*])) (fun _ _ => ?_))
    | split
  all_goals first | exact h | simp [*]

theorem keeps_dimension_array (s : state_t) (name : List Nat) (dims : List Int) (type : Nat)
    (k : Nat × Nat × Nat) (h : pointers s = k) :
    (dimension_array s name dims type).keeps (fun r => r) k := by
  have hf := pointers_find_array s name true
  unfold dimension_array
  simp only []
  split
  · simp [h]
  · split
    · next s1 heq =>
      rw [heq] at hf
      simp only [keeps_ok_iff]
      rw [← h]
      exact hf
    · next i s1 heq =>
      rw [heq] at hf
      have hs1 : pointers s1 = k := by rw [← h]; exact hf
      have hset : ∀ l, pointers ({ s1 with arrlist := l } : state_t) = k := fun _ => hs1
      repeat' split
      all_goals first | exact hset _ | simp [hset]

theorem keeps_array_element (s : state_t) (name : List Nat) (indices : List Int)
    (k : Nat × Nat × Nat) (h : pointers s = k) :
    (array_element s name indices).keeps (fun r => r.2.2) k := by
  have hrest : ∀ (i : Nat) (s1 : state_t), pointers s1 = k →
      (match s1.arrlist.get? i with
        | none => Res.unmodelled
        | some arr =>
          if indices.length ≠ arr.ndims then error ERR_SUBSCRIPT s1
          else
            match element_offset indices.reverse (List.take arr.ndims arr.dims).reverse 0 1 with
            | none => error ERR_SUBSCRIPT s1
            | some offset => pure (i, offset.toNat, s1) :
        Res (Nat × Nat × state_t)).keeps (fun r => r.2.2) k := by
    intro i s1 hs1
    cases hx : s1.arrlist.get? i with
    | none => simp
    | some arr =>
      simp only []
      repeat' split
      all_goals first | exact hs1 | simp [hs1]
  unfold array_element
  split
  · simp [h]
  · next i _ =>
    split
    · simp
    · simp only []
      split
      · exact keeps_bind (fun r => r) _ k _ _ (keeps_dimension_array _ _ _ _ k h)
          (fun s1 hs1 => hrest i s1 hs1)
      · exact keeps_bind (fun r => r) _ k _ _ (keeps_pure (fun r => r) k s h)
          (fun s1 hs1 => hrest i s1 hs1)

theorem keeps_parse_variable (ev : evaluator) (hev : ev.frame) (s : state_t)
    (k : Nat × Nat × Nat) (h : pointers s = k) :
    (parse_variable ev s).keeps (fun r => r.2.2) k := by
  unfold parse_variable
  cases htx : s.txtptr <;> simp only []
  all_goals
    repeat' first
      | exact keeps_call_tokenized_function ev hev _ _ k (by simp [*])
      | exact keeps_call_tokenized_str_function ev hev _ _ k (by simp [*])
      | (refine keeps_bind _ _ k _ _ (keeps_eval_string ev hev _ k (by simp [*])) (fun _ _ => ?_))
      | (refine keeps_bind _ _ k _ _ (keeps_eval_numeric ev hev _ k (by simp [*])) (fun _ _ => ?_))
      | (refine keeps_bind _ _ k _ _ (keeps_eval_integer ev hev _ k (by simp [*])) (fun _ _ => ?_))
      | (refine keeps_bind _ _ k _ _ (keeps_parse_subscripts ev hev _ _ k (by simp [*]))
          (fun _ _ => ?_))
      | (refine keeps_bind _ _ k _ _ (hev _ k (by simp [*])) (fun _ _ => ?_))
      | (refine keeps_bind (fun r => r.2.2) _ k _ _ (keeps_array_element _ _ _ k (by simp [*]))
          (fun _ _ => ?_))
      | (refine keeps_bind (fun r => r) _ k _ _ ?_ (fun _ _ => ?_))
      | split
  all_goals first | exact h | simp [*]

theorem keeps_expr_primary (ev : evaluator) (hev : ev.frame) (s : state_t)
    (k : Nat × Nat × Nat) (h : pointers s = k) :
    (expr_primary ev s).keeps (fun r => r.2.2) k := by
  unfold expr_primary
  simp only []
  repeat' first
    | exact keeps_call_tokenized_function ev hev _ _ k (by simp [*])
    | exact keeps_call_tokenized_str_function ev hev _ _ k (by simp [*])
    | exact keeps_parse_number _ k (by simp [*])
    | exact keeps_parse_variable ev hev _ k (by simp [*])
    | (refine keeps_bind _ _ k _ _ (keeps_eval_string ev hev _ k (by simp [*])) (fun _ _ => ?_))
    | (refine keeps_bind _ _ k _ _ (keeps_eval_numeric ev hev _ k (by simp [*])) (fun _ _ => ?_))
    | (refine keeps_bind _ _ k _ _ (keeps_eval_integer ev hev _ k (by simp [*])) (fun _ _ => ?_))
    | (refine keeps_bind _ _ k _ _ (keeps_parse_subscripts ev hev _ _ k (by simp [*]))
        (fun _ _ => ?_))
    | (refine keeps_bind _ _ k _ _ (hev _ k (by simp [*])) (fun _ _ => ?_))
    | split
  all_goals first | exact h | simp [*]

theorem keeps_expr_unary (ev : evaluator) (hev : ev.frame) (fuel : Nat) :
    evaluator.frame (expr_unary ev fuel) := by
  induction fuel with
  | zero =>
    intro s k _
    simp [expr_unary]
  | succ fuel ih =>
    intro s k h
    unfold expr_unary
    simp only []
    repeat' first
      | exact ih _ k (by simp [*])
      | exact keeps_expr_primary ev hev _ k (by simp [*])
      | (refine keeps_bind _ _ k _ _ (ih _ k (by simp [*])) (fun _ _ => ?_))
      | split
    all_goals first | exact h | simp [*]

theorem keeps_expr_power_loop (unary : evaluator) (hunary : unary.frame) (left : value_t)
    (type : Nat) (s : state_t) (k : Nat × Nat × Nat) (h : pointers s = k) :
    (expr_power_loop unary left type s).keeps (fun r => r.2.2) k := by
  unfold expr_power_loop
  simp only []
  repeat' first
    | (refine keeps_bind _ _ k _ _ (hunary _ k (by simp [*])) (fun _ _ => ?_))
    | split
  all_goals first | exact h | simp [*]

theorem keeps_expr_power (unary : evaluator) (hunary : unary.frame) :
    evaluator.frame (expr_power unary) := by
  intro s k h
  unfold expr_power
  exact keeps_bind _ _ k _ _ (hunary s k h)
    (fun r hr => keeps_expr_power_loop unary hunary _ _ _ k hr)

theorem keeps_mult_step (op : Nat) (left : value_t) (type : Nat) (right : value_t) (rtype : Nat)
    (s : state_t) (k : Nat × Nat × Nat) (h : pointers s = k) :
    (mult_step op left type right rtype s).keeps (fun r => r.2.2) k := by
  unfold mult_step
  repeat' split
  all_goals first | exact h | simp [*]

theorem keeps_concat_strings (s : state_t) (a b : string_p) (k : Nat × Nat × Nat)
    (h : pointers s = k) : (concat_strings s a b).keeps (fun _ => s) k := by
  unfold concat_strings
  repeat' split
  all_goals first | exact h | simp [*]

theorem keeps_add_step (op : Nat) (left : value_t) (type : Nat) (right : value_t) (rtype : Nat)
    (s : state_t) (k : Nat × Nat × Nat) (h : pointers s = k) :
    (add_step op left type right rtype s).keeps (fun r => r.2.2) k := by
  unfold add_step
  repeat' first
    | (refine keeps_bind _ _ k _ _ (keeps_concat_strings _ _ _ k (by simp [*])) (fun _ _ => ?_))
    | split
  all_goals first | exact h | simp [*]

theorem keeps_compare_step (op : Nat) (left : value_t) (type : Nat) (right : value_t)
    (rtype : Nat) (s : state_t) (k : Nat × Nat × Nat) (h : pointers s = k) :
    (compare_step op left type right rtype s).keeps (fun r => r.2.2) k := by
  unfold compare_step
  simp only []
  repeat' split
  all_goals first | exact h | simp [*]

theorem keeps_bitwise_step (op : Nat) (left : value_t) (type : Nat) (right : value_t)
    (rtype : Nat) (s : state_t) (k : Nat × Nat × Nat) (h : pointers s = k) :
    (bitwise_step op left type right rtype s).keeps (fun r => r.2.2) k := by
  unfold bitwise_step
  repeat' split
  all_goals first | exact h | simp [*]

theorem keeps_expr_mult_loop (power : evaluator) (hpower : power.frame) (fuel : Nat) (left : value_t)
    (type : Nat) (s : state_t) (k : Nat × Nat × Nat) (h : pointers s = k) :
    (expr_mult_loop power fuel left type s).keeps (fun r => r.2.2) k := by
  induction fuel generalizing left type s with
  | zero => simp [expr_mult_loop]
  | succ fuel ih =>
    unfold expr_mult_loop
    simp only []
    repeat' first
      | exact ih _ _ _ (by simp [*])
      | (refine keeps_bind _ _ k _ _ (hpower _ k (by simp [*])) (fun _ _ => ?_))
      | (refine keeps_bind _ _ k _ _ (keeps_mult_step _ _ _ _ _ _ k (by simp [*])) (fun _ _ => ?_))
      | split
    all_goals first | exact h | simp [*]

theorem keeps_expr_mult (power : evaluator) (hpower : power.frame) (fuel : Nat) :
    evaluator.frame (expr_mult power fuel) := by
  intro s k h
  unfold expr_mult
  exact keeps_bind _ _ k _ _ (hpower s k h)
    (fun r hr => keeps_expr_mult_loop power hpower fuel _ _ _ k hr)

theorem keeps_expr_add_loop (mult : evaluator) (hmult : mult.frame) (fuel : Nat) (left : value_t)
    (type : Nat) (s : state_t) (k : Nat × Nat × Nat) (h : pointers s = k) :
    (expr_add_loop mult fuel left type s).keeps (fun r => r.2.2) k := by
  induction fuel generalizing left type s with
  | zero => simp [expr_add_loop]
  | succ fuel ih =>
    unfold expr_add_loop
    simp only []
    repeat' first
      | exact ih _ _ _ (by simp [*])
      | (refine keeps_bind _ _ k _ _ (hmult _ k (by simp [*])) (fun _ _ => ?_))
      | (refine keeps_bind _ _ k _ _ (keeps_add_step _ _ _ _ _ _ k (by simp [*])) (fun _ _ => ?_))
      | split
    all_goals first | exact h | simp [*]

theorem keeps_expr_add (mult : evaluator) (hmult : mult.frame) (fuel : Nat) :
    evaluator.frame (expr_add mult fuel) := by
  intro s k h
  unfold expr_add
  exact keeps_bind _ _ k _ _ (hmult s k h)
    (fun r hr => keeps_expr_add_loop mult hmult fuel _ _ _ k hr)

theorem keeps_expr_compare (add : evaluator) (hadd : add.frame) :
    evaluator.frame (expr_compare add) := by
  intro s k h
  unfold expr_compare
  simp only []
  repeat' first
    | exact keeps_compare_step _ _ _ _ _ _ k (by simp [*])
    | (refine keeps_bind _ _ k _ _ (hadd _ k (by simp [*])) (fun _ _ => ?_))
    | split
  all_goals first | exact h | simp [*]

theorem keeps_expr_not (compare : evaluator) (hc : compare.frame) :
    evaluator.frame (expr_not compare) := hc

theorem keeps_expr_and_loop (not : evaluator) (hnot : not.frame) (fuel : Nat) (left : value_t)
    (type : Nat) (s : state_t) (k : Nat × Nat × Nat) (h : pointers s = k) :
    (expr_and_loop not fuel left type s).keeps (fun r => r.2.2) k := by
  induction fuel generalizing left type s with
  | zero => simp [expr_and_loop]
  | succ fuel ih =>
    unfold expr_and_loop
    simp only []
    repeat' first
      | exact ih _ _ _ (by simp [*])
      | (refine keeps_bind _ _ k _ _ (hnot _ k (by simp [*])) (fun _ _ => ?_))
      | (refine keeps_bind _ _ k _ _ (keeps_bitwise_step _ _ _ _ _ _ k (by simp [*])) (fun _ _ => ?_))
      | split
    all_goals first | exact h | simp [*]

theorem keeps_expr_and (not : evaluator) (hnot : not.frame) (fuel : Nat) :
    evaluator.frame (expr_and not fuel) := by
  intro s k h
  unfold expr_and
  exact keeps_bind _ _ k _ _ (hnot s k h)
    (fun r hr => keeps_expr_and_loop not hnot fuel _ _ _ k hr)

theorem keeps_expr_or_loop (and : evaluator) (hand : and.frame) (fuel : Nat) (left : value_t)
    (type : Nat) (s : state_t) (k : Nat × Nat × Nat) (h : pointers s = k) :
    (expr_or_loop and fuel left type s).keeps (fun r => r.2.2) k := by
  induction fuel generalizing left type s with
  | zero => simp [expr_or_loop]
  | succ fuel ih =>
    unfold expr_or_loop
    simp only []
    repeat' first
      | exact ih _ _ _ (by simp [*])
      | (refine keeps_bind _ _ k _ _ (hand _ k (by simp [*])) (fun _ _ => ?_))
      | (refine keeps_bind _ _ k _ _ (keeps_bitwise_step _ _ _ _ _ _ k (by simp [*])) (fun _ _ => ?_))
      | split
    all_goals first | exact h | simp [*]

theorem keeps_expr_or (and : evaluator) (hand : and.frame) (fuel : Nat) :
    evaluator.frame (expr_or and fuel) := by
  intro s k h
  unfold expr_or
  exact keeps_bind _ _ k _ _ (hand s k h)
    (fun r hr => keeps_expr_or_loop and hand fuel _ _ _ k hr)

/-- The expression evaluator leaves the three stack pointers as they are,
whatever its outcome. -/
theorem keeps_eval_expr (fuel : Nat) : evaluator.frame (eval_expr fuel) := by
  induction fuel with
  | zero =>
    intro s k _
    simp [eval_expr]
  | succ fuel ih =>
    exact keeps_expr_or _ (keeps_expr_and _ (keeps_expr_not _ (keeps_expr_compare _
      (keeps_expr_add _ (keeps_expr_mult _ (keeps_expr_power _
        (keeps_expr_unary _ ih fuel)) fuel) fuel))) fuel) fuel

@[simp] theorem pointers_update_curline_ptr (s : state_t) :
    pointers (update_curline_ptr s) = pointers s := by
  unfold update_curline_ptr
  split <;> rfl

@[simp] theorem pointers_trace_line (s : state_t) : pointers (trace_line s) = pointers s := by
  unfold trace_line
  split <;> rfl

theorem keeps_set_variable (s : state_t) (name : List Nat) (val : value_t) (type : Nat)
    (k : Nat × Nat × Nat) (h : pointers s = k) :
    (set_variable s name val type).keeps (fun r => r) k := by
  have hf := pointers_find_variable s name true
  unfold set_variable
  split
  · next s1 heq =>
    rw [heq] at hf
    simp only [keeps_ok_iff]
    rw [← h]
    exact hf
  · next i s1 heq =>
    rw [heq] at hf
    have hs1 : pointers s1 = k := by rw [← h]; exact hf
    have hset : ∀ l, pointers ({ s1 with varlist := l } : state_t) = k := fun _ => hs1
    simp only []
    repeat' split
    all_goals first | exact hset _ | exact hs1 | simp [hset]

theorem keeps_expect_equals (s : state_t) (k : Nat × Nat × Nat) (h : pointers s = k) :
    (expect_equals s).keeps (fun r => r) k := by
  unfold expect_equals
  repeat' split
  all_goals first | exact h | simp [*]

theorem keeps_jump_to (target : Int) (s : state_t) (k : Nat × Nat × Nat) (h : pointers s = k) :
    (jump_to target s).keeps (fun r => r) k := by
  unfold jump_to
  repeat' split
  all_goals first | exact h | simp [*]

theorem keeps_do_print_loop (ev : evaluator) (hev : ev.frame) (fuel : Nat) (col : Int)
    (newline : Bool) (s : state_t) (k : Nat × Nat × Nat) (h : pointers s = k) :
    (do_print_loop ev fuel col newline s).keeps (fun r => r) k := by
  induction fuel generalizing col newline s with
  | zero => simp [do_print_loop]
  | succ fuel ih =>
    unfold do_print_loop
    simp only []
    repeat' first
      | exact ih _ _ _ (by simp [*])
      | (refine keeps_bind _ _ k _ _ (keeps_eval_string ev hev _ k (by simp [*])) (fun _ _ => ?_))
      | (refine keeps_bind _ _ k _ _ (keeps_eval_numeric ev hev _ k (by simp [*])) (fun _ _ => ?_))
      | (refine keeps_bind _ _ k _ _ (keeps_eval_integer ev hev _ k (by simp [*])) (fun _ _ => ?_))
      | (refine keeps_bind _ _ k _ _ (keeps_parse_subscripts ev hev _ _ k (by simp [*]))
          (fun _ _ => ?_))
      | (refine keeps_bind _ _ k _ _ (hev _ k (by simp [*])) (fun _ _ => ?_))
      | (refine keeps_bind (fun r => r.2) _ k _ _ ?_ (fun _ _ => ?_))
      | split
    all_goals first | exact h | simp [*]

theorem keeps_do_let (ev : evaluator) (hev : ev.frame) (s : state_t) (k : Nat × Nat × Nat)
    (h : pointers s = k) : (do_let ev s).keeps (fun r => r) k := by
  unfold do_let
  simp only []
  repeat' first
      | exact keeps_set_variable _ _ _ _ k (by simp [*])
      | (refine keeps_bind _ _ k _ _ (keeps_eval_string ev hev _ k (by simp [*])) (fun _ _ => ?_))
      | (refine keeps_bind _ _ k _ _ (keeps_eval_numeric ev hev _ k (by simp [*])) (fun _ _ => ?_))
      | (refine keeps_bind _ _ k _ _ (keeps_eval_integer ev hev _ k (by simp [*])) (fun _ _ => ?_))
      | (refine keeps_bind _ _ k _ _ (keeps_parse_subscripts ev hev _ _ k (by simp [*]))
          (fun _ _ => ?_))
      | (refine keeps_bind _ _ k _ _ (hev _ k (by simp [*])) (fun _ _ => ?_))
      | (refine keeps_bind (fun r => r) _ k _ _ (keeps_expect_equals _ k (by simp [*]))
          (fun _ _ => ?_))
      | (refine keeps_bind (fun r => r.2.2) _ k _ _ (keeps_array_element _ _ _ k (by simp [*]))
          (fun _ _ => ?_))
      | (refine keeps_bind (fun r => r) _ k _ _ ?_ (fun _ _ => ?_))
      | split
  all_goals first | exact h | simp [*]

theorem keeps_do_goto (ev : evaluator) (hev : ev.frame) (s : state_t) (k : Nat × Nat × Nat)
    (h : pointers s = k) : (do_goto ev s).keeps (fun r => r) k := by
  unfold do_goto
  exact keeps_bind _ _ k _ _ (keeps_eval_integer ev hev s k h)
    (fun r hr => keeps_jump_to _ _ k hr)

theorem keeps_do_dim (ev : evaluator) (hev : ev.frame) (fuel : Nat) (s : state_t)
    (k : Nat × Nat × Nat) (h : pointers s = k) : (do_dim ev fuel s).keeps (fun r => r) k := by
  induction fuel generalizing s with
  | zero => simp [do_dim]
  | succ fuel ih =>
    have hsf : pointers (dim_suffix (parse_name is_plain_name_char (skip_spaces s)).1
        (parse_name is_plain_name_char (skip_spaces s)).2).2.2 = k := by
      unfold dim_suffix
      simp only []
      split <;> simp [h]
    unfold do_dim
    simp only []
    repeat' first
      | exact ih _ (by simp [*])
      | (refine keeps_bind _ _ k _ _ (keeps_eval_string ev hev _ k (by simp [*])) (fun _ _ => ?_))
      | (refine keeps_bind _ _ k _ _ (keeps_eval_numeric ev hev _ k (by simp [*])) (fun _ _ => ?_))
      | (refine keeps_bind _ _ k _ _ (keeps_eval_integer ev hev _ k (by simp [*])) (fun _ _ => ?_))
      | (refine keeps_bind _ _ k _ _ (keeps_parse_subscripts ev hev _ _ k (by simp [*]))
          (fun _ _ => ?_))
      | (refine keeps_bind _ _ k _ _ (hev _ k (by simp [*])) (fun _ _ => ?_))
      | (refine keeps_bind (fun r => r) _ k _ _ (keeps_dimension_array _ _ _ _ k (by simp [*]))
          (fun _ _ => ?_))
      | split
    all_goals first | exact h | simp [*]

theorem keeps_do_list (ev : evaluator) (hev : ev.frame) (s : state_t) (k : Nat × Nat × Nat)
    (h : pointers s = k) : (do_list ev s).keeps (fun r => r) k := by
  unfold do_list
  simp only []
  repeat' first
      | (refine keeps_bind _ _ k _ _ (keeps_eval_string ev hev _ k (by simp [*])) (fun _ _ => ?_))
      | (refine keeps_bind _ _ k _ _ (keeps_eval_numeric ev hev _ k (by simp [*])) (fun _ _ => ?_))
      | (refine keeps_bind _ _ k _ _ (keeps_eval_integer ev hev _ k (by simp [*])) (fun _ _ => ?_))
      | (refine keeps_bind _ _ k _ _ (keeps_parse_subscripts ev hev _ _ k (by simp [*]))
          (fun _ _ => ?_))
      | (refine keeps_bind _ _ k _ _ (hev _ k (by simp [*])) (fun _ _ => ?_))
      | split
  all_goals first | exact h | simp [*]

theorem keeps_do_cont (s : state_t) (k : Nat × Nat × Nat) (h : pointers s = k) :
    (do_cont s).keeps (fun r => r) k := by
  unfold do_cont
  split
  · simp [h]
  · exact h

theorem keeps_do_sleep (ev : evaluator) (hev : ev.frame) (s : state_t) (k : Nat × Nat × Nat)
    (h : pointers s = k) : (do_sleep ev s).keeps (fun r => r) k := by
  unfold do_sleep
  simp only []
  repeat' first
      | (refine keeps_bind _ _ k _ _ (keeps_eval_string ev hev _ k (by simp [*])) (fun _ _ => ?_))
      | (refine keeps_bind _ _ k _ _ (keeps_eval_numeric ev hev _ k (by simp [*])) (fun _ _ => ?_))
      | (refine keeps_bind _ _ k _ _ (keeps_eval_integer ev hev _ k (by simp [*])) (fun _ _ => ?_))
      | (refine keeps_bind _ _ k _ _ (keeps_parse_subscripts ev hev _ _ k (by simp [*]))
          (fun _ _ => ?_))
      | (refine keeps_bind _ _ k _ _ (hev _ k (by simp [*])) (fun _ _ => ?_))
      | split
  all_goals first | exact h | simp [*]

theorem stacks_ok_iff (s : state_t) : stacks_ok s ↔ within (pointers s) := Iff.rfl

theorem stacks_ok_of_pointers (s s1 : state_t) (h : pointers s1 = pointers s)
    (hs : stacks_ok s) : stacks_ok s1 := by
  rw [stacks_ok_iff, h]
  exact hs

@[simp] theorem bounded_ok_iff {α : Type} (st : α → state_t) (a : α) :
    (Res.ok a).bounded st ↔ stacks_ok (st a) := Iff.rfl

@[simp] theorem bounded_pure_iff {α : Type} (st : α → state_t) (a : α) :
    (pure a : Res α).bounded st ↔ stacks_ok (st a) := Iff.rfl

@[simp] theorem bounded_error_iff {α : Type} (st : α → state_t) (e : Nat) (s : state_t) :
    (error e s : Res α).bounded st ↔ stacks_ok s := by
  simp only [error, Res.bounded, stacks_ok_iff, pointers_error_state]

@[simp] theorem bounded_syntax_error_iff {α : Type} (st : α → state_t) (s : state_t) :
    (syntax_error s : Res α).bounded st ↔ stacks_ok s := bounded_error_iff st _ s

@[simp] theorem bounded_unmodelled_iff {α : Type} (st : α → state_t) :
    (Res.unmodelled : Res α).bounded st ↔ True := by
  simp [Res.bounded]

@[simp] theorem bounded_fuel_iff {α : Type} (st : α → state_t) :
    (Res.fuel : Res α).bounded st ↔ True := by
  simp [Res.bounded]

/-- An outcome that leaves the pointers as they were in a state within the
bound ends within the bound. -/
theorem bounded_of_keeps {α : Type} (st : α → state_t) (k : Nat × Nat × Nat) (r : Res α)
    (hk : within k) (h : r.keeps st k) : r.bounded st := by
  cases r with
  | ok a =>
    simp only [keeps_ok_iff] at h
    simp only [bounded_ok_iff, stacks_ok_iff, h]
    exact hk
  | error e s =>
    simp only [Res.keeps] at h
    simp only [Res.bounded, stacks_ok_iff, h]
    exact hk
  | unmodelled => simp
  | fuel => simp

theorem bounded_bind {α β : Type} (st : α → state_t) (st' : β → state_t)
    (r : Res α) (f : α → Res β) (hr : r.bounded st)
    (hf : ∀ a, stacks_ok (st a) → (f a).bounded st') : (r >>= f).bounded st' := by
  cases r with
  | ok a => exact hf a hr
  | error e s => exact hr
  | unmodelled => simp [Bind.bind, Res.bind]
  | fuel => simp [Bind.bind, Res.bind]

theorem bounded_bind_of_keeps {α β : Type} (st : α → state_t) (st' : β → state_t)
    (k : Nat × Nat × Nat) (r : Res α) (f : α → Res β) (hk : within k) (hr : r.keeps st k)
    (hf : ∀ a, pointers (st a) = k → (f a).bounded st') : (r >>= f).bounded st' := by
  cases r with
  | ok a => exact hf a hr
  | error e s =>
    simp only [Res.keeps] at hr
    show stacks_ok s
    rw [stacks_ok_iff, hr]
    exact hk
  | unmodelled => simp [Bind.bind, Res.bind]
  | fuel => simp [Bind.bind, Res.bind]

theorem pointers_eq (s s1 : state_t) (h : pointers s1 = pointers s) :
    s1.forsp = s.forsp ∧ s1.gosubsp = s.gosubsp ∧ s1.whilesp = s.whilesp := by
  simp only [pointers, Prod.mk.injEq] at h
  exact h

/-- GOSUB keeps the pointers within the bound. -/
theorem bounded_do_gosub (ev : evaluator) (hev : ev.frame) (s : state_t) (hs : stacks_ok s) :
    (do_gosub ev s).bounded (fun r => r) := by
  unfold do_gosub
  split
  · simpa using hs
  · next hsp =>
    refine bounded_bind_of_keeps _ _ (pointers s) _ _ hs (keeps_eval_integer ev hev s _ rfl)
      (fun t ht => ?_)
    obtain ⟨h1, h2, h3⟩ := pointers_eq s t.2 ht
    split
    · simp only [bounded_error_iff]
      exact stacks_ok_of_pointers s t.2 ht hs
    · simp only [bounded_pure_iff, stacks_ok, h1, h2, h3]
      exact ⟨hs.1, by omega, hs.2.2⟩

/-- RETURN keeps the pointers within the bound. -/
theorem bounded_do_return (s : state_t) (hs : stacks_ok s) :
    (do_return s).bounded (fun r => r) := by
  unfold do_return
  split
  · simpa using hs
  · simp only [bounded_ok_iff, stacks_ok_iff, pointers_update_curline_ptr]
    exact ⟨hs.1, Nat.le_trans (Nat.sub_le _ _) hs.2.1, hs.2.2⟩

/-- WEND keeps the pointers within the bound. -/
theorem bounded_do_wend (s : state_t) (hs : stacks_ok s) :
    (do_wend s).bounded (fun r => r) := by
  unfold do_wend
  split
  · simpa using hs
  · simp only [bounded_ok_iff, stacks_ok_iff, pointers_update_curline_ptr]
    exact ⟨hs.1, hs.2.1, Nat.le_trans (Nat.sub_le _ _) hs.2.2⟩

/-- WHILE keeps the pointers within the bound. -/
theorem bounded_do_while (ev : evaluator) (hev : ev.frame) (s : state_t) (hs : stacks_ok s) :
    (do_while ev s).bounded (fun r => r) := by
  unfold do_while
  split
  · simpa using hs
  · next hsp =>
    refine bounded_bind_of_keeps _ _ (pointers s) _ _ hs (keeps_eval_numeric ev hev s _ rfl)
      (fun c hc => ?_)
    obtain ⟨h1, h2, h3⟩ := pointers_eq s c.2 hc
    simp only []
    split
    · simp only [bounded_pure_iff, stacks_ok_iff, pointers, Nat.add_sub_cancel]
      have e : pointers (skip_to_eol { c.2 with
          whilestack := array_set c.2.whilestack c.2.whilesp ⟨c.2.curlin, c.2.txtptr⟩,
          whilesp := c.2.whilesp + 1 }) = (c.2.forsp, c.2.gosubsp, c.2.whilesp + 1) := by
        rw [pointers_skip_to_eol]
        rfl
      simp only [pointers, Prod.mk.injEq] at e
      rw [e.1, e.2.1, h1, h2, h3]
      exact hs
    · simp only [bounded_pure_iff, stacks_ok, h1, h2, h3]
      exact ⟨hs.1, hs.2.1, by omega⟩

/-- FOR keeps the pointers within the bound. -/
theorem bounded_do_for (ev : evaluator) (hev : ev.frame) (s : state_t) (hs : stacks_ok s) :
    (do_for ev s).bounded (fun r => r) := by
  have hpush : ∀ (name : List Nat) (limit : dyadic) (step : dyadic × state_t),
      pointers step.2 = pointers s →
      (if step.2.forsp ≥ STACK_SIZE then error ERR_OUT_OF_MEM step.2
        else pure { step.2 with
          forstack := array_set step.2.forstack step.2.forsp
            ⟨step.2.curlin, step.2.txtptr, name, limit, step.1⟩,
          forsp := step.2.forsp + 1 } : Res state_t).bounded (fun r => r) := by
    intro name limit step h5
    obtain ⟨e1, e2, e3⟩ := pointers_eq s step.2 h5
    by_cases hsp : step.2.forsp ≥ STACK_SIZE
    · rw [if_pos hsp]
      simp only [bounded_error_iff]
      exact stacks_ok_of_pointers s step.2 h5 hs
    · rw [if_neg hsp]
      simp only [bounded_pure_iff, stacks_ok, e2, e3]
      exact ⟨by omega, hs.2.1, hs.2.2⟩
  unfold do_for
  simp only []
  refine bounded_bind_of_keeps (fun r => r) _ (pointers s) _ _ hs
    (keeps_expect_equals _ _ (by simp)) (fun s1 h1 => ?_)
  refine bounded_bind_of_keeps (fun r => r.2) _ (pointers s) _ _ hs
    (keeps_eval_numeric ev hev _ _ h1) (fun start h2 => ?_)
  refine bounded_bind_of_keeps (fun r => r) _ (pointers s) _ _ hs
    (keeps_set_variable _ _ _ _ _ h2) (fun s2 h3 => ?_)
  by_cases hto : (match_token TOK_TO (skip_spaces s2)).1 = false
  · rw [if_pos hto]
    simp only [bounded_syntax_error_iff, stacks_ok_iff, pointers_match_token, pointers_skip_spaces]
    rw [h3]
    exact hs
  · rw [if_neg hto]
    refine bounded_bind_of_keeps (fun r => r.2) _ (pointers s) _ _ hs
      (keeps_eval_numeric ev hev _ _ (by simp [h3])) (fun limit h4 => ?_)
    by_cases hst : (match_token TOK_STEP (skip_spaces limit.2)).1 = true
    · rw [if_pos hst]
      exact bounded_bind_of_keeps (fun r : dyadic × state_t => r.2) _ (pointers s) _ _ hs
        (keeps_eval_numeric ev hev _ _ (by simp [h4])) (fun step h5 => hpush _ _ step h5)
    · rw [if_neg hst]
      exact bounded_bind_of_keeps (fun r : dyadic × state_t => r.2) _ (pointers s) _ _ hs
        (keeps_pure _ _ _ (by simp [h4])) (fun step h5 => hpush _ _ step h5)

/-- NEXT keeps the pointers within the bound. -/
theorem bounded_do_next (s : state_t) (hs : stacks_ok s) :
    (do_next s).bounded (fun r => r) := by
  have hk : ∀ s1 : state_t, pointers s1 = pointers s → stacks_ok s1 :=
    fun s1 h => stacks_ok_of_pointers s s1 h hs
  have hrest : ∀ (s1 : state_t) (varname : List Nat) (done : dyadic → Bool)
      (nxt : dyadic → value_t), pointers s1 = pointers s →
      (match switch_double (get_variable s1 varname).1 (get_variable s1 varname).2.1 with
        | none => Res.unmodelled
        | some cur =>
          if done cur = true
          then Res.ok { (get_variable s1 varname).2.2 with
            forsp := (get_variable s1 varname).2.2.forsp - 1 }
          else do
            let s2 ← set_variable (get_variable s1 varname).2.2 varname (nxt cur) TYPE_DBL
            pure (update_curline_ptr { s2 with
              curlin := (s2.forstack (s2.forsp - 1)).linenum,
              txtptr := (s2.forstack (s2.forsp - 1)).text }) :
        Res state_t).bounded (fun r => r) := by
    intro s1 varname done nxt h1
    have hg : pointers (get_variable s1 varname).2.2 = pointers s :=
      (pointers_get_variable _ _).trans h1
    cases switch_double (get_variable s1 varname).1 (get_variable s1 varname).2.1 with
    | none => simp
    | some cur =>
      simp only []
      by_cases hd : done cur = true
      · rw [if_pos hd]
        simp only [bounded_ok_iff, stacks_ok]
        obtain ⟨e1, e2, e3⟩ := pointers_eq s _ hg
        rw [e1, e2, e3]
        exact ⟨Nat.le_trans (Nat.sub_le _ _) hs.1, hs.2.1, hs.2.2⟩
      · rw [if_neg hd]
        refine bounded_bind_of_keeps (fun r => r) _ (pointers s) _ _ hs
          (keeps_set_variable _ _ _ _ _ hg) (fun s2 h2 => ?_)
        simp only [bounded_pure_iff]
        apply hk
        rw [pointers_update_curline_ptr]
        exact h2
  unfold do_next
  simp only []
  by_cases h0 : (skip_spaces s).forsp = 0
  · rw [if_pos h0]
    simp only [bounded_error_iff]
    apply hk
    split <;> simp
  · rw [if_neg h0]
    by_cases hn : IS_ALPHA (peek_char (skip_spaces s)) = true
    · simp only [hn, if_true]
      exact hrest _ _ _ _ (by simp)
    · simp only [hn, if_false, Bool.false_eq_true]
      exact hrest _ _ _ _ (by simp)

theorem bounded_then_loop (exec : state_t → Res state_t)
    (hexec : ∀ s, stacks_ok s → (exec s).bounded (fun r => r)) (fuel : Nat) (s : state_t)
    (hs : stacks_ok s) : (then_loop exec fuel s).bounded (fun r => r) := by
  have hk : ∀ s1 s2 : state_t, stacks_ok s2 → pointers s1 = pointers s2 → stacks_ok s1 :=
    fun s1 s2 h2 h => stacks_ok_of_pointers s2 s1 h h2
  induction fuel generalizing s with
  | zero => simp [then_loop]
  | succ fuel ih =>
    unfold then_loop
    split
    · split
      · simp only [bounded_ok_iff]
        exact hk _ s hs (by simp)
      · refine bounded_bind _ _ _ _ (hexec s hs) (fun s1 h1 => ?_)
        split
        · simp only [bounded_pure_iff]
          exact hk _ s1 h1 (by simp)
        · split
          · exact ih _ (hk _ s1 h1 (by simp))
          · simp only [bounded_pure_iff]
            exact hk _ s1 h1 (by simp)
    · exact hs

theorem bounded_else_loop (exec : state_t → Res state_t)
    (hexec : ∀ s, stacks_ok s → (exec s).bounded (fun r => r)) (fuel : Nat) (s : state_t)
    (hs : stacks_ok s) : (else_loop exec fuel s).bounded (fun r => r) := by
  have hk : ∀ s1 s2 : state_t, stacks_ok s2 → pointers s1 = pointers s2 → stacks_ok s1 :=
    fun s1 s2 h2 h => stacks_ok_of_pointers s2 s1 h h2
  induction fuel generalizing s with
  | zero => simp [else_loop]
  | succ fuel ih =>
    unfold else_loop
    split
    · refine bounded_bind _ _ _ _ (hexec s hs) (fun s1 h1 => ?_)
      split
      · exact ih _ (hk _ s1 h1 (by simp))
      · simp only [bounded_pure_iff]
        exact hk _ s1 h1 (by simp)
    · exact hs

theorem bounded_else_scan (exec : state_t → Res state_t) (ev : evaluator) (hev : ev.frame)
    (hexec : ∀ s, stacks_ok s → (exec s).bounded (fun r => r)) (lf fuel : Nat) (s : state_t)
    (hs : stacks_ok s) : (else_scan exec ev lf fuel s).bounded (fun r => r) := by
  have hk : ∀ s1 s2 : state_t, stacks_ok s2 → pointers s1 = pointers s2 → stacks_ok s1 :=
    fun s1 s2 h2 h => stacks_ok_of_pointers s2 s1 h h2
  induction fuel generalizing s with
  | zero => simp [else_scan]
  | succ fuel ih =>
    unfold else_scan
    split
    · exact hs
    · split
      · split
        · refine bounded_bind_of_keeps (fun r => r.2) _ (pointers s) _ _ hs
            (keeps_eval_integer ev hev _ _ (by simp)) (fun t ht => ?_)
          exact bounded_of_keeps _ (pointers s) _ hs (keeps_jump_to _ _ _ ht)
        · exact bounded_else_loop exec hexec _ _ (hk _ s hs (by simp))
      · exact ih _ (hk _ s hs (by simp))

/-- IF keeps the pointers within the bound if the statements it executes
do. -/
theorem bounded_do_if (exec : state_t → Res state_t) (ev : evaluator) (hev : ev.frame)
    (hexec : ∀ s, stacks_ok s → (exec s).bounded (fun r => r)) (fuel : Nat) (s : state_t)
    (hs : stacks_ok s) : (do_if exec ev fuel s).bounded (fun r => r) := by
  have hk : ∀ s1 s2 : state_t, stacks_ok s2 → pointers s1 = pointers s2 → stacks_ok s1 :=
    fun s1 s2 h2 h => stacks_ok_of_pointers s2 s1 h h2
  unfold do_if
  refine bounded_bind_of_keeps (fun r => r.2) _ (pointers s) _ _ hs
    (keeps_eval_numeric ev hev _ _ rfl) (fun c hc => ?_)
  have hc1 : stacks_ok (skip_spaces (match_token TOK_THEN (skip_spaces c.2)).2) :=
    hk _ s hs (by simp [hc])
  simp only []
  split
  · split
    · refine bounded_bind_of_keeps (fun r => r.2) _ (pointers s) _ _ hs
        (keeps_eval_integer ev hev _ _ (by simp [hc])) (fun t ht => ?_)
      exact bounded_of_keeps _ (pointers s) _ hs (keeps_jump_to _ _ _ ht)
    · exact bounded_then_loop exec hexec _ _ hc1
  · exact bounded_else_scan exec ev hev hexec _ _ _ hc1

theorem keeps_do_print (ev : evaluator) (hev : ev.frame) (fuel : Nat) (s : state_t)
    (k : Nat × Nat × Nat) (h : pointers s = k) : (do_print ev fuel s).keeps (fun r => r) k :=
  keeps_do_print_loop ev hev fuel 0 true s k h

theorem stacks_ok_new_program (s : state_t) : stacks_ok (new_program s) := by
  simp [stacks_ok, new_program, clear_arrays, clear_variables]

/-- Every statement keeps the pointers within the bound, whatever its
outcome. -/
theorem bounded_execute_statement (fuel : Nat) (s : state_t) (hs : stacks_ok s) :
    (execute_statement fuel s).bounded (fun r => r) := by
  induction fuel generalizing s with
  | zero => simp [execute_statement]
  | succ fuel ih =>
    have hev := keeps_eval_expr (fuel + 1)
    have hk : ∀ s1 : state_t, pointers s1 = pointers s → stacks_ok s1 :=
      fun s1 h => stacks_ok_of_pointers s s1 h hs
    have hs1 : pointers (if peek_char (skip_spaces s) = 58
        then skip_spaces (advance (skip_spaces s)) else skip_spaces s) = pointers s := by
      split <;> simp
    unfold execute_statement
    simp only []
    generalize (if peek_char (skip_spaces s) = 58
        then skip_spaces (advance (skip_spaces s)) else skip_spaces s) = s1 at hs1 ⊢
    have hs2 : pointers (if peek_char s1 = 0xFF then advance (advance s1) else advance s1) =
        pointers s := by
      split <;> simp [hs1]
    generalize (if peek_char s1 = 0xFF then advance (advance s1) else advance s1) = s2 at hs2 ⊢
    generalize (if peek_char s1 = 0xFF then (peek_char s1 <<< 8) ||| (get_next_char (advance s1)).1
        else peek_char s1) = token
    by_cases h0 : peek_char (skip_spaces s) = 0
    · rw [if_pos h0]
      exact hk _ (by simp)
    rw [if_neg h0]
    by_cases h1 : peek_char s1 = 0
    · rw [if_pos h1]
      exact hk _ hs1
    rw [if_neg h1]
    by_cases h2 : peek_char s1 &&& 0x80 ≠ 0
    · rw [if_pos h2]
      by_cases ht : token = TOK_PRINT
      · rw [if_pos ht]
        exact bounded_of_keeps _ (pointers s) _ hs (keeps_do_print _ hev _ _ _ hs2)
      rw [if_neg ht]
      clear ht
      by_cases ht : token = TOK_INPUT
      · rw [if_pos ht]
        exact (bounded_unmodelled_iff _).mpr trivial
      rw [if_neg ht]
      clear ht
      by_cases ht : token = TOK_LET
      · rw [if_pos ht]
        exact bounded_of_keeps _ (pointers s) _ hs (keeps_do_let _ hev _ _ hs2)
      rw [if_neg ht]
      clear ht
      by_cases ht : token = TOK_IF
      · rw [if_pos ht]
        exact bounded_do_if _ _ hev (fun x hx => ih x hx) _ _ (hk _ hs2)
      rw [if_neg ht]
      clear ht
      by_cases ht : token = TOK_GOTO
      · rw [if_pos ht]
        exact bounded_of_keeps _ (pointers s) _ hs (keeps_do_goto _ hev _ _ hs2)
      rw [if_neg ht]
      clear ht
      by_cases ht : token = TOK_GOSUB
      · rw [if_pos ht]
        exact bounded_do_gosub _ hev _ (hk _ hs2)
      rw [if_neg ht]
      clear ht
      by_cases ht : token = TOK_RETURN
      · rw [if_pos ht]
        exact bounded_do_return _ (hk _ hs2)
      rw [if_neg ht]
      clear ht
      by_cases ht : token = TOK_FOR
      · rw [if_pos ht]
        exact bounded_do_for _ hev _ (hk _ hs2)
      rw [if_neg ht]
      clear ht
      by_cases ht : token = TOK_NEXT
      · rw [if_pos ht]
        exact bounded_do_next _ (hk _ hs2)
      rw [if_neg ht]
      clear ht
      by_cases ht : token = TOK_WHILE
      · rw [if_pos ht]
        exact bounded_do_while _ hev _ (hk _ hs2)
      rw [if_neg ht]
      clear ht
      by_cases ht : token = TOK_WEND
      · rw [if_pos ht]
        exact bounded_do_wend _ (hk _ hs2)
      rw [if_neg ht]
      clear ht
      by_cases ht : token = TOK_DIM
      · rw [if_pos ht]
        exact bounded_of_keeps _ (pointers s) _ hs (keeps_do_dim _ hev _ _ _ hs2)
      rw [if_neg ht]
      clear ht
      by_cases ht : token = TOK_DATA
      · rw [if_pos ht]
        exact hk _ ((pointers_skip_to_eol _).trans hs2)
      rw [if_neg ht]
      clear ht
      by_cases ht : token = TOK_READ
      · rw [if_pos ht]
        exact (bounded_error_iff _ _ _).mpr (hk _ hs2)
      rw [if_neg ht]
      clear ht
      by_cases ht : token = TOK_RESTORE
      · rw [if_pos ht]
        exact hk _ hs2
      rw [if_neg ht]
      clear ht
      by_cases ht : token = TOK_END
      · rw [if_pos ht]
        exact hk (do_end _) hs2
      rw [if_neg ht]
      clear ht
      by_cases ht : token = TOK_STOP
      · rw [if_pos ht]
        exact hk (do_stop _) hs2
      rw [if_neg ht]
      clear ht
      by_cases ht : token = TOK_CONT
      · rw [if_pos ht]
        exact bounded_of_keeps _ (pointers s) _ hs (keeps_do_cont _ _ hs2)
      rw [if_neg ht]
      clear ht
      by_cases ht : token = TOK_NEW
      · rw [if_pos ht]
        exact stacks_ok_new_program _
      rw [if_neg ht]
      clear ht
      by_cases ht : token = TOK_LIST
      · rw [if_pos ht]
        exact bounded_of_keeps _ (pointers s) _ hs (keeps_do_list _ hev _ _ hs2)
      rw [if_neg ht]
      clear ht
      by_cases ht : token = TOK_RUN
      · rw [if_pos ht]
        exact (bounded_unmodelled_iff _).mpr trivial
      rw [if_neg ht]
      clear ht
      by_cases ht : token = TOK_LOAD
      · rw [if_pos ht]
        exact (bounded_unmodelled_iff _).mpr trivial
      rw [if_neg ht]
      clear ht
      by_cases ht : token = TOK_SAVE
      · rw [if_pos ht]
        exact (bounded_unmodelled_iff _).mpr trivial
      rw [if_neg ht]
      clear ht
      by_cases ht : token = TOK_SYSTEM
      · rw [if_pos ht]
        exact (bounded_unmodelled_iff _).mpr trivial
      rw [if_neg ht]
      clear ht
      by_cases ht : token = TOK_REM
      · rw [if_pos ht]
        exact hk _ ((pointers_skip_to_eol _).trans hs2)
      rw [if_neg ht]
      clear ht
      by_cases ht : token = TOK_TRON
      · rw [if_pos ht]
        exact hk _ hs2
      rw [if_neg ht]
      clear ht
      by_cases ht : token = TOK_TROFF
      · rw [if_pos ht]
        exact hk _ hs2
      rw [if_neg ht]
      clear ht
      by_cases ht : token = TOK_SLEEP
      · rw [if_pos ht]
        exact bounded_of_keeps _ (pointers s) _ hs (keeps_do_sleep _ hev _ _ hs2)
      rw [if_neg ht]
      clear ht
      exact (bounded_syntax_error_iff _ _).mpr (hk _ ((pointers_put _ _).trans hs2))
    rw [if_neg h2]
    by_cases h3 : IS_ALPHA (peek_char s1) = true
    · rw [if_pos h3]
      exact bounded_of_keeps _ (pointers s) _ hs (keeps_do_let _ hev _ _ hs1)
    rw [if_neg h3]
    exact (bounded_syntax_error_iff _ _).mpr (hk _ hs1)

theorem bounded_run_statements (fuel n : Nat) (prev : Int) (s : state_t) (hs : stacks_ok s) :
    (run_statements fuel n prev s).bounded (fun r => r.1) := by
  induction n generalizing prev s with
  | zero => simp [run_statements]
  | succ n ih =>
    unfold run_statements
    split
    · refine bounded_bind (fun r => r) _ _ _ (bounded_execute_statement fuel s hs)
        (fun s1 h1 => ?_)
      have h2 : stacks_ok (skip_spaces s1) := stacks_ok_of_pointers s1 _ (by simp) h1
      have h3 : stacks_ok (advance (skip_spaces s1)) := stacks_ok_of_pointers s1 _ (by simp) h1
      split
      · exact h1
      · split
        · exact ih _ _ h3
        · exact h2
    · exact hs

theorem keeps_next_line (prev : Int) (s : state_t) (k : Nat × Nat × Nat) (h : pointers s = k) :
    (next_line prev s).keeps (fun r => r) k := by
  unfold next_line
  repeat' split
  all_goals first | exact h | simp [*]

theorem bounded_run_line (fuel : Nat) (s : state_t) (hs : stacks_ok s) :
    (run_line fuel s).bounded (fun r => r) := by
  unfold run_line
  refine bounded_bind (fun r => r.1) _ _ _
    (bounded_run_statements fuel fuel _ _ (stacks_ok_of_pointers s _ (by simp) hs))
    (fun r hr => ?_)
  exact bounded_of_keeps _ (pointers r.1) _ hr (keeps_next_line _ _ _ rfl)

theorem bounded_run_loop (fuel n : Nat) (s : state_t) (hs : stacks_ok s) :
    (run_loop fuel n s).bounded (fun r => r) := by
  induction n generalizing s with
  | zero =>
    unfold run_loop
    split
    · simp
    · exact hs
  | succ n ih =>
    unfold run_loop
    split
    · exact bounded_bind (fun r => r) _ _ _ (bounded_run_line fuel s hs) (fun s1 h1 => ih s1 h1)
    · exact hs

@[simp] theorem pointers_run_error_handler (s : state_t) :
    pointers (run_error_handler s) = pointers s := by
  unfold run_error_handler
  split <;> rfl

theorem bounded_handler (r : Res state_t) :
    r.bounded (fun r => r) →
    (match r with
      | .error _ s1 => .ok (run_error_handler s1)
      | r => r : Res state_t).bounded (fun r => r) := by
  intro hb
  cases r with
  | ok a => exact hb
  | error e s1 => exact stacks_ok_of_pointers s1 _ (by simp) hb
  | unmodelled => simp
  | fuel => simp

theorem bounded_run_program (fuel n : Nat) (start : Int) (s : state_t) (hs : stacks_ok s) :
    (run_program fuel n start s).bounded (fun r => r) := by
  have hk : ∀ s1 : state_t, pointers s1 = pointers s → stacks_ok s1 :=
    fun s1 h => stacks_ok_of_pointers s s1 h hs
  unfold run_program
  simp only []
  split
  · split
    · exact hk _ rfl
    · exact (bounded_error_iff _ _ _).mpr (hk _ rfl)
  · split
    · simp
    · exact bounded_handler _ (bounded_run_loop fuel n _ (hk _ rfl))

theorem bounded_execute_direct (fuel : Nat) (s : state_t) (line : List Nat) (hs : stacks_ok s) :
    (execute_direct fuel s line).bounded (fun r => r) := by
  have hb := bounded_execute_statement fuel
    { s with txtptr := some (tokenize_line line), curlin := -1, running := false } hs
  unfold execute_direct
  simp only []
  split
  · next s1 heq =>
    rw [heq] at hb
    exact hb
  · next e s1 heq =>
    rw [heq] at hb
    simp only [bounded_ok_iff]
    split
    · exact hb
    · exact hb
  · simp
  · simp

theorem stacks_ok_insert_line (s : state_t) (n : Int) (t : List Nat) (hs : stacks_ok s) :
    stacks_ok (insert_line s n t) := by
  unfold insert_line
  split <;> exact hs

theorem stacks_ok_delete_line (s : state_t) (n : Int) (hs : stacks_ok s) :
    stacks_ok (delete_line s n) := by
  unfold delete_line
  split <;> exact hs

/-- In every reachable state no stack holds more than `STACK_SIZE` entries. -/
theorem reachable_stacks_ok (s : state_t) (h : reachable s) : stacks_ok s := by
  induction h with
  | init => exact ⟨by decide, by decide, by decide⟩
  | insert s n t _ ih => exact stacks_ok_insert_line s n t ih
  | delete s n _ ih => exact stacks_ok_delete_line s n ih
  | direct fuel s s1 line _ he ih =>
    have hb := bounded_execute_direct fuel s line ih
    rw [he] at hb
    exact hb
  | run fuel n start s s1 _ he ih =>
    have hb := bounded_run_program fuel n start s ih
    rw [he] at hb
    exact hb
  | statement fuel s s1 _ he ih =>
    have hb := bounded_execute_statement fuel s ih
    rw [he] at hb
    exact hb
  | raised fuel s s1 e _ he ih =>
    have hb := bounded_execute_statement fuel s ih
    rw [he] at hb
    exact hb
  | line fuel s s1 _ he ih =>
    have hb := bounded_run_line fuel s ih
    rw [he] at hb
    exact hb

theorem refuses_bind_of_keeps {α β : Type} (st : α → state_t) (k : Nat × Nat × Nat) (r : Res α)
    (f : α → Res β) (hr : r.keeps st k) (hf : ∀ a, pointers (st a) = k → (f a).refuses k) :
    (r >>= f).refuses k := by
  cases r with
  | ok a => exact hf a hr
  | error e s => exact hr
  | unmodelled => simp [Bind.bind, Res.bind, Res.refuses]
  | fuel => simp [Bind.bind, Res.bind, Res.refuses]

theorem refuses_error {α : Type} (k : Nat × Nat × Nat) (e : Nat) (s : state_t)
    (h : pointers s = k) : (error e s : Res α).refuses k := by
  simp [error, Res.refuses, h]

/-- FOR on a full stack: the statement does not return normally, and the
pointers are unchanged where an error is raised. -/
theorem do_for_full (ev : evaluator) (hev : ev.frame) (s : state_t)
    (hfull : s.forsp ≥ STACK_SIZE) : (do_for ev s).refuses (pointers s) := by
  have hpush : ∀ (name : List Nat) (limit : dyadic) (step : dyadic × state_t),
      pointers step.2 = pointers s →
      (if step.2.forsp ≥ STACK_SIZE then error ERR_OUT_OF_MEM step.2
        else pure { step.2 with
          forstack := array_set step.2.forstack step.2.forsp
            ⟨step.2.curlin, step.2.txtptr, name, limit, step.1⟩,
          forsp := step.2.forsp + 1 } : Res state_t).refuses (pointers s) := by
    intro name limit step h5
    obtain ⟨e1, e2, e3⟩ := pointers_eq s step.2 h5
    have hsp : step.2.forsp ≥ STACK_SIZE := by rw [e1]; exact hfull
    rw [if_pos hsp]
    exact refuses_error _ _ _ h5
  unfold do_for
  simp only []
  refine refuses_bind_of_keeps (fun r => r) (pointers s) _ _
    (keeps_expect_equals _ _ (by simp)) (fun s1 h1 => ?_)
  refine refuses_bind_of_keeps (fun r => r.2) (pointers s) _ _
    (keeps_eval_numeric ev hev _ _ h1) (fun start h2 => ?_)
  refine refuses_bind_of_keeps (fun r => r) (pointers s) _ _
    (keeps_set_variable _ _ _ _ _ h2) (fun s2 h3 => ?_)
  by_cases hto : (match_token TOK_TO (skip_spaces s2)).1 = false
  · rw [if_pos hto]
    exact refuses_error _ _ _ (by simp [h3])
  · rw [if_neg hto]
    refine refuses_bind_of_keeps (fun r => r.2) (pointers s) _ _
      (keeps_eval_numeric ev hev _ _ (by simp [h3])) (fun limit h4 => ?_)
    by_cases hst : (match_token TOK_STEP (skip_spaces limit.2)).1 = true
    · rw [if_pos hst]
      exact refuses_bind_of_keeps (fun r : dyadic × state_t => r.2) (pointers s) _ _
        (keeps_eval_numeric ev hev _ _ (by simp [h4])) (fun step h5 => hpush _ _ step h5)
    · rw [if_neg hst]
      exact refuses_bind_of_keeps (fun r : dyadic × state_t => r.2) (pointers s) _ _
        (keeps_pure _ _ _ (by simp [h4])) (fun step h5 => hpush _ _ step h5)

/-- `FOR I = a TO b` (with `STEP -1` when `down`) on a full stack: the bounds
are evaluated, `I` is assigned, and Out of memory is raised with the stack as
it was. -/
theorem do_for_literal_full (fuel : Nat) (s : state_t) (a b : Int) (down : Bool)
    (ha : -2147483647 ≤ a ∧ a ≤ 2147483647) (hb : -2147483647 ≤ b ∧ b ≤ 2147483647)
    (hsp : s.forsp ≥ STACK_SIZE) :
    ∃ s2, do_for (eval_expr (fuel + 3)) (set_txt s ((for_tokens a b down).drop 1)) =
        error ERR_OUT_OF_MEM s2 ∧
      s2.forsp = s.forsp ∧ s2.forstack = s.forstack := by
  generalize htail : (if down then [0xFF, 0x88, 0xFF, 0x8A, 49] else ([] : List Nat)) ++ [0] = tail
  have htxt : (for_tokens a b down).drop 1 =
      73 :: 0xFF :: 0x96 :: (int_tokens a ++ 0xFF :: 0x85 :: (int_tokens b ++ tail)) := by
    simp [for_tokens, ← htail]
  rw [htxt]
  have hetail : ends_expression tail = true := by
    rw [← htail]
    cases down <;> rfl
  have h1 : parse_name is_plain_name_char (skip_spaces (set_txt s
      (73 :: 0xFF :: 0x96 :: (int_tokens a ++ 0xFF :: 0x85 :: (int_tokens b ++ tail))))) =
      ([73], set_txt s (0xFF :: 0x96 :: (int_tokens a ++ 0xFF :: 0x85 :: (int_tokens b ++ tail)))) := by
    rw [skip_spaces_set_txt_cons _ _ _ (by decide) (by decide)]
    simp [parse_name, read_name, is_plain_name_char, IS_ALNUM, IS_ALPHA, IS_DIGIT, set_txt]
  obtain ⟨c, r, hc, hc32, hc9, hc61, hc0⟩ := int_tokens_head a
  have h2 : expect_equals (set_txt s
      (0xFF :: 0x96 :: (int_tokens a ++ 0xFF :: 0x85 :: (int_tokens b ++ tail)))) =
      .ok (set_txt s (int_tokens a ++ 0xFF :: 0x85 :: (int_tokens b ++ tail))) := by
    have hm := match_token_hit s TOK_EQ 0x96
      (int_tokens a ++ 0xFF :: 0x85 :: (int_tokens b ++ tail)) (by decide) (by decide)
      (by decide) (by decide)
    have hs := skip_spaces_set_txt_cons s 0xFF
      (0x96 :: (int_tokens a ++ 0xFF :: 0x85 :: (int_tokens b ++ tail))) (by decide) (by decide)
    simp only [expect_equals, hs, hm, peek_char_set_txt_cons]
    rw [hc]
    simp [skip_raw, hc61]
  have h3 := eval_numeric_int_literal fuel s a (0xFF :: 0x85 :: (int_tokens b ++ tail)) ha
    (by simp [ends_expression])
  obtain ⟨s2, h4, h5, h6, h7⟩ := set_variable_single
    (set_txt s (0xFF :: 0x85 :: (int_tokens b ++ tail))) [73] (dyadic.ofInt a) (by decide)
  have h5' : s2 = set_txt s2 (0xFF :: 0x85 :: (int_tokens b ++ tail)) := by
    rw [set_txt_of_txtptr]
    rw [h5]
    rfl
  have hsk : skip_spaces s2 = s2 := by
    rw [h5']
    exact skip_spaces_set_txt_cons _ _ _ (by decide) (by decide)
  have h8 : match_token TOK_TO (skip_spaces s2) = (true, set_txt s2 (int_tokens b ++ tail)) := by
    rw [hsk, h5']
    exact match_token_hit _ TOK_TO 0x85 _ (by decide) (by decide) (by decide) (by decide)
  have h9 := eval_numeric_int_literal fuel s2 b tail hb hetail
  have hfsp : s2.forsp = s.forsp := by rw [h5]; rfl
  have hfst : s2.forstack = s.forstack := by rw [h5]; rfl
  refine ⟨set_txt s2 [0], ?_, hfsp, hfst⟩
  simp only [do_for, h1, h2, Res.ok_bind, h3, h4, h8, h9]
  cases down with
  | false =>
    have ht : tail = [0] := by rw [← htail]; rfl
    subst ht
    have h10 : match_token TOK_STEP (skip_spaces (set_txt s2 [0])) = (false, set_txt s2 [0]) := by
      have hs := skip_spaces_set_txt_cons s2 0 [] (by decide) (by decide)
      simp [match_token, hs]
    have e1 : (set_txt s2 [0]).forsp = s.forsp := hfsp
    simp only [h10, Bool.false_eq_true, if_false, Res.pure_eq, Res.ok_bind, e1, hsp, if_true]
    simp
  | true =>
    have ht : tail = 0xFF :: 0x88 :: (int_tokens (-1) ++ [0]) := by rw [← htail]; rfl
    subst ht
    have h10 : match_token TOK_STEP (skip_spaces (set_txt s2
        (0xFF :: 0x88 :: (int_tokens (-1) ++ [0])))) =
        (true, set_txt s2 (int_tokens (-1) ++ [0])) := by
      rw [skip_spaces_set_txt_cons _ _ _ (by decide) (by decide)]
      exact match_token_hit _ TOK_STEP 0x88 _ (by decide) (by decide) (by decide) (by decide)
    have h11 := eval_numeric_int_literal fuel s2 (-1) [0] (by decide) (by rfl)
    have e1 : (set_txt s2 [0]).forsp = s.forsp := hfsp
    simp only [h10, h11, if_true, Res.pure_eq, Res.ok_bind, e1, hsp]
    simp

theorem reachable_direct_state (fuel : Nat) (s : state_t) (line : List Nat) (h : reachable s) :
    reachable (execute_direct fuel s line).state := by
  cases he : execute_direct fuel s line with
  | ok s1 => exact reachable.direct fuel s s1 line h he
  | error e s1 =>
    exfalso
    unfold execute_direct at he
    simp only [] at he
    split at he <;> simp at he
  | unmodelled => exact reachable.init
  | fuel => exact reachable.init

theorem reachable_iterate (f : state_t → state_t) (hf : ∀ s, reachable s → reachable (f s))
    (n : Nat) (s : state_t) (h : reachable s) : reachable (f^[n] s) := by
  induction n generalizing s with
  | zero => exact h
  | succ n ih =>
    rw [Function.iterate_succ_apply]
    exact ih _ (hf s h)

theorem reachable_full_for_state : reachable full_for_state :=
  reachable_iterate _ (fun s h => reachable_direct_state 10 s _ h) 50 init_state reachable.init

set_option maxRecDepth 1000000 in
theorem full_for_state_forsp : full_for_state.forsp = STACK_SIZE := by
  decide!

set_option maxRecDepth 1000000 in
/-- C22 (fails for FOR): after `FOR I = 1 TO 2` was entered 50 times
the FOR stack holds `STACK_SIZE` entries. In this state `FOR J = 1/0 TO 2`
raises Division by zero (error 11), not Out of memory: the start value is
evaluated before the stack is tested. `FOR J = 1 TO 2` raises Out of memory. -/
theorem for_full_stack_counterexample :
    reachable full_for_state ∧ full_for_state.forsp = STACK_SIZE ∧
    (execute_statement 10 (set_txt full_for_state
      (tokenize_line (cstr "FOR J = 1/0 TO 2")))).raised = some ERR_DIV_ZERO ∧
    (execute_statement 10 (set_txt full_for_state
      (tokenize_line (cstr "FOR J = 1/0 TO 2")))).raised ≠ some ERR_OUT_OF_MEM ∧
    (execute_direct 10 full_for_state (cstr "FOR J = 1/0 TO 2")).output =
      some (cstr "Division by zero\n") ∧
    (execute_statement 10 (set_txt full_for_state
      (tokenize_line (cstr "FOR J = 1 TO 2")))).raised = some ERR_OUT_OF_MEM := by
  refine ⟨reachable_full_for_state, full_for_state_forsp, ?_, ?_, ?_, ?_⟩ <;> decide!

/-- In every state reachable from `init_state` the three
stack pointers are at most `STACK_SIZE` (they are never negative: a pointer is
decremented only after a test that it is not zero); every statement, whatever
its outcome, ends in a state within the bound. GOSUB and WHILE executed while
their own stack holds `STACK_SIZE` entries raise Out of memory (error 7) at
once, in a state whose stacks are those of the state before. FOR tests its
stack after it has evaluated its start, limit and step and has assigned the
start value: with `STACK_SIZE` entries on the FOR stack it never returns
normally and never changes a stack pointer, and when its expressions are
integer literals the error it raises is Out of memory, with the stack as it
was. -/
theorem stack_pointers_within_bound (s : state_t) (hs : reachable s) :
    stacks_ok s ∧
    (∀ fuel, (execute_statement fuel s).bounded (fun r => r)) ∧
    (∀ ev, s.gosubsp = STACK_SIZE → do_gosub ev s = error ERR_OUT_OF_MEM s) ∧
    (∀ ev, s.whilesp = STACK_SIZE → do_while ev s = error ERR_OUT_OF_MEM s) ∧
    (pointers (error_state ERR_OUT_OF_MEM s) = pointers s ∧
      (error_state ERR_OUT_OF_MEM s).forstack = s.forstack ∧
      (error_state ERR_OUT_OF_MEM s).gosubstack = s.gosubstack ∧
      (error_state ERR_OUT_OF_MEM s).whilestack = s.whilestack) ∧
    (s.forsp = STACK_SIZE → ∀ fuel, (do_for (eval_expr fuel) s).refuses (pointers s)) ∧
    (s.forsp = STACK_SIZE → ∀ (fuel : Nat) (a b : Int) (down : Bool),
      -2147483647 ≤ a ∧ a ≤ 2147483647 → -2147483647 ≤ b ∧ b ≤ 2147483647 →
      ∃ s2, do_for (eval_expr (fuel + 3)) (set_txt s ((for_tokens a b down).drop 1)) =
          error ERR_OUT_OF_MEM s2 ∧
        s2.forsp = s.forsp ∧ s2.forstack = s.forstack) := by
  have hok := reachable_stacks_ok s hs
  refine ⟨hok, fun fuel => bounded_execute_statement fuel s hok, ?_, ?_, ⟨?_, ?_, ?_, ?_⟩, ?_, ?_⟩
  · intro ev h
    have : s.gosubsp ≥ STACK_SIZE := by omega
    simp [do_gosub, this]
  · intro ev h
    have : s.whilesp ≥ STACK_SIZE := by omega
    simp [do_while, this]
  · simp
  · unfold error_state
    split <;> rfl
  · unfold error_state
    split <;> rfl
  · unfold error_state
    split <;> rfl
  · intro h fuel
    exact do_for_full _ (keeps_eval_expr fuel) s (by omega)
  · intro h fuel a b down ha hb
    exact do_for_literal_full fuel s a b down ha hb (by omega)

/-- Instance of the stack-bound theorem at the state reached by opening fifty
FOR loops in direct mode: the state is reachable, its FOR stack is full, every
statement executed from it keeps the three pointers within 0..50, and
`FOR I = 1 TO 2` raises Out of memory without touching the FOR stack. -/
theorem stack_pointers_within_bound_witness :
    reachable full_for_state ∧ full_for_state.forsp = STACK_SIZE ∧
    stacks_ok full_for_state ∧
    (∀ fuel, (execute_statement fuel full_for_state).bounded (fun r => r)) ∧
    (∀ fuel, ∃ s2, do_for (eval_expr (fuel + 3))
        (set_txt full_for_state ((for_tokens 1 2 false).drop 1)) =
        error ERR_OUT_OF_MEM s2 ∧ s2.forsp = full_for_state.forsp ∧
        s2.forstack = full_for_state.forstack) := by
  have h := stack_pointers_within_bound full_for_state reachable_full_for_state
  exact ⟨reachable_full_for_state, full_for_state_forsp, h.1, h.2.1,
    fun fuel => h.2.2.2.2.2.2 full_for_state_forsp fuel 1 2 false (by decide) (by decide)⟩

/-! ## The messages of the error codes -/

/-- C38 (fails): the three file messages sit at the indices 51, 52
and 53 of `error_messages[]`, one below their codes `ERR_BAD_FILE` (52),
`ERR_FILE_NOTFND` (53) and `ERR_BAD_MODE` (54). So `error_message(52)` is
"File not found", `error_message(53)` is "Bad file mode" and
`error_message(54)` is "Unknown error"; the error `ERR_FILE_NOTFND` that
`do_load` raises for a missing file is reported in direct mode as
"Bad file mode". The codes 0 to 20 have their own messages. -/
theorem error_message_file_codes :
    error_messages.length = 54 ∧
    error_messages[51]? = some (some (cstr "Bad file number")) ∧
    error_message ERR_BAD_FILE = cstr "File not found" ∧
    error_message ERR_FILE_NOTFND = cstr "Bad file mode" ∧
    error_message ERR_BAD_MODE = cstr "Unknown error" ∧
    error_message ERR_BAD_FILE ≠ cstr "Bad file number" ∧
    error_message ERR_FILE_NOTFND ≠ cstr "File not found" ∧
    error_message ERR_BAD_MODE ≠ cstr "Bad file mode" ∧
    (error_state ERR_FILE_NOTFND direct_state).output = cstr "Bad file mode\n" ∧
    [ERR_NONE, ERR_NEXT_NO_FOR, ERR_SYNTAX, ERR_RETURN, ERR_OUT_OF_DATA, ERR_ILLEGAL_FUNC,
      ERR_OVERFLOW, ERR_OUT_OF_MEM, ERR_UNDEF_LINE, ERR_SUBSCRIPT, ERR_REDIM, ERR_DIV_ZERO,
      ERR_TYPE_MISM, ERR_OUT_OF_STR, ERR_STRING_LONG, ERR_STRING_COMP, ERR_CANT_CONT,
      ERR_UNDEF_USER, ERR_NO_RESUME, ERR_RESUME_NOERR].map (fun e => error_message e) =
    [cstr "No error", cstr "NEXT without FOR", cstr "Syntax error", cstr "RETURN without GOSUB",
      cstr "Out of DATA", cstr "Illegal function call", cstr "Overflow", cstr "Out of memory",
      cstr "Undefined line number", cstr "Subscript out of range", cstr "Duplicate definition",
      cstr "Division by zero", cstr "Type mismatch", cstr "Out of string space",
      cstr "String too long", cstr "String formula too complex", cstr "Can't continue",
      cstr "Undefined user function", cstr "No RESUME", cstr "RESUME without error"] ∧
    [(-1 : Int), 12, 21, 50, 55, 255].map error_message =
      List.replicate 6 (cstr "Unknown error") := by
  refine ⟨by decide, by decide, by decide, by decide, by decide, by decide, by decide, by decide,
    by decide, by decide, by decide⟩

/-! ## `normalize_name` on names of every length -/

theorem normalize_name_loop_plain (base rest : List Nat) (room : Nat)
    (hbase : ∀ c ∈ base, is_plain_name_char c = true) (hroom : room ≤ base.length) :
    normalize_name_loop room (base ++ rest) = ((base.map upcase).take room, 0) := by
  induction base generalizing room with
  | nil =>
    simp only [List.length_nil, Nat.le_zero] at hroom
    subst hroom
    simp [normalize_name_loop]
  | cons c base ih =>
    cases room with
    | zero => simp [normalize_name_loop]
    | succ room =>
      have hc : (IS_ALNUM c || c == 46) = true := hbase c (List.mem_cons_self _ _)
      simp only [List.length_cons, Nat.add_le_add_iff_right] at hroom
      rw [List.cons_append, normalize_name_loop, if_pos hc,
        ih room (fun x hx => hbase x (List.mem_cons_of_mem _ hx)) hroom]
      simp

theorem normalize_name_loop_bare (base : List Nat) (room : Nat)
    (hbase : ∀ c ∈ base, is_plain_name_char c = true) :
    normalize_name_loop room base = ((base.map upcase).take room, 0) := by
  induction base generalizing room with
  | nil => cases room <;> simp [normalize_name_loop]
  | cons c base ih =>
    cases room with
    | zero => simp [normalize_name_loop]
    | succ room =>
      have hc : (IS_ALNUM c || c == 46) = true := hbase c (List.mem_cons_self _ _)
      rw [normalize_name_loop, if_pos hc, ih room (fun x hx => hbase x (List.mem_cons_of_mem _ hx))]
      simp

set_option maxRecDepth 1000000 in
/-- C31 (as stated, fails): for a name of 40 letters followed by `$` the
copying loop of `normalize_name` stops when the name buffer is full, before it
reads the suffix: the type is the default Single, not String. The same holds
for 41 letters followed by `%`; with 39 letters the suffix is read. -/
theorem normalize_name_long_counterexample :
    normalize_name (List.replicate 40 97 ++ cstr "$") = (List.replicate 40 65, TYPE_SNG) ∧
    (normalize_name (List.replicate 40 97 ++ cstr "$")).2 ≠ TYPE_STR ∧
    normalize_name (List.replicate 41 97 ++ cstr "%") = (List.replicate 40 65, TYPE_SNG) ∧
    (normalize_name (List.replicate 41 97 ++ cstr "%")).2 ≠ TYPE_INT ∧
    normalize_name (List.replicate 39 97 ++ cstr "$") = (List.replicate 39 65, TYPE_STR) := by
  refine ⟨by decide, by decide, by decide, by decide, by decide⟩

/-- C31 (as amended): for a name whose identifier part `base` (letters, digits
and `.`) is followed by one of the suffixes `$ % ! #`, `normalize_name` yields
the upper-cased identifier part without the suffix and the type of the suffix
(`$` String, `%` Integer, `!` Single, `#` Double) when the identifier part has
fewer than `NAMLEN` characters; when it has `NAMLEN` characters or more, the
result is its first `NAMLEN` characters in upper case and the type Single,
whatever the suffix. For a name with no suffix the result is the upper-cased
name truncated to `NAMLEN` characters and the type Single. -/
theorem normalize_name_suffix_and_length (base : List Nat) (c : Nat)
    (hbase : ∀ x ∈ base, is_plain_name_char x = true) (hc : is_type_suffix c = true) :
    (base.length < NAMLEN → normalize_name (base ++ [c]) = (base.map upcase, suffix_type c)) ∧
    (NAMLEN ≤ base.length →
      normalize_name (base ++ [c]) = ((base.map upcase).take NAMLEN, TYPE_SNG)) ∧
    normalize_name base = ((base.map upcase).take NAMLEN, TYPE_SNG) ∧
    suffix_type 36 = TYPE_STR ∧ suffix_type 37 = TYPE_INT ∧ suffix_type 33 = TYPE_SNG ∧
    suffix_type 35 = TYPE_DBL := by
  refine ⟨fun hlen => normalize_name_suffix base c hbase hlen hc, fun hlen => ?_, ?_,
    by decide, by decide, by decide, by decide⟩
  · simp [normalize_name, normalize_name_loop_plain base [c] NAMLEN hbase hlen]
  · simp [normalize_name, normalize_name_loop_bare base NAMLEN hbase]

theorem normalize_name_suffix_and_length_witness :
    normalize_name (cstr "ab1" ++ [37]) = ((cstr "ab1").map upcase, suffix_type 37) ∧
    (cstr "ab1").map upcase = cstr "AB1" ∧ suffix_type 37 = TYPE_INT ∧
    normalize_name (cstr "ab1") = (((cstr "ab1").map upcase).take NAMLEN, TYPE_SNG) ∧
    normalize_name (List.replicate 40 97 ++ [37]) =
      (((List.replicate 40 97).map upcase).take NAMLEN, TYPE_SNG) := by
  have h := normalize_name_suffix_and_length (cstr "ab1") 37 (by decide) (by decide)
  have h2 := normalize_name_suffix_and_length (List.replicate 40 97) 37 (by decide) (by decide)
  exact ⟨h.1 (by decide), by decide, by decide, h.2.2.1, h2.2.1 (by decide)⟩

/-! ## Array elements are stored in row-major order -/

theorem spec_row_major_cons (d : Int) (ds : List Int) (i : Int) (is : List Int) :
    spec_row_major (d :: ds) (i :: is) = i * ds.prod + spec_row_major ds is := rfl

theorem spec_row_major_append (ds is : List Int) (d i : Int) (hlen : is.length = ds.length) :
    spec_row_major (ds ++ [d]) (is ++ [i]) = spec_row_major ds is * d + i := by
  induction ds generalizing is with
  | nil =>
    cases is with
    | nil => simp [spec_row_major]
    | cons j js => simp at hlen
  | cons d0 ds ih =>
    cases is with
    | nil => simp at hlen
    | cons i0 is =>
      simp only [List.length_cons, Nat.add_right_cancel_iff] at hlen
      rw [List.cons_append, List.cons_append, spec_row_major_cons, spec_row_major_cons,
        ih is hlen, List.prod_append]
      simp only [List.prod_cons, List.prod_nil, mul_one]
      ring

theorem element_offset_row_major (is ds : List Int) (o m : Int)
    (h : List.Forall₂ (fun i d => 0 ≤ i ∧ i < d) is ds) :
    element_offset is ds o m = some (o + m * spec_row_major ds.reverse is.reverse) := by
  induction h generalizing o m with
  | nil => simp [element_offset, spec_row_major]
  | @cons i d is ds hid hrest ih =>
    have hb : ¬ (i < 0 ∨ i ≥ d) := by omega
    rw [element_offset, if_neg hb, ih, List.reverse_cons, List.reverse_cons,
      spec_row_major_append _ _ _ _ (by simp [hrest.length_eq])]
    congr 1
    ring

theorem spec_row_major_bound (ds is : List Int) (h : in_bounds ds is) :
    0 ≤ spec_row_major ds is ∧ spec_row_major ds is + 1 ≤ ds.prod := by
  unfold in_bounds at h
  induction h with
  | nil => simp [spec_row_major]
  | @cons i d is ds hid hrest ih =>
    rw [spec_row_major_cons, List.prod_cons]
    obtain ⟨h1, h2⟩ := ih
    have hp : 0 ≤ ds.prod := by omega
    have hi : 0 ≤ i * ds.prod := mul_nonneg hid.1 hp
    have hi2 : (i + 1) * ds.prod ≤ d * ds.prod := mul_le_mul_of_nonneg_right (by omega) hp
    constructor
    · omega
    · nlinarith

theorem spec_row_major_injective (ds is js : List Int) (hi : in_bounds ds is)
    (hj : in_bounds ds js) (h : spec_row_major ds is = spec_row_major ds js) : is = js := by
  unfold in_bounds at hi hj
  induction hi generalizing js with
  | nil =>
    cases hj
    rfl
  | @cons i d is ds hid hrest ih =>
    cases hj with
    | @cons j _ js _ hjd hjrest =>
      rw [spec_row_major_cons, spec_row_major_cons] at h
      obtain ⟨a1, a2⟩ := spec_row_major_bound ds is hrest
      obtain ⟨b1, b2⟩ := spec_row_major_bound ds js hjrest
      have hij : i = j := by
        rcases lt_trichotomy i j with hlt | heq | hgt
        · have : (i + 1) * ds.prod ≤ j * ds.prod :=
            mul_le_mul_of_nonneg_right (by omega) (by omega)
          nlinarith
        · exact heq
        · have : (j + 1) * ds.prod ≤ i * ds.prod :=
            mul_le_mul_of_nonneg_right (by omega) (by omega)
          nlinarith
      subst hij
      have hr : spec_row_major ds is = spec_row_major ds js := by omega
      rw [ih js hjrest hr]

/-- C32: after a `dimension_array` that succeeded for the dimension sizes
`d1..dk` (`1 <= k <= 8`), the array has `d1*...*dk` elements and
`array_element` maps every in-bounds index tuple to the row-major offset (the
sum over `j` of `i_j` times the product of the later sizes); that offset is
less than the size and is the position of an element of the storage; and two
in-bounds tuples that are mapped to the same offset are equal. -/
theorem array_element_row_major (s s1 : state_t) (name : List Nat) (type : Nat)
    (dims : List Int) (hinv : arrays_ok s) (hk : 1 ≤ dims.length ∧ dims.length ≤ 8)
    (hdim : dimension_array s name dims type = .ok s1) :
    ∃ i arr, s1.arrlist[i]? = some arr ∧ arr.size = dims.prod ∧
      (∀ is, in_bounds dims is →
        array_element s1 name is = .ok (i, (spec_row_major dims is).toNat, s1) ∧
        0 ≤ spec_row_major dims is ∧ spec_row_major dims is < arr.size ∧
        (read_element s1 i (spec_row_major dims is).toNat).isSome = true) ∧
      (∀ is js off, in_bounds dims is → in_bounds dims js →
        array_element s1 name is = .ok (i, off, s1) →
        array_element s1 name js = .ok (i, off, s1) → is = js) := by
  obtain ⟨i, arr, hget, hidx, hnd, htake, hsize, hdl, elem, hdata⟩ :=
    dimension_array_ok_inv s s1 name dims type hinv hk.2 hdim
  have hne : arr.ndims ≠ 0 := by
    rw [hnd]
    omega
  have hmap : ∀ is, in_bounds dims is →
      array_element s1 name is = .ok (i, (spec_row_major dims is).toNat, s1) := by
    intro is hin
    have hae := array_element_dimensioned s1 name is i arr hidx hget hne
    rw [hnd, htake] at hae
    have hlen : is.length = dims.length := List.Forall₂.length_eq hin
    have hoff := element_offset_row_major is.reverse dims.reverse 0 1
      (List.forall₂_reverse_iff.mpr hin)
    simp only [List.reverse_reverse, zero_add, one_mul] at hoff
    rw [hae, if_neg (by simp [hlen]), hoff]
  refine ⟨i, arr, hget, hsize, fun is hin => ?_, fun is js off hi hj h1 h2 => ?_⟩
  · obtain ⟨b1, b2⟩ := spec_row_major_bound dims is hin
    refine ⟨hmap is hin, b1, by omega, ?_⟩
    have hlt : (spec_row_major dims is).toNat < dims.prod.toNat := by omega
    simp [read_element, hget, hdata, hlt]
  · rw [hmap is hi] at h1
    rw [hmap js hj] at h2
    obtain ⟨a1, _⟩ := spec_row_major_bound dims is hi
    obtain ⟨b1, _⟩ := spec_row_major_bound dims js hj
    have e1 : (spec_row_major dims is).toNat = off := by
      simpa using congrArg (fun r => match r with | Res.ok x => x.2.1 | _ => 0) h1
    have e2 : (spec_row_major dims js).toNat = off := by
      simpa using congrArg (fun r => match r with | Res.ok x => x.2.1 | _ => 0) h2
    exact spec_row_major_injective dims is js hi hj (by omega)

theorem array_element_row_major_witness :
    in_bounds [3, 4] [1, 2] ∧
    ∃ i arr, dim_a23_state.arrlist[i]? = some arr ∧ arr.size = ([3, 4] : List Int).prod ∧
      (array_element dim_a23_state (cstr "A") [1, 2] =
          .ok (i, (spec_row_major [3, 4] [1, 2]).toNat, dim_a23_state) ∧
        0 ≤ spec_row_major [3, 4] [1, 2] ∧ spec_row_major [3, 4] [1, 2] < arr.size ∧
        (read_element dim_a23_state i (spec_row_major [3, 4] [1, 2]).toNat).isSome = true) ∧
      (∀ is js off, in_bounds [3, 4] is → in_bounds [3, 4] js →
        array_element dim_a23_state (cstr "A") is = .ok (i, off, dim_a23_state) →
        array_element dim_a23_state (cstr "A") js = .ok (i, off, dim_a23_state) → is = js) := by
  obtain ⟨i, arr, h1, h2, h3, h4⟩ :=
    array_element_row_major init_state dim_a23_state (cstr "A") TYPE_SNG [3, 4]
      (fun a ha => by simp [init_state] at ha) ⟨by decide, by decide⟩ rfl
  have hin : in_bounds [3, 4] [1, 2] := by
    unfold in_bounds
    exact List.Forall₂.cons (by decide) (List.Forall₂.cons (by decide) List.Forall₂.nil)
  exact ⟨hin, i, arr, h1, h2, h3 [1, 2] hin, h4⟩

/-- After `DIM A(2,3)` (sizes 3 and 4) the element `A(1,2)` is at offset
`1 * 4 + 2 = 6`, `A(2,3)` at the last offset 11 and `A(0,0)` at offset 0. -/
theorem row_major_examples :
    dimension_array init_state (cstr "A") [3, 4] TYPE_SNG = .ok dim_a23_state ∧
    array_element dim_a23_state (cstr "A") [1, 2] = .ok (0, 6, dim_a23_state) ∧
    array_element dim_a23_state (cstr "A") [2, 3] = .ok (0, 11, dim_a23_state) ∧
    array_element dim_a23_state (cstr "A") [0, 0] = .ok (0, 0, dim_a23_state) ∧
    spec_row_major [3, 4] [1, 2] = 6 := by
  refine ⟨rfl, rfl, rfl, rfl, rfl⟩

/-! ## The cache refers to a variable of the list -/

theorem cache_hit_full_search (s : state_t) (name : List Nat) (i : Nat) (hok : vars_ok s)
    (h : cache_hit s (normalize_name name).1 (normalize_name name).2 = some i) :
    full_search s name = some i := by
  obtain ⟨_, v, hv, hn, ht⟩ := cache_hit_spec _ _ _ _ h
  obtain ⟨hlt, hget⟩ := List.getElem?_eq_some_iff.mp hv
  unfold full_search
  rw [List.findIdx?_eq_some_iff_getElem]
  refine ⟨hlt, by simp [hget, hn, ht], ?_⟩
  intro j hj hp
  simp only [Bool.and_eq_true, beq_iff_eq] at hp
  have hj' : j < (s.varlist.map var_t.key).length := by
    rw [List.length_map]
    omega
  have hi' : i < (s.varlist.map var_t.key).length := by
    rw [List.length_map]
    omega
  have hkey : (s.varlist.map var_t.key)[j] = (s.varlist.map var_t.key)[i] := by
    simp [var_t.key, hget, hp.1, hp.2, hn, ht]
  have := (List.Nodup.getElem_inj_iff hok).mp hkey
  omega

theorem find_variable_cases (s : state_t) (name : List Nat) (create : Bool) (hok : vars_ok s) :
    (∃ i, full_search s name = some i ∧
      (find_variable s name create = (some i, s) ∧ s.lastvar = some i ∨
       find_variable s name create = (some i, { s with lastvar := some i }))) ∨
    (full_search s name = none ∧
      find_variable s name create =
        if create then
          (some s.varlist.length,
            { s with varlist := s.varlist ++ [⟨(normalize_name name).1, (normalize_name name).2,
                       initial_value (normalize_name name).2⟩],
                     lastvar := some s.varlist.length })
        else (none, s)) := by
  cases hc : cache_hit s (normalize_name name).1 (normalize_name name).2 with
  | some i =>
    left
    exact ⟨i, cache_hit_full_search s name i hok hc,
      Or.inl ⟨by simp only [find_variable, hc], (cache_hit_spec _ _ _ _ hc).1⟩⟩
  | none =>
    cases hf : full_search s name with
    | some i =>
      left
      unfold full_search at hf
      exact ⟨i, rfl, Or.inr (by simp only [find_variable, hc, hf])⟩
    | none =>
      right
      unfold full_search at hf
      exact ⟨rfl, by simp only [find_variable, hc, hf]⟩

theorem full_search_lt (s : state_t) (name : List Nat) (i : Nat)
    (h : full_search s name = some i) : ∃ v, s.varlist[i]? = some v := by
  unfold full_search at h
  rw [List.findIdx?_eq_some_iff_getElem] at h
  obtain ⟨hlt, _⟩ := h
  exact ⟨s.varlist[i], List.getElem?_eq_getElem hlt⟩

theorem full_search_none (s : state_t) (name : List Nat) (h : full_search s name = none) :
    ∀ v ∈ s.varlist, v.key ≠ normalize_name name := by
  intro v hv hk
  unfold full_search at h
  have := List.findIdx?_eq_none_iff.mp h v hv
  simp [var_t.key] at hk
  rw [← hk] at this
  simp at this

theorem find_variable_inv (s : state_t) (name : List Nat) (create : Bool)
    (hok : vars_ok s) (hc : cache_ok s) :
    vars_ok (find_variable s name create).2 ∧ cache_ok (find_variable s name create).2 := by
  rcases find_variable_cases s name create hok with ⟨i, hf, h | h⟩ | ⟨hf, h⟩
  · rw [h.1]
    exact ⟨hok, hc⟩
  · rw [h]
    obtain ⟨v, hv⟩ := full_search_lt s name i hf
    exact ⟨hok, Or.inr ⟨i, v, rfl, hv⟩⟩
  · rw [h]
    cases create with
    | false => exact ⟨hok, hc⟩
    | true =>
      simp only [if_true]
      constructor
      · unfold vars_ok
        simp only [List.map_append, List.map_cons, List.map_nil]
        rw [List.nodup_append]
        refine ⟨hok, by simp, ?_⟩
        intro k hk1 hk2
        simp only [List.mem_singleton] at hk2
        obtain ⟨u, hu, huk⟩ := List.mem_map.mp hk1
        apply full_search_none s name hf u hu
        rw [huk, hk2]
        rfl
      · exact Or.inr ⟨s.varlist.length,
          ⟨(normalize_name name).1, (normalize_name name).2,
            initial_value (normalize_name name).2⟩, rfl, by simp⟩

theorem get_variable_find (s : state_t) (name : List Nat) :
    (get_variable s name).2.2 = (find_variable s name true).2 := by
  unfold get_variable
  split
  · next h => simp [h]
  · next i s1 h =>
    split <;> simp [h]

theorem set_variable_cache (s s' : state_t) (name : List Nat) (val : value_t) (type : Nat)
    (h : set_variable s name val type = .ok s') :
    s'.lastvar = (find_variable s name true).2.lastvar ∧
    s'.varlist.length = (find_variable s name true).2.varlist.length := by
  unfold set_variable at h
  split at h
  · next s1 hs =>
    simp only [Res.ok.injEq] at h
    subst h
    simp [hs]
  · next i s1 hs =>
    simp only [hs]
    repeat' split at h
    all_goals first
      | (simp only [Res.ok.injEq] at h
         subst h
         simp)
      | simp at h

theorem set_variable_inv (s s' : state_t) (name : List Nat) (val : value_t) (type : Nat)
    (hok : vars_ok s) (hc : cache_ok s) (h : set_variable s name val type = .ok s') :
    vars_ok s' ∧ cache_ok s' := by
  refine ⟨(set_variable_frame s s' name val type hok h).1, ?_⟩
  obtain ⟨h1, h2⟩ := set_variable_cache s s' name val type h
  rcases (find_variable_inv s name true hok hc).2 with hn | ⟨i, v, hi, hv⟩
  · exact Or.inl (by rw [h1, hn])
  · have hlt : i < s'.varlist.length := by
      rw [h2]
      exact (List.getElem?_eq_some_iff.mp hv).1
    exact Or.inr ⟨i, s'.varlist[i], by rw [h1, hi], List.getElem?_eq_getElem hlt⟩

theorem variables_reachable_inv (s : state_t) (hs : variables_reachable s) :
    vars_ok s ∧ cache_ok s := by
  induction hs with
  | start s h1 h2 => exact ⟨by simp [vars_ok, h1], Or.inl h2⟩
  | find s name create _ ih => exact find_variable_inv s name create ih.1 ih.2
  | set s s1 name val type _ h ih => exact set_variable_inv s s1 name val type ih.1 ih.2 h
  | get s name _ ih =>
    rw [get_variable_find]
    exact find_variable_inv s name true ih.1 ih.2
  | clear s _ _ => exact ⟨by simp [vars_ok, clear_variables], Or.inl rfl⟩

/-- C33: in every state reached from one with no variables by calls of
`find_variable`, `set_variable`, `get_variable` and `clear_variables`, the
cache `lastvar` is empty or refers to an entry of the variable list, and
`find_variable` returns the slot that a full search of the list for the
normalised name and type returns: when the search finds the variable at index
`i`, `find_variable` returns `i` and leaves the list as it is; when it finds
none, `find_variable(name, 0)` returns `NULL` and changes nothing, and
`find_variable(name, 1)` appends the variable and returns the new slot, which
is the one a full search of the new list returns. `clear_variables` leaves the
list and the cache empty. -/
theorem cache_refers_to_listed_variable (s : state_t) (hs : variables_reachable s) :
    cache_ok s ∧
    (∀ name create i, full_search s name = some i →
      (find_variable s name create).1 = some i ∧
      (find_variable s name create).2.varlist = s.varlist ∧
      (find_variable s name create).2.lastvar = some i) ∧
    (∀ name, full_search s name = none →
      find_variable s name false = (none, s) ∧
      (find_variable s name true).1 = some s.varlist.length ∧
      full_search (find_variable s name true).2 name = some s.varlist.length ∧
      (find_variable s name true).2.lastvar = some s.varlist.length) ∧
    (clear_variables s).varlist = [] ∧ (clear_variables s).lastvar = none := by
  obtain ⟨hok, hc⟩ := variables_reachable_inv s hs
  refine ⟨hc, ?_, ?_, rfl, rfl⟩
  · intro name create i hi
    rcases find_variable_cases s name create hok with ⟨j, hf, h | h⟩ | ⟨hf, h⟩
    · rw [hi] at hf
      cases hf
      rw [h.1]
      exact ⟨rfl, rfl, h.2⟩
    · rw [hi] at hf
      cases hf
      rw [h]
      exact ⟨rfl, rfl, rfl⟩
    · rw [hi] at hf
      cases hf
  · intro name hn
    rcases find_variable_cases s name false hok with ⟨j, hf, _⟩ | ⟨_, h0⟩
    · rw [hn] at hf
      cases hf
    rcases find_variable_cases s name true hok with ⟨j, hf, _⟩ | ⟨_, h1⟩
    · rw [hn] at hf
      cases hf
    simp only [if_true] at h1
    refine ⟨by simpa using h0, by rw [h1], ?_, by rw [h1]⟩
    rw [h1]
    unfold full_search at hn ⊢
    simp only []
    rw [List.findIdx?_append, hn]
    simp [List.findIdx?_cons]



theorem cache_refers_to_listed_variable_witness :
    variables_reachable two_variables_state ∧
    two_variables_state.varlist.length = 2 ∧ two_variables_state.lastvar = some 1 ∧
    cache_ok two_variables_state ∧
    full_search two_variables_state (cstr "x%") = some 0 ∧
    (find_variable two_variables_state (cstr "x%") false).1 = some 0 ∧
    (find_variable two_variables_state (cstr "x%") false).2.lastvar = some 0 ∧
    full_search two_variables_state (cstr "Z") = none ∧
    find_variable two_variables_state (cstr "Z") false = (none, two_variables_state) ∧
    (find_variable two_variables_state (cstr "Z") true).1 = some 2 ∧
    (clear_variables two_variables_state).varlist = [] ∧
    (clear_variables two_variables_state).lastvar = none := by
  have hr : variables_reachable two_variables_state :=
    variables_reachable.get x_int_state (cstr "Y")
      (variables_reachable.set init_state x_int_state (cstr "X%") (.intval 5) TYPE_INT
        (variables_reachable.start init_state rfl rfl) rfl)
  have h := cache_refers_to_listed_variable two_variables_state hr
  have hx := h.2.1 (cstr "x%") false 0 (by decide)
  have hz := h.2.2.1 (cstr "Z") (by decide)
  exact ⟨hr, by decide, by decide, h.1, by decide, hx.1, hx.2.2, by decide, hz.1, hz.2.1,
    h.2.2.2.1, h.2.2.2.2⟩

/-! ## An array element is read as Single whatever was stored -/

set_option maxRecDepth 1000000 in
/-- C34 (fails): `A(1) = 3` copies the value of the expression into
the element as it is, with the member `intval` written, and `A(1) = 1/2`
writes the member `dblval`. Evaluating `A(1)` returns the element with the
type Single, so its user reads the member `sngval` of a union in which another
member was written: what `PRINT A(1)` prints is not the number stored (the
embedding has no value for such a read). The scalar `B = 3` is converted to
the type of the variable and `PRINT B` prints 3. -/
theorem array_element_read_as_single :
    (run_program 20 20 0 array_store_program).array_data =
      some [some [.zero, .intval 3, .zero, .zero, .zero]] ∧
    (eval_expr 10 (set_txt (run_program 20 20 0 array_store_program).state
      (tokenize_line (cstr "A(1)")))).value = some (.intval 3, TYPE_SNG) ∧
    (value_t.intval 3).as_single = none ∧
    print_value (.intval 3) TYPE_SNG = none ∧
    (run_program 20 20 0 array_print_program).is_unmodelled = true ∧
    (run_program 20 20 0 array_store_double_program).array_data =
      some [some [.zero, .dblval ⟨1, 1⟩, .zero, .zero, .zero]] ∧
    (eval_expr 10 (set_txt (run_program 20 20 0 array_store_double_program).state
      (tokenize_line (cstr "A(1)")))).value = some (.dblval ⟨1, 1⟩, TYPE_SNG) ∧
    (value_t.dblval ⟨1, 1⟩).as_single = none ∧
    (run_program 20 20 0 scalar_print_program).output = some (cstr "3\n") := by
  refine ⟨?_, ?_, by decide, by decide, ?_, ?_, ?_, by decide, ?_⟩ <;> decide!

/-! ## PRINT before a byte that no expression consumes -/

theorem expr_unary_close_paren (ev : evaluator) (fuel : Nat) (s : state_t) (rest : List Nat) :
    expr_unary ev (fuel + 1) (set_txt s (41 :: rest)) =
      .ok (.sngval ⟨0, 0⟩, TYPE_SNG, set_txt s (41 :: rest)) := by
  have hsk : skip_spaces (set_txt s (41 :: rest)) = set_txt s (41 :: rest) :=
    skip_spaces_set_txt_cons _ _ _ (by decide) (by decide)
  have hpk : peek_char (set_txt s (41 :: rest)) = 41 := rfl
  simp [expr_unary, expr_primary, hsk, hpk,
    match_token_miss s TOK_PLUS 41 rest (by decide) (by decide) (by decide) (by decide) (by decide),
    match_token_miss s TOK_MINUS 41 rest (by decide) (by decide) (by decide) (by decide) (by decide),
    match_token_miss s TOK_NOT 41 rest (by decide) (by decide) (by decide) (by decide) (by decide),
    IS_ALPHA]

theorem eval_expr_close_paren (fuel : Nat) (s : state_t) (rest : List Nat) :
    eval_expr (fuel + 2) (set_txt s (41 :: rest)) =
      .ok (.sngval ⟨0, 0⟩, TYPE_SNG, set_txt s (41 :: rest)) :=
  eval_expr_of_unary fuel _ _ _ s (41 :: rest) (by simp [ends_expression])
    (expr_unary_close_paren _ fuel s rest)

theorem do_print_loop_close_paren (fuel n : Nat) (col : Int) (newline : Bool) (s : state_t)
    (rest : List Nat) :
    do_print_loop (eval_expr (fuel + 2)) (n + 1) col newline (set_txt s (41 :: rest)) =
      do_print_loop (eval_expr (fuel + 2)) n (col + 10) true
        (set_txt (put s [48]) (41 :: rest)) := by
  have hsk : skip_spaces (set_txt s (41 :: rest)) = set_txt s (41 :: rest) :=
    skip_spaces_set_txt_cons _ _ _ (by decide) (by decide)
  have hpk : peek_char (set_txt s (41 :: rest)) = 41 := rfl
  have hpv : print_value (.sngval ⟨0, 0⟩) TYPE_SNG = some ([48], 10) := by decide
  rw [do_print_loop]
  simp only [hsk, hpk,
    match_token_miss s TOK_TAB 41 rest (by decide) (by decide) (by decide) (by decide) (by decide),
    eval_expr_close_paren, Res.ok_bind, hpv]
  simp
  rfl

theorem do_print_loop_never_ends (fuel n : Nat) (col : Int) (newline : Bool) (s : state_t)
    (rest : List Nat) :
    do_print_loop (eval_expr (fuel + 2)) n col newline (set_txt s (41 :: rest)) = .fuel := by
  induction n generalizing col newline s with
  | zero => rfl
  | succ n ih => rw [do_print_loop_close_paren, ih]

/-- C35 (fails): `PRINT )` never ends. `expr_primary` falls through
to its default for a byte that starts no operand and returns zero without
reading it, so an iteration of the item loop of `do_print` that starts at `)`
prints `0` and leaves the text pointer on the same `)`: the loop runs out of
every amount of fuel, in `do_print`, in `execute_statement` and for the line
`PRINT )` typed at the prompt. -/
theorem print_never_ends_before_close_paren (fuel n : Nat) (col : Int) (newline : Bool)
    (s : state_t) (rest : List Nat) :
    tokenize_line (cstr "PRINT )") = [0x91, 41, 0] ∧
    eval_expr (fuel + 2) (set_txt s (41 :: rest)) =
      .ok (.sngval ⟨0, 0⟩, TYPE_SNG, set_txt s (41 :: rest)) ∧
    do_print_loop (eval_expr (fuel + 2)) (n + 1) col newline (set_txt s (41 :: rest)) =
      do_print_loop (eval_expr (fuel + 2)) n (col + 10) true
        (set_txt (put s [48]) (41 :: rest)) ∧
    do_print (eval_expr (fuel + 2)) n (set_txt s (41 :: rest)) = .fuel ∧
    execute_statement (n + 2) (set_txt s (0x91 :: 41 :: rest)) = .fuel ∧
    execute_direct (n + 2) s (cstr "PRINT )") = .fuel := by
  have htok : tokenize_line (cstr "PRINT )") = [0x91, 41, 0] := by decide
  have hex : ∀ s : state_t, execute_statement (n + 2) (set_txt s (0x91 :: 41 :: rest)) = .fuel := by
    intro s
    rw [execute_statement_print]
    exact do_print_loop_never_ends n (n + 2) 0 true s rest
  have hex0 : ∀ s : state_t, execute_statement (n + 2) (set_txt s [0x91, 41, 0]) = .fuel := by
    intro s
    rw [execute_statement_print]
    exact do_print_loop_never_ends n (n + 2) 0 true s [0]
  refine ⟨htok, eval_expr_close_paren fuel s rest,
    do_print_loop_close_paren fuel n col newline s rest,
    do_print_loop_never_ends fuel n 0 true s rest, hex s, ?_⟩
  have h := hex0 { s with curlin := -1, running := false }
  unfold execute_direct
  rw [htok]
  simp only [set_txt] at h
  simp only [h]

/-! ## GOSUB in a THEN clause that an ELSE clause follows -/

set_option maxRecDepth 1000000 in
/-- C36 (fails): in `10 IF 1 THEN GOSUB 100 ELSE PRINT "B"` the
RETURN of the subroutine puts the text pointer back behind `GOSUB 100`, in
front of the ELSE token, and it is the main loop of `run_program` that goes
on from there, not the THEN loop of `do_if` that skips an ELSE clause:
`execute_statement` meets the token ELSE, prints "Unknown statement token: A2"
and raises Syntax error in 10. Line 20 is never reached. Without the ELSE
clause, and with a PRINT in the place of the GOSUB, the program goes on with
line 20. -/
theorem gosub_in_then_meets_else :
    (run_program 20 20 0 gosub_else_program).output =
      some (cstr "S\nUnknown statement token: A2\nSyntax error in 10\n") ∧
    (run_program 20 20 0 gosub_then_program).output = some (cstr "S\nC\n\n") ∧
    (run_program 20 20 0 print_else_program).output = some (cstr "A\nC\n\n") ∧
    ((run_lines 20 3 (program_start gosub_else_program)).state.curlin = 10 ∧
      (run_lines 20 3 (program_start gosub_else_program)).state.txtptr =
        some (0xA2 :: tokenize_line (cstr "PRINT \"B\"")) ∧
      (run_lines 20 3 (program_start gosub_else_program)).state.gosubsp = 0) ∧
    (run_lines 20 4 (program_start gosub_else_program)).raised = some ERR_SYNTAX := by
  refine ⟨?_, ?_, ?_, ⟨?_, ?_, ?_⟩, ?_⟩ <;> decide!

/-! ## NEXT with a variable -/

set_option maxRecDepth 1000000 in
/-- C37 (fails): `do_next` reads the name after NEXT but takes the
limit, the step and the position from the entry on top of the FOR stack,
whatever variable that entry was pushed for. In `10 FOR I = 1 TO 2` /
`20 FOR J = 1 TO 5` / `30 NEXT I` / `40 PRINT I` the stack holds the entry of
`I` (line 10, limit 2) below the entry of `J` (line 20, limit 5) when line 30
is reached; `NEXT I` adds one to `I`, tests it against the limit 5 of `J` and
jumps to line 20, so `I` runs up to 5 and the program prints 5. -/
theorem next_named_uses_top_entry :
    ((run_lines 30 2 (program_start next_named_program)).state.forsp = 2 ∧
      ((run_lines 30 2 (program_start next_named_program)).state.forstack 0).varname = cstr "I" ∧
      ((run_lines 30 2 (program_start next_named_program)).state.forstack 0).linenum = 10 ∧
      ((run_lines 30 2 (program_start next_named_program)).state.forstack 0).limit = ⟨2, 0⟩ ∧
      ((run_lines 30 2 (program_start next_named_program)).state.forstack 1).varname = cstr "J" ∧
      ((run_lines 30 2 (program_start next_named_program)).state.forstack 1).linenum = 20 ∧
      ((run_lines 30 2 (program_start next_named_program)).state.forstack 1).limit = ⟨5, 0⟩ ∧
      (run_lines 30 2 (program_start next_named_program)).state.curlin = 30) ∧
    ((run_lines 30 3 (program_start next_named_program)).state.curlin = 20 ∧
      (run_lines 30 3 (program_start next_named_program)).state.forsp = 2 ∧
      (get_variable (run_lines 30 3 (program_start next_named_program)).state (cstr "I")).1 =
        .sngval ⟨2, 0⟩) ∧
    ((get_variable (run_lines 30 7 (program_start next_named_program)).state (cstr "I")).1 =
        .sngval ⟨4, 0⟩ ∧
      (get_variable (run_lines 30 7 (program_start next_named_program)).state (cstr "J")).1 =
        .sngval ⟨1, 0⟩) ∧
    (run_program 30 60 0 next_named_program).output = some (cstr "5\n") := by
  refine ⟨⟨?_, ?_, ?_, ?_, ?_, ?_, ?_, ?_⟩, ⟨?_, ?_, ?_⟩, ⟨?_, ?_⟩, ?_⟩ <;> decide!

/-! ## IF in direct mode -/

theorem then_loop_not_running (exec : state_t → Res state_t) (fuel : Nat) (s : state_t)
    (h : s.running = false) : then_loop exec (fuel + 1) s = .ok s := by
  simp [then_loop, h]

theorem else_loop_not_running (exec : state_t → Res state_t) (fuel : Nat) (s : state_t)
    (h : s.running = false) : else_loop exec (fuel + 1) s = .ok s := by
  simp [else_loop, h]

set_option maxRecDepth 1000000 in
/-- C39 (fails): `execute_direct` clears `running` before it calls
`execute_statement`, and the loops of `do_if` that execute the THEN clause and
the ELSE clause run only while `running` is set. So `IF 1 THEN PRINT "A"` and
`IF 0 THEN PRINT "A" ELSE PRINT "B"` typed at the prompt execute no clause and
print nothing, although the same lines print A and B in a running program and
`PRINT "A"` typed at the prompt prints A. -/
theorem direct_if_executes_no_clause :
    (execute_direct 10 init_state (cstr "IF 1 THEN PRINT \"A\"")).output = some [] ∧
    (execute_direct 10 init_state (cstr "IF 0 THEN PRINT \"A\" ELSE PRINT \"B\"")).output =
      some [] ∧
    (execute_direct 10 init_state (cstr "IF 1 THEN PRINT \"A\"")).raised = none ∧
    (execute_direct 10 init_state (cstr "PRINT \"A\"")).output = some (cstr "A\n") ∧
    (run_program 10 10 0 if_print_program).output = some (cstr "A\n") ∧
    (run_program 10 10 0 if_else_print_program).output = some (cstr "B\n") := by
  refine ⟨?_, ?_, ?_, ?_, ?_, ?_⟩ <;> decide!

/-! ## Integer division of the smallest integer by -1 -/

set_option maxRecDepth 1000000 in
/-- C40 (fails): `expr_mult` tests the divisor of `\` and `MOD`
against zero only and then computes `lval / rval` or `lval % rval` in `int`.
`(-2147483647 - 1)` evaluates to the Integer -2147483648, and for
`(-2147483647 - 1) \ -1` and `(-2147483647 - 1) MOD -1` the operands
-2147483648 and -1 reach that division, whose quotient 2147483648 is not an
`int`: C gives the operation no result (a machine that traps on it ends the
interpreter). No value is returned for these two expressions, while
`(-2147483647 - 1) \ 1`, `(-2147483647 - 1) MOD 2` and `7 \ -2` have
values. -/
theorem int_min_division_unguarded :
    (eval_source "(-2147483647 - 1)").value = some (.intval (-2147483648), TYPE_INT) ∧
    (eval_source "-1").value = some (.intval (-1), TYPE_INT) ∧
    (mult_step 92 (.intval (-2147483648)) TYPE_INT (.intval (-1)) TYPE_INT
      init_state).is_unmodelled = true ∧
    (mult_step 37 (.intval (-2147483648)) TYPE_INT (.intval (-1)) TYPE_INT
      init_state).is_unmodelled = true ∧
    (eval_source "(-2147483647 - 1) \\ -1").is_unmodelled = true ∧
    (eval_source "(-2147483647 - 1) MOD -1").is_unmodelled = true ∧
    (eval_source "(-2147483647 - 1) \\ -1").value = none ∧
    (eval_source "(-2147483647 - 1) \\ 1").value = some (.intval (-2147483648), TYPE_INT) ∧
    (eval_source "(-2147483647 - 1) MOD 2").value = some (.intval 0, TYPE_INT) ∧
    (eval_source "7 \\ -2").value = some (.intval (-3), TYPE_INT) := by
  refine ⟨?_, ?_, ?_, ?_, ?_, ?_, ?_, ?_, ?_, ?_⟩ <;> decide!

end GWBasic
